import Mathlib

/-!
# wxSocketBase: buffered socket I/O, pushback buffer and message framing

A shallow embedding of `src/common/socket.cpp`.

* A socket object is a record `wxSocketBase T` holding the member variables of the C++
  class; `T` is the state of everything outside the object that the code talks to through
  `m_socket` (the `GSocket` handle, the clock and the event loop).
* The external calls are the fields of `GSocket T`; the theorems hold for every choice of
  them unless a hypothesis restricts the transport.
* Caller memory is a `List Byte`; a call that fills a buffer returns the bytes it stored.
* Loops that the source does not bound (the polling loop of `_Wait`, the retry loops of
  `_Read` and `_Write`) are unrolled by a `fuel` argument; `none` means that the loop did
  not finish within the fuel (or that a NULL handle would be dereferenced).
* `wxUint32` quantities are natural numbers; the sums that can leave 32 bits
  (`m_unrd_size += size` in `Pushback`, `total += ret` in `Discard`) are reduced `% 2 ^ 32`.
* `PushbackOk` is the shape of the pushback fields in the states the code reaches; `config`
  names the fields that the wait engine and the transport calls leave alone.
* The connection code (`Close`, `DoConnect`, `ConnectSOCKS4`, `AcceptWith`) works on
  `wxSocketClient T`, which extends the record, and on `GSocketConn T`, which extends the
  transport by the calls that set up and tear down a connection. The host stores integers
  in little-endian byte order.
* The datagram calls (`RecvFrom`, `SendTo`) work on `GSocketDgram T`, which adds the address
  query; `OnRequest` returns the event it hands to the handler, if any.
* `logged ops` is the transport `ops` with a journal of its calls and `received ops` the
  transport with a record of the bytes its reads delivered; `Recording` and `Receiving`
  describe a transport that keeps such a record of the bytes it accepted or delivered.
  `loopback`, `peerOps`, `pollScript` and `tap` are concrete transports used for closed
  examples.
* `FrameConsumed`, `Suppressed` and `Deliverable` follow the words of the specification,
  not the code; the theorems compare them with the code.
-/

namespace wxSocket

/-- One `unsigned char` of a buffer. -/
abbrev Byte := Nat

/-- The size of the scratch buffer used to throw bytes away (`#define MAX_DISCARD_SIZE`). -/
def MAX_DISCARD_SIZE : Nat := 10 * 1024

/-- Modelled from the spec: policy bit `NOWAIT` of the flag set (declared in `wx/socket.h`,
which is not part of the sources at hand; the header gives it the value 1). -/
def wxSOCKET_NOWAIT : Nat := 1

/-- Modelled from the spec: policy bit `WAITALL` of the flag set (`wx/socket.h`, value 2). -/
def wxSOCKET_WAITALL : Nat := 2

/-- Modelled from the spec: policy bit `BLOCK` of the flag set (`wx/socket.h`, value 4). -/
def wxSOCKET_BLOCK : Nat := 4

/-- Modelled from the spec: readiness flag input-ready (`wx/gsocket.h`, `1 << GSOCK_INPUT`). -/
def GSOCK_INPUT_FLAG : Nat := 1

/-- Modelled from the spec: readiness flag output-ready (`wx/gsocket.h`, `1 << GSOCK_OUTPUT`). -/
def GSOCK_OUTPUT_FLAG : Nat := 2

/-- Modelled from the spec: readiness flag connection-established (`wx/gsocket.h`). -/
def GSOCK_CONNECTION_FLAG : Nat := 4

/-- Modelled from the spec: readiness flag connection-lost (`wx/gsocket.h`). -/
def GSOCK_LOST_FLAG : Nat := 8

/-- Modelled from the spec: the `Transport` capability (class `GSocket` of `wx/gsocket.h`,
implemented outside the sources at hand) together with the clock and the event loop that
`_Wait` consults. `T` is the state of that outside world.

* `Read t n` is `m_socket->Read(buffer, n)`: `none` for a negative return value, `some d` for
  the return value `d.length` with the bytes `d` stored at `buffer`;
* `Write t d` is `m_socket->Write(buffer, n)` with `d = buffer[0..n)`: `none` for a negative
  return value, `some k` for the return value `k`;
* `Select t flags` is `m_socket->Select(flags)`;
* `UNow t` is `wxDateTime::UNow().GetValue()` in milliseconds;
* `has_event_loop t` is the test on `wxTheApp->GetTraits()` made by `_Wait`;
* `PROCESS_EVENTS t` runs the pending events; its first component tells whether one of them
  called `InterruptWait()` on this socket.

A transport never transfers more bytes than it was asked for (`Read_le`, `Write_le`). -/
structure GSocket (T : Type) where
  Read : T → Nat → Option (List Byte) × T
  Write : T → List Byte → Option Nat × T
  Select : T → Nat → Nat × T
  SetNonBlocking : T → Bool → T
  SetTimeout : T → Int → T
  UNow : T → Int
  has_event_loop : T → Bool
  PROCESS_EVENTS : T → Bool × T
  Read_le : ∀ t n d, (Read t n).1 = some d → d.length ≤ n
  Write_le : ∀ t d k, (Write t d).1 = some k → k ≤ d.length

/-- The values of `wxSocketType` (`m_type`). -/
inductive wxSocketType where
  | wxSOCKET_UNINIT
  | wxSOCKET_CLIENT
  | wxSOCKET_SERVER
  | wxSOCKET_BASE
  | wxSOCKET_DATAGRAM
  deriving DecidableEq, Repr

/-- The private class `wxSocketState`: one saved configuration. -/
structure wxSocketState where
  m_flags : Nat
  m_eventmask : Nat
  m_notify : Bool
  m_clientData : Nat
  deriving DecidableEq, Repr

/-- The member variables of `wxSocketBase`. `m_unread` is the pushback block (`none` for the
NULL pointer), `m_handler` and `m_clientData` are opaque pointers. -/
structure wxSocketBase (T : Type) where
  m_socket : Option T
  m_type : wxSocketType
  m_flags : Nat
  m_connected : Bool
  m_establishing : Bool
  m_reading : Bool
  m_writing : Bool
  m_error : Bool
  m_lcount : Nat
  m_timeout : Int
  m_beingDeleted : Bool
  m_interrupt : Bool
  m_unread : Option (List Byte)
  m_unrd_size : Nat
  m_unrd_cur : Nat
  m_id : Int
  m_handler : Option Nat
  m_clientData : Nat
  m_notify : Bool
  m_eventmask : Nat
  m_states : List wxSocketState
  deriving DecidableEq, Repr

/-- What a transfer primitive hands back: the count it returns, the bytes it stored at the
buffer it was given (in order, from offset 0), and the socket afterwards. -/
structure Xfer (T : Type) where
  total : Nat
  data : List Byte
  sock : wxSocketBase T
  deriving DecidableEq, Repr

/-- The outcome of a public read call: the caller's buffer and the socket afterwards. -/
structure IoOut (T : Type) where
  buffer : List Byte
  sock : wxSocketBase T
  deriving DecidableEq, Repr

/-- The locals of `ReadMsg` / `WriteMsg` at the label `exit`. -/
structure MsgOut (T : Type) where
  error : Bool
  total : Nat
  buffer : List Byte
  sock : wxSocketBase T
  deriving DecidableEq, Repr

/-- The caller's buffer after `data` was stored at its start. -/
def store (buffer data : List Byte) : List Byte :=
  data ++ buffer.drop data.length

/-- The little-endian decoding done by `ReadMsg`:
`(wxUint32)msg[i] | (wxUint32)(msg[i+1] << 8) | (wxUint32)(msg[i+2] << 16) | (wxUint32)(msg[i+3] << 24)`. -/
def decode32 (msg : List Byte) (i : Nat) : Nat :=
  (msg.getD i 0) % 2 ^ 32
    ||| ((msg.getD (i + 1) 0) <<< 8) % 2 ^ 32
    ||| ((msg.getD (i + 2) 0) <<< 16) % 2 ^ 32
    ||| ((msg.getD (i + 3) 0) <<< 24) % 2 ^ 32

/-- The header that `WriteMsg` builds in `msg`: signature `ad de ed fe`, then `nbytes`. -/
def msgHeader (nbytes : Nat) : List Byte :=
  [0xad, 0xde, 0xed, 0xfe,
   (nbytes &&& 0xff) % 256, ((nbytes >>> 8) &&& 0xff) % 256,
   ((nbytes >>> 16) &&& 0xff) % 256, ((nbytes >>> 24) &&& 0xff) % 256]

/-- The trailer that `WriteMsg` builds in `msg`: signature `ed fe ad de`, then zero. -/
def msgTrailer : List Byte :=
  [0xed, 0xfe, 0xad, 0xde, 0, 0, 0, 0]

/-- The frame of payload `P` on the wire: header, payload, trailer. -/
def msgFrame (P : List Byte) : List Byte :=
  msgHeader P.length ++ P ++ msgTrailer

namespace wxSocketBase

variable {T : Type}

/-- The state written by `wxSocketBase::Init()`. `m_interrupt` is not assigned there and
`m_states` is the empty list its constructor makes. -/
def Init (m_interrupt : Bool) : wxSocketBase T :=
  { m_socket := none
    m_type := wxSocketType.wxSOCKET_UNINIT
    m_flags := 0
    m_connected := false
    m_establishing := false
    m_reading := false
    m_writing := false
    m_error := false
    m_lcount := 0
    m_timeout := 600
    m_beingDeleted := false
    m_interrupt := m_interrupt
    m_unread := none
    m_unrd_size := 0
    m_unrd_cur := 0
    m_id := -1
    m_handler := none
    m_clientData := 0
    m_notify := false
    m_eventmask := 0
    m_states := [] }

/-- Method `wxSocketBase::SetFlags`. -/
def SetFlags (s : wxSocketBase T) (flags : Nat) : wxSocketBase T :=
  { s with m_flags := flags }

/-- Method `wxSocketBase::SetTimeout`. -/
def SetTimeout (ops : GSocket T) (s : wxSocketBase T) (seconds : Int) : wxSocketBase T :=
  let s := { s with m_timeout := seconds }
  match s.m_socket with
  | some t => { s with m_socket := some (ops.SetTimeout t (s.m_timeout * 1000)) }
  | none => s

/-- Method `wxSocketBase::Pushback`: a new block holding `buffer[0..size)` followed by the whole old
block; `m_unrd_cur` is left as it is. -/
def Pushback (s : wxSocketBase T) (buffer : List Byte) (size : Nat) : wxSocketBase T :=
  if size = 0 then s
  else
    let block : List Byte :=
      match s.m_unread with
      | none => buffer.take size
      | some old => buffer.take size ++ old.take s.m_unrd_size
    { s with m_unread := some block, m_unrd_size := (s.m_unrd_size + size) % 2 ^ 32 }

/-- Method `wxSocketBase::GetPushback`: up to `size` bytes from the cursor on; unless `peek`, the
cursor advances and the block is freed once the cursor reaches its end. -/
def GetPushback (s : wxSocketBase T) (size : Nat) (peek : Bool) : Xfer T :=
  if s.m_unrd_size = 0 then ⟨0, [], s⟩
  else
    let size := if size > s.m_unrd_size - s.m_unrd_cur then s.m_unrd_size - s.m_unrd_cur else size
    let data := ((s.m_unread.getD []).drop s.m_unrd_cur).take size
    if peek then ⟨size, data, s⟩
    else
      let s1 := { s with m_unrd_cur := s.m_unrd_cur + size }
      if s1.m_unrd_size = s1.m_unrd_cur then
        ⟨size, data, { s1 with m_unread := none, m_unrd_size := 0, m_unrd_cur := 0 }⟩
      else ⟨size, data, s1⟩

/-- The polling loop `while (!done)` of `_Wait`, on a socket whose handle is in state `t`.
Returns `valid_result`, the socket and the handle state. -/
def _Wait_loop (ops : GSocket T) (timeout time_limit : Int) (flags : Nat) (has_event_loop : Bool) :
    Nat → wxSocketBase T → T → Option (Bool × wxSocketBase T × T)
  | 0, _, _ => none
  | fuel + 1, s, t =>
    let result := (ops.Select t (flags ||| GSOCK_LOST_FLAG)).1
    let t := (ops.Select t (flags ||| GSOCK_LOST_FLAG)).2
    if result &&& GSOCK_CONNECTION_FLAG ≠ 0 then
      some (true, { s with m_connected := true, m_establishing := false }, t)
    else if result &&& GSOCK_INPUT_FLAG ≠ 0 ∨ result &&& GSOCK_OUTPUT_FLAG ≠ 0 then
      some (true, s, t)
    else if result &&& GSOCK_LOST_FLAG ≠ 0 then
      some (decide (flags &&& GSOCK_LOST_FLAG ≠ 0),
        { s with m_connected := false, m_establishing := false }, t)
    else
      let time_left := time_limit - ops.UNow t
      if timeout = 0 ∨ time_left ≤ 0 ∨ s.m_interrupt = true then some (false, s, t)
      else if has_event_loop then
        _Wait_loop ops timeout time_limit flags has_event_loop fuel
          { s with m_interrupt := s.m_interrupt || (ops.PROCESS_EVENTS t).1 } (ops.PROCESS_EVENTS t).2
      else
        _Wait_loop ops timeout time_limit flags has_event_loop fuel s
          (if time_left < 50 then ops.SetTimeout t time_left else t)

/-- Method `wxSocketBase::_Wait`. -/
def _Wait (ops : GSocket T) (fuel : Nat) (s : wxSocketBase T) (seconds milliseconds : Int)
    (flags : Nat) : Option (Bool × wxSocketBase T) :=
  let s := { s with m_interrupt := false }
  match s.m_socket with
  | none => some (false, s)
  | some t =>
    let timeout : Int := if seconds ≠ -1 then seconds * 1000 + milliseconds else s.m_timeout * 1000
    let has_event_loop := ops.has_event_loop t
    let time_limit := ops.UNow t + timeout
    let t :=
      if has_event_loop then t
      else if timeout > 50 then ops.SetTimeout t 50 else ops.SetTimeout t timeout
    match _Wait_loop ops timeout time_limit flags has_event_loop fuel s t with
    | none => none
    | some (valid_result, s, t) =>
      let t := if has_event_loop then t else ops.SetTimeout t (s.m_timeout * 1000)
      some (valid_result, { s with m_socket := some t })

/-- Method `wxSocketBase::WaitForRead`. -/
def WaitForRead (ops : GSocket T) (fuel : Nat) (s : wxSocketBase T) (seconds milliseconds : Int) :
    Option (Bool × wxSocketBase T) :=
  if s.m_unread.isSome then some (true, s)
  else _Wait ops fuel s seconds milliseconds (GSOCK_INPUT_FLAG ||| GSOCK_LOST_FLAG)

/-- Method `wxSocketBase::WaitForWrite`. -/
def WaitForWrite (ops : GSocket T) (fuel : Nat) (s : wxSocketBase T) (seconds milliseconds : Int) :
    Option (Bool × wxSocketBase T) :=
  _Wait ops fuel s seconds milliseconds GSOCK_OUTPUT_FLAG

/-- The loop `while (more)` of `_Read`; `data` are the bytes stored so far, so the next
transport read stores at `buffer + data.length`. -/
def _Read_loop (ops : GSocket T) : Nat → wxSocketBase T → Nat → Nat → List Byte → Option (Xfer T)
  | 0, _, _, _, _ => none
  | fuel + 1, s, nbytes, total, data =>
    let waited : Option (Bool × wxSocketBase T) :=
      if s.m_flags &&& wxSOCKET_BLOCK = 0 then WaitForRead ops fuel s (-1) 0 else some (true, s)
    match waited with
    | none => none
    | some (false, s) => some ⟨total, data, s⟩
    | some (true, s) =>
      match s.m_socket with
      | none => none
      | some t =>
        let ret := (ops.Read t nbytes).1
        let s := { s with m_socket := some (ops.Read t nbytes).2 }
        match ret with
        | none => some ⟨total, data, s⟩
        | some d =>
          if d.length > 0 then
            if nbytes - d.length > 0 ∧ s.m_flags &&& wxSOCKET_WAITALL ≠ 0 then
              _Read_loop ops fuel s (nbytes - d.length) (total + d.length) (data ++ d)
            else some ⟨total + d.length, data ++ d, s⟩
          else some ⟨total, data, s⟩

/-- Method `wxSocketBase::_Read`. -/
def _Read (ops : GSocket T) (fuel : Nat) (s : wxSocketBase T) (nbytes : Nat) : Option (Xfer T) :=
  let pb := s.GetPushback nbytes false
  let total := pb.total
  let nbytes := nbytes - total
  let s := pb.sock
  match s.m_socket with
  | none => some ⟨total, pb.data, s⟩
  | some t =>
    if nbytes = 0 then some ⟨total, pb.data, s⟩
    else if s.m_flags &&& wxSOCKET_NOWAIT ≠ 0 then
      let t := ops.SetNonBlocking t true
      let ret := (ops.Read t nbytes).1
      let t := ops.SetNonBlocking (ops.Read t nbytes).2 false
      let s := { s with m_socket := some t }
      match ret with
      | none => some ⟨total, pb.data, s⟩
      | some d =>
        if d.length > 0 then some ⟨total + d.length, pb.data ++ d, s⟩
        else some ⟨total, pb.data, s⟩
    else _Read_loop ops fuel s nbytes total pb.data

/-- The assignment of `m_error` that ends `Read`, `Peek` and `Write`. -/
def setError (s : wxSocketBase T) (nbytes : Nat) : wxSocketBase T :=
  if s.m_flags &&& wxSOCKET_WAITALL ≠ 0 then { s with m_error := decide (s.m_lcount ≠ nbytes) }
  else { s with m_error := decide (s.m_lcount = 0) }

/-- Method `wxSocketBase::Read`. -/
def Read (ops : GSocket T) (fuel : Nat) (s : wxSocketBase T) (buffer : List Byte) (nbytes : Nat) :
    Option (IoOut T) :=
  let s := { s with m_reading := true }
  match _Read ops fuel s nbytes with
  | none => none
  | some r =>
    let s := { r.sock with m_lcount := r.total }
    let s := setError s nbytes
    some ⟨store buffer r.data, { s with m_reading := false }⟩

/-- Method `wxSocketBase::Peek`. -/
def Peek (ops : GSocket T) (fuel : Nat) (s : wxSocketBase T) (buffer : List Byte) (nbytes : Nat) :
    Option (IoOut T) :=
  let s := { s with m_reading := true }
  match _Read ops fuel s nbytes with
  | none => none
  | some r =>
    let buffer := store buffer r.data
    let s := { r.sock with m_lcount := r.total }
    let s := s.Pushback buffer s.m_lcount
    let s := setError s nbytes
    some ⟨buffer, { s with m_reading := false }⟩

/-- The loop `while (more)` of `_Write`; `buffer` is the part of the caller's buffer from the
current pointer on. -/
def _Write_loop (ops : GSocket T) : Nat → wxSocketBase T → List Byte → Nat → Nat → Option (Xfer T)
  | 0, _, _, _, _ => none
  | fuel + 1, s, buffer, nbytes, total =>
    let waited : Option (Bool × wxSocketBase T) :=
      if s.m_flags &&& wxSOCKET_BLOCK = 0 then WaitForWrite ops fuel s (-1) 0 else some (true, s)
    match waited with
    | none => none
    | some (false, s) => some ⟨total, [], s⟩
    | some (true, s) =>
      match s.m_socket with
      | none => none
      | some t =>
        let ret := (ops.Write t (buffer.take nbytes)).1
        let s := { s with m_socket := some (ops.Write t (buffer.take nbytes)).2 }
        match ret with
        | none => some ⟨total, [], s⟩
        | some k =>
          if k > 0 then
            if nbytes - k > 0 ∧ s.m_flags &&& wxSOCKET_WAITALL ≠ 0 then
              _Write_loop ops fuel s (buffer.drop k) (nbytes - k) (total + k)
            else some ⟨total + k, [], s⟩
          else some ⟨total, [], s⟩

/-- Method `wxSocketBase::_Write`; `buffer = none` is the NULL pointer. Nothing is stored, so the
`data` of the result is empty. -/
def _Write (ops : GSocket T) (fuel : Nat) (s : wxSocketBase T) (buffer : Option (List Byte))
    (nbytes : Nat) : Option (Xfer T) :=
  match s.m_socket, buffer with
  | none, _ => some ⟨0, [], s⟩
  | some _, none => some ⟨0, [], s⟩
  | some t, some buffer =>
    if nbytes = 0 then some ⟨0, [], s⟩
    else if s.m_flags &&& wxSOCKET_NOWAIT ≠ 0 then
      let t := ops.SetNonBlocking t true
      let ret := (ops.Write t (buffer.take nbytes)).1
      let t := ops.SetNonBlocking (ops.Write t (buffer.take nbytes)).2 false
      let s := { s with m_socket := some t }
      match ret with
      | none => some ⟨0, [], s⟩
      | some k => if k > 0 then some ⟨k, [], s⟩ else some ⟨0, [], s⟩
    else _Write_loop ops fuel s buffer nbytes 0

/-- Method `wxSocketBase::Write`. -/
def Write (ops : GSocket T) (fuel : Nat) (s : wxSocketBase T) (buffer : Option (List Byte))
    (nbytes : Nat) : Option (wxSocketBase T) :=
  let s := { s with m_writing := true }
  match _Write ops fuel s buffer nbytes with
  | none => none
  | some r =>
    let s := { r.sock with m_lcount := r.total }
    let s := setError s nbytes
    some { s with m_writing := false }

/-- Method `wxSocketBase::Unread`. -/
def Unread (s : wxSocketBase T) (buffer : List Byte) (nbytes : Nat) : wxSocketBase T :=
  let s := if nbytes ≠ 0 then s.Pushback buffer nbytes else s
  { s with m_error := false, m_lcount := nbytes }

/-- The `do ... while ((discard_len > 0) && len2)` loop of `ReadMsg`; returns `len2` and the
socket when the loop is left. -/
def ReadMsg_discard (ops : GSocket T) : Nat → wxSocketBase T → Nat → Option (Nat × wxSocketBase T)
  | 0, _, _ => none
  | fuel + 1, s, len2 =>
    let discard_len := if len2 > MAX_DISCARD_SIZE then MAX_DISCARD_SIZE else len2
    match _Read ops fuel s discard_len with
    | none => none
    | some r =>
      if r.total > 0 ∧ len2 - r.total ≠ 0 then ReadMsg_discard ops fuel r.sock (len2 - r.total)
      else some (len2 - r.total, r.sock)

/-- The part of `ReadMsg` between the flag override and the label `exit`: the values of
`error` and `total`, the caller's buffer and the socket on reaching `exit`. The struct `msg`
is inspected only after a `_Read` that returned `sizeof(msg)`; it then holds the bytes `data`
of that read, so the two signatures and the length are decoded from `data`. -/
def ReadMsg_body (ops : GSocket T) (fuel : Nat) (s : wxSocketBase T) (buffer : List Byte)
    (nbytes : Nat) : Option (MsgOut T) :=
  match _Read ops fuel s 8 with
  | none => none
  | some r1 =>
    if r1.total ≠ 8 then some ⟨true, 0, buffer, r1.sock⟩
    else if decode32 r1.data 0 ≠ 0xfeeddead then some ⟨true, 0, buffer, r1.sock⟩
    else
      let len0 := decode32 r1.data 4
      let len2 := if len0 > nbytes then len0 - nbytes else 0
      let len := if len0 > nbytes then nbytes else len0
      let payload : Option (Xfer T) :=
        if len ≠ 0 then _Read ops fuel r1.sock len else some ⟨0, [], r1.sock⟩
      match payload with
      | none => none
      | some r2 =>
        let buffer := store buffer r2.data
        if r2.total ≠ len then some ⟨true, r2.total, buffer, r2.sock⟩
        else
          let discarded : Option (Nat × wxSocketBase T) :=
            if len2 ≠ 0 then ReadMsg_discard ops fuel r2.sock len2 else some (0, r2.sock)
          match discarded with
          | none => none
          | some (len2, s3) =>
            if len2 ≠ 0 then some ⟨true, r2.total, buffer, s3⟩
            else
              match _Read ops fuel s3 8 with
              | none => none
              | some r4 =>
                if r4.total ≠ 8 then some ⟨true, r2.total, buffer, r4.sock⟩
                else if decode32 r4.data 0 ≠ 0xdeadfeed then some ⟨true, r2.total, buffer, r4.sock⟩
                else some ⟨false, r2.total, buffer, r4.sock⟩

/-- Method `wxSocketBase::ReadMsg`. -/
def ReadMsg (ops : GSocket T) (fuel : Nat) (s : wxSocketBase T) (buffer : List Byte)
    (nbytes : Nat) : Option (IoOut T) :=
  let s := { s with m_reading := true }
  let old_flags := s.m_flags
  let s := s.SetFlags ((s.m_flags &&& wxSOCKET_BLOCK) ||| wxSOCKET_WAITALL)
  match ReadMsg_body ops fuel s buffer nbytes with
  | none => none
  | some b =>
    let s := { b.sock with m_error := b.error, m_lcount := b.total, m_reading := false }
    some ⟨b.buffer, s.SetFlags old_flags⟩

/-- The part of `WriteMsg` between the flag override and the label `exit`. -/
def WriteMsg_body (ops : GSocket T) (fuel : Nat) (s : wxSocketBase T) (buffer : Option (List Byte))
    (nbytes : Nat) : Option (MsgOut T) :=
  match _Write ops fuel s (some (msgHeader nbytes)) 8 with
  | none => none
  | some r1 =>
    if r1.total < 8 then some ⟨true, 0, [], r1.sock⟩
    else
      match _Write ops fuel r1.sock buffer nbytes with
      | none => none
      | some r2 =>
        if r2.total < nbytes then some ⟨true, r2.total, [], r2.sock⟩
        else
          match _Write ops fuel r2.sock (some msgTrailer) 8 with
          | none => none
          | some r3 =>
            if r3.total < 8 then some ⟨true, r2.total, [], r3.sock⟩
            else some ⟨false, r2.total, [], r3.sock⟩

/-- Method `wxSocketBase::WriteMsg`. -/
def WriteMsg (ops : GSocket T) (fuel : Nat) (s : wxSocketBase T) (buffer : Option (List Byte))
    (nbytes : Nat) : Option (wxSocketBase T) :=
  let s := { s with m_writing := true }
  let s := s.SetFlags ((s.m_flags &&& wxSOCKET_BLOCK) ||| wxSOCKET_WAITALL)
  match WriteMsg_body ops fuel s buffer nbytes with
  | none => none
  | some b => some { b.sock with m_error := b.error, m_lcount := b.total, m_writing := false }

/-- The `do ... while (ret == MAX_DISCARD_SIZE)` loop of `Discard`. -/
def Discard_loop (ops : GSocket T) : Nat → wxSocketBase T → Nat → Option (Nat × wxSocketBase T)
  | 0, _, _ => none
  | fuel + 1, s, total =>
    match _Read ops fuel s MAX_DISCARD_SIZE with
    | none => none
    | some r =>
      if r.total = MAX_DISCARD_SIZE then Discard_loop ops fuel r.sock ((total + r.total) % 2 ^ 32)
      else some ((total + r.total) % 2 ^ 32, r.sock)

/-- Method `wxSocketBase::Discard`. -/
def Discard (ops : GSocket T) (fuel : Nat) (s : wxSocketBase T) : Option (wxSocketBase T) :=
  let s := { s with m_reading := true }
  let s := s.SetFlags wxSOCKET_NOWAIT
  match Discard_loop ops fuel s 0 with
  | none => none
  | some (total, s) => some { s with m_lcount := total, m_error := false, m_reading := false }

/-- The bytes of the pushback block that have not been handed out yet. -/
def unconsumed (s : wxSocketBase T) : List Byte :=
  (s.m_unread.getD []).drop s.m_unrd_cur

/-- The shape of the pushback fields in every state the code can reach: no block, or a
block of `m_unrd_size` bytes (fewer than `2 ^ 32`) with the cursor inside it. -/
def PushbackOk (s : wxSocketBase T) : Prop :=
  (s.m_unread = none ∧ s.m_unrd_size = 0 ∧ s.m_unrd_cur = 0) ∨
  (∃ block, s.m_unread = some block ∧ block.length = s.m_unrd_size ∧
    s.m_unrd_cur < s.m_unrd_size ∧ s.m_unrd_size < 2 ^ 32)

/-- The first three steps of a successful `ReadMsg`, in the words of the specification, on
the socket `s` that carries the overridden flags: the 8-byte header is read completely and
carries the magic `0xFEEDDEAD`; with `L` the length it declares, `min L nbytes` payload
bytes are read completely (`r2` is the outcome of that read, or the zero outcome when there
is nothing to read); the `L - nbytes` overflow bytes, if any, are all discarded. `s3` is the
socket after these steps. -/
def FrameDelivered (ops : GSocket T) (fuel : Nat) (s : wxSocketBase T) (nbytes : Nat)
    (r2 : Xfer T) (s3 : wxSocketBase T) : Prop :=
  ∃ r1, _Read ops fuel s 8 = some r1 ∧ r1.total = 8 ∧ decode32 r1.data 0 = 0xfeeddead ∧
    (if min (decode32 r1.data 4) nbytes = 0 then r2 = ⟨0, [], r1.sock⟩
      else _Read ops fuel r1.sock (min (decode32 r1.data 4) nbytes) = some r2) ∧
    r2.total = min (decode32 r1.data 4) nbytes ∧
    (if decode32 r1.data 4 ≤ nbytes then s3 = r2.sock
      else ReadMsg_discard ops fuel r2.sock (decode32 r1.data 4 - nbytes) = some (0, s3))

/-- The last step of a successful `ReadMsg`, in the words of the specification: the 8-byte
trailer is read completely and carries the magic `0xDEADFEED`. -/
def TrailerAccepted (ops : GSocket T) (fuel : Nat) (s3 : wxSocketBase T) : Prop :=
  ∃ r4, _Read ops fuel s3 8 = some r4 ∧ r4.total = 8 ∧ decode32 r4.data 0 = 0xdeadfeed

/-- The socket with the four fields blanked that the wait engine and the transport calls
write (`m_socket`, `m_connected`, `m_establishing`, `m_interrupt`): two sockets with the same
`config` agree on every other member variable. -/
def config (s : wxSocketBase T) : wxSocketBase T :=
  { s with m_socket := none, m_connected := false, m_establishing := false, m_interrupt := false }

end wxSocketBase

/-- A transport that delivers every written byte in order and without loss. `wire t` are
the bytes in flight: a write of a non-empty block accepts at least one byte and appends
what it accepts, a read while bytes are in flight returns at least one byte from the
front, the poll reports output-ready whenever asked and input-ready whenever asked while
bytes are in flight, and no other call touches the bytes in flight. -/
structure Lossless {T : Type} (ops : GSocket T) (wire : T → List Byte) : Prop where
  read : ∀ t n, 0 < n → wire t ≠ [] →
    ∃ d, (ops.Read t n).1 = some d ∧ d ≠ [] ∧ wire t = d ++ wire (ops.Read t n).2
  write : ∀ t d, d ≠ [] →
    ∃ k, (ops.Write t d).1 = some k ∧ 0 < k ∧ wire (ops.Write t d).2 = wire t ++ d.take k
  select_input : ∀ t f, f &&& GSOCK_INPUT_FLAG ≠ 0 → wire t ≠ [] →
    (ops.Select t f).1 &&& GSOCK_INPUT_FLAG ≠ 0
  select_output : ∀ t f, f &&& GSOCK_OUTPUT_FLAG ≠ 0 →
    (ops.Select t f).1 &&& GSOCK_OUTPUT_FLAG ≠ 0
  select_wire : ∀ t f, wire (ops.Select t f).2 = wire t
  setNonBlocking_wire : ∀ t b, wire (ops.SetNonBlocking t b) = wire t
  setTimeout_wire : ∀ t ms, wire (ops.SetTimeout t ms) = wire t
  processEvents_wire : ∀ t, wire (ops.PROCESS_EVENTS t).2 = wire t

/-- A transport that keeps a record `sent t` of the bytes it has accepted: a write appends
the bytes it accepted and no other call changes the record. -/
structure Recording {T : Type} (ops : GSocket T) (sent : T → List Byte) : Prop where
  write_some : ∀ t d k, (ops.Write t d).1 = some k → sent (ops.Write t d).2 = sent t ++ d.take k
  write_none : ∀ t d, (ops.Write t d).1 = none → sent (ops.Write t d).2 = sent t
  read_sent : ∀ t n, sent (ops.Read t n).2 = sent t
  select_sent : ∀ t f, sent (ops.Select t f).2 = sent t
  setNonBlocking_sent : ∀ t b, sent (ops.SetNonBlocking t b) = sent t
  setTimeout_sent : ∀ t ms, sent (ops.SetTimeout t ms) = sent t
  processEvents_sent : ∀ t, sent (ops.PROCESS_EVENTS t).2 = sent t

/-- A loopback pair used for concrete runs: `wire` holds the bytes in flight, a single call
moves at most `mtu + 1` bytes, `log` records every byte a write accepted, the clock `now`
advances by the poll timeout `timeout` (milliseconds) whenever a poll finds nothing. -/
structure Loopback where
  wire : List Byte
  mtu : Nat
  log : List Byte
  now : Int
  timeout : Int
  nonblocking : Bool
  deriving DecidableEq, Repr

/-- The transport operations of the loopback pair; there is no event loop. -/
def loopback : GSocket Loopback where
  Read t n :=
    if t.wire = [] then (none, t)
    else (some (t.wire.take (min n (t.mtu + 1))), { t with wire := t.wire.drop (min n (t.mtu + 1)) })
  Write t d :=
    (some (min d.length (t.mtu + 1)),
      { t with wire := t.wire ++ d.take (min d.length (t.mtu + 1)),
               log := t.log ++ d.take (min d.length (t.mtu + 1)) })
  Select t f :=
    let ready := ((if t.wire = [] then 0 else GSOCK_INPUT_FLAG) ||| GSOCK_OUTPUT_FLAG) &&& f
    (ready, if ready = 0 then { t with now := t.now + t.timeout } else t)
  SetNonBlocking t b := { t with nonblocking := b }
  SetTimeout t ms := { t with timeout := ms }
  UNow t := t.now
  has_event_loop _ := false
  PROCESS_EVENTS t := (false, t)
  Read_le := by
    intro t n d h
    by_cases hw : t.wire = []
    · simp [hw] at h
    · simp only [hw, if_false, Option.some.injEq] at h
      subst h
      simp only [List.length_take]
      omega
  Write_le := by
    intro t d k h
    simp only [Option.some.injEq] at h
    omega

/-- A loopback pair with `wire` in flight that moves at most `mtu + 1` bytes per call. -/
def loopbackWith (wire : List Byte) (mtu : Nat) : Loopback :=
  { wire := wire, mtu := mtu, log := [], now := 0, timeout := 0, nonblocking := false }

/-- A freshly initialised socket with handle state `t` and flag set `flags`. -/
def socketOn (t : Loopback) (flags : Nat) : wxSocketBase Loopback :=
  { (wxSocketBase.Init false : wxSocketBase Loopback) with m_socket := some t, m_flags := flags }


/-- One call on the transport or on the event loop, as `logged` records it. -/
inductive Call where
  | Read (n : Nat)
  | Write (d : List Byte)
  | Select (flags : Nat)
  | SetNonBlocking (b : Bool)
  | SetTimeout (ms : Int)
  | PROCESS_EVENTS
  deriving DecidableEq, Repr

/-- The transport `ops` with a journal: it behaves as `ops` does and appends every call that
acts on the handle or runs the event loop to the second component of its state. -/
def logged {T : Type} (ops : GSocket T) : GSocket (T × List Call) where
  Read t n := ((ops.Read t.1 n).1, ((ops.Read t.1 n).2, t.2 ++ [Call.Read n]))
  Write t d := ((ops.Write t.1 d).1, ((ops.Write t.1 d).2, t.2 ++ [Call.Write d]))
  Select t f := ((ops.Select t.1 f).1, ((ops.Select t.1 f).2, t.2 ++ [Call.Select f]))
  SetNonBlocking t b := (ops.SetNonBlocking t.1 b, t.2 ++ [Call.SetNonBlocking b])
  SetTimeout t ms := (ops.SetTimeout t.1 ms, t.2 ++ [Call.SetTimeout ms])
  UNow t := ops.UNow t.1
  has_event_loop t := ops.has_event_loop t.1
  PROCESS_EVENTS t :=
    ((ops.PROCESS_EVENTS t.1).1, ((ops.PROCESS_EVENTS t.1).2, t.2 ++ [Call.PROCESS_EVENTS]))
  Read_le := fun t n d h => ops.Read_le t.1 n d h
  Write_le := fun t d k h => ops.Write_le t.1 d k h

/-- A transport on which the bytes `pending t` have arrived and no more arrive: a read made
in non-blocking mode hands out `min(requested, available)` bytes from the front (a negative
return value counts as no bytes) and removes them; switching the mode moves no byte. -/
structure Draining {T : Type} (ops : GSocket T) (pending : T → List Byte) : Prop where
  read : ∀ t n, ((ops.Read (ops.SetNonBlocking t true) n).1).getD [] = (pending t).take n
  read_pending : ∀ t n, pending (ops.Read (ops.SetNonBlocking t true) n).2 = (pending t).drop n
  setNonBlocking_pending : ∀ t b, pending (ops.SetNonBlocking t b) = pending t

/-- Modelled from the spec: the result codes of the transport (`GSocketError` of
`wx/gsocket.h`, which is not part of the sources at hand): success, would-block, and the
codes of a hard failure. -/
inductive GSocketError where
  | GSOCK_NOERROR
  | GSOCK_INVOP
  | GSOCK_IOERR
  | GSOCK_INVADDR
  | GSOCK_INVSOCK
  | GSOCK_NOHOST
  | GSOCK_INVPORT
  | GSOCK_WOULDBLOCK
  | GSOCK_TIMEDOUT
  | GSOCK_MEMERR
  | GSOCK_OPTERR
  deriving DecidableEq, Repr

/-- Modelled from the spec: the argument of the transport's connect call (`GSocketStream` of
`wx/gsocket.h`). -/
inductive GSocketStream where
  | GSOCK_STREAMED
  | GSOCK_UNSTREAMED
  deriving DecidableEq, Repr

/-- Modelled from the spec: policy bit `REUSEADDR` of the flag set (`wx/socket.h`, value 8). -/
def wxSOCKET_REUSEADDR : Nat := 8

/-- Modelled from the spec: what a `GAddress*` points to (`wx/gsocket.h`): whether its
`m_addr` pointer is set, and the host address and port that `GAddress_INET_GetHostAddress`
and `GAddress_INET_GetPort` report. -/
structure GAddress where
  m_addr : Bool
  host : Nat
  port : Nat
  deriving DecidableEq, Repr

/-- Modelled from the spec: an address object as the socket code uses it (`wxSockAddress`
and `wxIPV4address` of `wx/sckaddr.h`, not part of the sources at hand). `m_address` is what
`GetAddress()` returns (`none` for NULL), `isIPV4` tells whether
`dynamic_cast<wxIPV4address*>` succeeds, `Service` is the port that `Service()` returns,
`CheckStringIP` is the value that `wxIPV4address::CheckStringIP(IPAddress(), ip)` leaves in
`ip` when `ip` was `-1` before (it stays `-1`, that is `ULONG_MAX`, when the host is not
resolved, and also when the call is compiled out together with `wxASSERT`), `OrigHostname`
is the C string of `OrigHostname()`. -/
structure wxSockAddress where
  m_address : Option GAddress
  isIPV4 : Bool
  Service : Nat
  CheckStringIP : Nat
  OrigHostname : List Byte
  deriving DecidableEq, Repr

/-- The value `(long unsigned int)-1` (64-bit `long`). -/
def ULONG_MAX : Nat := 2 ^ 64 - 1

/-- Modelled from the spec: the rest of the `Transport` capability (class `GSocket` of
`wx/gsocket.h`), used to set up and tear down a connection.

* `Shutdown t` is `m_socket->Shutdown()`;
* `SetCallback t flags` and `UnsetCallback t flags` install and remove the notification
  callback for the readiness flags `flags`;
* `SetReusable t`, `SetLocal t la` are the calls of the same name (their result is ignored);
* `SetPeer t a` is `m_socket->SetPeer(a)` with its result code;
* `Connect t stream` is `m_socket->Connect(stream)` with its result code;
* `WaitConnection t` is `m_socket->WaitConnection()`: the state of the new handle (`none`
  for NULL) and the state of the listening handle afterwards. -/
structure GSocketConn (T : Type) extends GSocket T where
  Shutdown : T → T
  SetCallback : T → Nat → T
  UnsetCallback : T → Nat → T
  SetReusable : T → T
  SetLocal : T → GAddress → T
  SetPeer : T → Option GAddress → GSocketError × T
  Connect : T → GSocketStream → GSocketError × T
  WaitConnection : T → Option T × T

/-- Modelled from the spec: the values of `wxSocketProxyType` (`wx/socket.h`);
`wxPROXY_INVALID` stands for every value that `DoConnect` sends to its `default` case. -/
inductive wxSocketProxyType where
  | wxPROXY_NONE
  | wxPROXY_SOCKS5
  | wxPROXY_SOCKS4
  | wxPROXY_SOCKS4a
  | wxPROXY_HTTP
  | wxPROXY_INVALID
  deriving DecidableEq, Repr

/-- The member variables of `wxSocketClient`: those of `wxSocketBase`, the local address
kept by `SetLocal` and the proxy settings kept by `SetProxy`. The two strings are held in
the multibyte form that `wxConvLocal.cWX2MB` produces. -/
structure wxSocketClient (T : Type) extends wxSocketBase T where
  m_localAddress : wxSockAddress
  m_proxy_type : wxSocketProxyType
  m_proxy_addr : wxSockAddress
  m_proxy_login : List Byte
  m_proxy_passwd : List Byte
  deriving DecidableEq, Repr

/-- The buffer after `bytes` were stored at `buffer + offset`. -/
def poke (buffer : List Byte) (offset : Nat) (bytes : List Byte) : List Byte :=
  buffer.take offset ++ bytes ++ buffer.drop (offset + bytes.length)

/-- Function `PokeUInt16`: the 16-bit `value` stored at `buffer + p` in the byte order of the
host, which is little-endian here. -/
def PokeUInt16 (buffer : List Byte) (p : Nat) (value : Nat) : List Byte :=
  poke buffer p [value % 2 ^ 16 % 256, value % 2 ^ 16 / 256]

/-- Modelled from the spec: the macro `wxUINT16_SWAP_ON_LE` (`wx/defs.h`) on a
little-endian host: the two bytes of a 16-bit value exchanged. -/
def wxUINT16_SWAP_ON_LE (value : Nat) : Nat :=
  (value % 256) * 256 + value / 256 % 256

/-- Function `PokeUInt16_BE`. -/
def PokeUInt16_BE (buffer : List Byte) (p : Nat) (value : Nat) : List Byte :=
  PokeUInt16 buffer p (wxUINT16_SWAP_ON_LE (value % 2 ^ 16))

/-- Function `PokeUInt32`: the 32-bit `value` stored at `buffer + p` in the byte order of the
host, which is little-endian here. -/
def PokeUInt32 (buffer : List Byte) (p : Nat) (value : Nat) : List Byte :=
  poke buffer p [value % 2 ^ 32 % 256, value % 2 ^ 32 / 256 % 256,
    value % 2 ^ 32 / 65536 % 256, value % 2 ^ 32 / 16777216]

/-- The C library function `strlen` on a string held as the list of its bytes: the number
of bytes before the first NUL (the list is followed by a NUL). -/
def strlen (c : List Byte) : Nat :=
  (c.takeWhile (fun b => decide (b ≠ 0))).length

namespace wxSocketBase

variable {T : Type}

/-- The state invariant of the specification: `connected` and `establishing` are not both
true. -/
def Exclusive (s : wxSocketBase T) : Bool :=
  !(s.m_connected && s.m_establishing)

/-- Modelled from the spec: the inline method `wxSocketBase::InterruptWait` of
`wx/socket.h`, which raises the interrupt flag. -/
def InterruptWait (s : wxSocketBase T) : wxSocketBase T :=
  { s with m_interrupt := true }

/-- Method `wxSocketBase::Close`. -/
def Close (ops : GSocketConn T) (s : wxSocketBase T) : Bool × wxSocketBase T :=
  let s := s.InterruptWait
  let s :=
    match s.m_socket with
    | some t =>
      let t := ops.UnsetCallback t
        (GSOCK_INPUT_FLAG ||| GSOCK_OUTPUT_FLAG ||| GSOCK_LOST_FLAG ||| GSOCK_CONNECTION_FLAG)
      { s with m_socket := some (ops.Shutdown t) }
    | none => s
  (true, { s with m_connected := false, m_establishing := false })

end wxSocketBase

namespace wxSocketServer

variable {T : Type}

/-- Method `wxSocketServer::AcceptWith` of the listening socket `server` with the target
socket `sock` (a different object): the return value, the listening socket and the target
socket afterwards. -/
def AcceptWith (ops : GSocketConn T) (server sock : wxSocketBase T) (wait : Bool) :
    Bool × wxSocketBase T × wxSocketBase T :=
  match server.m_socket with
  | none => (false, server, sock)
  | some t =>
    let t := if wait = false then ops.SetNonBlocking t true else t
    let child_socket := (ops.WaitConnection t).1
    let t := (ops.WaitConnection t).2
    let t := if wait = false then ops.SetNonBlocking t false else t
    let server := { server with m_socket := some t }
    match child_socket with
    | none => (false, server, sock)
    | some child =>
      let sock := { sock with m_type := wxSocketType.wxSOCKET_BASE, m_connected := true }
      let child := ops.SetTimeout child (sock.m_timeout * 1000)
      let child := ops.SetCallback child
        (GSOCK_INPUT_FLAG ||| GSOCK_OUTPUT_FLAG ||| GSOCK_LOST_FLAG ||| GSOCK_CONNECTION_FLAG)
      (true, server, { sock with m_socket := some child })

end wxSocketServer

namespace wxDatagramSocket

variable {T : Type}

/-- Method `wxDatagramSocket::Connect`: the return value and the socket afterwards. -/
def Connect (ops : GSocketConn T) (s : wxSocketBase T) (addr : wxSockAddress) :
    Bool × wxSocketBase T :=
  match s.m_socket with
  | none => (false, s)
  | some t =>
    let t := (ops.SetPeer t addr.m_address).2
    let err := (ops.Connect t GSocketStream.GSOCK_UNSTREAMED).1
    let t := (ops.Connect t GSocketStream.GSOCK_UNSTREAMED).2
    let s := { s with m_socket := some t }
    if err ≠ GSocketError.GSOCK_NOERROR then (false, s)
    else (true, { s with m_connected := true })

end wxDatagramSocket

namespace wxSocketClient

variable {T : Type}

/-- The part of `ConnectSOCKS4` that fills `request_buffer` (512 bytes of a stack frame, not
initialised): the buffer and `total_len` when the request is complete. `error true` is the
exit taken when the host is not resolved and the 4a extension is off (the transport is shut
down there), `error false` the exit of a failed length check. -/
def ConnectSOCKS4_request (request_buffer : List Byte) (destination : wxSockAddress)
    (m_proxy_login : List Byte) (socks4a : Bool) : Except Bool (List Byte × Nat) :=
  let request_buffer := poke request_buffer 0 [0x04]
  let request_buffer := poke request_buffer 1 [0x01]
  let request_buffer := PokeUInt16_BE request_buffer 2 destination.Service
  let ip := destination.CheckStringIP
  if ip = ULONG_MAX ∧ socks4a = false then Except.error true
  else
    let request_buffer :=
      if ip = ULONG_MAX then PokeUInt32 request_buffer 4 16777216
      else PokeUInt32 request_buffer 4 ip
    let login_len := strlen m_proxy_login
    if ¬ (8 + login_len + 1 < 512) then Except.error false
    else
      let request_buffer := poke request_buffer 8 (m_proxy_login.take login_len)
      let request_buffer := poke request_buffer (8 + login_len) [0]
      let total_len := 1 + 1 + 2 + 4 + login_len + 1
      if ip = ULONG_MAX then
        let host_len := strlen destination.OrigHostname
        if ¬ (total_len + host_len + 1 < 512) then Except.error false
        else
          let request_buffer :=
            poke request_buffer total_len (destination.OrigHostname.take host_len)
          let request_buffer := poke request_buffer (total_len + host_len) [0]
          Except.ok (request_buffer, total_len + (host_len + 1))
      else Except.ok (request_buffer, total_len)

/-- The part of `ConnectSOCKS4` from `int old_flags = m_flags` on: the request is written
and the reply read under the temporary flags and timeout. The array `reply` is inspected
only after a `Read` that stored 8 bytes in it. -/
def ConnectSOCKS4_handshake (ops : GSocketConn T) (fuel : Nat) (s : wxSocketBase T)
    (request_buffer : List Byte) (total_len : Nat) : Option (GSocketError × wxSocketBase T) :=
  let old_flags := s.m_flags
  let s := { s with m_connected := true, m_flags := wxSOCKET_BLOCK ||| wxSOCKET_WAITALL }
  let old_timeout := s.m_timeout
  let s := s.SetTimeout ops.toGSocket 60
  match s.Write ops.toGSocket fuel (some request_buffer) total_len with
  | none => none
  | some s =>
    if s.m_error = true ∨ s.m_lcount ≠ total_len then
      let s := { s with m_connected := false, m_flags := old_flags }
      match s.m_socket with
      | none => none
      | some t => some (GSocketError.GSOCK_INVSOCK, { s with m_socket := some (ops.Shutdown t) })
    else
      match s.Read ops.toGSocket fuel (List.replicate 8 0) 8 with
      | none => none
      | some r =>
        let reply := r.buffer
        let s := r.sock
        if s.m_error = true ∨ s.m_lcount ≠ 8 then
          let s := s.SetTimeout ops.toGSocket old_timeout
          let s := { s with m_connected := false, m_flags := old_flags }
          match s.m_socket with
          | none => none
          | some t =>
            some (GSocketError.GSOCK_INVSOCK, { s with m_socket := some (ops.Shutdown t) })
        else if reply.getD 0 0 ≠ 0 ∨ reply.getD 1 0 ≠ 90 then
          let s := s.SetTimeout ops.toGSocket old_timeout
          let s := { s with m_connected := false, m_flags := old_flags }
          match s.m_socket with
          | none => none
          | some t =>
            some (GSocketError.GSOCK_INVSOCK, { s with m_socket := some (ops.Shutdown t) })
        else
          let s := { s with m_flags := old_flags }
          let s := s.SetTimeout ops.toGSocket old_timeout
          some (GSocketError.GSOCK_NOERROR, s)

/-- The socket on which `ConnectSOCKS4` runs the handshake, after the lines
`m_connected = true; m_flags = wxSOCKET_BLOCK | wxSOCKET_WAITALL; SetTimeout(60)`. -/
def ConnectSOCKS4_override (ops : GSocketConn T) (s : wxSocketBase T) : wxSocketBase T :=
  wxSocketBase.SetTimeout ops.toGSocket
    { s with m_connected := true, m_flags := wxSOCKET_BLOCK ||| wxSOCKET_WAITALL } 60

/-- The acceptance condition of the SOCKS4 handshake in the words of the specification, on
the socket `s` that carries the temporary flags and timeout: the whole request is written,
exactly 8 reply bytes are read, and the reply begins with `0`, `90`. -/
def SOCKS4_accepted (ops : GSocketConn T) (fuel : Nat) (s : wxSocketBase T)
    (request_buffer : List Byte) (total_len : Nat) : Prop :=
  ∃ w, s.Write ops.toGSocket fuel (some request_buffer) total_len = some w ∧
    w.m_lcount = total_len ∧
    ∃ r, w.Read ops.toGSocket fuel (List.replicate 8 0) 8 = some r ∧ r.sock.m_lcount = 8 ∧
      r.buffer.getD 0 0 = 0 ∧ r.buffer.getD 1 0 = 90

/-- Method `wxSocketClient::ConnectSOCKS4`. -/
def ConnectSOCKS4 (ops : GSocketConn T) (fuel : Nat) (c : wxSocketClient T)
    (destination : wxSockAddress) (socks4a : Bool) : Option (GSocketError × wxSocketClient T) :=
  match c.m_socket with
  | none => none
  | some t =>
    let t := ops.SetNonBlocking t false
    let err := (ops.SetPeer t c.m_proxy_addr.m_address).1
    let t := (ops.SetPeer t c.m_proxy_addr.m_address).2
    if err ≠ GSocketError.GSOCK_NOERROR then
      some (GSocketError.GSOCK_INVSOCK, { c with m_socket := some t })
    else
      let err := (ops.Connect t GSocketStream.GSOCK_STREAMED).1
      let t := (ops.Connect t GSocketStream.GSOCK_STREAMED).2
      let c := { c with m_socket := some t }
      if err ≠ GSocketError.GSOCK_NOERROR then some (GSocketError.GSOCK_INVSOCK, c)
      else if destination.isIPV4 = false then some (GSocketError.GSOCK_INVSOCK, c)
      else
        match ConnectSOCKS4_request (List.replicate 512 0) destination c.m_proxy_login socks4a with
        | Except.error true =>
          some (GSocketError.GSOCK_INVSOCK, { c with m_socket := some (ops.Shutdown t) })
        | Except.error false => some (GSocketError.GSOCK_INVSOCK, c)
        | Except.ok (request_buffer, total_len) =>
          match ConnectSOCKS4_handshake ops fuel c.towxSocketBase request_buffer total_len with
          | none => none
          | some (err, s) => some (err, { c with towxSocketBase := s })

/-- Method `wxSocketClient::ConnectSOCKS5` (a stub in the source). -/
def ConnectSOCKS5 (ops : GSocketConn T) (c : wxSocketClient T) :
    Option (GSocketError × wxSocketClient T) :=
  match c.m_socket with
  | none => none
  | some t =>
    some (GSocketError.GSOCK_NOERROR, { c with m_socket := some (ops.SetNonBlocking t false) })

/-- Method `wxSocketClient::ConnectHTTP` (a stub in the source). -/
def ConnectHTTP (ops : GSocketConn T) (c : wxSocketClient T) :
    Option (GSocketError × wxSocketClient T) :=
  match c.m_socket with
  | none => none
  | some t =>
    some (GSocketError.GSOCK_NOERROR, { c with m_socket := some (ops.SetNonBlocking t false) })

/-- The part of `DoConnect` between the test of the new handle, which is in state `t`, and
the `switch`: timeout, callback, blocking mode, address reuse and local address. -/
def DoConnect_prepare (ops : GSocketConn T) (c : wxSocketClient T) (t : T)
    (local_addr : Option wxSockAddress) (wait : Bool) : wxSocketClient T :=
  let t := ops.SetTimeout t (c.m_timeout * 1000)
  let t := ops.SetCallback t
    (GSOCK_INPUT_FLAG ||| GSOCK_OUTPUT_FLAG ||| GSOCK_LOST_FLAG ||| GSOCK_CONNECTION_FLAG)
  let t := if wait = false then ops.SetNonBlocking t true else t
  let t := if c.m_flags &&& wxSOCKET_REUSEADDR ≠ 0 then ops.SetReusable t else t
  let local_addr :=
    if local_addr.isNone ∧ c.m_localAddress.m_address.isSome then some c.m_localAddress
    else local_addr
  let t :=
    match local_addr with
    | none => t
    | some l =>
      match l.m_address with
      | none => t
      | some la => if la.m_addr = true then ops.SetLocal t la else t
  { c with m_socket := some t }

/-- The `switch (m_proxy_type)` of `DoConnect`: the result code `err` and the socket. -/
def DoConnect_switch (ops : GSocketConn T) (fuel : Nat) (c : wxSocketClient T)
    (addr_man : wxSockAddress) : Option (GSocketError × wxSocketClient T) :=
  match c.m_proxy_type with
  | wxSocketProxyType.wxPROXY_NONE =>
    match c.m_socket with
    | none => none
    | some t =>
      let t := (ops.SetPeer t addr_man.m_address).2
      some ((ops.Connect t GSocketStream.GSOCK_STREAMED).1,
        { c with m_socket := some (ops.Connect t GSocketStream.GSOCK_STREAMED).2 })
  | wxSocketProxyType.wxPROXY_SOCKS5 => ConnectSOCKS5 ops c
  | wxSocketProxyType.wxPROXY_SOCKS4 => ConnectSOCKS4 ops fuel c addr_man false
  | wxSocketProxyType.wxPROXY_SOCKS4a => ConnectSOCKS4 ops fuel c addr_man true
  | wxSocketProxyType.wxPROXY_HTTP => ConnectHTTP ops c
  | wxSocketProxyType.wxPROXY_INVALID => some (GSocketError.GSOCK_INVSOCK, c)

/-- The end of `DoConnect`, after the `switch` has left the result code `err`: the blocking
mode is restored and the result is classified. -/
def DoConnect_classify (ops : GSocketConn T) (c : wxSocketClient T) (err : GSocketError)
    (wait : Bool) : Option (Bool × wxSocketClient T) :=
  match c.m_socket with
  | none => none
  | some t =>
    let t := if wait = false then ops.SetNonBlocking t false else t
    let c := { c with m_socket := some t }
    let c :=
      if err ≠ GSocketError.GSOCK_NOERROR then
        let c := if err = GSocketError.GSOCK_WOULDBLOCK then { c with m_establishing := true } else c
        { c with m_connected := false }
      else { c with m_connected := true }
    some (c.m_connected, c)

/-- The beginning of `DoConnect`: the old handle, if any, is closed and deleted, and the
handle `fresh` that `GSocket_new()` returns (`none` for NULL) takes its place. -/
def DoConnect_reset (ops : GSocketConn T) (c : wxSocketClient T) (fresh : Option T) :
    wxSocketClient T :=
  let c :=
    if c.m_socket.isSome then { c with towxSocketBase := (c.towxSocketBase.Close ops).2 } else c
  { c with m_socket := fresh, m_connected := false, m_establishing := false }

/-- Method `wxSocketClient::DoConnect`. `fresh` is the handle that `GSocket_new()` returns
(`none` for NULL). -/
def DoConnect (ops : GSocketConn T) (fuel : Nat) (c : wxSocketClient T) (fresh : Option T)
    (addr_man : wxSockAddress) (local_addr : Option wxSockAddress) (wait : Bool) :
    Option (Bool × wxSocketClient T) :=
  let c := DoConnect_reset ops c fresh
  match fresh with
  | none => some (false, c)
  | some t =>
    let c := DoConnect_prepare ops c t local_addr wait
    match DoConnect_switch ops fuel c addr_man with
    | none => none
    | some (err, c) => DoConnect_classify ops c err wait

/-- Method `wxSocketClient::Connect(addr_man, wait)`. -/
def Connect (ops : GSocketConn T) (fuel : Nat) (c : wxSocketClient T) (fresh : Option T)
    (addr_man : wxSockAddress) (wait : Bool) : Option (Bool × wxSocketClient T) :=
  DoConnect ops fuel c fresh addr_man none wait

end wxSocketClient

/-- A scripted peer used for concrete runs of the connection code: `inbound` are the bytes
the peer has sent, `outbound` the bytes a write accepted (a write accepts everything while
`writable`, and fails otherwise), `connectResult` is what the connect call reports,
`incoming` tells whether a connection waits to be accepted, `down` whether the handle was
shut down. The clock `now` advances by the poll timeout whenever a poll finds nothing. -/
structure Peer where
  inbound : List Byte
  outbound : List Byte
  writable : Bool
  connectResult : GSocketError
  incoming : Bool
  now : Int
  timeout : Int
  nonblocking : Bool
  down : Bool
  callbacks : Nat
  reusable : Bool
  m_local : Option GAddress
  m_peer : Option GAddress
  deriving DecidableEq, Repr

/-- The transport operations of the scripted peer; there is no event loop. -/
def peerOps : GSocketConn Peer where
  Read t n :=
    if t.inbound = [] then (none, t)
    else (some (t.inbound.take n), { t with inbound := t.inbound.drop n })
  Write t d :=
    if t.writable = true then (some d.length, { t with outbound := t.outbound ++ d })
    else (none, t)
  Select t f :=
    let ready := ((if t.inbound = [] then 0 else GSOCK_INPUT_FLAG) |||
      (if t.writable = true then GSOCK_OUTPUT_FLAG else 0)) &&& f
    (ready, if ready = 0 then { t with now := t.now + t.timeout } else t)
  SetNonBlocking t b := { t with nonblocking := b }
  SetTimeout t ms := { t with timeout := ms }
  UNow t := t.now
  has_event_loop _ := false
  PROCESS_EVENTS t := (false, t)
  Read_le := by
    intro t n d h
    by_cases hw : t.inbound = []
    · simp [hw] at h
    · simp only [hw, if_false, Option.some.injEq] at h
      subst h
      simp only [List.length_take]
      omega
  Write_le := by
    intro t d k h
    by_cases hw : t.writable = true
    · simp only [hw, if_true, Option.some.injEq] at h
      omega
    · simp [hw] at h
  Shutdown t := { t with down := true }
  SetCallback t f := { t with callbacks := t.callbacks ||| f }
  UnsetCallback t _ := { t with callbacks := 0 }
  SetReusable t := { t with reusable := true }
  SetLocal t la := { t with m_local := some la }
  SetPeer t a := (GSocketError.GSOCK_NOERROR, { t with m_peer := a })
  Connect t _ := (t.connectResult, t)
  WaitConnection t :=
    if t.incoming = true then
      (some { t with incoming := false, connectResult := GSocketError.GSOCK_NOERROR },
        { t with incoming := false })
    else (none, t)

/-- A scripted peer that has sent `inbound`, accepts writes when `writable` and answers a
connect call with `connectResult`. -/
def peerWith (inbound : List Byte) (writable : Bool) (connectResult : GSocketError) : Peer :=
  { inbound := inbound, outbound := [], writable := writable, connectResult := connectResult,
    incoming := false, now := 0, timeout := 0, nonblocking := false, down := false,
    callbacks := 0, reusable := false, m_local := none, m_peer := none }

/-- An address without any content. -/
def noAddress : wxSockAddress :=
  { m_address := none, isIPV4 := false, Service := 0, CheckStringIP := ULONG_MAX,
    OrigHostname := [] }

/-- A freshly constructed `wxSocketClient` (no handle yet) with flag set `flags`. -/
def clientWith (flags : Nat) (proxy : wxSocketProxyType) (proxy_addr : wxSockAddress)
    (login : List Byte) : wxSocketClient Peer :=
  { towxSocketBase :=
      { (wxSocketBase.Init false : wxSocketBase Peer) with
        m_flags := flags, m_type := wxSocketType.wxSOCKET_CLIENT }
    m_localAddress := noAddress
    m_proxy_type := proxy
    m_proxy_addr := proxy_addr
    m_proxy_login := login
    m_proxy_passwd := [] }

namespace wxSocketBase

variable {T : Type}

/-- Method `wxSocketBase::Wait`. -/
def Wait (ops : GSocket T) (fuel : Nat) (s : wxSocketBase T) (seconds milliseconds : Int) :
    Option (Bool × wxSocketBase T) :=
  _Wait ops fuel s seconds milliseconds
    (GSOCK_INPUT_FLAG ||| GSOCK_OUTPUT_FLAG ||| GSOCK_CONNECTION_FLAG ||| GSOCK_LOST_FLAG)

/-- Method `wxSocketBase::WaitForLost`. -/
def WaitForLost (ops : GSocket T) (fuel : Nat) (s : wxSocketBase T) (seconds milliseconds : Int) :
    Option (Bool × wxSocketBase T) :=
  _Wait ops fuel s seconds milliseconds GSOCK_LOST_FLAG

/-- The terminal conditions of the wait engine in the words of the specification, for a wait
for `flags` that took the socket from `s` to `s1` and returned `b`, where `result` are the
flags that the last poll reported and `expired` says that the deadline has passed or the
timeout is zero: connection-established makes the socket connected and not establishing and
the wait true; connection-lost alone makes it not connected and not establishing and the
wait true exactly when the lost flag was requested; input-ready or output-ready makes the
wait true; no flag at all means that the wait is false, the connection state is unchanged,
and the deadline has passed, the timeout is zero or an interrupt was observed. -/
def WaitOutcome (flags result : Nat) (expired : Prop) (s s1 : wxSocketBase T) (b : Bool) : Prop :=
  (result &&& GSOCK_CONNECTION_FLAG ≠ 0 →
    b = true ∧ s1.m_connected = true ∧ s1.m_establishing = false) ∧
  (result &&& GSOCK_CONNECTION_FLAG = 0 →
    result &&& GSOCK_INPUT_FLAG ≠ 0 ∨ result &&& GSOCK_OUTPUT_FLAG ≠ 0 →
    b = true ∧ s1.m_connected = s.m_connected ∧ s1.m_establishing = s.m_establishing) ∧
  (result &&& GSOCK_CONNECTION_FLAG = 0 → result &&& GSOCK_INPUT_FLAG = 0 →
    result &&& GSOCK_OUTPUT_FLAG = 0 → result &&& GSOCK_LOST_FLAG ≠ 0 →
    (b = true ↔ flags &&& GSOCK_LOST_FLAG ≠ 0) ∧
      s1.m_connected = false ∧ s1.m_establishing = false) ∧
  (result &&& GSOCK_CONNECTION_FLAG = 0 → result &&& GSOCK_INPUT_FLAG = 0 →
    result &&& GSOCK_OUTPUT_FLAG = 0 → result &&& GSOCK_LOST_FLAG = 0 →
    b = false ∧ s1.m_connected = s.m_connected ∧ s1.m_establishing = s.m_establishing ∧
      (expired ∨ s1.m_interrupt = true))

/-- Method `wxSocketBase::SaveState`: the new snapshot goes to the end of `m_states`. -/
def SaveState (s : wxSocketBase T) : wxSocketBase T :=
  let state : wxSocketState :=
    { m_flags := s.m_flags, m_notify := s.m_notify, m_eventmask := s.m_eventmask,
      m_clientData := s.m_clientData }
  { s with m_states := s.m_states ++ [state] }

/-- Method `wxSocketBase::RestoreState`: the node `m_states.GetLast()` is read back and erased. -/
def RestoreState (s : wxSocketBase T) : wxSocketBase T :=
  match s.m_states.getLast? with
  | none => s
  | some state =>
    { s with
      m_flags := state.m_flags, m_notify := state.m_notify, m_eventmask := state.m_eventmask,
      m_clientData := state.m_clientData, m_states := s.m_states.dropLast }

/-- Method `wxSocketBase::Notify`. -/
def Notify (s : wxSocketBase T) (notify : Bool) : wxSocketBase T :=
  { s with m_notify := notify }

/-- Method `wxSocketBase::SetNotify`. -/
def SetNotify (s : wxSocketBase T) (flags : Nat) : wxSocketBase T :=
  { s with m_eventmask := flags }

/-- Method `wxSocketBase::SetEventHandler`. -/
def SetEventHandler (s : wxSocketBase T) (handler : Nat) (id : Int) : wxSocketBase T :=
  { s with m_handler := some handler, m_id := id }

/-- Modelled from the spec: the inline method `wxSocketBase::SetClientData` of
`wx/socket.h`, which stores the opaque client tag. -/
def SetClientData (s : wxSocketBase T) (data : Nat) : wxSocketBase T :=
  { s with m_clientData := data }

/-- The pushback invariant in the words of the specification: either the buffer is freed
with size 0 and cursor 0, or the buffer is allocated with the cursor below the size. -/
def PushbackInv (s : wxSocketBase T) : Prop :=
  (s.m_unread = none ∧ s.m_unrd_size = 0 ∧ s.m_unrd_cur = 0) ∨
  (s.m_unread.isSome = true ∧ s.m_unrd_cur < s.m_unrd_size)

end wxSocketBase

/-- Modelled from the spec: the notification kinds (`wxSocketNotify` of `wx/socket.h`, whose
values are those of `GSocketEvent`): input-ready, output-ready, connection-established,
connection-lost; `invalid` stands for every other value of the enumeration type, which
both `switch` statements of `OnRequest` send to `default`. -/
inductive wxSocketNotify where
  | wxSOCKET_INPUT
  | wxSOCKET_OUTPUT
  | wxSOCKET_CONNECTION
  | wxSOCKET_LOST
  | invalid
  deriving DecidableEq, Repr

/-- Modelled from the spec: what `OnRequest` puts into a `wxSocketEvent` (`wx/socket.h`):
the event id, the notification kind and the opaque client tag. -/
structure wxSocketEvent where
  m_id : Int
  m_event : wxSocketNotify
  m_clientData : Nat
  deriving DecidableEq, Repr

namespace wxSocketBase

variable {T : Type}

/-- The first `switch` of `OnRequest`: whether the method goes on to schedule the event
(`false` for `return`) and the socket; `none` when `m_socket` is dereferenced while NULL. -/
def OnRequest_filter (ops : GSocket T) (s : wxSocketBase T) :
    wxSocketNotify → Option (Bool × wxSocketBase T)
  | wxSocketNotify.wxSOCKET_CONNECTION =>
    some (true, { s with m_establishing := false, m_connected := true })
  | wxSocketNotify.wxSOCKET_INPUT =>
    if s.m_reading = true then some (false, s)
    else
      match s.m_socket with
      | none => none
      | some t =>
        some (decide ((ops.Select t GSOCK_INPUT_FLAG).1 ≠ 0),
          { s with m_socket := some (ops.Select t GSOCK_INPUT_FLAG).2 })
  | wxSocketNotify.wxSOCKET_OUTPUT =>
    if s.m_writing = true then some (false, s)
    else
      match s.m_socket with
      | none => none
      | some t =>
        some (decide ((ops.Select t GSOCK_OUTPUT_FLAG).1 ≠ 0),
          { s with m_socket := some (ops.Select t GSOCK_OUTPUT_FLAG).2 })
  | wxSocketNotify.wxSOCKET_LOST =>
    some (true, { s with m_connected := false, m_establishing := false })
  | wxSocketNotify.invalid => some (true, s)

/-- The second `switch` of `OnRequest`: the readiness flag of the notification kind, `none`
for the `default` case, which logs a warning and returns. -/
def OnRequest_flag : wxSocketNotify → Option Nat
  | wxSocketNotify.wxSOCKET_INPUT => some GSOCK_INPUT_FLAG
  | wxSocketNotify.wxSOCKET_OUTPUT => some GSOCK_OUTPUT_FLAG
  | wxSocketNotify.wxSOCKET_CONNECTION => some GSOCK_CONNECTION_FLAG
  | wxSocketNotify.wxSOCKET_LOST => some GSOCK_LOST_FLAG
  | wxSocketNotify.invalid => none

/-- Method `wxSocketBase::OnRequest`: the socket afterwards and the event handed to
`m_handler->AddPendingEvent`, if one is; `none` when `m_socket` is dereferenced while
NULL. -/
def OnRequest (ops : GSocket T) (s : wxSocketBase T) (notification : wxSocketNotify) :
    Option (wxSocketBase T × Option wxSocketEvent) :=
  match OnRequest_filter ops s notification with
  | none => none
  | some (false, s) => some (s, none)
  | some (true, s) =>
    match OnRequest_flag notification with
    | none => some (s, none)
    | some flag =>
      if s.m_eventmask &&& flag = flag ∧ s.m_notify = true then
        match s.m_handler with
        | some _ =>
          some (s, some { m_id := s.m_id, m_event := notification, m_clientData := s.m_clientData })
        | none => some (s, none)
      else some (s, none)

end wxSocketBase

/-- Modelled from the spec: the address query of the `Transport` capability
(`GSocket::GetPeer` of `wx/gsocket.h`): `GetPeer t` is the destination the handle is set
to, `none` for NULL. The query does not change the handle. -/
structure GSocketDgram (T : Type) extends GSocketConn T where
  GetPeer : T → Option GAddress

/-- Modelled from the spec: `wxSockAddress::SetAddress` (`wx/sckaddr.h`), which makes the
object hold a copy of `address`. -/
def wxSockAddress.SetAddress (addr_man : wxSockAddress) (address : GAddress) : wxSockAddress :=
  { addr_man with m_address := some address }

namespace wxSocketBase

variable {T : Type}

/-- Method `wxSocketBase::GetPeer`: the return value and the address object afterwards. -/
def GetPeer (ops : GSocketDgram T) (s : wxSocketBase T) (addr_man : wxSockAddress) :
    Bool × wxSockAddress :=
  match s.m_socket with
  | none => (false, addr_man)
  | some t =>
    match ops.GetPeer t with
    | none => (false, addr_man)
    | some peer => (true, addr_man.SetAddress peer)

end wxSocketBase

namespace wxDatagramSocket

variable {T : Type}

/-- The test that `RecvFrom` and `SendTo` make before they transfer anything, on a socket
whose handle is in state `t`: `some false` when the call is refused, `none` when a NULL
address is dereferenced. A socket that is not connected passes without a test. -/
def matches_peer (ops : GSocketDgram T) (s : wxSocketBase T) (t : T) (addr : wxSockAddress) :
    Option Bool :=
  if s.m_connected = true then
    match ops.GetPeer t, addr.m_address with
    | some gsock_addr, some dest_addr =>
      some (decide (gsock_addr.host = dest_addr.host) && decide (gsock_addr.port = dest_addr.port))
    | _, _ => none
  else some true

/-- Method `wxDatagramSocket::RecvFrom`: the address object, the caller's buffer and the
socket afterwards. -/
def RecvFrom (ops : GSocketDgram T) (fuel : Nat) (s : wxSocketBase T) (addr : wxSockAddress)
    (buf : List Byte) (nBytes : Nat) : Option (wxSockAddress × IoOut T) :=
  match s.m_socket with
  | none => some (addr, ⟨buf, s⟩)
  | some t =>
    match matches_peer ops s t addr with
    | none => none
    | some false => some (addr, ⟨buf, s⟩)
    | some true =>
      match wxSocketBase.Read ops.toGSocket fuel s buf nBytes with
      | none => none
      | some r => some ((wxSocketBase.GetPeer ops r.sock addr).2, r)

/-- Method `wxDatagramSocket::SendTo`: the socket afterwards. -/
def SendTo (ops : GSocketDgram T) (fuel : Nat) (s : wxSocketBase T) (addr : wxSockAddress)
    (buf : Option (List Byte)) (nBytes : Nat) : Option (wxSocketBase T) :=
  match s.m_socket with
  | none => some s
  | some t =>
    match matches_peer ops s t addr with
    | none => none
    | some false => some s
    | some true =>
      let s := { s with m_socket := some (ops.SetPeer t addr.m_address).2 }
      wxSocketBase.Write ops.toGSocket fuel s buf nBytes

end wxDatagramSocket

/-- The scripted peer with the address query: the destination is the one `SetPeer` stored. -/
def dgramOps : GSocketDgram Peer :=
  { peerOps with GetPeer := fun t => t.m_peer }

/-- The reads and writes in a journal of transport calls. -/
def transfers (journal : List Call) : List Call :=
  journal.filter (fun c =>
    match c with
    | Call.Read _ => true
    | Call.Write _ => true
    | _ => false)

/-- The transport reads that the specification prescribes for `missing` bytes when the
successive reads deliver the blocks `moved`: each read asks for exactly the bytes still
missing. -/
def readRequests : Nat → List (List Byte) → List Call
  | _, [] => []
  | missing, d :: moved => Call.Read missing :: readRequests (missing - d.length) moved

/-- The transport writes that the specification prescribes for the first `missing` bytes of
`buffer` when the successive writes accept `moved` bytes: each write offers exactly the
bytes still missing, from the position after the bytes already accepted. -/
def writeRequests : List Byte → Nat → List Nat → List Call
  | _, _, [] => []
  | buffer, missing, k :: moved =>
    Call.Write (buffer.take missing) :: writeRequests (buffer.drop k) (missing - k) moved

/-- A peer that never runs dry and never pushes back, used for concrete runs of the retry
loops: the state counts the bytes read and written so far, a single call moves at most
`mtu + 1` bytes, byte number `i` of the stream is `i % 256`. There is no event loop and the
clock stands still. -/
structure Tap where
  mtu : Nat
  served : Nat
  taken : Nat
  deriving DecidableEq, Repr

/-- The transport operations of the peer that never runs dry. -/
def tap : GSocket Tap where
  Read t n :=
    (some ((List.range (min n (t.mtu + 1))).map (fun i => (t.served + i) % 256)),
      { t with served := t.served + min n (t.mtu + 1) })
  Write t d := (some (min d.length (t.mtu + 1)), { t with taken := t.taken + min d.length (t.mtu + 1) })
  Select t f := ((GSOCK_INPUT_FLAG ||| GSOCK_OUTPUT_FLAG) &&& f, t)
  SetNonBlocking t _ := t
  SetTimeout t _ := t
  UNow _ := 0
  has_event_loop _ := false
  PROCESS_EVENTS t := (false, t)
  Read_le := by
    intro t n d h
    simp only [Option.some.injEq] at h
    subst h
    simp only [List.length_map, List.length_range]
    omega
  Write_le := by
    intro t d k h
    simp only [Option.some.injEq] at h
    omega

/-- A handle whose polls follow a script, used for concrete runs of the wait engine: the
state lists the flags that the coming polls find (none once the list is used up), a poll
reports those among them that it was asked for, reads and writes fail, the clock stands
still and there is no event loop. -/
def pollScript : GSocket (List Nat) where
  Read t _ := (none, t)
  Write t _ := (none, t)
  Select t f := (t.headD 0 &&& f, t.tail)
  SetNonBlocking t _ := t
  SetTimeout t _ := t
  UNow _ := 0
  has_event_loop _ := false
  PROCESS_EVENTS t := (false, t)
  Read_le := by
    intro t n d h
    simp at h
  Write_le := by
    intro t d k h
    simp at h

/-- A transport that keeps a record `got t` of the bytes it has delivered: a read appends
the bytes it returned (none for a negative return value) and no other call changes the
record. -/
structure Receiving {T : Type} (ops : GSocket T) (got : T → List Byte) : Prop where
  read_some : ∀ t n d, (ops.Read t n).1 = some d → got (ops.Read t n).2 = got t ++ d
  read_none : ∀ t n, (ops.Read t n).1 = none → got (ops.Read t n).2 = got t
  write_got : ∀ t d, got (ops.Write t d).2 = got t
  select_got : ∀ t f, got (ops.Select t f).2 = got t
  setNonBlocking_got : ∀ t b, got (ops.SetNonBlocking t b) = got t
  setTimeout_got : ∀ t ms, got (ops.SetTimeout t ms) = got t
  processEvents_got : ∀ t, got (ops.PROCESS_EVENTS t).2 = got t

/-- The transport `ops` with a record of the bytes its reads delivered, kept in the second
component of the state; it behaves as `ops` does. -/
def received {T : Type} (ops : GSocket T) : GSocket (T × List Byte) where
  Read t n := ((ops.Read t.1 n).1, ((ops.Read t.1 n).2, t.2 ++ ((ops.Read t.1 n).1).getD []))
  Write t d := ((ops.Write t.1 d).1, ((ops.Write t.1 d).2, t.2))
  Select t f := ((ops.Select t.1 f).1, ((ops.Select t.1 f).2, t.2))
  SetNonBlocking t b := (ops.SetNonBlocking t.1 b, t.2)
  SetTimeout t ms := (ops.SetTimeout t.1 ms, t.2)
  UNow t := ops.UNow t.1
  has_event_loop t := ops.has_event_loop t.1
  PROCESS_EVENTS t := ((ops.PROCESS_EVENTS t.1).1, ((ops.PROCESS_EVENTS t.1).2, t.2))
  Read_le := fun t n d h => ops.Read_le t.1 n d h
  Write_le := fun t d k h => ops.Write_le t.1 d k h

/-- The steps of a successful `ReadMsg(buf, n)` in the words of the specification, stated of
the bytes `c` that the call took from the input stream (unconsumed pushback bytes first,
then the bytes the transport delivered), where `L = decode32 c 4` is the length the header
declares: the 8-byte header was read completely and carries the magic `0xFEEDDEAD`; the
`min(L, n)` payload bytes were read completely; the `L - n` overflow bytes, if any, were all
taken from the stream; the 8-byte trailer was read completely, nothing was read beyond it,
and it carries the magic `0xDEADFEED`. -/
def FrameConsumed (c : List Byte) (n : Nat) : Prop :=
  (8 ≤ c.length ∧ decode32 c 0 = 0xfeeddead) ∧
  8 + min (decode32 c 4) n ≤ c.length ∧
  8 + min (decode32 c 4) n + (decode32 c 4 - n) ≤ c.length ∧
  (c.length = 8 + min (decode32 c 4) n + (decode32 c 4 - n) + 8 ∧
    decode32 c (8 + min (decode32 c 4) n + (decode32 c 4 - n)) = 0xdeadfeed)

namespace wxSocketBase

variable {T : Type}

/-- An observation `f` of the transport state (such as the record of the bytes accepted or
delivered, or the journal of calls), read through the handle of the socket; empty for a
socket without a handle. -/
def onHandle {α : Type} (f : T → List α) (s : wxSocketBase T) : List α :=
  match s.m_socket with
  | some t => f t
  | none => []

/-- The suppression rule in the words of the specification: a notification is suppressed
while the operation of its direction is in progress. -/
def Suppressed (s : wxSocketBase T) : wxSocketNotify → Bool
  | wxSocketNotify.wxSOCKET_INPUT => s.m_reading
  | wxSocketNotify.wxSOCKET_OUTPUT => s.m_writing
  | _ => false

/-- The delivery rule in the words of the specification: the flag of the notification kind
is in the subscription mask, notifications are enabled, a handler is registered and the
notification is not suppressed. -/
def Deliverable (s : wxSocketBase T) (notification : wxSocketNotify) : Bool :=
  (match OnRequest_flag notification with
    | some flag => decide (s.m_eventmask &&& flag = flag)
    | none => false) &&
  s.m_notify && s.m_handler.isSome && !Suppressed s notification

end wxSocketBase

end wxSocket

/-! ## Flag arithmetic, the wait engine and the pushback buffer -/

open wxSocket wxSocket.wxSocketBase

namespace wxSocket
variable {T : Type}

theorem msgFlags_not_nowait (f : Nat) :
    ((f &&& wxSOCKET_BLOCK) ||| wxSOCKET_WAITALL) &&& wxSOCKET_NOWAIT = 0 := by
  apply Nat.eq_of_testBit_eq
  intro i
  simp only [wxSOCKET_BLOCK, wxSOCKET_WAITALL, wxSOCKET_NOWAIT, Nat.testBit_and, Nat.testBit_or,
    Nat.zero_testBit]
  rcases i with _ | _ | _ | i <;> simp [Nat.testBit_succ]

theorem msgFlags_waitall (f : Nat) :
    ((f &&& wxSOCKET_BLOCK) ||| wxSOCKET_WAITALL) &&& wxSOCKET_WAITALL ≠ 0 := by
  intro h
  have h1 : Nat.testBit (((f &&& wxSOCKET_BLOCK) ||| wxSOCKET_WAITALL) &&& wxSOCKET_WAITALL) 1
      = Nat.testBit 0 1 := by rw [h]
  have h2 : Nat.testBit 2 1 = true := by decide
  simp only [wxSOCKET_BLOCK, wxSOCKET_WAITALL, Nat.testBit_and, Nat.testBit_or, Nat.zero_testBit,
    h2, Bool.or_true, Bool.and_true] at h1
  exact Bool.noConfusion h1

theorem msgFlags_block (f : Nat) :
    ((f &&& wxSOCKET_BLOCK) ||| wxSOCKET_WAITALL) &&& wxSOCKET_BLOCK = f &&& wxSOCKET_BLOCK := by
  apply Nat.eq_of_testBit_eq
  intro i
  simp only [wxSOCKET_BLOCK, wxSOCKET_WAITALL, Nat.testBit_and, Nat.testBit_or]
  rcases i with _ | _ | _ | i <;> simp [Nat.testBit_succ]

namespace wxSocketBase

theorem config_fields {s s' : wxSocketBase T} (h : config s' = config s) :
    s'.m_flags = s.m_flags ∧ s'.m_unread = s.m_unread ∧ s'.m_unrd_size = s.m_unrd_size ∧
      s'.m_unrd_cur = s.m_unrd_cur := by
  have h1 : (config s').m_flags = (config s).m_flags := by rw [h]
  have h2 : (config s').m_unread = (config s).m_unread := by rw [h]
  have h3 : (config s').m_unrd_size = (config s).m_unrd_size := by rw [h]
  have h4 : (config s').m_unrd_cur = (config s).m_unrd_cur := by rw [h]
  exact ⟨h1, h2, h3, h4⟩

theorem config_set_socket (s : wxSocketBase T) (o : Option T) :
    config { s with m_socket := o } = config s := rfl

theorem unconsumed_congr {s s' : wxSocketBase T} (h : config s' = config s) :
    unconsumed s' = unconsumed s := by
  obtain ⟨-, h2, -, h4⟩ := config_fields h
  simp [unconsumed, h2, h4]

theorem PushbackOk_congr {s s' : wxSocketBase T} (h : config s' = config s) (hs : PushbackOk s) :
    PushbackOk s' := by
  obtain ⟨-, h2, h3, h4⟩ := config_fields h
  simpa [PushbackOk, h2, h3, h4] using hs


theorem _Wait_loop_frame (ops : GSocket T) {α : Type} (obs : T → α)
    (hSel : ∀ t f, obs (ops.Select t f).2 = obs t)
    (hST : ∀ t ms, obs (ops.SetTimeout t ms) = obs t)
    (hPE : ∀ t, obs (ops.PROCESS_EVENTS t).2 = obs t)
    (timeout time_limit : Int) (flags : Nat) (hel : Bool) :
    ∀ (fuel : Nat) (s : wxSocketBase T) (t : T) (b : Bool) (s' : wxSocketBase T) (t' : T),
      _Wait_loop ops timeout time_limit flags hel fuel s t = some (b, s', t') →
      config s' = config s ∧ s'.m_socket = s.m_socket ∧ obs t' = obs t := by
  intro fuel
  induction fuel with
  | zero => intro s t b s' t' h; simp [_Wait_loop] at h
  | succ fuel ih =>
    intro s t b s' t' h
    simp only [_Wait_loop] at h
    split_ifs at h with h1 h2 h3 h4 h5 h6
    · simp only [Option.some.injEq, Prod.mk.injEq] at h
      obtain ⟨-, rfl, rfl⟩ := h
      exact ⟨rfl, rfl, hSel _ _⟩
    · simp only [Option.some.injEq, Prod.mk.injEq] at h
      obtain ⟨-, rfl, rfl⟩ := h
      exact ⟨rfl, rfl, hSel _ _⟩
    · simp only [Option.some.injEq, Prod.mk.injEq] at h
      obtain ⟨-, rfl, rfl⟩ := h
      exact ⟨rfl, rfl, hSel _ _⟩
    · simp only [Option.some.injEq, Prod.mk.injEq] at h
      obtain ⟨-, rfl, rfl⟩ := h
      exact ⟨rfl, rfl, hSel _ _⟩
    · obtain ⟨e1, e2, e3⟩ := ih _ _ _ _ _ h
      exact ⟨e1, e2, by rw [e3, hPE, hSel]⟩
    · obtain ⟨e1, e2, e3⟩ := ih _ _ _ _ _ h
      exact ⟨e1, e2, by rw [e3, hST, hSel]⟩
    · obtain ⟨e1, e2, e3⟩ := ih _ _ _ _ _ h
      exact ⟨e1, e2, by rw [e3, hSel]⟩

theorem _Wait_frame (ops : GSocket T) {α : Type} (obs : T → α)
    (hSel : ∀ t f, obs (ops.Select t f).2 = obs t)
    (hST : ∀ t ms, obs (ops.SetTimeout t ms) = obs t)
    (hPE : ∀ t, obs (ops.PROCESS_EVENTS t).2 = obs t)
    {fuel : Nat} {s s' : wxSocketBase T} {seconds milliseconds : Int} {flags : Nat} {b : Bool}
    (h : _Wait ops fuel s seconds milliseconds flags = some (b, s')) :
    config s' = config s ∧
      (∀ t, s.m_socket = some t → ∃ t', s'.m_socket = some t' ∧ obs t' = obs t) ∧
      (s.m_socket = none → s'.m_socket = none) := by
  unfold _Wait at h
  cases hs : s.m_socket with
  | none =>
    simp only [hs] at h
    simp only [Option.some.injEq, Prod.mk.injEq] at h
    obtain ⟨-, rfl⟩ := h
    exact ⟨rfl, fun t ht => by simp at ht, fun _ => rfl⟩
  | some t =>
    simp only [hs] at h
    split at h
    · simp at h
    · rename_i b1 s1 t1 hloop
      simp only [Option.some.injEq, Prod.mk.injEq] at h
      obtain ⟨-, rfl⟩ := h
      obtain ⟨e1, -, e3⟩ := _Wait_loop_frame ops obs hSel hST hPE _ _ _ _ _ _ _ _ _ _ hloop
      refine ⟨e1, ?_, fun hn => by simp at hn⟩
      intro t0 ht0
      simp only [Option.some.injEq] at ht0
      subst ht0
      have e3' : obs t1 = obs t := by
        rw [e3]; split_ifs <;> simp [hST]
      refine ⟨_, rfl, ?_⟩
      split_ifs <;> simp [e3', hST]

theorem _Wait_loop_ready (ops : GSocket T) (timeout time_limit : Int) (flags : Nat) (hel : Bool)
    (fuel : Nat) (s : wxSocketBase T) (t : T)
    (hready : (ops.Select t (flags ||| GSOCK_LOST_FLAG)).1 &&& GSOCK_INPUT_FLAG ≠ 0 ∨
      (ops.Select t (flags ||| GSOCK_LOST_FLAG)).1 &&& GSOCK_OUTPUT_FLAG ≠ 0) :
    ∃ s' t', _Wait_loop ops timeout time_limit flags hel (fuel + 1) s t = some (true, s', t') := by
  simp only [_Wait_loop]
  by_cases h1 : (ops.Select t (flags ||| GSOCK_LOST_FLAG)).1 &&& GSOCK_CONNECTION_FLAG ≠ 0
  · rw [if_pos h1]; exact ⟨_, _, rfl⟩
  · rw [if_neg h1, if_pos hready]; exact ⟨_, _, rfl⟩

theorem _Wait_ready (ops : GSocket T) {α : Type} (obs : T → α)
    (hST : ∀ t ms, obs (ops.SetTimeout t ms) = obs t)
    (fuel : Nat) (s : wxSocketBase T) (t : T)
    (seconds milliseconds : Int) (flags : Nat) (hs : s.m_socket = some t)
    (hready : ∀ t1, obs t1 = obs t →
      ((ops.Select t1 (flags ||| GSOCK_LOST_FLAG)).1 &&& GSOCK_INPUT_FLAG ≠ 0 ∨
        (ops.Select t1 (flags ||| GSOCK_LOST_FLAG)).1 &&& GSOCK_OUTPUT_FLAG ≠ 0)) :
    ∃ s', _Wait ops (fuel + 1) s seconds milliseconds flags = some (true, s') := by
  unfold _Wait
  simp only [hs]
  generalize hto : (if seconds ≠ -1 then seconds * 1000 + milliseconds else s.m_timeout * 1000) = timeout
  have ht1 : obs (if ops.has_event_loop t = true then t
      else if timeout > 50 then ops.SetTimeout t 50 else ops.SetTimeout t timeout) = obs t := by
    split_ifs <;> simp [hST]
  obtain ⟨s', t', h⟩ := _Wait_loop_ready ops timeout (ops.UNow t + timeout) flags
    (ops.has_event_loop t) fuel
    { s with m_interrupt := false, m_socket := some t } _ (hready _ ht1)
  simp only [h]
  exact ⟨_, rfl⟩

/-- On a lossless transport with bytes in flight `WaitForRead` succeeds at once. -/
theorem WaitForRead_lossless {ops : GSocket T} {wire : T → List Byte} (hl : Lossless ops wire)
    (fuel : Nat) (s : wxSocketBase T) (t : T) (hs : s.m_socket = some t) (hw : wire t ≠ []) :
    ∃ s' t', WaitForRead ops (fuel + 1) s (-1) 0 = some (true, s') ∧ config s' = config s ∧
      s'.m_socket = some t' ∧ wire t' = wire t := by
  unfold WaitForRead
  split_ifs with hu
  · exact ⟨s, t, rfl, rfl, hs, rfl⟩
  · obtain ⟨s', h⟩ := _Wait_ready ops wire hl.setTimeout_wire fuel s t (-1) 0
      (GSOCK_INPUT_FLAG ||| GSOCK_LOST_FLAG) hs (fun t1 ht1 =>
        Or.inl (hl.select_input t1 _ (by decide) (by rw [ht1]; exact hw)))
    obtain ⟨e1, e2, -⟩ := _Wait_frame ops wire hl.select_wire hl.setTimeout_wire
      hl.processEvents_wire h
    obtain ⟨t', e3, e4⟩ := e2 t hs
    exact ⟨s', t', h, e1, e3, e4⟩

/-- On a lossless transport `WaitForWrite` succeeds at once. -/
theorem WaitForWrite_lossless {ops : GSocket T} {wire : T → List Byte} (hl : Lossless ops wire)
    (fuel : Nat) (s : wxSocketBase T) (t : T) (hs : s.m_socket = some t) :
    ∃ s' t', WaitForWrite ops (fuel + 1) s (-1) 0 = some (true, s') ∧ config s' = config s ∧
      s'.m_socket = some t' ∧ wire t' = wire t := by
  unfold WaitForWrite
  obtain ⟨s', h⟩ := _Wait_ready ops wire hl.setTimeout_wire fuel s t (-1) 0
    GSOCK_OUTPUT_FLAG hs (fun t1 _ => Or.inr (hl.select_output t1 _ (by decide)))
  obtain ⟨e1, e2, -⟩ := _Wait_frame ops wire hl.select_wire hl.setTimeout_wire
    hl.processEvents_wire h
  obtain ⟨t', e3, e4⟩ := e2 t hs
  exact ⟨s', t', h, e1, e3, e4⟩

/-- Whatever the transport does, `WaitForRead` leaves every field outside `config` alone and
keeps the handle present or absent as it was. -/
theorem WaitForRead_frame (ops : GSocket T) {α : Type} (obs : T → α)
    (hSel : ∀ t f, obs (ops.Select t f).2 = obs t)
    (hST : ∀ t ms, obs (ops.SetTimeout t ms) = obs t)
    (hPE : ∀ t, obs (ops.PROCESS_EVENTS t).2 = obs t)
    {fuel : Nat} {s s' : wxSocketBase T} {seconds milliseconds : Int} {b : Bool}
    (h : WaitForRead ops fuel s seconds milliseconds = some (b, s')) :
    config s' = config s ∧
      (∀ t, s.m_socket = some t → ∃ t', s'.m_socket = some t' ∧ obs t' = obs t) ∧
      (s.m_socket = none → s'.m_socket = none) := by
  unfold WaitForRead at h
  split_ifs at h with hu
  · simp only [Option.some.injEq, Prod.mk.injEq] at h
    obtain ⟨-, rfl⟩ := h
    exact ⟨rfl, fun t ht => ⟨t, ht, rfl⟩, fun hn => hn⟩
  · exact _Wait_frame ops obs hSel hST hPE h


theorem GetPushback_none {s : wxSocketBase T} (n : Nat) (h : s.m_unrd_size = 0) :
    s.GetPushback n false = ⟨0, [], s⟩ := by
  simp [GetPushback, h]

theorem GetPushback_within {s : wxSocketBase T} {block : List Byte} (n : Nat)
    (hb : s.m_unread = some block) (hn : n < s.m_unrd_size - s.m_unrd_cur) :
    s.GetPushback n false =
      ⟨n, (block.drop s.m_unrd_cur).take n, { s with m_unrd_cur := s.m_unrd_cur + n }⟩ := by
  have h0 : s.m_unrd_size ≠ 0 := by omega
  have h1 : ¬ n > s.m_unrd_size - s.m_unrd_cur := by omega
  have h2 : ¬ s.m_unrd_size = s.m_unrd_cur + n := by omega
  simp [GetPushback, h0, h1, h2, hb]

theorem GetPushback_drain {s : wxSocketBase T} {block : List Byte} (n : Nat)
    (hb : s.m_unread = some block) (hlen : block.length = s.m_unrd_size)
    (hc : s.m_unrd_cur < s.m_unrd_size) (hn : s.m_unrd_size - s.m_unrd_cur ≤ n) :
    s.GetPushback n false =
      ⟨s.m_unrd_size - s.m_unrd_cur, block.drop s.m_unrd_cur,
        { s with m_unread := none, m_unrd_size := 0, m_unrd_cur := 0 }⟩ := by
  have h0 : s.m_unrd_size ≠ 0 := by omega
  have h3 : (block.drop s.m_unrd_cur).take (s.m_unrd_size - s.m_unrd_cur) = block.drop s.m_unrd_cur := by
    apply List.take_of_length_le
    simp [hlen]
  by_cases h1 : n > s.m_unrd_size - s.m_unrd_cur
  · have h2 : s.m_unrd_size = s.m_unrd_cur + (s.m_unrd_size - s.m_unrd_cur) := by omega
    simp only [GetPushback, h0, if_false, h1, if_true, hb, Option.getD_some, h3, Bool.false_eq_true]
    rw [if_pos h2]
  · have h2 : n = s.m_unrd_size - s.m_unrd_cur := by omega
    have h4 : s.m_unrd_size = s.m_unrd_cur + n := by omega
    simp only [GetPushback, h0, if_false, h1, hb, Option.getD_some, Bool.false_eq_true]
    rw [if_pos h4, h2, h3]

/-- What `GetPushback` does in a reachable state, in terms of the unconsumed bytes. -/
theorem GetPushback_spec {s : wxSocketBase T} (n : Nat) (hs : PushbackOk s) :
    (s.GetPushback n false).data = (unconsumed s).take n ∧
    (s.GetPushback n false).total = min n (unconsumed s).length ∧
    unconsumed (s.GetPushback n false).sock = (unconsumed s).drop n ∧
    PushbackOk (s.GetPushback n false).sock ∧
    (s.GetPushback n false).sock.m_socket = s.m_socket ∧
    (s.GetPushback n false).sock.m_flags = s.m_flags := by
  rcases hs with ⟨h1, h2, h3⟩ | ⟨block, hb, hlen, hc, hlt⟩
  · rw [GetPushback_none n h2]
    simp [unconsumed, h1, PushbackOk, h2, h3]
  · have hu : unconsumed s = block.drop s.m_unrd_cur := by simp [unconsumed, hb]
    have hul : (unconsumed s).length = s.m_unrd_size - s.m_unrd_cur := by simp [hu, hlen]
    by_cases hn : n < s.m_unrd_size - s.m_unrd_cur
    · rw [GetPushback_within n hb hn]
      refine ⟨by simp [hu], by simp [hul]; omega, ?_, ?_, rfl, rfl⟩
      · simp [unconsumed, hb, Nat.add_comm]
      · right
        exact ⟨block, hb, hlen, by simp; omega, hlt⟩
    · rw [GetPushback_drain n hb hlen hc (by omega)]
      refine ⟨?_, by simp [hul]; omega, ?_, ?_, rfl, rfl⟩
      · rw [hu]; symm; apply List.take_of_length_le; simp [hlen]; omega
      · have h5 : (unconsumed s).drop n = [] := by
          apply List.drop_of_length_le; rw [hul]; omega
        rw [h5]
        simp [unconsumed]
      · left; exact ⟨rfl, rfl, rfl⟩

end wxSocketBase
end wxSocket

/-! ## The transfer primitive `_Read` -/

open wxSocket wxSocket.wxSocketBase

namespace wxSocket
namespace wxSocketBase
variable {T : Type}

/-- Whatever the transport does, the retry loop of `_Read` appends what it reads to the bytes
stored so far, counts it, never reads more than it was asked for and leaves every field
outside `config` alone. -/
theorem _Read_loop_spec (ops : GSocket T) :
    ∀ (fuel : Nat) (s : wxSocketBase T) (n total : Nat) (data : List Byte) (r : Xfer T),
      _Read_loop ops fuel s n total data = some r →
      config r.sock = config s ∧
        ∃ d, r.data = data ++ d ∧ r.total = total + d.length ∧ d.length ≤ n := by
  intro fuel
  induction fuel with
  | zero => intro s n total data r h; simp [_Read_loop] at h
  | succ fuel ih =>
    intro s n total data r h
    simp only [_Read_loop] at h
    generalize hwq : (if s.m_flags &&& wxSOCKET_BLOCK = 0 then WaitForRead ops fuel s (-1) 0
      else some (true, s)) = waited at h
    have hcfg : ∀ b s1, waited = some (b, s1) → config s1 = config s := by
      intro b s1 hw
      rw [← hwq] at hw
      split_ifs at hw
      · exact (WaitForRead_frame ops (fun _ => ()) (fun _ _ => rfl) (fun _ _ => rfl)
          (fun _ => rfl) hw).1
      · simp only [Option.some.injEq, Prod.mk.injEq] at hw
        rw [← hw.2]
    rcases waited with _ | ⟨b, s1⟩
    · simp at h
    · have hc := hcfg _ _ rfl
      cases b
      · simp only [Option.some.injEq] at h
        subst h
        exact ⟨hc, [], by simp, by simp, by simp⟩
      · simp only at h
        cases hs1 : s1.m_socket with
        | none => simp [hs1] at h
        | some t =>
          simp only [hs1] at h
          cases hret : (ops.Read t n).1 with
          | none =>
            simp only [hret, Option.some.injEq] at h
            subst h
            exact ⟨hc, [], by simp, by simp, by simp⟩
          | some d =>
            have hdn := ops.Read_le t n d hret
            simp only [hret] at h
            split_ifs at h with hd hmore
            · obtain ⟨e1, d', e2, e3, e4⟩ := ih _ _ _ _ _ h
              refine ⟨e1.trans hc, d ++ d', by simp [e2], by simp [e3]; omega, ?_⟩
              simp only [List.length_append]; omega
            · simp only [Option.some.injEq] at h
              subst h
              exact ⟨hc, d, rfl, rfl, hdn⟩
            · simp only [Option.some.injEq] at h
              subst h
              exact ⟨hc, [], by simp, by simp, by simp⟩

/-- Whatever the transport does, `_Read` returns the bytes the pushback buffer hands out
followed by what the transport delivered, counts them, and leaves every field outside
`config` as `GetPushback` left it. -/
theorem _Read_spec (ops : GSocket T) {fuel : Nat} {s : wxSocketBase T} {n : Nat} {r : Xfer T}
    (h : _Read ops fuel s n = some r) :
    config r.sock = config (s.GetPushback n false).sock ∧
      ∃ d, r.data = (s.GetPushback n false).data ++ d ∧
        r.total = (s.GetPushback n false).total + d.length ∧
        d.length ≤ n - (s.GetPushback n false).total := by
  unfold _Read at h
  simp only at h
  cases hsock : (s.GetPushback n false).sock.m_socket with
  | none =>
    simp only [hsock, Option.some.injEq] at h
    subst h
    exact ⟨rfl, [], by simp, by simp, by simp⟩
  | some t =>
    simp only [hsock] at h
    split_ifs at h with h0 hnw
    · simp only [Option.some.injEq] at h
      subst h
      exact ⟨rfl, [], by simp, by simp, by simp⟩
    · cases hret : (ops.Read (ops.SetNonBlocking t true) (n - (s.GetPushback n false).total)).1 with
      | none =>
        simp only [hret, Option.some.injEq] at h
        subst h
        exact ⟨rfl, [], by simp, by simp, by simp⟩
      | some d =>
        have hdn := ops.Read_le _ _ d hret
        simp only [hret] at h
        split_ifs at h with hd
        · simp only [Option.some.injEq] at h
          subst h
          exact ⟨rfl, d, rfl, rfl, hdn⟩
        · simp only [Option.some.injEq] at h
          subst h
          exact ⟨rfl, [], by simp, by simp, by simp⟩
    · exact _Read_loop_spec ops _ _ _ _ _ _ h

/-- In a reachable state `_Read` returns as many bytes as it counts, at most `n`, the
unconsumed pushback bytes first, and hands back a reachable state with the flags unchanged. -/
theorem _Read_ok (ops : GSocket T) {fuel : Nat} {s : wxSocketBase T} {n : Nat} {r : Xfer T}
    (hs : PushbackOk s) (h : _Read ops fuel s n = some r) :
    r.data.length = r.total ∧ r.total ≤ n ∧ PushbackOk r.sock ∧ r.sock.m_flags = s.m_flags ∧
      unconsumed r.sock = (unconsumed s).drop n ∧
      ∃ d, r.data = (unconsumed s).take n ++ d ∧ (d ≠ [] → (unconsumed s).length < n) := by
  obtain ⟨hc, d, hd1, hd2, hd3⟩ := _Read_spec ops h
  obtain ⟨g1, g2, g3, g4, -, g6⟩ := GetPushback_spec n hs
  rw [g1] at hd1
  rw [g2] at hd2 hd3
  refine ⟨?_, ?_, PushbackOk_congr hc g4, ?_, ?_, d, hd1, ?_⟩
  · rw [hd1, hd2]; simp
  · rw [hd2]; omega
  · rw [(config_fields hc).1, g6]
  · rw [unconsumed_congr hc, g3]
  · intro hne
    have : 0 < d.length := List.length_pos.mpr hne
    omega


theorem append_split {α : Type} {xs rest d w : List α} (h : xs ++ rest = d ++ w)
    (hd : d.length ≤ xs.length) : d = xs.take d.length ∧ w = xs.drop d.length ++ rest := by
  have h1 := congrArg (List.take d.length) h
  have h2 := congrArg (List.drop d.length) h
  rw [List.take_append_of_le_length hd, List.take_left'] at h1
  rw [List.drop_append_of_le_length hd, List.drop_left'] at h2
  exact ⟨h1.symm, h2.symm⟩
  all_goals rfl

/-- On a lossless transport the retry loop of `_Read` under WAITALL collects exactly the next
`n` bytes in flight, however the transport chops them up. -/
theorem _Read_loop_lossless {ops : GSocket T} {wire : T → List Byte} (hl : Lossless ops wire) :
    ∀ (fuel : Nat) (s : wxSocketBase T) (t : T) (xs rest : List Byte) (total : Nat)
      (data : List Byte),
      s.m_socket = some t → wire t = xs ++ rest → 0 < xs.length → xs.length + 1 ≤ fuel →
      s.m_flags &&& wxSOCKET_WAITALL ≠ 0 →
      ∃ s' t', _Read_loop ops fuel s xs.length total data
          = some ⟨total + xs.length, data ++ xs, s'⟩ ∧
        config s' = config s ∧ s'.m_socket = some t' ∧ wire t' = rest := by
  intro fuel
  induction fuel with
  | zero => intro s t xs rest total data _ _ _ h; omega
  | succ fuel ih =>
    intro s t xs rest total data hs hw hpos hfuel hwa
    have hxs : xs ≠ [] := List.length_pos.mp hpos
    -- the wait
    have hwait : ∃ s1 t1, (if s.m_flags &&& wxSOCKET_BLOCK = 0 then WaitForRead ops fuel s (-1) 0
        else some (true, s)) = some (true, s1) ∧ config s1 = config s ∧
        s1.m_socket = some t1 ∧ wire t1 = wire t := by
      obtain ⟨f, rfl⟩ : ∃ f, fuel = f + 1 := ⟨fuel - 1, by omega⟩
      split_ifs
      · exact WaitForRead_lossless hl f s t hs (by rw [hw]; simp [hxs])
      · exact ⟨s, t, rfl, rfl, hs, rfl⟩
    obtain ⟨s1, t1, hw1, hc1, hs1, hwire1⟩ := hwait
    -- the transport read
    obtain ⟨d, hret, hdne, hsplit⟩ := hl.read t1 xs.length hpos (by rw [hwire1, hw]; simp [hxs])
    have hdn := ops.Read_le t1 _ d hret
    have hdpos : 0 < d.length := List.length_pos.mpr hdne
    rw [hwire1, hw] at hsplit
    obtain ⟨hd1, hd2⟩ := append_split hsplit hdn
    have hflags : s1.m_flags = s.m_flags := (config_fields hc1).1
    simp only [_Read_loop, hw1, hs1, hret]
    rw [if_pos hdpos]
    by_cases hmore : xs.length - d.length > 0
    · rw [if_pos ⟨hmore, by simpa [hflags] using hwa⟩]
      obtain ⟨s', t', h', hc', hs', hwire'⟩ := ih { s1 with m_socket := some (ops.Read t1 xs.length).2 }
        (ops.Read t1 xs.length).2 (xs.drop d.length) rest (total + d.length) (data ++ d)
        rfl hd2 (by simp; omega) (by simp; omega) (by simpa [hflags] using hwa)
      refine ⟨s', t', ?_, hc'.trans hc1, hs', hwire'⟩
      simp only [List.length_drop] at h'
      rw [h']
      congr 2
      · omega
      · rw [List.append_assoc]
        congr 1
        conv_rhs => rw [← List.take_append_drop d.length xs, ← hd1]
    · rw [if_neg (by intro hh; exact hmore hh.1)]
      have hlen : d.length = xs.length := by omega
      have hdx : d = xs := by rw [hd1, hlen, List.take_length]
      refine ⟨{ s1 with m_socket := some (ops.Read t1 xs.length).2 }, (ops.Read t1 xs.length).2,
        ?_, hc1, rfl, ?_⟩
      · rw [hdx]
      · rw [hd2, hlen]; simp

/-- On a lossless transport, with WAITALL set and NOWAIT clear, `_Read` of `n` bytes returns
exactly the next `n` bytes of the inbound stream (the unconsumed pushback bytes followed by
the bytes in flight) and leaves the rest of the stream in place. -/
theorem _Read_lossless {ops : GSocket T} {wire : T → List Byte} (hl : Lossless ops wire)
    (fuel : Nat) {s : wxSocketBase T} {t : T} {xs rest : List Byte} {n : Nat}
    (hok : PushbackOk s) (hs : s.m_socket = some t)
    (hstream : unconsumed s ++ wire t = xs ++ rest) (hn : xs.length = n) (hfuel : n + 1 ≤ fuel)
    (hwa : s.m_flags &&& wxSOCKET_WAITALL ≠ 0) (hnw : s.m_flags &&& wxSOCKET_NOWAIT = 0) :
    ∃ s' t', _Read ops fuel s n = some ⟨n, xs, s'⟩ ∧
      PushbackOk s' ∧ s'.m_flags = s.m_flags ∧ s'.m_socket = some t' ∧
      unconsumed s' ++ wire t' = rest := by
  subst hn
  obtain ⟨g1, g2, g3, g4, g5, g6⟩ := GetPushback_spec xs.length hok
  unfold _Read
  simp only [g5, hs]
  by_cases h0 : xs.length - (s.GetPushback xs.length false).total = 0
  · rw [if_pos h0]
    rw [g2] at h0
    have hle : xs.length ≤ (unconsumed s).length := by omega
    obtain ⟨e1, e2⟩ := append_split hstream hle
    refine ⟨_, t, ?_, g4, g6, by rw [g5, hs], ?_⟩
    · rw [g1, g2, ← e1]; simp [hle]
    · rw [g3, e2]
  · rw [if_neg h0, if_neg (by rw [g6]; simpa using hnw)]
    rw [g2] at h0
    have hlt : (unconsumed s).length < xs.length := by omega
    obtain ⟨e1, e2⟩ := append_split hstream.symm (Nat.le_of_lt hlt)
    have hu : unconsumed (s.GetPushback xs.length false).sock = [] := by
      rw [g3]; apply List.drop_of_length_le; omega
    obtain ⟨s', t', h', hc', hs', hwire'⟩ := _Read_loop_lossless hl fuel
      (s.GetPushback xs.length false).sock t (xs.drop (unconsumed s).length) rest
      (s.GetPushback xs.length false).total (s.GetPushback xs.length false).data
      (by rw [g5, hs]) e2 (by simp; omega) (by simp; omega) (by rw [g6]; exact hwa)
    refine ⟨s', t', ?_, PushbackOk_congr hc' g4, by rw [(config_fields hc').1, g6], hs', ?_⟩
    · simp only [List.length_drop] at h'
      rw [g2] at h' ⊢
      have hmin : min xs.length (unconsumed s).length = (unconsumed s).length := by omega
      rw [hmin] at h' ⊢
      rw [h']
      congr 2
      · omega
      · rw [g1, List.take_of_length_le (Nat.le_of_lt hlt)]
        conv_rhs => rw [← List.take_append_drop (unconsumed s).length xs, ← e1]
    · rw [unconsumed_congr hc', hu, hwire']; rfl

end wxSocketBase
end wxSocket

/-! ## Header encoding and `ReadMsg` on a lossless stream -/

open wxSocket wxSocket.wxSocketBase

namespace wxSocket
variable {T : Type}

theorem decode32_header_sig (n : Nat) : decode32 (msgHeader n) 0 = 0xfeeddead := by
  simp only [decode32, msgHeader, List.getD_cons_succ, List.getD_cons_zero]
  rfl

theorem decode32_trailer_sig : decode32 msgTrailer 0 = 0xdeadfeed := by
  decide

theorem msgHeader_length (n : Nat) : (msgHeader n).length = 8 := rfl

theorem msgTrailer_length : msgTrailer.length = 8 := rfl

/-- The four length bytes of the header are `n` in little-endian order. -/
theorem msgHeader_bytes (n : Nat) :
    msgHeader n = [0xad, 0xde, 0xed, 0xfe, n % 256, n / 256 % 256, n / 65536 % 256,
      n / 16777216 % 256] := by
  have e : (0xff : Nat) = 2 ^ 8 - 1 := by norm_num
  simp only [msgHeader, e, Nat.and_pow_two_sub_one_eq_mod, Nat.shiftRight_eq_div_pow]
  norm_num

/-- Decoding the length field of a header gives back the length that was encoded. -/
theorem decode32_header_len (n : Nat) (hn : n < 2 ^ 32) : decode32 (msgHeader n) 4 = n := by
  rw [msgHeader_bytes]
  simp only [decode32, List.getD_cons_succ, List.getD_cons_zero, Nat.shiftLeft_eq]
  have h0 : n % 256 < 2 ^ 8 := by omega
  have h1 : n / 256 % 256 < 2 ^ 8 := by omega
  have h2 : n / 65536 % 256 < 2 ^ 8 := by omega
  have h3 : n / 16777216 % 256 < 2 ^ 8 := by omega
  have m0 : n % 256 % 2 ^ 32 = n % 256 := by omega
  have m1 : n / 256 % 256 * 2 ^ 8 % 2 ^ 32 = 2 ^ 8 * (n / 256 % 256) := by omega
  have m2 : n / 65536 % 256 * 2 ^ 16 % 2 ^ 32 = 2 ^ 16 * (n / 65536 % 256) := by omega
  have m3 : n / 16777216 % 256 * 2 ^ 24 % 2 ^ 32 = 2 ^ 24 * (n / 16777216 % 256) := by omega
  rw [m0, m1, m2, m3]
  rw [Nat.lor_comm (n % 256), ← Nat.mul_add_lt_is_or h0]
  rw [Nat.lor_comm _ (2 ^ 16 * _), ← Nat.mul_add_lt_is_or (by omega)]
  rw [Nat.lor_comm _ (2 ^ 24 * _), ← Nat.mul_add_lt_is_or (by omega)]
  omega


namespace wxSocketBase

/-- On a lossless transport the discard loop of `ReadMsg` removes exactly the `n` overflow
bytes from the inbound stream and ends with nothing left to discard. -/
theorem ReadMsg_discard_lossless {ops : GSocket T} {wire : T → List Byte}
    (hl : Lossless ops wire) :
    ∀ (fuel : Nat) (s : wxSocketBase T) (t : T) (xs rest : List Byte) (n : Nat),
      PushbackOk s → s.m_socket = some t → unconsumed s ++ wire t = xs ++ rest →
      xs.length = n → 0 < n → n + 2 ≤ fuel →
      s.m_flags &&& wxSOCKET_WAITALL ≠ 0 → s.m_flags &&& wxSOCKET_NOWAIT = 0 →
      ∃ s' t', ReadMsg_discard ops fuel s n = some (0, s') ∧ PushbackOk s' ∧
        s'.m_flags = s.m_flags ∧ s'.m_socket = some t' ∧ unconsumed s' ++ wire t' = rest := by
  intro fuel
  induction fuel with
  | zero => intros; omega
  | succ fuel ih =>
    intro s t xs rest n hok hs hstream hn hpos hfuel hwa hnw
    obtain ⟨dl, hdl⟩ : ∃ dl, dl = if n > MAX_DISCARD_SIZE then MAX_DISCARD_SIZE else n := ⟨_, rfl⟩
    have hdl1 : 0 < dl ∧ dl ≤ n := by
      rw [hdl]; simp only [MAX_DISCARD_SIZE]; split_ifs <;> omega
    have hst : unconsumed s ++ wire t = xs.take dl ++ (xs.drop dl ++ rest) := by
      rw [← List.append_assoc, List.take_append_drop]; exact hstream
    obtain ⟨s1, t1, h1, hok1, hf1, hs1, hst1⟩ :=
      _Read_lossless (n := dl) hl fuel hok hs hst (by rw [List.length_take]; omega)
        (by omega) hwa hnw
    simp only [ReadMsg_discard, ← hdl, h1]
    by_cases hmore : n - dl ≠ 0
    · rw [if_pos ⟨hdl1.1, hmore⟩]
      obtain ⟨s', t', h', hok', hf', hs', hst'⟩ := ih s1 t1 (xs.drop dl) rest (n - dl) hok1 hs1
        hst1 (by rw [List.length_drop]; omega) (by omega) (by omega) (by rw [hf1]; exact hwa)
        (by rw [hf1]; exact hnw)
      exact ⟨s', t', h', hok', by rw [hf', hf1], hs', hst'⟩
    · rw [if_neg (by intro hh; exact hmore hh.2)]
      have h0 : n - dl = 0 := by omega
      refine ⟨s1, t1, by rw [h0], hok1, hf1, hs1, ?_⟩
      rw [hst1, List.drop_of_length_le (by omega)]; rfl

/-- On a lossless transport whose inbound stream starts with the frame of `P`, the part of
`ReadMsg` after the flag override reaches `exit` with `error = false`, having stored the
first `min P.length nbytes` payload bytes and consumed the whole frame. -/
theorem ReadMsg_body_lossless {ops : GSocket T} {wire : T → List Byte} (hl : Lossless ops wire)
    {fuel : Nat} {s : wxSocketBase T} {t : T} (P rest buffer : List Byte) (nbytes : Nat)
    (hok : PushbackOk s) (hs : s.m_socket = some t)
    (hstream : unconsumed s ++ wire t = msgFrame P ++ rest)
    (hP : P.length < 2 ^ 32) (hfuel : P.length + 9 ≤ fuel)
    (hwa : s.m_flags &&& wxSOCKET_WAITALL ≠ 0) (hnw : s.m_flags &&& wxSOCKET_NOWAIT = 0) :
    ∃ s' t', ReadMsg_body ops fuel s buffer nbytes
        = some ⟨false, min P.length nbytes, store buffer (P.take nbytes), s'⟩ ∧
      PushbackOk s' ∧ s'.m_flags = s.m_flags ∧ s'.m_socket = some t' ∧
      unconsumed s' ++ wire t' = rest := by
  -- header
  have hst0 : unconsumed s ++ wire t = msgHeader P.length ++ (P ++ (msgTrailer ++ rest)) := by
    rw [hstream]; simp [msgFrame]
  obtain ⟨s1, t1, h1, hok1, hf1, hs1, hst1⟩ :=
    _Read_lossless hl fuel hok hs hst0 (msgHeader_length _) (by omega) hwa hnw
  -- payload
  obtain ⟨len, hlen⟩ : ∃ len, len = if P.length > nbytes then nbytes else P.length := ⟨_, rfl⟩
  obtain ⟨len2, hlen2⟩ : ∃ len2, len2 = if P.length > nbytes then P.length - nbytes else 0 :=
    ⟨_, rfl⟩
  have hlen' : len = min P.length nbytes ∧ len2 = P.length - len := by
    rw [hlen, hlen2]; split_ifs <;> omega
  have htake : P.take nbytes = P.take len := by
    rw [hlen'.1, Nat.min_comm, List.take_eq_take]
    simp
  have hpay : ∃ s2 t2, (if len ≠ 0 then _Read ops fuel s1 len else some ⟨0, [], s1⟩)
      = some ⟨len, P.take len, s2⟩ ∧ PushbackOk s2 ∧ s2.m_flags = s1.m_flags ∧
      s2.m_socket = some t2 ∧ unconsumed s2 ++ wire t2 = P.drop len ++ (msgTrailer ++ rest) := by
    by_cases h0 : len = 0
    · refine ⟨s1, t1, by simp [h0], hok1, rfl, hs1, ?_⟩
      rw [hst1, h0]; rfl
    · rw [if_pos h0]
      have hst1' : unconsumed s1 ++ wire t1 = P.take len ++ (P.drop len ++ (msgTrailer ++ rest)) := by
        rw [hst1]
        conv_rhs => rw [← List.append_assoc, List.take_append_drop]
      exact _Read_lossless (n := len) hl fuel hok1 hs1 hst1' (by rw [List.length_take]; omega)
        (by omega) (by rw [hf1]; exact hwa) (by rw [hf1]; exact hnw)
  obtain ⟨s2, t2, h2, hok2, hf2, hs2, hst2⟩ := hpay
  -- overflow
  have hdis : ∃ s3 t3, (if len2 ≠ 0 then ReadMsg_discard ops fuel s2 len2 else some (0, s2))
      = some (0, s3) ∧ PushbackOk s3 ∧ s3.m_flags = s2.m_flags ∧
      s3.m_socket = some t3 ∧ unconsumed s3 ++ wire t3 = msgTrailer ++ rest := by
    by_cases h0 : len2 = 0
    · refine ⟨s2, t2, by simp [h0], hok2, rfl, hs2, ?_⟩
      rw [hst2, List.drop_of_length_le (by omega)]; rfl
    · rw [if_pos h0]
      exact ReadMsg_discard_lossless hl fuel s2 t2 (P.drop len) (msgTrailer ++ rest) len2 hok2 hs2
        hst2 (by rw [List.length_drop]; omega) (by omega) (by omega) (by rw [hf2, hf1]; exact hwa)
        (by rw [hf2, hf1]; exact hnw)
  obtain ⟨s3, t3, h3, hok3, hf3, hs3, hst3⟩ := hdis
  -- trailer
  obtain ⟨s4, t4, h4, hok4, hf4, hs4, hst4⟩ :=
    _Read_lossless hl fuel hok3 hs3 hst3 msgTrailer_length (by omega)
      (by rw [hf3, hf2, hf1]; exact hwa) (by rw [hf3, hf2, hf1]; exact hnw)
  refine ⟨s4, t4, ?_, hok4, by rw [hf4, hf3, hf2, hf1], hs4, hst4⟩
  unfold ReadMsg_body
  simp only [h1, decode32_header_sig, decode32_header_len _ hP, ← hlen, ← hlen2, h2, h3, h4,
    decode32_trailer_sig, ne_eq, not_true_eq_false, if_false, List.length_take]
  rw [htake, hlen'.1]

end wxSocketBase
end wxSocket

/-! ## The transfer primitive `_Write` and `WriteMsg` on a lossless transport -/

open wxSocket wxSocket.wxSocketBase

namespace wxSocket
namespace wxSocketBase
variable {T : Type}

/-- Whatever the transport does, `WaitForWrite` leaves every field outside `config` alone
and keeps the handle. -/
theorem WaitForWrite_frame (ops : GSocket T) {α : Type} (obs : T → α)
    (hSel : ∀ t f, obs (ops.Select t f).2 = obs t)
    (hST : ∀ t ms, obs (ops.SetTimeout t ms) = obs t)
    (hPE : ∀ t, obs (ops.PROCESS_EVENTS t).2 = obs t)
    {fuel : Nat} {s s' : wxSocketBase T} {seconds milliseconds : Int} {b : Bool}
    (h : WaitForWrite ops fuel s seconds milliseconds = some (b, s')) :
    config s' = config s ∧
      (∀ t, s.m_socket = some t → ∃ t', s'.m_socket = some t' ∧ obs t' = obs t) ∧
      (s.m_socket = none → s'.m_socket = none) :=
  _Wait_frame ops obs hSel hST hPE h

/-- Whatever the transport does, the retry loop of `_Write` counts what the transport
accepted, never more than it offered, stores nothing and leaves every field outside
`config` alone; a recording transport has then accepted exactly the first `k` bytes of the
buffer. -/
theorem _Write_loop_spec (ops : GSocket T) (sent : T → List Byte) (hrec : Recording ops sent) :
    ∀ (fuel : Nat) (s : wxSocketBase T) (buffer : List Byte) (n total : Nat) (r : Xfer T) (t : T),
      s.m_socket = some t → _Write_loop ops fuel s buffer n total = some r →
      config r.sock = config s ∧ r.data = [] ∧
        ∃ k t', r.total = total + k ∧ k ≤ n ∧ r.sock.m_socket = some t' ∧
          sent t' = sent t ++ buffer.take k := by
  intro fuel
  induction fuel with
  | zero => intro s buffer n total r t _ h; simp [_Write_loop] at h
  | succ fuel ih =>
    intro s buffer n total r t hs h
    simp only [_Write_loop] at h
    generalize hwq : (if s.m_flags &&& wxSOCKET_BLOCK = 0 then WaitForWrite ops fuel s (-1) 0
      else some (true, s)) = waited at h
    have hcfg : ∀ b s1, waited = some (b, s1) → config s1 = config s ∧
        ∃ t1, s1.m_socket = some t1 ∧ sent t1 = sent t := by
      intro b s1 hw
      rw [← hwq] at hw
      split_ifs at hw
      · obtain ⟨e1, e2, -⟩ := WaitForWrite_frame ops sent hrec.select_sent hrec.setTimeout_sent
          hrec.processEvents_sent hw
        exact ⟨e1, e2 t hs⟩
      · simp only [Option.some.injEq, Prod.mk.injEq] at hw
        rw [← hw.2]
        exact ⟨rfl, t, hs, rfl⟩
    rcases waited with _ | ⟨b, s1⟩
    · simp at h
    · obtain ⟨hc, t1, hs1, hsent1⟩ := hcfg _ _ rfl
      cases b
      · simp only [Option.some.injEq] at h
        subst h
        exact ⟨hc, rfl, 0, t1, by simp, by simp, hs1, by simp [hsent1]⟩
      · simp only [hs1] at h
        cases hret : (ops.Write t1 (buffer.take n)).1 with
        | none =>
          simp only [hret, Option.some.injEq] at h
          subst h
          exact ⟨hc, rfl, 0, _, by simp, by simp, rfl, by simp [hrec.write_none _ _ hret, hsent1]⟩
        | some k =>
          have hkn := ops.Write_le t1 _ k hret
          have hk' : k ≤ n := le_trans hkn (by simp)
          have hsent2 := hrec.write_some _ _ _ hret
          rw [List.take_take, Nat.min_eq_left hk', hsent1] at hsent2
          simp only [hret] at h
          split_ifs at h with hd hmore
          · obtain ⟨e1, e2, k', t', e3, e4, e5, e6⟩ := ih _ _ _ _ _ _ rfl h
            refine ⟨e1.trans hc, e2, k + k', t', by rw [e3]; omega, by omega, e5, ?_⟩
            rw [e6, hsent2, List.take_add, List.append_assoc]
          · simp only [Option.some.injEq] at h
            subst h
            exact ⟨hc, rfl, k, _, rfl, hk', rfl, hsent2⟩
          · simp only [Option.some.injEq] at h
            subst h
            have hk0 : k = 0 := by omega
            subst hk0
            exact ⟨hc, rfl, 0, _, by simp, by simp, rfl, by simpa using hsent2⟩


/-- Whatever the transport does, the retry loop of `_Write` only adds to the count, by at
most the number of bytes it was asked to write, stores nothing and leaves every field
outside `config` alone. -/
theorem _Write_loop_frame (ops : GSocket T) :
    ∀ (fuel : Nat) (s : wxSocketBase T) (buffer : List Byte) (n total : Nat) (r : Xfer T),
      _Write_loop ops fuel s buffer n total = some r →
      config r.sock = config s ∧ r.data = [] ∧ total ≤ r.total ∧ r.total ≤ total + n := by
  intro fuel
  induction fuel with
  | zero => intro s buffer n total r h; simp [_Write_loop] at h
  | succ fuel ih =>
    intro s buffer n total r h
    simp only [_Write_loop] at h
    generalize hwq : (if s.m_flags &&& wxSOCKET_BLOCK = 0 then WaitForWrite ops fuel s (-1) 0
      else some (true, s)) = waited at h
    have hcfg : ∀ b s1, waited = some (b, s1) → config s1 = config s := by
      intro b s1 hw
      rw [← hwq] at hw
      split_ifs at hw
      · exact (WaitForWrite_frame ops (fun _ => ()) (fun _ _ => rfl) (fun _ _ => rfl)
          (fun _ => rfl) hw).1
      · simp only [Option.some.injEq, Prod.mk.injEq] at hw
        rw [← hw.2]
    rcases waited with _ | ⟨b, s1⟩
    · simp at h
    · have hc := hcfg _ _ rfl
      cases b
      · simp only [Option.some.injEq] at h
        subst h
        exact ⟨hc, rfl, le_refl _, by simp⟩
      · simp only at h
        cases hs1 : s1.m_socket with
        | none => simp [hs1] at h
        | some t1 =>
          simp only [hs1] at h
          cases hret : (ops.Write t1 (buffer.take n)).1 with
          | none =>
            simp only [hret, Option.some.injEq] at h
            subst h
            exact ⟨hc, rfl, le_refl _, by simp⟩
          | some k =>
            have hkn := ops.Write_le t1 _ k hret
            have hk' : k ≤ n := le_trans hkn (by simp)
            simp only [hret] at h
            split_ifs at h with hd hmore
            · obtain ⟨e1, e2, e3, e4⟩ := ih _ _ _ _ _ h
              exact ⟨e1.trans hc, e2, by omega, by omega⟩
            · simp only [Option.some.injEq] at h
              subst h
              exact ⟨hc, rfl, by simp, by simp; omega⟩
            · simp only [Option.some.injEq] at h
              subst h
              exact ⟨hc, rfl, le_refl _, by simp⟩

/-- Whatever the transport does, `_Write` returns a count of at most `n`, stores nothing and
leaves every field outside `config` alone. -/
theorem _Write_frame (ops : GSocket T) {fuel : Nat} {s : wxSocketBase T}
    {buffer : Option (List Byte)} {n : Nat} {r : Xfer T}
    (h : _Write ops fuel s buffer n = some r) :
    config r.sock = config s ∧ r.data = [] ∧ r.total ≤ n := by
  unfold _Write at h
  split at h
  · simp only [Option.some.injEq] at h; subst h; exact ⟨rfl, rfl, by simp⟩
  · simp only [Option.some.injEq] at h; subst h; exact ⟨rfl, rfl, by simp⟩
  · rename_i t buf hs
    split_ifs at h with h0 hnw
    · simp only [Option.some.injEq] at h; subst h; exact ⟨rfl, rfl, by simp⟩
    · cases hret : (ops.Write (ops.SetNonBlocking t true) (buf.take n)).1 with
      | none =>
        simp only [hret, Option.some.injEq] at h
        subst h
        exact ⟨rfl, rfl, by simp⟩
      | some k =>
        have hkn := ops.Write_le _ _ k hret
        have hk' : k ≤ n := le_trans hkn (by simp)
        simp only [hret] at h
        split_ifs at h
        · simp only [Option.some.injEq] at h; subst h; exact ⟨rfl, rfl, hk'⟩
        · simp only [Option.some.injEq] at h; subst h; exact ⟨rfl, rfl, by simp⟩
    · obtain ⟨e1, e2, -, e4⟩ := _Write_loop_frame ops _ _ _ _ _ _ h
      exact ⟨e1, e2, by omega⟩

/-- A recording transport has accepted, after `_Write`, exactly the first `total` bytes of
the buffer, where `total` is the count `_Write` returns. -/
theorem _Write_sent (ops : GSocket T) (sent : T → List Byte) (hrec : Recording ops sent)
    {fuel : Nat} {s : wxSocketBase T} {t : T} {buffer : List Byte} {n : Nat} {r : Xfer T}
    (hs : s.m_socket = some t) (h : _Write ops fuel s (some buffer) n = some r) :
    ∃ t', r.sock.m_socket = some t' ∧ sent t' = sent t ++ buffer.take r.total := by
  unfold _Write at h
  simp only [hs] at h
  split_ifs at h with h0 hnw
  · simp only [Option.some.injEq] at h; subst h; exact ⟨t, hs, by simp⟩
  · cases hret : (ops.Write (ops.SetNonBlocking t true) (buffer.take n)).1 with
    | none =>
      simp only [hret, Option.some.injEq] at h
      subst h
      exact ⟨_, rfl, by
        simp [hrec.setNonBlocking_sent, hrec.write_none _ _ hret]⟩
    | some k =>
      have hkn := ops.Write_le _ _ k hret
      have hk' : k ≤ n := le_trans hkn (by simp)
      have hsent2 := hrec.write_some _ _ _ hret
      rw [List.take_take, Nat.min_eq_left hk', hrec.setNonBlocking_sent] at hsent2
      simp only [hret] at h
      split_ifs at h with hk
      · simp only [Option.some.injEq] at h; subst h
        exact ⟨_, rfl, by simp [hrec.setNonBlocking_sent, hsent2]⟩
      · simp only [Option.some.injEq] at h; subst h
        have hk0 : k = 0 := by omega
        subst hk0
        exact ⟨_, rfl, by simpa [hrec.setNonBlocking_sent] using hsent2⟩
  · obtain ⟨-, -, k, t', e3, -, e5, e6⟩ := _Write_loop_spec ops sent hrec _ _ _ _ _ _ _ hs h
    refine ⟨t', e5, ?_⟩
    rw [e6, e3]; simp


/-- On a lossless transport the retry loop of `_Write` under WAITALL puts all `n` bytes in
flight, in order, however the transport chops them up. -/
theorem _Write_loop_lossless {ops : GSocket T} {wire : T → List Byte} (hl : Lossless ops wire) :
    ∀ (fuel : Nat) (s : wxSocketBase T) (t : T) (buffer : List Byte) (n total : Nat),
      s.m_socket = some t → 0 < n → n ≤ buffer.length → n + 1 ≤ fuel →
      s.m_flags &&& wxSOCKET_WAITALL ≠ 0 →
      ∃ s' t', _Write_loop ops fuel s buffer n total = some ⟨total + n, [], s'⟩ ∧
        config s' = config s ∧ s'.m_socket = some t' ∧ wire t' = wire t ++ buffer.take n := by
  intro fuel
  induction fuel with
  | zero => intro s t buffer n total _ _ _ h; omega
  | succ fuel ih =>
    intro s t buffer n total hs hpos hlen hfuel hwa
    have hwait : ∃ s1 t1, (if s.m_flags &&& wxSOCKET_BLOCK = 0 then WaitForWrite ops fuel s (-1) 0
        else some (true, s)) = some (true, s1) ∧ config s1 = config s ∧
        s1.m_socket = some t1 ∧ wire t1 = wire t := by
      obtain ⟨f, rfl⟩ : ∃ f, fuel = f + 1 := ⟨fuel - 1, by omega⟩
      split_ifs
      · exact WaitForWrite_lossless hl f s t hs
      · exact ⟨s, t, rfl, rfl, hs, rfl⟩
    obtain ⟨s1, t1, hw1, hc1, hs1, hwire1⟩ := hwait
    have hne : buffer.take n ≠ [] := by
      intro h0
      have := congrArg List.length h0
      simp only [List.length_take, List.length_nil] at this
      omega
    obtain ⟨k, hret, hkpos, hwire2⟩ := hl.write t1 (buffer.take n) hne
    have hkn := ops.Write_le t1 _ k hret
    have hk' : k ≤ n := le_trans hkn (by simp)
    rw [List.take_take, Nat.min_eq_left hk', hwire1] at hwire2
    have hflags : s1.m_flags = s.m_flags := (config_fields hc1).1
    simp only [_Write_loop, hw1, hs1, hret]
    rw [if_pos hkpos]
    by_cases hmore : n - k > 0
    · rw [if_pos ⟨hmore, by simpa [hflags] using hwa⟩]
      obtain ⟨s', t', h', hc', hs', hwire'⟩ := ih
        { s1 with m_socket := some (ops.Write t1 (buffer.take n)).2 }
        (ops.Write t1 (buffer.take n)).2 (buffer.drop k) (n - k) (total + k)
        rfl hmore (by rw [List.length_drop]; omega) (by omega) (by simpa [hflags] using hwa)
      refine ⟨s', t', ?_, hc'.trans hc1, hs', ?_⟩
      · rw [h']
        congr 2
        omega
      · rw [hwire', hwire2, List.append_assoc, ← List.take_add]
        congr 2
        omega
    · rw [if_neg (by intro hh; exact hmore hh.1)]
      have hkeq : k = n := by omega
      refine ⟨{ s1 with m_socket := some (ops.Write t1 (buffer.take n)).2 },
        (ops.Write t1 (buffer.take n)).2, by rw [hkeq], hc1, rfl, by rw [hwire2, hkeq]⟩

/-- On a lossless transport, with WAITALL set and NOWAIT clear, `_Write` of the first `n`
bytes of a buffer puts exactly those bytes in flight and returns `n`. -/
theorem _Write_lossless {ops : GSocket T} {wire : T → List Byte} (hl : Lossless ops wire)
    (fuel : Nat) {s : wxSocketBase T} {t : T} (buffer : List Byte) (n : Nat)
    (hs : s.m_socket = some t) (hlen : n ≤ buffer.length) (hfuel : n + 1 ≤ fuel)
    (hwa : s.m_flags &&& wxSOCKET_WAITALL ≠ 0) (hnw : s.m_flags &&& wxSOCKET_NOWAIT = 0) :
    ∃ s' t', _Write ops fuel s (some buffer) n = some ⟨n, [], s'⟩ ∧
      config s' = config s ∧ s'.m_socket = some t' ∧ wire t' = wire t ++ buffer.take n := by
  unfold _Write
  simp only [hs]
  by_cases h0 : n = 0
  · subst h0
    exact ⟨s, t, by simp, rfl, hs, by simp⟩
  · rw [if_neg h0, if_neg (by simpa using hnw)]
    obtain ⟨s', t', h', hc', hs', hwire'⟩ := _Write_loop_lossless hl fuel s t buffer n 0 hs
      (by omega) hlen hfuel hwa
    exact ⟨s', t', by simpa using h', hc', hs', hwire'⟩

/-- On a lossless transport `WriteMsg` of a payload `P` succeeds and puts exactly the frame
of `P` in flight. -/
theorem WriteMsg_lossless {ops : GSocket T} {wire : T → List Byte} (hl : Lossless ops wire)
    {fuel : Nat} {s : wxSocketBase T} {t : T} (P : List Byte)
    (hs : s.m_socket = some t) (hfuel : P.length + 9 ≤ fuel) :
    ∃ s' t', WriteMsg ops fuel s (some P) P.length = some s' ∧ s'.m_error = false ∧
      s'.m_lcount = P.length ∧ s'.m_socket = some t' ∧ wire t' = wire t ++ msgFrame P := by
  obtain ⟨s0, hs0def⟩ : ∃ s0, s0 = ({ s with m_writing := true } : wxSocketBase T).SetFlags
      ((s.m_flags &&& wxSOCKET_BLOCK) ||| wxSOCKET_WAITALL) := ⟨_, rfl⟩
  have hdef : WriteMsg ops fuel s (some P) P.length =
      match WriteMsg_body ops fuel s0 (some P) P.length with
      | none => none
      | some b => some { b.sock with m_error := b.error, m_lcount := b.total, m_writing := false } := by
    rw [hs0def]; rfl
  have hs0 : s0.m_socket = some t := by rw [hs0def]; exact hs
  have hwa0 : s0.m_flags &&& wxSOCKET_WAITALL ≠ 0 := by rw [hs0def]; exact msgFlags_waitall _
  have hnw0 : s0.m_flags &&& wxSOCKET_NOWAIT = 0 := by rw [hs0def]; exact msgFlags_not_nowait _
  obtain ⟨s1, t1, h1, hc1, hs1, hw1⟩ := _Write_lossless hl fuel
    (msgHeader P.length) 8 hs0 (by simp [msgHeader_length]) (by omega) hwa0 hnw0
  have hf1 := (config_fields hc1).1
  obtain ⟨s2, t2, h2, hc2, hs2, hw2⟩ := _Write_lossless hl fuel
    P P.length hs1 (le_refl _) (by omega) (by rw [hf1]; exact hwa0) (by rw [hf1]; exact hnw0)
  have hf2 := (config_fields hc2).1
  obtain ⟨s3, t3, h3, hc3, hs3, hw3⟩ := _Write_lossless hl fuel
    msgTrailer 8 hs2 (by simp [msgTrailer_length]) (by omega)
    (by rw [hf2, hf1]; exact hwa0) (by rw [hf2, hf1]; exact hnw0)
  refine ⟨{ s3 with m_error := false, m_lcount := P.length, m_writing := false }, t3,
    ?_, ?_, ?_, ?_, ?_⟩
  · rw [hdef]; unfold WriteMsg_body; simp only [h1, h2, h3, lt_self_iff_false, if_false]
  · rfl
  · rfl
  · exact hs3
  · rw [hw3, hw2, hw1]
    have e1 : (msgHeader P.length).take 8 = msgHeader P.length := rfl
    have e2 : msgTrailer.take 8 = msgTrailer := rfl
    rw [e1, e2, List.take_length, msgFrame]
    simp only [List.append_assoc]

end wxSocketBase
end wxSocket

/-! ## The loopback pair; message round trip -/

open wxSocket wxSocket.wxSocketBase

namespace wxSocket

theorem ready_and_input (x f : Nat) :
    ((x ||| GSOCK_OUTPUT_FLAG) &&& f) &&& GSOCK_INPUT_FLAG = (x &&& f) &&& GSOCK_INPUT_FLAG := by
  apply Nat.eq_of_testBit_eq
  intro i
  simp only [GSOCK_INPUT_FLAG, GSOCK_OUTPUT_FLAG, Nat.testBit_and, Nat.testBit_or]
  rcases i with _ | _ | i <;> simp [Nat.testBit_succ]

theorem ready_and_output (x f : Nat) :
    ((x ||| GSOCK_OUTPUT_FLAG) &&& f) &&& GSOCK_OUTPUT_FLAG = f &&& GSOCK_OUTPUT_FLAG := by
  apply Nat.eq_of_testBit_eq
  intro i
  simp only [GSOCK_OUTPUT_FLAG, Nat.testBit_and, Nat.testBit_or]
  rcases i with _ | _ | i <;> simp [Nat.testBit_succ]

/-- The loopback pair delivers every written byte in order and without loss. -/
theorem loopback_lossless : Lossless loopback Loopback.wire where
  read := by
    intro t n hn hw
    refine ⟨t.wire.take (min n (t.mtu + 1)), by simp [loopback, hw], ?_, ?_⟩
    · intro h0
      have := congrArg List.length h0
      have hl : 0 < t.wire.length := List.length_pos.mpr hw
      simp only [List.length_take, List.length_nil] at this
      omega
    · simp [loopback, hw]
  write := by
    intro t d hd
    have hl : 0 < d.length := List.length_pos.mpr hd
    exact ⟨min d.length (t.mtu + 1), rfl, by omega, rfl⟩
  select_input := by
    intro t f hf hw
    simp only [loopback, hw, if_false, ready_and_input]
    simpa [GSOCK_INPUT_FLAG, Nat.and_comm] using hf
  select_output := by
    intro t f hf
    simp only [loopback, ready_and_output]
    exact hf
  select_wire := by
    intro t f
    simp only [loopback]
    split_ifs <;> rfl
  setNonBlocking_wire := fun _ _ => rfl
  setTimeout_wire := fun _ _ => rfl
  processEvents_wire := fun _ => rfl

/-- The loopback pair records in `log` exactly the bytes its writes accepted. -/
theorem loopback_recording : Recording loopback Loopback.log where
  write_some := by
    intro t d k h
    simp only [loopback, Option.some.injEq] at h
    subst h
    rfl
  write_none := by
    intro t d h
    simp [loopback] at h
  read_sent := by
    intro t n
    simp only [loopback]
    split_ifs <;> rfl
  select_sent := by
    intro t f
    simp only [loopback]
    split_ifs <;> rfl
  setNonBlocking_sent := fun _ _ => rfl
  setTimeout_sent := fun _ _ => rfl
  processEvents_sent := fun _ => rfl


namespace wxSocketBase
variable {T : Type}

/-- On a lossless transport whose inbound stream starts with the frame of `P`, `ReadMsg`
succeeds, stores the first `min P.length nbytes` payload bytes, consumes exactly the frame,
restores the flags and leaves a reachable state. -/
theorem ReadMsg_lossless {ops : GSocket T} {wire : T → List Byte} (hl : Lossless ops wire)
    {fuel : Nat} {s : wxSocketBase T} {t : T} (P rest buffer : List Byte) (nbytes : Nat)
    (hok : PushbackOk s) (hs : s.m_socket = some t)
    (hstream : unconsumed s ++ wire t = msgFrame P ++ rest)
    (hP : P.length < 2 ^ 32) (hfuel : P.length + 9 ≤ fuel) :
    ∃ r t', ReadMsg ops fuel s buffer nbytes = some r ∧
      r.buffer = store buffer (P.take nbytes) ∧ r.sock.m_error = false ∧
      r.sock.m_lcount = min P.length nbytes ∧ r.sock.m_flags = s.m_flags ∧
      PushbackOk r.sock ∧ r.sock.m_socket = some t' ∧ unconsumed r.sock ++ wire t' = rest := by
  obtain ⟨s0, hs0def⟩ : ∃ s0, s0 = ({ s with m_reading := true } : wxSocketBase T).SetFlags
      ((s.m_flags &&& wxSOCKET_BLOCK) ||| wxSOCKET_WAITALL) := ⟨_, rfl⟩
  have hdef : ReadMsg ops fuel s buffer nbytes =
      match ReadMsg_body ops fuel s0 buffer nbytes with
      | none => none
      | some b => some ⟨b.buffer,
          ({ b.sock with m_error := b.error, m_lcount := b.total, m_reading := false }
            : wxSocketBase T).SetFlags s.m_flags⟩ := by
    rw [hs0def]; rfl
  have hok0 : PushbackOk s0 := by rw [hs0def]; exact hok
  have hs0 : s0.m_socket = some t := by rw [hs0def]; exact hs
  have hu0 : unconsumed s0 = unconsumed s := by rw [hs0def]; rfl
  have hwa0 : s0.m_flags &&& wxSOCKET_WAITALL ≠ 0 := by rw [hs0def]; exact msgFlags_waitall _
  have hnw0 : s0.m_flags &&& wxSOCKET_NOWAIT = 0 := by rw [hs0def]; exact msgFlags_not_nowait _
  obtain ⟨s4, t4, hb, hok4, -, hs4, hst4⟩ := ReadMsg_body_lossless hl P rest buffer nbytes hok0
    hs0 (by rw [hu0]; exact hstream) hP hfuel hwa0 hnw0
  refine ⟨⟨store buffer (P.take nbytes),
    ({ s4 with m_error := false, m_lcount := min P.length nbytes, m_reading := false }
      : wxSocketBase T).SetFlags s.m_flags⟩, t4, ?_, rfl, rfl, rfl, rfl, hok4, hs4, hst4⟩
  rw [hdef, hb]

end wxSocketBase

/-- The frame of `P` is 16 bytes longer than `P`. -/
theorem msgFrame_length (P : List Byte) : (msgFrame P).length = P.length + 16 := by
  simp [msgFrame, msgHeader_length, msgTrailer_length]; omega

/-- C1: message round trip. Over a transport that delivers every written byte in order and
without loss, `WriteMsg(P, len P)` succeeds, and `ReadMsg(buf, capacity)` with
`len P ≤ capacity` on a socket that receives what was written (nothing else is pending on it)
then leaves `buf[0..len P) = P`, `error = false` and `LastCount = len P`. -/
theorem C1_message_round_trip {T : Type} {ops : GSocket T} {wire : T → List Byte}
    (hl : Lossless ops wire) (P buffer : List Byte) (capacity fuel : Nat)
    (sw sr : wxSocketBase T) (tw : T)
    (hsw : sw.m_socket = some tw) (hidle : wire tw = [])
    (hsr : PushbackOk sr) (hsr0 : unconsumed sr = [])
    (hcap : P.length ≤ capacity) (hP : P.length < 2 ^ 32) (hfuel : P.length + 9 ≤ fuel) :
    ∃ sw' r, WriteMsg ops fuel sw (some P) P.length = some sw' ∧ sw'.m_error = false ∧
      ReadMsg ops fuel { sr with m_socket := sw'.m_socket } buffer capacity = some r ∧
      r.buffer.take P.length = P ∧ r.sock.m_error = false ∧ r.sock.m_lcount = P.length := by
  obtain ⟨sw', tw', hw, hwe, -, hws, hwire⟩ := WriteMsg_lossless hl P hsw hfuel
  have hstream : unconsumed ({ sr with m_socket := sw'.m_socket } : wxSocketBase T) ++ wire tw'
      = msgFrame P ++ [] := by
    rw [show unconsumed ({ sr with m_socket := sw'.m_socket } : wxSocketBase T) = unconsumed sr
      from rfl, hsr0, hwire, hidle]
    simp
  obtain ⟨r, t', hr, hbuf, hre, hrl, -⟩ := ReadMsg_lossless hl
    (s := { sr with m_socket := sw'.m_socket }) P [] buffer capacity hsr hws hstream hP hfuel
  refine ⟨sw', r, hw, hwe, hr, ?_, hre, by rw [hrl]; omega⟩
  rw [hbuf, List.take_of_length_le hcap, store, List.take_left']
  rfl

/-- C1 on the loopback pair that moves at most three bytes per call: a five-byte payload
written with `WriteMsg` is read back by `ReadMsg` into a seven-byte buffer. -/
theorem C1_message_round_trip_witness :
    ∃ sw' r, WriteMsg loopback 20 (socketOn (loopbackWith [] 2) 0) (some [1, 2, 3, 4, 5]) 5
        = some sw' ∧ sw'.m_error = false ∧
      ReadMsg loopback 20 { socketOn (loopbackWith [] 0) 1 with m_socket := sw'.m_socket }
        [9, 9, 9, 9, 9, 9, 9] 7 = some r ∧
      r.buffer.take 5 = [1, 2, 3, 4, 5] ∧ r.sock.m_error = false ∧ r.sock.m_lcount = 5 :=
  C1_message_round_trip loopback_lossless [1, 2, 3, 4, 5] [9, 9, 9, 9, 9, 9, 9] 7 20
    (socketOn (loopbackWith [] 2) 0) (socketOn (loopbackWith [] 0) 1) (loopbackWith [] 2)
    rfl rfl (Or.inl ⟨rfl, rfl, rfl⟩) rfl (by decide) (by decide) (by decide)

end wxSocket

/-! ## Wire format, count and error of `WriteMsg` -/

open wxSocket wxSocket.wxSocketBase

namespace wxSocket
namespace wxSocketBase
variable {T : Type}

/-- The call `WriteMsg` is its body run under the overridden flags, followed by the assignments at
the label `exit`. -/
theorem WriteMsg_inv (ops : GSocket T) {fuel : Nat} {s s' : wxSocketBase T}
    {buffer : Option (List Byte)} {n : Nat} (h : WriteMsg ops fuel s buffer n = some s') :
    ∃ b, WriteMsg_body ops fuel
        (({ s with m_writing := true } : wxSocketBase T).SetFlags
          ((s.m_flags &&& wxSOCKET_BLOCK) ||| wxSOCKET_WAITALL)) buffer n = some b ∧
      s' = { b.sock with m_error := b.error, m_lcount := b.total, m_writing := false } := by
  have hdef : WriteMsg ops fuel s buffer n =
      match WriteMsg_body ops fuel
        (({ s with m_writing := true } : wxSocketBase T).SetFlags
          ((s.m_flags &&& wxSOCKET_BLOCK) ||| wxSOCKET_WAITALL)) buffer n with
      | none => none
      | some b => some { b.sock with m_error := b.error, m_lcount := b.total, m_writing := false } :=
    rfl
  rw [hdef] at h
  split at h
  · simp at h
  · rename_i b hb
    simp only [Option.some.injEq] at h
    exact ⟨b, hb, h.symm⟩

/-- The paths through the body of `WriteMsg`: it stops at the first of the three writes that
comes back short. -/
theorem WriteMsg_body_inv (ops : GSocket T) {fuel : Nat} {s : wxSocketBase T}
    {buffer : Option (List Byte)} {n : Nat} {b : MsgOut T}
    (h : WriteMsg_body ops fuel s buffer n = some b) :
    ∃ r1, _Write ops fuel s (some (msgHeader n)) 8 = some r1 ∧
      ((r1.total < 8 ∧ b = ⟨true, 0, [], r1.sock⟩) ∨
       (r1.total = 8 ∧ ∃ r2, _Write ops fuel r1.sock buffer n = some r2 ∧
         ((r2.total < n ∧ b = ⟨true, r2.total, [], r2.sock⟩) ∨
          (r2.total = n ∧ ∃ r3, _Write ops fuel r2.sock (some msgTrailer) 8 = some r3 ∧
            ((r3.total < 8 ∧ b = ⟨true, r2.total, [], r3.sock⟩) ∨
             (r3.total = 8 ∧ b = ⟨false, r2.total, [], r3.sock⟩)))))) := by
  unfold WriteMsg_body at h
  cases h1 : _Write ops fuel s (some (msgHeader n)) 8 with
  | none => simp [h1] at h
  | some r1 =>
    have hle1 := (_Write_frame ops h1).2.2
    simp only [h1] at h
    refine ⟨r1, rfl, ?_⟩
    split_ifs at h with c1
    · left; simp only [Option.some.injEq] at h; exact ⟨c1, h.symm⟩
    · right
      refine ⟨by omega, ?_⟩
      cases h2 : _Write ops fuel r1.sock buffer n with
      | none => simp [h2] at h
      | some r2 =>
        have hle2 := (_Write_frame ops h2).2.2
        simp only [h2] at h
        refine ⟨r2, rfl, ?_⟩
        split_ifs at h with c2
        · left; simp only [Option.some.injEq] at h; exact ⟨c2, h.symm⟩
        · right
          refine ⟨by omega, ?_⟩
          cases h3 : _Write ops fuel r2.sock (some msgTrailer) 8 with
          | none => simp [h3] at h
          | some r3 =>
            have hle3 := (_Write_frame ops h3).2.2
            simp only [h3] at h
            refine ⟨r3, rfl, ?_⟩
            split_ifs at h with c3
            · left; simp only [Option.some.injEq] at h; exact ⟨c3, h.symm⟩
            · right; simp only [Option.some.injEq] at h; exact ⟨by omega, h.symm⟩

end wxSocketBase

namespace wxSocketBase
variable {T : Type}

/-- Whatever the transport does, `WriteMsg` returns with the flag set it installed on entry:
(original `BLOCK` bit) | `WAITALL`. -/
theorem WriteMsg_flags (ops : GSocket T) {fuel : Nat} {s s' : wxSocketBase T}
    {buffer : Option (List Byte)} {n : Nat} (h : WriteMsg ops fuel s buffer n = some s') :
    s'.m_flags = (s.m_flags &&& wxSOCKET_BLOCK) ||| wxSOCKET_WAITALL := by
  obtain ⟨b, hb, rfl⟩ := WriteMsg_inv ops h
  obtain ⟨r1, h1, hcase⟩ := WriteMsg_body_inv ops hb
  have f1 := (config_fields (_Write_frame ops h1).1).1
  rcases hcase with ⟨-, rfl⟩ | ⟨-, r2, h2, hcase⟩
  · exact f1
  have f2 := (config_fields (_Write_frame ops h2).1).1
  rcases hcase with ⟨-, rfl⟩ | ⟨-, r3, h3, hcase⟩
  · exact f2.trans f1
  have f3 := (config_fields (_Write_frame ops h3).1).1
  rcases hcase with ⟨-, rfl⟩ | ⟨-, rfl⟩
  · exact f3.trans (f2.trans f1)
  · exact f3.trans (f2.trans f1)

end wxSocketBase

/-- C2: byte-exact wire format. When `WriteMsg(P, n)` with `n = len P < 2^32` reports
`error = false` (all three writes complete), the bytes the transport accepted during the
call are exactly `AD DE ED FE`, the four little-endian bytes of `n`, the `n` bytes of `P`,
and `ED FE AD DE 00 00 00 00`: `n + 16` bytes, in that order. -/
theorem C2_wire_format {T : Type} (ops : GSocket T) (sent : T → List Byte)
    (hrec : Recording ops sent) (fuel : Nat) (s s' : wxSocketBase T) (t : T) (P : List Byte)
    (hs : s.m_socket = some t) (hP : P.length < 2 ^ 32)
    (h : WriteMsg ops fuel s (some P) P.length = some s') (hok : s'.m_error = false) :
    ∃ t' wrote, s'.m_socket = some t' ∧ sent t' = sent t ++ wrote ∧
      wrote = [0xAD, 0xDE, 0xED, 0xFE, P.length % 256, P.length / 256 % 256,
          P.length / 65536 % 256, P.length / 16777216 % 256]
        ++ P ++ [0xED, 0xFE, 0xAD, 0xDE, 0, 0, 0, 0] ∧
      P.length % 256 + 256 * (P.length / 256 % 256) + 65536 * (P.length / 65536 % 256)
        + 16777216 * (P.length / 16777216 % 256) = P.length ∧
      wrote.length = P.length + 16 := by
  obtain ⟨b, hb, rfl⟩ := WriteMsg_inv ops h
  obtain ⟨r1, h1, hcase⟩ := WriteMsg_body_inv ops hb
  rcases hcase with ⟨-, rfl⟩ | ⟨e1, r2, h2, hcase⟩
  · simp at hok
  rcases hcase with ⟨-, rfl⟩ | ⟨e2, r3, h3, hcase⟩
  · simp at hok
  rcases hcase with ⟨-, rfl⟩ | ⟨e3, rfl⟩
  · simp at hok
  obtain ⟨t1, hs1, hsent1⟩ := _Write_sent ops sent hrec (t := t) (by exact hs) h1
  obtain ⟨t2, hs2, hsent2⟩ := _Write_sent ops sent hrec hs1 h2
  obtain ⟨t3, hs3, hsent3⟩ := _Write_sent ops sent hrec hs2 h3
  refine ⟨t3, _, hs3, ?_, rfl, by omega, by simp⟩
  rw [hsent3, hsent2, hsent1, e1, e2, e3, msgHeader_bytes]
  simp [msgTrailer]

/-- C2 on the loopback pair: the bytes accepted for the payload `01 02 03`. -/
theorem C2_wire_format_witness :
    ∃ t' wrote, (socketOn (loopbackWith [] 2) 0).m_socket = some (loopbackWith [] 2) ∧
      (WriteMsg loopback 20 (socketOn (loopbackWith [] 2) 0) (some [1, 2, 3]) 3).map
        (fun s' => (s'.m_error, s'.m_socket)) = some (false, some t') ∧
      t'.log = (loopbackWith [] 2).log ++ wrote ∧
      wrote = [0xAD, 0xDE, 0xED, 0xFE, 3, 0, 0, 0] ++ [1, 2, 3]
        ++ [0xED, 0xFE, 0xAD, 0xDE, 0, 0, 0, 0] := by
  have hw : ∃ s', WriteMsg loopback 20 (socketOn (loopbackWith [] 2) 0) (some [1, 2, 3]) 3
      = some s' ∧ s'.m_error = false := ⟨_, rfl, rfl⟩
  obtain ⟨s', h, hok⟩ := hw
  obtain ⟨t', wrote, hs', hsent, hwrote, -, -⟩ := C2_wire_format loopback Loopback.log
    loopback_recording 20 (socketOn (loopbackWith [] 2) 0) s' (loopbackWith [] 2) [1, 2, 3]
    rfl (by decide) h hok
  refine ⟨t', wrote, rfl, ?_, hsent, ?_⟩
  · rw [h]; simp [hok, hs']
  · rw [hwrote]; rfl

/-- C6 (the code at the failing input): a socket with flag set 0 sends the payload `01 02 03`
with `WriteMsg` over the loopback pair; the call succeeds and returns with the flag set
`WAITALL`, not with the flag set 0 it was entered with. -/
theorem C6_WriteMsg_flags_not_restored :
    (socketOn (loopbackWith [] 2) 0).m_flags = 0 ∧
      (WriteMsg loopback 20 (socketOn (loopbackWith [] 2) 0) (some [1, 2, 3]) 3).map
        (fun s' => (s'.m_error, s'.m_flags)) = some (false, wxSOCKET_WAITALL) :=
  ⟨rfl, rfl⟩

/-- The count and the error flag of `WriteMsg` in terms of the counts its three calls of
`_Write` return: a header count below 8 gives `LastCount = 0`, `error = true` and the handle
as the header write left it; otherwise `LastCount` is the count of the payload write; and
`error = false` exactly when the three counts are 8, `n` and 8. -/
theorem WriteMsg_totals {T : Type} (ops : GSocket T) (fuel : Nat)
    (s s' : wxSocketBase T) (buffer : Option (List Byte)) (n : Nat)
    (h : WriteMsg ops fuel s buffer n = some s') :
    ∃ r1, _Write ops fuel
        (({ s with m_writing := true } : wxSocketBase T).SetFlags
          ((s.m_flags &&& wxSOCKET_BLOCK) ||| wxSOCKET_WAITALL)) (some (msgHeader n)) 8 = some r1 ∧
      (r1.total < 8 → s'.m_lcount = 0 ∧ s'.m_error = true ∧ s'.m_socket = r1.sock.m_socket) ∧
      (¬ r1.total < 8 →
        ∃ r2, _Write ops fuel r1.sock buffer n = some r2 ∧ s'.m_lcount = r2.total) ∧
      (s'.m_error = false ↔
        r1.total = 8 ∧ ∃ r2, _Write ops fuel r1.sock buffer n = some r2 ∧ r2.total = n ∧
          ∃ r3, _Write ops fuel r2.sock (some msgTrailer) 8 = some r3 ∧ r3.total = 8) := by
  obtain ⟨b, hb, rfl⟩ := WriteMsg_inv ops h
  obtain ⟨r1, h1, hcase⟩ := WriteMsg_body_inv ops hb
  refine ⟨r1, h1, ?_⟩
  rcases hcase with ⟨c1, rfl⟩ | ⟨e1, r2, h2, hcase⟩
  · refine ⟨fun _ => ⟨rfl, rfl, rfl⟩, fun hn => absurd c1 hn, ?_⟩
    constructor
    · intro hf; simp at hf
    · rintro ⟨e, -⟩; omega
  rcases hcase with ⟨c2, rfl⟩ | ⟨e2, r3, h3, hcase⟩
  · refine ⟨fun hlt => by omega, fun _ => ⟨r2, h2, rfl⟩, ?_⟩
    constructor
    · intro hf; simp at hf
    · rintro ⟨-, r2', h2', e, -⟩
      rw [h2] at h2'
      simp only [Option.some.injEq] at h2'
      subst h2'
      omega
  rcases hcase with ⟨c3, rfl⟩ | ⟨e3, rfl⟩
  · refine ⟨fun hlt => by omega, fun _ => ⟨r2, h2, rfl⟩, ?_⟩
    constructor
    · intro hf; simp at hf
    · rintro ⟨-, r2', h2', -, r3', h3', e⟩
      rw [h2] at h2'
      simp only [Option.some.injEq] at h2'
      subst h2'
      rw [h3] at h3'
      simp only [Option.some.injEq] at h3'
      subst h3'
      omega
  · refine ⟨fun hlt => by omega, fun _ => ⟨r2, h2, rfl⟩, ?_⟩
    constructor
    · intro _; exact ⟨e1, r2, h2, e2, r3, h3, e3⟩
    · intro _; rfl

end wxSocket

/-! ## Exit paths and flags of `ReadMsg` -/

open wxSocket wxSocket.wxSocketBase

namespace wxSocket
namespace wxSocketBase
variable {T : Type}

/-- The call `ReadMsg` is its body run under the overridden flags, followed by the assignments at the
label `exit`, the last of which puts the original flags back. -/
theorem ReadMsg_inv (ops : GSocket T) {fuel : Nat} {s : wxSocketBase T} {buffer : List Byte}
    {n : Nat} {r : IoOut T} (h : ReadMsg ops fuel s buffer n = some r) :
    ∃ b, ReadMsg_body ops fuel
        (({ s with m_reading := true } : wxSocketBase T).SetFlags
          ((s.m_flags &&& wxSOCKET_BLOCK) ||| wxSOCKET_WAITALL)) buffer n = some b ∧
      r = ⟨b.buffer, ({ b.sock with m_error := b.error, m_lcount := b.total, m_reading := false }
        : wxSocketBase T).SetFlags s.m_flags⟩ := by
  have hdef : ReadMsg ops fuel s buffer n =
      match ReadMsg_body ops fuel
        (({ s with m_reading := true } : wxSocketBase T).SetFlags
          ((s.m_flags &&& wxSOCKET_BLOCK) ||| wxSOCKET_WAITALL)) buffer n with
      | none => none
      | some b => some ⟨b.buffer,
          ({ b.sock with m_error := b.error, m_lcount := b.total, m_reading := false }
            : wxSocketBase T).SetFlags s.m_flags⟩ := rfl
  rw [hdef] at h
  split at h
  · simp at h
  · rename_i b hb
    simp only [Option.some.injEq] at h
    exact ⟨b, hb, h.symm⟩

theorem payload_read_iff (ops : GSocket T) (fuel : Nat) (s : wxSocketBase T) (m : Nat)
    (r2 : Xfer T) :
    (if m ≠ 0 then _Read ops fuel s m else some ⟨0, [], s⟩) = some r2 ↔
      (if m = 0 then r2 = ⟨0, [], s⟩ else _Read ops fuel s m = some r2) := by
  by_cases c : m = 0
  · rw [if_pos c, if_neg (not_not.mpr c)]
    constructor
    · intro h; simp only [Option.some.injEq] at h; exact h.symm
    · intro h; rw [h]
  · rw [if_neg c, if_pos c]

/-- Once the frame has been delivered, what is left of the body of `ReadMsg` is the trailer
read and its two checks. -/
theorem ReadMsg_body_of_delivered (ops : GSocket T) {fuel : Nat} {s : wxSocketBase T}
    (buffer : List Byte) {n : Nat} {r2 : Xfer T} {s3 : wxSocketBase T}
    (hd : FrameDelivered ops fuel s n r2 s3) :
    ReadMsg_body ops fuel s buffer n =
      match _Read ops fuel s3 8 with
      | none => none
      | some r4 =>
        if r4.total ≠ 8 then some ⟨true, r2.total, store buffer r2.data, r4.sock⟩
        else if decode32 r4.data 0 ≠ 0xdeadfeed then
          some ⟨true, r2.total, store buffer r2.data, r4.sock⟩
        else some ⟨false, r2.total, store buffer r2.data, r4.sock⟩ := by
  obtain ⟨r1, h1, e1, e2, hp, hpt, hdis⟩ := hd
  unfold ReadMsg_body
  simp only [h1, e1, e2, ne_eq, not_true_eq_false, if_false]
  by_cases hL : decode32 r1.data 4 > n
  · have hmin : min (decode32 r1.data 4) n = n := by omega
    rw [hmin] at hp hpt
    have hpay := (payload_read_iff ops fuel r1.sock n r2).mpr hp
    simp only [ne_eq] at hpay
    have hlen2 : ¬ decode32 r1.data 4 - n = 0 := by omega
    rw [if_neg (by omega)] at hdis
    simp only [if_pos hL, hpay, hpt, not_true_eq_false, if_false, hlen2, not_false_eq_true,
      if_true, hdis]
  · have hmin : min (decode32 r1.data 4) n = decode32 r1.data 4 := by omega
    rw [hmin] at hp hpt
    have hpay := (payload_read_iff ops fuel r1.sock (decode32 r1.data 4) r2).mpr hp
    simp only [ne_eq] at hpay
    rw [if_pos (by omega)] at hdis
    simp only [if_neg hL, hpay, hpt, not_true_eq_false, if_false, hdis]

/-- When the body of `ReadMsg` reaches `exit` with `error = false`, the frame was delivered
and the trailer accepted. -/
theorem ReadMsg_body_delivered (ops : GSocket T) {fuel : Nat} {s : wxSocketBase T}
    {buffer : List Byte} {n : Nat} {b : MsgOut T}
    (h : ReadMsg_body ops fuel s buffer n = some b) (hb : b.error = false) :
    ∃ r2 s3, FrameDelivered ops fuel s n r2 s3 ∧ TrailerAccepted ops fuel s3 := by
  unfold ReadMsg_body at h
  cases h1 : _Read ops fuel s 8 with
  | none => simp [h1] at h
  | some r1 =>
    simp only [h1] at h
    by_cases c1 : r1.total ≠ 8
    · rw [if_pos c1] at h; simp only [Option.some.injEq] at h; subst h; simp at hb
    rw [if_neg c1] at h
    by_cases c2 : decode32 r1.data 0 ≠ 0xfeeddead
    · rw [if_pos c2] at h; simp only [Option.some.injEq] at h; subst h; simp at hb
    rw [if_neg c2] at h
    simp only [ne_eq, not_not] at c1 c2
    generalize hpq : (if (if decode32 r1.data 4 > n then n else decode32 r1.data 4) ≠ 0 then
      _Read ops fuel r1.sock (if decode32 r1.data 4 > n then n else decode32 r1.data 4)
      else some ⟨0, [], r1.sock⟩) = payload at h
    rcases payload with _ | r2
    · simp at h
    simp only at h
    by_cases c3 : r2.total ≠ (if decode32 r1.data 4 > n then n else decode32 r1.data 4)
    · rw [if_pos c3] at h; simp only [Option.some.injEq] at h; subst h; simp at hb
    rw [if_neg c3] at h
    simp only [ne_eq, not_not] at c3
    generalize hdq : (if (if decode32 r1.data 4 > n then decode32 r1.data 4 - n else 0) ≠ 0 then
      ReadMsg_discard ops fuel r2.sock (if decode32 r1.data 4 > n then decode32 r1.data 4 - n else 0)
      else some (0, r2.sock)) = discarded at h
    rcases discarded with _ | ⟨len2, s3⟩
    · simp at h
    simp only at h
    by_cases c4 : len2 ≠ 0
    · rw [if_pos c4] at h; simp only [Option.some.injEq] at h; subst h; simp at hb
    rw [if_neg c4] at h
    simp only [ne_eq, not_not] at c4
    subst c4
    cases h4 : _Read ops fuel s3 8 with
    | none => simp [h4] at h
    | some r4 =>
      simp only [h4] at h
      by_cases c5 : r4.total ≠ 8
      · rw [if_pos c5] at h; simp only [Option.some.injEq] at h; subst h; simp at hb
      rw [if_neg c5] at h
      by_cases c6 : decode32 r4.data 0 ≠ 0xdeadfeed
      · rw [if_pos c6] at h; simp only [Option.some.injEq] at h; subst h; simp at hb
      simp only [ne_eq, not_not] at c5 c6
      have hlen : (if decode32 r1.data 4 > n then n else decode32 r1.data 4)
          = min (decode32 r1.data 4) n := by split_ifs <;> omega
      rw [hlen] at hpq c3
      refine ⟨r2, s3, ⟨r1, h1, c1, c2, ?_, c3, ?_⟩, ⟨r4, h4, c5, c6⟩⟩
      · exact (payload_read_iff ops fuel r1.sock _ r2).mp hpq
      · by_cases hL : decode32 r1.data 4 > n
        · simp only [if_pos hL] at hdq
          rw [if_neg (by omega)]
          rw [if_pos (by omega)] at hdq
          exact hdq
        · simp only [if_neg hL] at hdq
          rw [if_pos (by omega)]
          simp only [ne_eq, not_true_eq_false, if_false, Option.some.injEq, Prod.mk.injEq,
            true_and] at hdq
          exact hdq.symm

/-- The call `GetPushback` does not touch the flags. -/
theorem GetPushback_flags (s : wxSocketBase T) (n : Nat) :
    (s.GetPushback n false).sock.m_flags = s.m_flags := by
  simp only [GetPushback, Bool.false_eq_true, if_false]
  split_ifs <;> rfl

/-- Whatever the transport does, `_Read` does not touch the flags. -/
theorem _Read_flags (ops : GSocket T) {fuel : Nat} {s : wxSocketBase T} {n : Nat} {r : Xfer T}
    (h : _Read ops fuel s n = some r) : r.sock.m_flags = s.m_flags := by
  rw [(config_fields (_Read_spec ops h).1).1, GetPushback_flags]

/-- Whatever the transport does, the discard loop of `ReadMsg` does not touch the flags. -/
theorem ReadMsg_discard_flags (ops : GSocket T) :
    ∀ (fuel : Nat) (s : wxSocketBase T) (len2 k : Nat) (s' : wxSocketBase T),
      ReadMsg_discard ops fuel s len2 = some (k, s') → s'.m_flags = s.m_flags := by
  intro fuel
  induction fuel with
  | zero => intro s len2 k s' h; simp [ReadMsg_discard] at h
  | succ fuel ih =>
    intro s len2 k s' h
    simp only [ReadMsg_discard] at h
    split at h
    · simp at h
    · rename_i r hr
      have f1 := _Read_flags ops hr
      split_ifs at h
      · rw [ih _ _ _ _ h, f1]
      · simp only [Option.some.injEq, Prod.mk.injEq] at h
        rw [← h.2, f1]

/-- Whatever the transport does and whichever exit is taken, the body of `ReadMsg` reaches
`exit` with the flags it was entered with. -/
theorem ReadMsg_body_flags (ops : GSocket T) {fuel : Nat} {s : wxSocketBase T}
    {buffer : List Byte} {n : Nat} {b : MsgOut T}
    (h : ReadMsg_body ops fuel s buffer n = some b) : b.sock.m_flags = s.m_flags := by
  unfold ReadMsg_body at h
  cases h1 : _Read ops fuel s 8 with
  | none => simp [h1] at h
  | some r1 =>
    have f1 := _Read_flags ops h1
    simp only [h1] at h
    by_cases c1 : r1.total ≠ 8
    · rw [if_pos c1] at h; simp only [Option.some.injEq] at h; subst h; exact f1
    rw [if_neg c1] at h
    by_cases c2 : decode32 r1.data 0 ≠ 0xfeeddead
    · rw [if_pos c2] at h; simp only [Option.some.injEq] at h; subst h; exact f1
    rw [if_neg c2] at h
    generalize (if decode32 r1.data 4 > n then n else decode32 r1.data 4) = len at h
    generalize (if decode32 r1.data 4 > n then decode32 r1.data 4 - n else 0) = len2 at h
    generalize hpq : (if len ≠ 0 then _Read ops fuel r1.sock len
      else some ⟨0, [], r1.sock⟩) = payload at h
    rcases payload with _ | r2
    · simp at h
    have f2 : r2.sock.m_flags = r1.sock.m_flags := by
      split_ifs at hpq
      · exact _Read_flags ops hpq
      · simp only [Option.some.injEq] at hpq; rw [← hpq]
    simp only at h
    by_cases c3 : r2.total ≠ len
    · rw [if_pos c3] at h; simp only [Option.some.injEq] at h; subst h; exact f2.trans f1
    rw [if_neg c3] at h
    generalize hdq : (if len2 ≠ 0 then ReadMsg_discard ops fuel r2.sock len2
      else some (0, r2.sock)) = discarded at h
    rcases discarded with _ | ⟨len2', s3⟩
    · simp at h
    have f3 : s3.m_flags = r2.sock.m_flags := by
      split_ifs at hdq
      · exact ReadMsg_discard_flags ops _ _ _ _ _ hdq
      · simp only [Option.some.injEq, Prod.mk.injEq] at hdq; rw [← hdq.2]
    simp only at h
    by_cases c4 : len2' ≠ 0
    · rw [if_pos c4] at h; simp only [Option.some.injEq] at h; subst h
      exact f3.trans (f2.trans f1)
    rw [if_neg c4] at h
    cases h4 : _Read ops fuel s3 8 with
    | none => simp [h4] at h
    | some r4 =>
      have f4 := _Read_flags ops h4
      simp only [h4] at h
      split_ifs at h <;>
        (simp only [Option.some.injEq] at h; subst h; exact f4.trans (f3.trans (f2.trans f1)))

end wxSocketBase

/-- C7: `ReadMsg` restores the original flags. Whatever the transport does and whichever
exit is taken (short header, bad header magic, short payload, incomplete discard, short or
bad trailer, success), the flag set after `ReadMsg` returns equals the flag set before the
call, while the body runs from entry to the label `exit` under
(original `BLOCK` bit) | `WAITALL`. -/
theorem C7_ReadMsg_restores_flags {T : Type} (ops : GSocket T) (fuel : Nat)
    (s : wxSocketBase T) (buffer : List Byte) (n : Nat) (r : IoOut T)
    (h : ReadMsg ops fuel s buffer n = some r) :
    r.sock.m_flags = s.m_flags ∧
      ∃ s0 b, s0 = ({ s with m_reading := true } : wxSocketBase T).SetFlags
          ((s.m_flags &&& wxSOCKET_BLOCK) ||| wxSOCKET_WAITALL) ∧
        ReadMsg_body ops fuel s0 buffer n = some b ∧
        s0.m_flags = (s.m_flags &&& wxSOCKET_BLOCK) ||| wxSOCKET_WAITALL ∧
        b.sock.m_flags = (s.m_flags &&& wxSOCKET_BLOCK) ||| wxSOCKET_WAITALL ∧
        r.sock = ({ b.sock with m_error := b.error, m_lcount := b.total, m_reading := false }
          : wxSocketBase T).SetFlags s.m_flags := by
  obtain ⟨b, hb, rfl⟩ := wxSocketBase.ReadMsg_inv ops h
  exact ⟨rfl, _, b, rfl, hb, rfl, wxSocketBase.ReadMsg_body_flags ops hb, rfl⟩

/-- C7 on the loopback pair: a socket with flag set `NOWAIT` reads a frame with `ReadMsg`
and has the flag set `NOWAIT` afterwards. -/
theorem C7_ReadMsg_restores_flags_witness :
    ∃ r, ReadMsg loopback 20 (socketOn (loopbackWith (msgFrame [1, 2, 3]) 2) wxSOCKET_NOWAIT)
        [9, 9, 9, 9] 4 = some r ∧
      r.sock.m_flags = wxSOCKET_NOWAIT := by
  have hr : ∃ r, ReadMsg loopback 20
      (socketOn (loopbackWith (msgFrame [1, 2, 3]) 2) wxSOCKET_NOWAIT) [9, 9, 9, 9] 4 = some r :=
    ⟨_, rfl⟩
  obtain ⟨r, h⟩ := hr
  exact ⟨r, h, (C7_ReadMsg_restores_flags loopback 20 _ _ _ r h).1⟩

/-- C4: bad header signature rejection. Whatever the transport does, when the first four of
the bytes obtained by the header read do not decode (little-endian) to `0xFEEDDEAD`,
`ReadMsg` returns with `error = true` and `LastCount = 0`, leaves the caller's buffer as it
was and makes no further transport call. -/
theorem C4_bad_header_signature {T : Type} (ops : GSocket T) (fuel : Nat)
    (s : wxSocketBase T) (buffer : List Byte) (n : Nat) (r1 : Xfer T)
    (h1 : _Read ops fuel
      (({ s with m_reading := true } : wxSocketBase T).SetFlags
        ((s.m_flags &&& wxSOCKET_BLOCK) ||| wxSOCKET_WAITALL)) 8 = some r1)
    (hbad : decode32 r1.data 0 ≠ 0xfeeddead) :
    ∃ r, ReadMsg ops fuel s buffer n = some r ∧ r.sock.m_error = true ∧ r.sock.m_lcount = 0 ∧
      r.buffer = buffer ∧ r.sock.m_socket = r1.sock.m_socket := by
  have hdef : ReadMsg ops fuel s buffer n =
      match ReadMsg_body ops fuel
        (({ s with m_reading := true } : wxSocketBase T).SetFlags
          ((s.m_flags &&& wxSOCKET_BLOCK) ||| wxSOCKET_WAITALL)) buffer n with
      | none => none
      | some b => some ⟨b.buffer,
          ({ b.sock with m_error := b.error, m_lcount := b.total, m_reading := false }
            : wxSocketBase T).SetFlags s.m_flags⟩ := rfl
  have hbody : ReadMsg_body ops fuel
      (({ s with m_reading := true } : wxSocketBase T).SetFlags
        ((s.m_flags &&& wxSOCKET_BLOCK) ||| wxSOCKET_WAITALL)) buffer n
      = some ⟨true, 0, buffer, r1.sock⟩ := by
    unfold ReadMsg_body
    simp only [h1]
    split_ifs <;> rfl
  rw [hdef, hbody]
  exact ⟨_, rfl, rfl, rfl, rfl, rfl⟩

/-- C4 on the loopback pair: a valid frame whose first header byte is corrupted (`AC` for
`AD`) is rejected, the buffer keeps its contents. -/
theorem C4_bad_header_signature_witness :
    decode32 [0xAC, 0xDE, 0xED, 0xFE, 3, 0, 0, 0] 0 ≠ 0xfeeddead ∧
    ∃ r, ReadMsg loopback 20
        (socketOn (loopbackWith ([0xAC, 0xDE, 0xED, 0xFE, 3, 0, 0, 0] ++ [1, 2, 3] ++ msgTrailer) 2) 0)
        [9, 9, 9, 9] 4 = some r ∧
      r.sock.m_error = true ∧ r.sock.m_lcount = 0 ∧ r.buffer = [9, 9, 9, 9] := by
  refine ⟨by decide, ?_⟩
  have hhdr : ∃ r1, _Read loopback 20
      (({ socketOn (loopbackWith ([0xAC, 0xDE, 0xED, 0xFE, 3, 0, 0, 0] ++ [1, 2, 3] ++ msgTrailer) 2) 0
          with m_reading := true } : wxSocketBase Loopback).SetFlags
        (((socketOn (loopbackWith ([0xAC, 0xDE, 0xED, 0xFE, 3, 0, 0, 0] ++ [1, 2, 3] ++ msgTrailer) 2)
          0).m_flags &&& wxSOCKET_BLOCK) ||| wxSOCKET_WAITALL)) 8 = some r1 ∧
      decode32 r1.data 0 ≠ 0xfeeddead := ⟨_, rfl, by decide⟩
  obtain ⟨r1, h1, hbad⟩ := hhdr
  obtain ⟨r, h, e1, e2, e3, -⟩ := C4_bad_header_signature loopback 20
    (socketOn (loopbackWith ([0xAC, 0xDE, 0xED, 0xFE, 3, 0, 0, 0] ++ [1, 2, 3] ++ msgTrailer) 2) 0)
    [9, 9, 9, 9] 4 r1 h1 hbad
  exact ⟨r, h, e1, e2, e3⟩

end wxSocket

/-! ## Success of `ReadMsg`; overflow truncation -/

open wxSocket wxSocket.wxSocketBase

namespace wxSocket

/-- The error flag of `ReadMsg` in terms of the calls of `_Read` it makes: whatever the
transport does, `error = false` exactly when the reads of header, payload and overflow came
back complete (`FrameDelivered`) and the read of the trailer came back complete with its
magic (`TrailerAccepted`); after a delivered frame a trailer read with another magic gives
`error = true` with the payload bytes in the caller's buffer. -/
theorem ReadMsg_error_iff {T : Type} (ops : GSocket T) (fuel : Nat)
    (s : wxSocketBase T) (buffer : List Byte) (n : Nat) (r : IoOut T)
    (h : ReadMsg ops fuel s buffer n = some r) :
    (r.sock.m_error = false ↔
      ∃ r2 s3, FrameDelivered ops fuel
          (({ s with m_reading := true } : wxSocketBase T).SetFlags
            ((s.m_flags &&& wxSOCKET_BLOCK) ||| wxSOCKET_WAITALL)) n r2 s3 ∧
        TrailerAccepted ops fuel s3) ∧
    (∀ r2 s3 r4, FrameDelivered ops fuel
          (({ s with m_reading := true } : wxSocketBase T).SetFlags
            ((s.m_flags &&& wxSOCKET_BLOCK) ||| wxSOCKET_WAITALL)) n r2 s3 →
        _Read ops fuel s3 8 = some r4 → decode32 r4.data 0 ≠ 0xdeadfeed →
        r.sock.m_error = true ∧ r.buffer = store buffer r2.data ∧
          r.sock.m_lcount = r2.total) := by
  obtain ⟨b, hb, rfl⟩ := wxSocketBase.ReadMsg_inv ops h
  constructor
  · constructor
    · intro he
      exact wxSocketBase.ReadMsg_body_delivered ops hb he
    · rintro ⟨r2, s3, hd, r4, h4, e5, e6⟩
      rw [wxSocketBase.ReadMsg_body_of_delivered ops buffer hd, h4] at hb
      simp only [e5, e6, ne_eq, not_true_eq_false, if_false, Option.some.injEq] at hb
      subst hb
      rfl
  · intro r2 s3 r4 hd h4 hbad
    rw [wxSocketBase.ReadMsg_body_of_delivered ops buffer hd, h4] at hb
    simp only at hb
    split_ifs at hb <;>
      (simp only [Option.some.injEq] at hb; subst hb; exact ⟨rfl, rfl, rfl⟩)

/-- C3: message overflow truncation. On a lossless stream that starts with a well-formed
frame whose declared length `L = len P` exceeds the caller capacity `n`, `ReadMsg(buf, n)`
stores exactly the first `n` payload bytes at the start of `buf` and nothing behind them,
sets `LastCount = n` and `error = false`, and consumes exactly the `L + 16` bytes of the
frame, so that an immediately following `ReadMsg` reads the next frame successfully. -/
theorem C3_overflow_truncation {T : Type} {ops : GSocket T} {wire : T → List Byte}
    (hl : Lossless ops wire) (P Q rest buffer buffer2 : List Byte) (n m fuel : Nat)
    (s : wxSocketBase T) (t : T)
    (hok : wxSocketBase.PushbackOk s) (hs : s.m_socket = some t)
    (hstream : wxSocketBase.unconsumed s ++ wire t = msgFrame P ++ (msgFrame Q ++ rest))
    (hover : n < P.length) (hcap : n ≤ buffer.length)
    (hP : P.length < 2 ^ 32) (hQ : Q.length < 2 ^ 32)
    (hfuel : P.length + 9 ≤ fuel) (hfuel2 : Q.length + 9 ≤ fuel) :
    ∃ r t', ReadMsg ops fuel s buffer n = some r ∧
      r.buffer.take n = P.take n ∧ r.buffer.drop n = buffer.drop n ∧
      r.buffer.length = buffer.length ∧
      r.sock.m_lcount = n ∧ r.sock.m_error = false ∧
      r.sock.m_socket = some t' ∧
      (msgFrame P).length = P.length + 16 ∧
      wxSocketBase.unconsumed r.sock ++ wire t' = msgFrame Q ++ rest ∧
      ∃ r2, ReadMsg ops fuel r.sock buffer2 m = some r2 ∧ r2.sock.m_error = false ∧
        r2.buffer = store buffer2 (Q.take m) ∧ r2.sock.m_lcount = min Q.length m := by
  obtain ⟨r, t', hr, hbuf, herr, hcount, -, hok', hs', hstream'⟩ :=
    wxSocketBase.ReadMsg_lossless hl P (msgFrame Q ++ rest) buffer n hok hs hstream hP hfuel
  obtain ⟨r2, t2, hr2, hbuf2, herr2, hcount2, -⟩ :=
    wxSocketBase.ReadMsg_lossless hl Q rest buffer2 m hok' hs' hstream' hQ hfuel2
  have hlen : (P.take n).length = n := by rw [List.length_take]; omega
  refine ⟨r, t', hr, ?_, ?_, ?_, by rw [hcount]; omega, herr, hs', msgFrame_length P, hstream',
    r2, hr2, herr2, hbuf2, hcount2⟩
  · rw [hbuf, store, hlen, List.take_left' hlen]
  · rw [hbuf, store, hlen, List.drop_left' hlen]
  · rw [hbuf, store, hlen, List.length_append, hlen, List.length_drop]; omega

/-- C3 on the loopback pair (`L = 100`, `n = 40`): of a 100-byte payload the first 40 bytes
arrive, and the following `ReadMsg` reads the next frame `01 02 03`. -/
theorem C3_overflow_truncation_witness :
    ∃ r t', ReadMsg loopback 120
        (socketOn (loopbackWith (msgFrame (List.range 100) ++ (msgFrame [1, 2, 3] ++ [])) 6) 0)
        (List.replicate 40 0) 40 = some r ∧
      r.buffer.take 40 = (List.range 100).take 40 ∧
      r.buffer.drop 40 = (List.replicate 40 0).drop 40 ∧
      r.buffer.length = (List.replicate 40 0).length ∧
      r.sock.m_lcount = 40 ∧ r.sock.m_error = false ∧
      r.sock.m_socket = some t' ∧
      (msgFrame (List.range 100)).length = (List.range 100).length + 16 ∧
      wxSocketBase.unconsumed r.sock ++ t'.wire = msgFrame [1, 2, 3] ++ [] ∧
      ∃ r2, ReadMsg loopback 120 r.sock [9, 9, 9, 9] 4 = some r2 ∧ r2.sock.m_error = false ∧
        r2.buffer = store [9, 9, 9, 9] (([1, 2, 3] : List Byte).take 4) ∧
        r2.sock.m_lcount = min ([1, 2, 3] : List Byte).length 4 :=
  C3_overflow_truncation loopback_lossless (List.range 100) [1, 2, 3] [] (List.replicate 40 0)
    [9, 9, 9, 9] 40 4 120
    (socketOn (loopbackWith (msgFrame (List.range 100) ++ (msgFrame [1, 2, 3] ++ [])) 6) 0)
    (loopbackWith (msgFrame (List.range 100) ++ (msgFrame [1, 2, 3] ++ [])) 6)
    (Or.inl ⟨rfl, rfl, rfl⟩) rfl rfl (by simp) (by simp) (by simp) (by simp) (by simp) (by simp)

end wxSocket

/-! ## `Unread`, `Peek` and the pushback buffer -/

open wxSocket wxSocket.wxSocketBase

namespace wxSocket
namespace wxSocketBase
variable {T : Type}

/-- What `Pushback` does in a reachable state whose block can grow by `size` without
leaving 32 bits: the new block is `buffer[0..size)` followed by the whole old block, and the
cursor stays where it was. -/
theorem Pushback_spec {s : wxSocketBase T} (buffer : List Byte) (size : Nat)
    (hok : PushbackOk s) (hlt : s.m_unrd_size + size < 2 ^ 32) (hsz : size ≤ buffer.length) :
    PushbackOk (s.Pushback buffer size) ∧
      unconsumed (s.Pushback buffer size)
        = (buffer.take size ++ s.m_unread.getD []).drop s.m_unrd_cur := by
  by_cases h0 : size = 0
  · subst h0
    simp [Pushback, unconsumed, hok]
  · have hlt2 : s.m_unrd_size + size < 4294967296 := by simpa using hlt
    rcases hok with ⟨h1, h2, h3⟩ | ⟨block, hb, hlen, hc, hlt'⟩
    · constructor
      · right
        refine ⟨buffer.take size, by simp [Pushback, h0, h1], ?_, ?_, ?_⟩
        · simp [Pushback, h0, h2, hsz]; omega
        · simp [Pushback, h0, h2, h3]; omega
        · simp [Pushback, h0]; omega
      · simp [Pushback, h0, unconsumed, h1]
    · constructor
      · right
        refine ⟨buffer.take size ++ block, ?_, ?_, ?_, ?_⟩
        · simp [Pushback, h0, hb, ← hlen]
        · simp [Pushback, h0, hlen, hsz]; omega
        · simp [Pushback, h0]; omega
        · simp [Pushback, h0]; omega
      · simp [Pushback, h0, unconsumed, hb, ← hlen]

/-- In a reachable state with nothing unconsumed there is no block and the cursor is 0. -/
theorem PushbackOk_empty {s : wxSocketBase T} (hok : PushbackOk s) (hu : unconsumed s = []) :
    s.m_unread = none ∧ s.m_unrd_size = 0 ∧ s.m_unrd_cur = 0 := by
  rcases hok with h | ⟨block, hb, hlen, hc, -⟩
  · exact h
  · exfalso
    have := congrArg List.length hu
    simp only [unconsumed, hb, Option.getD_some, List.length_drop, List.length_nil] at this
    omega

/-- When the pushback buffer holds at least `n` unconsumed bytes, `_Read` of `n` bytes
returns them without any fuel, wait or transport call. -/
theorem _Read_of_pushback (ops : GSocket T) (fuel : Nat) {s : wxSocketBase T} {n : Nat}
    (hok : PushbackOk s) (hn : n ≤ (unconsumed s).length) :
    _Read ops fuel s n = some ⟨n, (unconsumed s).take n, (s.GetPushback n false).sock⟩ := by
  obtain ⟨g1, g2, -⟩ := GetPushback_spec n hok
  have ht : (s.GetPushback n false).total = n := by rw [g2]; omega
  unfold _Read
  simp only [ht, g1, Nat.sub_self, if_true]
  split <;> rfl

/-- The assignment of `m_error` touches no other field. -/
theorem setError_fields (s : wxSocketBase T) (n : Nat) :
    (setError s n).m_lcount = s.m_lcount ∧ (setError s n).m_unread = s.m_unread ∧
      (setError s n).m_unrd_size = s.m_unrd_size ∧ (setError s n).m_unrd_cur = s.m_unrd_cur ∧
      (setError s n).m_socket = s.m_socket ∧ (setError s n).m_flags = s.m_flags := by
  unfold setError
  split_ifs <;> exact ⟨rfl, rfl, rfl, rfl, rfl, rfl⟩

/-- The call `GetPushback` never makes the block larger. -/
theorem GetPushback_size_le (s : wxSocketBase T) (n : Nat) :
    (s.GetPushback n false).sock.m_unrd_size ≤ s.m_unrd_size := by
  simp only [GetPushback, Bool.false_eq_true, if_false]
  split_ifs <;> simp

/-- What `Peek` leaves behind in a reachable state (with room for `n` more bytes in a 32-bit
block size), in full: the bytes `data` it stored in the caller's buffer, as many as
`LastCount` says, begin with the first `n` bytes that were unconsumed before, and the
unconsumed pushback bytes afterwards are `data` followed by the bytes that were unconsumed
before beyond the first `n`. -/
theorem Peek_spec_rest (ops : GSocket T) {fuel : Nat} {s : wxSocketBase T} {buffer : List Byte}
    {n : Nat} {r : IoOut T} (hok : PushbackOk s) (hn : s.m_unrd_size + n < 2 ^ 32)
    (h : Peek ops fuel s buffer n = some r) :
    ∃ data rest, r.buffer = store buffer data ∧ r.sock.m_lcount = data.length ∧
      data.length ≤ n ∧ PushbackOk r.sock ∧ unconsumed r.sock = data ++ rest ∧
      rest = (unconsumed s).drop n ∧ ∃ d, data = (unconsumed s).take n ++ d := by
  unfold Peek at h
  cases h1 : _Read ops fuel { s with m_reading := true } n with
  | none => simp [h1] at h
  | some r1 =>
    simp only [h1, Option.some.injEq] at h
    subst h
    have hok0 : PushbackOk ({ s with m_reading := true } : wxSocketBase T) := hok
    obtain ⟨e1, e2, e3, -, e5, d, e6, e7⟩ := _Read_ok ops hok0 h1
    have hu0 : unconsumed ({ s with m_reading := true } : wxSocketBase T) = unconsumed s := rfl
    rw [hu0] at e5 e6 e7
    have hsz : r1.sock.m_unrd_size ≤ s.m_unrd_size := by
      rw [(config_fields (_Read_spec ops h1).1).2.2.1]
      exact GetPushback_size_le _ n
    have hok2 : PushbackOk ({ r1.sock with m_lcount := r1.total } : wxSocketBase T) := e3
    have htake : (store buffer r1.data).take r1.total = r1.data := by
      rw [store, ← e1, List.take_left']; rfl
    obtain ⟨p1, p2⟩ := Pushback_spec (s := { r1.sock with m_lcount := r1.total })
      (store buffer r1.data) r1.total hok2
      (by show r1.sock.m_unrd_size + r1.total < 2 ^ 32; omega)
      (by simp only [store, List.length_append, List.length_drop]; omega)
    rw [htake] at p2
    obtain ⟨f1, f2, f3, f4, -, -⟩ := setError_fields
      (({ r1.sock with m_lcount := r1.total } : wxSocketBase T).Pushback (store buffer r1.data)
        r1.total) n
    have hlc : (({ r1.sock with m_lcount := r1.total } : wxSocketBase T).Pushback
        (store buffer r1.data) r1.total).m_lcount = r1.total := by
      unfold Pushback; split_ifs <;> rfl
    have hokF : PushbackOk ({ setError (({ r1.sock with m_lcount := r1.total }
        : wxSocketBase T).Pushback (store buffer r1.data) r1.total) n with m_reading := false }
        : wxSocketBase T) := by
      simpa [PushbackOk, f2, f3, f4] using p1
    have huF : unconsumed ({ setError (({ r1.sock with m_lcount := r1.total }
        : wxSocketBase T).Pushback (store buffer r1.data) r1.total) n with m_reading := false }
        : wxSocketBase T) = (r1.data ++ r1.sock.m_unread.getD []).drop r1.sock.m_unrd_cur := by
      rw [← p2]
      simp [unconsumed, f2, f4]
    by_cases hcase : (unconsumed s).length ≤ n
    · have hempty : unconsumed r1.sock = [] := by
        rw [e5]; exact List.drop_of_length_le hcase
      obtain ⟨q1, -, q3⟩ := PushbackOk_empty e3 hempty
      refine ⟨r1.data, [], rfl, ?_, by omega, hokF, ?_,
        (List.drop_of_length_le hcase).symm, d, e6⟩
      · show (setError _ n).m_lcount = _
        rw [f1, hlc, e1]
      · rw [huF, q1, q3]; simp
    · have hd : d = [] := by
        by_contra hne
        exact hcase (Nat.le_of_lt (e7 hne))
      subst hd
      rw [List.append_nil] at e6
      have hlen : r1.data.length = n := by
        rw [e6, List.length_take]; omega
      refine ⟨r1.data, (unconsumed s).drop n, rfl, ?_, by omega, hokF, ?_, rfl, [],
        by rw [List.append_nil]; exact e6⟩
      · show (setError _ n).m_lcount = _
        rw [f1, hlc, e1]
      · rw [huF]
        have hu1 : (r1.sock.m_unread.getD []).drop r1.sock.m_unrd_cur = (unconsumed s).drop n := e5
        rcases hok with ⟨h1', -, -⟩ | ⟨block, hb, hblen, hc, -⟩
        · exfalso
          apply hcase
          simp [unconsumed, h1']
        · have hul : (unconsumed s).length = s.m_unrd_size - s.m_unrd_cur := by
            simp [unconsumed, hb, hblen]
          have hpb := GetPushback_within (s := ({ s with m_reading := true } : wxSocketBase T)) n
            hb (by show n < s.m_unrd_size - s.m_unrd_cur; omega)
          obtain ⟨-, c2, -, c4⟩ := config_fields (_Read_spec ops h1).1
          rw [hpb] at c2 c4
          have c2' : r1.sock.m_unread = some block := by rw [c2]; exact hb
          have c4' : r1.sock.m_unrd_cur = s.m_unrd_cur + n := c4
          rw [c2', c4', Option.getD_some]
          have hus : unconsumed s = block.drop s.m_unrd_cur := by simp [unconsumed, hb]
          have hdrop : (r1.data ++ block).drop (s.m_unrd_cur + n) = block.drop s.m_unrd_cur := by
            have hidx : s.m_unrd_cur + n = r1.data.length + s.m_unrd_cur := by omega
            rw [hidx, List.drop_append]
          rw [hdrop, ← hus, e6]
          exact (List.take_append_drop n _).symm

/-- What `Peek` leaves behind in a reachable state (with room for `n` more bytes in a 32-bit
block size): the bytes it stored in the caller's buffer, as many as `LastCount` says, are at
the front of the unconsumed pushback bytes again. -/
theorem Peek_spec (ops : GSocket T) {fuel : Nat} {s : wxSocketBase T} {buffer : List Byte}
    {n : Nat} {r : IoOut T} (hok : PushbackOk s) (hn : s.m_unrd_size + n < 2 ^ 32)
    (h : Peek ops fuel s buffer n = some r) :
    ∃ data rest, r.buffer = store buffer data ∧ r.sock.m_lcount = data.length ∧
      data.length ≤ n ∧ PushbackOk r.sock ∧ unconsumed r.sock = data ++ rest := by
  obtain ⟨data, rest, h1, h2, h3, h4, h5, -⟩ := Peek_spec_rest ops hok hn h
  exact ⟨data, rest, h1, h2, h3, h4, h5⟩

/-- What `Unread` of the bytes `b` does in a reachable state (with room for `b` in a 32-bit
block size): it reports `error = false` and `LastCount = len b`, keeps the state reachable,
and leaves as unconsumed bytes the block `b ++ old block` read from the old cursor on. With
the cursor at 0 these are `b` followed by the bytes that were unconsumed before; with a
cursor `c > 0` the first `c` bytes of `b ++ old block` are skipped instead. -/
theorem Unread_spec {s : wxSocketBase T} (b : List Byte) (hok : PushbackOk s)
    (hlt : s.m_unrd_size + b.length < 2 ^ 32) :
    (Unread s b b.length).m_error = false ∧ (Unread s b b.length).m_lcount = b.length ∧
      PushbackOk (Unread s b b.length) ∧
      unconsumed (Unread s b b.length) = (b ++ s.m_unread.getD []).drop s.m_unrd_cur ∧
      (s.m_unrd_cur = 0 → unconsumed (Unread s b b.length) = b ++ unconsumed s) := by
  obtain ⟨p1, p2⟩ := Pushback_spec b b.length hok hlt (le_refl _)
  rw [List.take_length] at p2
  have hu : unconsumed (Unread s b b.length) = (b ++ s.m_unread.getD []).drop s.m_unrd_cur := by
    unfold Unread
    by_cases h0 : b.length = 0
    · have hb : b = [] := List.length_eq_zero.mp h0
      subst hb
      simp [unconsumed]
    · rw [if_pos h0]
      exact p2
  have hokU : PushbackOk (Unread s b b.length) := by
    unfold Unread
    by_cases h0 : b.length = 0
    · rw [if_neg (not_not.mpr h0)]; exact hok
    · rw [if_pos h0]; exact p1
  refine ⟨rfl, rfl, hokU, hu, ?_⟩
  intro hc
  rw [hu, hc]
  simp [unconsumed, hc]

end wxSocketBase

/-- The first `k` bytes of a buffer into which at least `k` bytes were stored are the first
`k` bytes stored. -/
theorem take_store (buffer data : List Byte) (k : Nat) (hk : k ≤ data.length) :
    (store buffer data).take k = data.take k := by
  rw [store, List.take_append_of_le_length hk]

/-- C9 (the code at the failing input): on a fresh socket `Unread(01 02 03)` and `Read` of one
byte leave `02 03` unconsumed; `Unread(09)` then leaves `01 02 03` unconsumed instead of
`09 02 03`, and the following `Read` of three bytes returns `01 02 03`: the byte `09` is
lost and the byte `01` is delivered twice. -/
theorem C9_Unread_after_partial_read :
    ∃ r, wxSocketBase.Read loopback 5
        (wxSocketBase.Unread (wxSocketBase.Init false : wxSocketBase Loopback) [1, 2, 3] 3)
        [0] 1 = some r ∧
      r.buffer = [1] ∧ wxSocketBase.unconsumed r.sock = [2, 3] ∧
      wxSocketBase.PushbackOk r.sock ∧
      wxSocketBase.unconsumed (wxSocketBase.Unread r.sock [9] 1) = [1, 2, 3] ∧
      (wxSocketBase.Unread r.sock [9] 1).m_error = false ∧
      (wxSocketBase.Unread r.sock [9] 1).m_lcount = 1 ∧
      (wxSocketBase.Read loopback 5 (wxSocketBase.Unread r.sock [9] 1) [0, 0, 0] 3).map
        (fun r2 => (r2.buffer, r2.sock.m_lcount, r2.sock.m_error)) = some ([1, 2, 3], 3, false) :=
  ⟨_, rfl, rfl, rfl, Or.inr ⟨[1, 2, 3], rfl, rfl, by decide, by decide⟩, rfl, rfl, rfl, rfl⟩

/-- C10: `Peek` does not consume. In every reachable state (empty, full or partially
consumed pushback buffer, with room for `n` more bytes in a 32-bit block size) and whatever
the transport does: if `Peek(buf, n)` reports `LastCount = k`, then every outcome of an
immediately following `Read(buf2, n)` has `LastCount ≥ k` and `buf2[0..k) = buf[0..k)`; and
when `k = n` that `Read` returns without any wait or transport call, with `LastCount = n`
and `buf2[0..n) = buf[0..n)`, so that buffers of exactly `n` bytes are equal. -/
theorem C10_Peek_does_not_consume {T : Type} (ops : GSocket T) (fuel fuel2 : Nat)
    (s : wxSocketBase T) (buffer buffer2 : List Byte) (n : Nat) (r : IoOut T)
    (hok : wxSocketBase.PushbackOk s) (hn : s.m_unrd_size + n < 2 ^ 32)
    (h : wxSocketBase.Peek ops fuel s buffer n = some r) :
    (∀ r2, wxSocketBase.Read ops fuel2 r.sock buffer2 n = some r2 →
      r.sock.m_lcount ≤ r2.sock.m_lcount ∧
        r2.buffer.take r.sock.m_lcount = r.buffer.take r.sock.m_lcount) ∧
    (r.sock.m_lcount = n →
      ∃ r2, wxSocketBase.Read ops fuel2 r.sock buffer2 n = some r2 ∧ r2.sock.m_lcount = n ∧
        r2.buffer.take n = r.buffer.take n ∧
        (buffer.length = n → buffer2.length = n → r2.buffer = r.buffer)) := by
  obtain ⟨data, rest, hbuf, hlc, hle, hokr, hur⟩ := wxSocketBase.Peek_spec ops hok hn h
  have hokr' : wxSocketBase.PushbackOk ({ r.sock with m_reading := true } : wxSocketBase T) := hokr
  have hur' : wxSocketBase.unconsumed ({ r.sock with m_reading := true } : wxSocketBase T)
      = data ++ rest := hur
  have hpeek : r.buffer.take data.length = data := by
    rw [hbuf, take_store _ _ _ (le_refl _), List.take_length]
  -- every outcome of the following Read
  have hread : ∀ r2, wxSocketBase.Read ops fuel2 r.sock buffer2 n = some r2 →
      data.length ≤ r2.sock.m_lcount ∧ r2.buffer.take data.length = data ∧
      r2.sock.m_lcount ≤ n ∧ ∃ d3, r2.buffer = store buffer2 d3 ∧ d3.length = r2.sock.m_lcount := by
    intro r2 h2
    unfold wxSocketBase.Read at h2
    cases h3 : wxSocketBase._Read ops fuel2 { r.sock with m_reading := true } n with
    | none => simp [h3] at h2
    | some r3 =>
      simp only [h3, Option.some.injEq] at h2
      subst h2
      obtain ⟨e1, e2, -, -, -, d, e6, -⟩ := wxSocketBase._Read_ok ops hokr' h3
      rw [hur'] at e6
      have hlcount : (wxSocketBase.setError
          ({ r3.sock with m_lcount := r3.total } : wxSocketBase T) n).m_lcount = r3.total :=
        (wxSocketBase.setError_fields _ n).1
      have hge : data.length ≤ ((data ++ rest).take n).length := by
        rw [List.length_take, List.length_append]; omega
      have hdl : data.length ≤ r3.data.length := by
        rw [e6, List.length_append]; omega
      refine ⟨?_, ?_, ?_, r3.data, rfl, ?_⟩
      · show data.length ≤ (wxSocketBase.setError _ n).m_lcount
        rw [hlcount, ← e1]; exact hdl
      · show (store buffer2 r3.data).take data.length = data
        rw [take_store _ _ _ hdl, e6, List.take_append_of_le_length hge, List.take_take,
          Nat.min_eq_left hle, List.take_left']
        rfl
      · show (wxSocketBase.setError _ n).m_lcount ≤ n
        rw [hlcount]; exact e2
      · show r3.data.length = (wxSocketBase.setError _ n).m_lcount
        rw [hlcount, e1]
  constructor
  · intro r2 h2
    obtain ⟨g1, g2, -⟩ := hread r2 h2
    rw [hlc]
    exact ⟨g1, by rw [g2, hpeek]⟩
  · intro hk
    have hdn : data.length = n := by rw [← hlc, hk]
    have hex : ∃ r2, wxSocketBase.Read ops fuel2 r.sock buffer2 n = some r2 := by
      have hdef : wxSocketBase.Read ops fuel2 r.sock buffer2 n =
          match wxSocketBase._Read ops fuel2 ({ r.sock with m_reading := true } : wxSocketBase T) n with
          | none => none
          | some r3 => some ⟨store buffer2 r3.data,
              { wxSocketBase.setError ({ r3.sock with m_lcount := r3.total } : wxSocketBase T) n
                with m_reading := false }⟩ := rfl
      rw [hdef, wxSocketBase._Read_of_pushback ops fuel2 hokr'
        (by rw [hur', List.length_append]; omega)]
      exact ⟨_, rfl⟩
    obtain ⟨r2, h2⟩ := hex
    obtain ⟨g1, g2, g3, d3, g4, g5⟩ := hread r2 h2
    refine ⟨r2, h2, by omega, ?_, ?_⟩
    · rw [← hdn, g2, hpeek]
    · intro hb1 hb2
      have hd3 : d3.length = n := by omega
      rw [g4, hbuf, store, store, hd3, hdn, List.drop_of_length_le (by omega),
        List.drop_of_length_le (by omega), List.append_nil, List.append_nil]
      have := g2
      rw [g4, take_store _ _ _ (by omega), hdn, ← hd3, List.take_length] at this
      exact this

/-- C10 on the loopback pair: after `Unread(01 02 03)` and a `Read` of one byte, a `Peek` of
four bytes obtains `02 03` from the pushback buffer and `07 08` from the transport, and the
`Read` of four bytes that follows returns the same four bytes. -/
theorem C10_Peek_does_not_consume_witness :
    ∃ s r, (wxSocketBase.Read loopback 5
        (wxSocketBase.Unread (socketOn (loopbackWith [7, 8, 9] 5) 0) [1, 2, 3] 3) [0] 1).map
        (fun r0 => r0.sock) = some s ∧
      wxSocketBase.unconsumed s = [2, 3] ∧ s.m_unrd_cur = 1 ∧
      wxSocketBase.Peek loopback 5 s [0, 0, 0, 0] 4 = some r ∧
      r.buffer = [2, 3, 7, 8] ∧ r.sock.m_lcount = 4 ∧
      ∃ r2, wxSocketBase.Read loopback 5 r.sock [5, 5, 5, 5] 4 = some r2 ∧
        r2.sock.m_lcount = 4 ∧ r2.buffer.take 4 = r.buffer.take 4 ∧ r2.buffer = r.buffer := by
  have hs : ∃ s r, (wxSocketBase.Read loopback 5
        (wxSocketBase.Unread (socketOn (loopbackWith [7, 8, 9] 5) 0) [1, 2, 3] 3) [0] 1).map
        (fun r0 => r0.sock) = some s ∧
      wxSocketBase.unconsumed s = [2, 3] ∧ s.m_unrd_cur = 1 ∧
      wxSocketBase.PushbackOk s ∧ s.m_unrd_size + 4 < 2 ^ 32 ∧
      wxSocketBase.Peek loopback 5 s [0, 0, 0, 0] 4 = some r ∧
      r.buffer = [2, 3, 7, 8] ∧ r.sock.m_lcount = 4 :=
    ⟨_, _, rfl, rfl, rfl, Or.inr ⟨[1, 2, 3], rfl, rfl, by decide, by decide⟩, by decide, rfl,
      rfl, rfl⟩
  obtain ⟨s, r, h0, hu, hcur, hok, hn, hp, hb, hk⟩ := hs
  obtain ⟨r2, h2, e1, e2, e3⟩ := (C10_Peek_does_not_consume loopback 5 5 s [0, 0, 0, 0]
    [5, 5, 5, 5] 4 r hok hn hp).2 hk
  exact ⟨s, r, h0, hu, hcur, hp, hb, hk, r2, h2, e1, e2, e3 rfl rfl⟩

end wxSocket


/-! ## The error flag; reads served by the pushback buffer; `Peek` followed by `Read` -/

open wxSocket wxSocket.wxSocketBase

namespace wxSocket
namespace wxSocketBase
variable {T : Type}

/-- The call `GetPushback` never hands out more than it was asked for, in any state. -/
theorem GetPushback_total_le (s : wxSocketBase T) (n : Nat) :
    (s.GetPushback n false).total ≤ n := by
  simp only [GetPushback, Bool.false_eq_true, if_false]
  split_ifs <;> simp <;> omega

/-- Whatever the state and the transport, `_Read` never counts more than it was asked for. -/
theorem _Read_total_le (ops : GSocket T) {fuel : Nat} {s : wxSocketBase T} {n : Nat}
    {r : Xfer T} (h : _Read ops fuel s n = some r) : r.total ≤ n := by
  obtain ⟨-, d, -, h2, h3⟩ := _Read_spec ops h
  have := GetPushback_total_le s n
  omega

/-- The error flag after the assignment that ends `Read`, `Peek` and `Write`. -/
theorem setError_error (s : wxSocketBase T) (n : Nat) :
    (s.m_flags &&& wxSOCKET_WAITALL ≠ 0 → (setError s n).m_error = decide (s.m_lcount ≠ n)) ∧
    (s.m_flags &&& wxSOCKET_WAITALL = 0 → (setError s n).m_error = decide (s.m_lcount = 0)) := by
  unfold setError
  constructor
  · intro h; rw [if_pos h]
  · intro h; rw [if_neg (not_not.mpr h)]

/-- The flags, `LastCount` and the error flag after `Read`. -/
theorem Read_fields (ops : GSocket T) {fuel : Nat} {s : wxSocketBase T} {buffer : List Byte}
    {n : Nat} {r : IoOut T} (h : Read ops fuel s buffer n = some r) :
    r.sock.m_flags = s.m_flags ∧ r.sock.m_lcount ≤ n ∧
      (s.m_flags &&& wxSOCKET_WAITALL ≠ 0 → r.sock.m_error = decide (r.sock.m_lcount ≠ n)) ∧
      (s.m_flags &&& wxSOCKET_WAITALL = 0 → r.sock.m_error = decide (r.sock.m_lcount = 0)) := by
  unfold Read at h
  cases h1 : _Read ops fuel { s with m_reading := true } n with
  | none => simp [h1] at h
  | some r1 =>
    simp only [h1, Option.some.injEq] at h
    subst h
    have hf : r1.sock.m_flags = s.m_flags := by
      have := _Read_flags ops h1
      exact this
    have hle := _Read_total_le ops h1
    obtain ⟨f1, -, -, -, -, f6⟩ := setError_fields ({ r1.sock with m_lcount := r1.total }) n
    obtain ⟨g1, g2⟩ := setError_error ({ r1.sock with m_lcount := r1.total }) n
    refine ⟨?_, ?_, ?_, ?_⟩
    · show (setError _ n).m_flags = _
      rw [f6]; exact hf
    · show (setError _ n).m_lcount ≤ n
      rw [f1]; exact hle
    · intro hw
      show (setError _ n).m_error = decide ((setError _ n).m_lcount ≠ n)
      rw [f1]
      exact g1 (by show r1.sock.m_flags &&& wxSOCKET_WAITALL ≠ 0; rw [hf]; exact hw)
    · intro hw
      show (setError _ n).m_error = decide ((setError _ n).m_lcount = 0)
      rw [f1]
      exact g2 (by show r1.sock.m_flags &&& wxSOCKET_WAITALL = 0; rw [hf]; exact hw)

/-- The flags, `LastCount` and the error flag after `Write`. -/
theorem Write_fields (ops : GSocket T) {fuel : Nat} {s : wxSocketBase T}
    {buffer : Option (List Byte)} {n : Nat} {r : wxSocketBase T}
    (h : Write ops fuel s buffer n = some r) :
    r.m_flags = s.m_flags ∧ r.m_lcount ≤ n ∧
      (s.m_flags &&& wxSOCKET_WAITALL ≠ 0 → r.m_error = decide (r.m_lcount ≠ n)) ∧
      (s.m_flags &&& wxSOCKET_WAITALL = 0 → r.m_error = decide (r.m_lcount = 0)) := by
  unfold Write at h
  cases h1 : _Write ops fuel { s with m_writing := true } buffer n with
  | none => simp [h1] at h
  | some r1 =>
    simp only [h1, Option.some.injEq] at h
    subst h
    obtain ⟨hc, -, hle⟩ := _Write_frame ops h1
    have hf : r1.sock.m_flags = s.m_flags := (config_fields hc).1
    obtain ⟨f1, -, -, -, -, f6⟩ := setError_fields ({ r1.sock with m_lcount := r1.total }) n
    obtain ⟨g1, g2⟩ := setError_error ({ r1.sock with m_lcount := r1.total }) n
    refine ⟨?_, ?_, ?_, ?_⟩
    · show (setError _ n).m_flags = _
      rw [f6]; exact hf
    · show (setError _ n).m_lcount ≤ n
      rw [f1]; exact hle
    · intro hw
      show (setError _ n).m_error = decide ((setError _ n).m_lcount ≠ n)
      rw [f1]
      exact g1 (by show r1.sock.m_flags &&& wxSOCKET_WAITALL ≠ 0; rw [hf]; exact hw)
    · intro hw
      show (setError _ n).m_error = decide ((setError _ n).m_lcount = 0)
      rw [f1]
      exact g2 (by show r1.sock.m_flags &&& wxSOCKET_WAITALL = 0; rw [hf]; exact hw)

/-- The call `Pushback` touches neither the flags nor `LastCount`. -/
theorem Pushback_fields (s : wxSocketBase T) (buffer : List Byte) (size : Nat) :
    (s.Pushback buffer size).m_flags = s.m_flags ∧
      (s.Pushback buffer size).m_lcount = s.m_lcount := by
  unfold Pushback
  split_ifs <;> exact ⟨rfl, rfl⟩

/-- The flags, `LastCount` and the error flag after `Peek`. -/
theorem Peek_fields (ops : GSocket T) {fuel : Nat} {s : wxSocketBase T} {buffer : List Byte}
    {n : Nat} {r : IoOut T} (h : Peek ops fuel s buffer n = some r) :
    r.sock.m_flags = s.m_flags ∧ r.sock.m_lcount ≤ n ∧
      (s.m_flags &&& wxSOCKET_WAITALL ≠ 0 → r.sock.m_error = decide (r.sock.m_lcount ≠ n)) ∧
      (s.m_flags &&& wxSOCKET_WAITALL = 0 → r.sock.m_error = decide (r.sock.m_lcount = 0)) := by
  unfold Peek at h
  cases h1 : _Read ops fuel { s with m_reading := true } n with
  | none => simp [h1] at h
  | some r1 =>
    simp only [h1, Option.some.injEq] at h
    subst h
    have hf : r1.sock.m_flags = s.m_flags := by
      have := _Read_flags ops h1
      exact this
    have hle := _Read_total_le ops h1
    obtain ⟨p1, p2⟩ := Pushback_fields ({ r1.sock with m_lcount := r1.total })
      (store buffer r1.data) r1.total
    obtain ⟨f1, -, -, -, -, f6⟩ := setError_fields
      (({ r1.sock with m_lcount := r1.total } : wxSocketBase T).Pushback (store buffer r1.data)
        r1.total) n
    obtain ⟨g1, g2⟩ := setError_error
      (({ r1.sock with m_lcount := r1.total } : wxSocketBase T).Pushback (store buffer r1.data)
        r1.total) n
    rw [p1, p2] at g1 g2
    refine ⟨?_, ?_, ?_, ?_⟩
    · show (setError _ n).m_flags = _
      rw [f6, p1]; exact hf
    · show (setError _ n).m_lcount ≤ n
      rw [f1, p2]; exact hle
    · intro hw
      show (setError _ n).m_error = decide ((setError _ n).m_lcount ≠ n)
      rw [f1, p2]
      exact g1 (by show r1.sock.m_flags &&& wxSOCKET_WAITALL ≠ 0; rw [hf]; exact hw)
    · intro hw
      show (setError _ n).m_error = decide ((setError _ n).m_lcount = 0)
      rw [f1, p2]
      exact g2 (by show r1.sock.m_flags &&& wxSOCKET_WAITALL = 0; rw [hf]; exact hw)

/-- The outcome of `Read`, written out. -/
theorem Read_def (ops : GSocket T) (fuel : Nat) (s : wxSocketBase T) (buffer : List Byte)
    (n : Nat) :
    Read ops fuel s buffer n =
      match _Read ops fuel ({ s with m_reading := true } : wxSocketBase T) n with
      | none => none
      | some r => some ⟨store buffer r.data,
          { setError ({ r.sock with m_lcount := r.total } : wxSocketBase T) n
            with m_reading := false }⟩ := rfl

/-- The call `GetPushback` touches the pushback fields only. -/
theorem GetPushback_conn (s : wxSocketBase T) (n : Nat) :
    (s.GetPushback n false).sock.m_interrupt = s.m_interrupt ∧
      (s.GetPushback n false).sock.m_connected = s.m_connected ∧
      (s.GetPushback n false).sock.m_establishing = s.m_establishing ∧
      (s.GetPushback n false).sock.m_timeout = s.m_timeout := by
  simp only [GetPushback, Bool.false_eq_true, if_false]
  split_ifs <;> exact ⟨rfl, rfl, rfl, rfl⟩

/-- The assignment of `m_error` touches neither the connection state nor the timeout. -/
theorem setError_conn (s : wxSocketBase T) (n : Nat) :
    (setError s n).m_interrupt = s.m_interrupt ∧ (setError s n).m_connected = s.m_connected ∧
      (setError s n).m_establishing = s.m_establishing ∧
      (setError s n).m_timeout = s.m_timeout := by
  unfold setError
  split_ifs <;> exact ⟨rfl, rfl, rfl, rfl⟩

end wxSocketBase

/-- C12: the error flag after `Read`, `Write` and `Peek`. Whatever the state, the transport
and the buffers, every outcome `s1` of `Read(buffer, n)`, of `Write(wbuffer, n)` or of
`Peek(buffer, n)` has the flag set it started with and `error = (LastCount ≠ n)` when
`WAITALL` is set, `error = (LastCount = 0)` otherwise. Hence with `WAITALL` a call never
ends with `error = false` and `LastCount < n`, and without `WAITALL` a request for `n = 0`
bytes ends with `error = true`. -/
theorem C12_error_flag_definition {T : Type} (ops : GSocket T) (fuel : Nat)
    (s : wxSocketBase T) (buffer : List Byte) (wbuffer : Option (List Byte)) (n : Nat)
    (s1 : wxSocketBase T)
    (h : (∃ r, wxSocketBase.Read ops fuel s buffer n = some r ∧ r.sock = s1) ∨
      wxSocketBase.Write ops fuel s wbuffer n = some s1 ∨
      (∃ r, wxSocketBase.Peek ops fuel s buffer n = some r ∧ r.sock = s1)) :
    s1.m_flags = s.m_flags ∧
    (if s.m_flags &&& wxSOCKET_WAITALL ≠ 0 then s1.m_error = decide (s1.m_lcount ≠ n)
      else s1.m_error = decide (s1.m_lcount = 0)) ∧
    (s.m_flags &&& wxSOCKET_WAITALL ≠ 0 → ¬ (s1.m_error = false ∧ s1.m_lcount < n)) ∧
    (s.m_flags &&& wxSOCKET_WAITALL = 0 → n = 0 → s1.m_error = true) := by
  have key : s1.m_flags = s.m_flags ∧ s1.m_lcount ≤ n ∧
      (s.m_flags &&& wxSOCKET_WAITALL ≠ 0 → s1.m_error = decide (s1.m_lcount ≠ n)) ∧
      (s.m_flags &&& wxSOCKET_WAITALL = 0 → s1.m_error = decide (s1.m_lcount = 0)) := by
    rcases h with ⟨r, hr, rfl⟩ | hw | ⟨r, hr, rfl⟩
    · exact wxSocketBase.Read_fields ops hr
    · exact wxSocketBase.Write_fields ops hw
    · exact wxSocketBase.Peek_fields ops hr
  obtain ⟨k1, k2, k3, k4⟩ := key
  refine ⟨k1, ?_, ?_, ?_⟩
  · split_ifs with hw
    · exact k3 hw
    · exact k4 (not_not.mp hw)
  · intro hw ⟨he, hlt⟩
    rw [k3 hw] at he
    simp only [decide_eq_false_iff_not, not_not] at he
    omega
  · intro hw hn
    rw [k4 hw]
    simp only [decide_eq_true_eq]
    omega

/-- C12 on the loopback pair: without `WAITALL` a `Read` request for 0 bytes ends with
`LastCount = 0` and `error = true`, although 3 bytes are in flight. -/
theorem C12_error_flag_definition_witness :
    ∃ r, wxSocketBase.Read loopback 5 (socketOn (loopbackWith [7, 8, 9] 5) 0) [] 0 = some r ∧
      r.sock.m_lcount = 0 ∧ r.sock.m_error = true ∧
      (socketOn (loopbackWith [7, 8, 9] 5) 0).m_flags &&& wxSOCKET_WAITALL = 0 := by
  have hw : ∃ r, wxSocketBase.Read loopback 5 (socketOn (loopbackWith [7, 8, 9] 5) 0) [] 0
      = some r ∧ r.sock.m_lcount = 0 := ⟨_, rfl, rfl⟩
  obtain ⟨r, hr, hl⟩ := hw
  have h0 : (socketOn (loopbackWith [7, 8, 9] 5) 0).m_flags &&& wxSOCKET_WAITALL = 0 := by
    decide
  exact ⟨r, hr, hl,
    (C12_error_flag_definition loopback 5 (socketOn (loopbackWith [7, 8, 9] 5) 0) [] none 0
      r.sock (Or.inl ⟨r, hr, rfl⟩)).2.2.2 h0 rfl, h0⟩

/-- C13: the pushback buffer is served first, with partial drain. In every reachable state
with unconsumed pushback bytes `u`, for every `n` with `0 < n ≤ len u`, whatever the
transport and with any fuel (none is needed), `Read(buffer, n)` returns: the caller's buffer
holds `u[0..n)` at its start, `LastCount = n`, `error = false`, the unconsumed pushback bytes
are `u[n..)`, and the transport handle, the interrupt flag and the connection state are what
they were (no transport call was made and the wait engine was not entered). -/
theorem C13_pushback_served_first {T : Type} (ops : GSocket T) (fuel : Nat)
    (s : wxSocketBase T) (buffer : List Byte) (n : Nat)
    (hok : wxSocketBase.PushbackOk s) (h0 : 0 < n)
    (hn : n ≤ (wxSocketBase.unconsumed s).length) :
    ∃ r, wxSocketBase.Read ops fuel s buffer n = some r ∧
      r.buffer = store buffer ((wxSocketBase.unconsumed s).take n) ∧
      r.buffer.take n = (wxSocketBase.unconsumed s).take n ∧
      r.sock.m_lcount = n ∧ r.sock.m_error = false ∧
      wxSocketBase.unconsumed r.sock = (wxSocketBase.unconsumed s).drop n ∧
      wxSocketBase.PushbackOk r.sock ∧
      r.sock.m_socket = s.m_socket ∧ r.sock.m_interrupt = s.m_interrupt ∧
      r.sock.m_connected = s.m_connected ∧ r.sock.m_establishing = s.m_establishing := by
  have hok1 : wxSocketBase.PushbackOk ({ s with m_reading := true } : wxSocketBase T) := hok
  have hu1 : wxSocketBase.unconsumed ({ s with m_reading := true } : wxSocketBase T)
      = wxSocketBase.unconsumed s := rfl
  have hrd := wxSocketBase._Read_of_pushback ops fuel (n := n) hok1 (by rw [hu1]; exact hn)
  rw [hu1] at hrd
  obtain ⟨-, -, g3, g4, g5, -⟩ :=
    wxSocketBase.GetPushback_spec (s := ({ s with m_reading := true } : wxSocketBase T)) n hok1
  obtain ⟨c1, c2, c3, -⟩ :=
    wxSocketBase.GetPushback_conn ({ s with m_reading := true } : wxSocketBase T) n
  rw [hu1] at g3
  obtain ⟨f1, f2, f3, f4, f5, -⟩ := wxSocketBase.setError_fields
    ({ (wxSocketBase.GetPushback ({ s with m_reading := true } : wxSocketBase T) n false).sock
      with m_lcount := n } : wxSocketBase T) n
  obtain ⟨e1, e2, e3, -⟩ := wxSocketBase.setError_conn
    ({ (wxSocketBase.GetPushback ({ s with m_reading := true } : wxSocketBase T) n false).sock
      with m_lcount := n } : wxSocketBase T) n
  obtain ⟨k1, k2⟩ := wxSocketBase.setError_error
    ({ (wxSocketBase.GetPushback ({ s with m_reading := true } : wxSocketBase T) n false).sock
      with m_lcount := n } : wxSocketBase T) n
  have hlen : ((wxSocketBase.unconsumed s).take n).length = n := by
    rw [List.length_take]; omega
  refine ⟨_, by rw [wxSocketBase.Read_def, hrd], rfl, ?_, ?_, ?_, ?_, ?_, ?_, ?_, ?_, ?_⟩
  · show (store buffer ((wxSocketBase.unconsumed s).take n)).take n = _
    rw [take_store _ _ _ (by omega), List.take_take, Nat.min_self]
  · show (wxSocketBase.setError _ n).m_lcount = n
    rw [f1]
  · show (wxSocketBase.setError _ n).m_error = false
    by_cases hw : ({ (wxSocketBase.GetPushback ({ s with m_reading := true } : wxSocketBase T) n
        false).sock with m_lcount := n } : wxSocketBase T).m_flags &&& wxSOCKET_WAITALL = 0
    · rw [k2 hw]
      simp only [decide_eq_false_iff_not]
      show ¬ n = 0
      omega
    · rw [k1 hw]
      simp only [decide_eq_false_iff_not, not_not]
  · have : wxSocketBase.unconsumed ({ wxSocketBase.setError
        ({ (wxSocketBase.GetPushback ({ s with m_reading := true } : wxSocketBase T) n false).sock
          with m_lcount := n } : wxSocketBase T) n with m_reading := false } : wxSocketBase T)
        = wxSocketBase.unconsumed
          (wxSocketBase.GetPushback ({ s with m_reading := true } : wxSocketBase T) n false).sock := by
      simp only [wxSocketBase.unconsumed, f2, f4]
    rw [this, g3]
  · have hg : wxSocketBase.PushbackOk ({ (wxSocketBase.GetPushback
        ({ s with m_reading := true } : wxSocketBase T) n false).sock with m_lcount := n }
        : wxSocketBase T) := g4
    simpa [wxSocketBase.PushbackOk, f2, f3, f4] using hg
  · show (wxSocketBase.setError _ n).m_socket = _
    rw [f5]; exact g5
  · show (wxSocketBase.setError _ n).m_interrupt = _
    rw [e1]; exact c1
  · show (wxSocketBase.setError _ n).m_connected = _
    rw [e2]; exact c2
  · show (wxSocketBase.setError _ n).m_establishing = _
    rw [e3]; exact c3

/-- C13 on the loopback pair: with `01 02 03` pushed back, `Read` of 2 bytes returns
`01 02`, leaves `03` unconsumed and does not touch the transport, on which `07 08 09` stay
in flight; no fuel is used. -/
theorem C13_pushback_served_first_witness :
    ∃ r, wxSocketBase.Read loopback 0
        (wxSocketBase.Unread (socketOn (loopbackWith [7, 8, 9] 5) 0) [1, 2, 3] 3) [0, 0] 2
        = some r ∧
      r.buffer = [1, 2] ∧ r.sock.m_lcount = 2 ∧ r.sock.m_error = false ∧
      wxSocketBase.unconsumed r.sock = [3] ∧
      r.sock.m_socket = some (loopbackWith [7, 8, 9] 5) := by
  obtain ⟨r, h1, h2, -, h4, h5, h6, -, h8, -⟩ := C13_pushback_served_first loopback 0
    (wxSocketBase.Unread (socketOn (loopbackWith [7, 8, 9] 5) 0) [1, 2, 3] 3) [0, 0] 2
    (Or.inr ⟨[1, 2, 3], rfl, rfl, by decide, by decide⟩) (by decide) (by decide)
  exact ⟨r, h1, h2, h4, h5, h6, h8⟩

/-- C11 (the claim at a concrete input): on a fresh socket with `01 02 03` pushed back,
3 bytes are unconsumed; after `Peek` of 2 bytes followed by `Read` of 2 bytes, 1 byte is
unconsumed, not 3. -/
theorem C11_Peek_then_Read_counterexample :
    ∃ r r2, wxSocketBase.Peek loopback 5
        (wxSocketBase.Unread (socketOn (loopbackWith [] 5) 0) [1, 2, 3] 3) [0, 0] 2 = some r ∧
      wxSocketBase.Read loopback 5 r.sock [0, 0] 2 = some r2 ∧
      (wxSocketBase.unconsumed
        (wxSocketBase.Unread (socketOn (loopbackWith [] 5) 0) [1, 2, 3] 3)).length = 3 ∧
      (wxSocketBase.unconsumed r2.sock).length = 1 ∧
      (wxSocketBase.unconsumed r2.sock).length ≠ (wxSocketBase.unconsumed
        (wxSocketBase.Unread (socketOn (loopbackWith [] 5) 0) [1, 2, 3] 3)).length :=
  ⟨_, _, rfl, rfl, rfl, rfl, by decide⟩

/-- C11 (amended): `Peek` followed by `Read` consumes up to `n` pushback bytes. In every
reachable state (with room for `n` more bytes in a 32-bit block size) and whatever the
transport does, after `Peek(buf, n)` followed immediately by `Read(buf2, n)` the number of
unconsumed pushback bytes is the number before the `Peek` minus `n`, and 0 if fewer than `n`
were there. It equals the number before the `Peek` when the pushback buffer was empty then
or `n = 0`, and is smaller otherwise. -/
theorem C11_Peek_then_Read_amended {T : Type} (ops : GSocket T) (fuel fuel2 : Nat)
    (s : wxSocketBase T) (buffer buffer2 : List Byte) (n : Nat) (r r2 : IoOut T)
    (hok : wxSocketBase.PushbackOk s) (hn : s.m_unrd_size + n < 2 ^ 32)
    (h : wxSocketBase.Peek ops fuel s buffer n = some r)
    (h2 : wxSocketBase.Read ops fuel2 r.sock buffer2 n = some r2) :
    (wxSocketBase.unconsumed r2.sock).length = (wxSocketBase.unconsumed s).length - n ∧
    ((wxSocketBase.unconsumed s).length = 0 ∨ n = 0 →
      (wxSocketBase.unconsumed r2.sock).length = (wxSocketBase.unconsumed s).length) ∧
    (0 < (wxSocketBase.unconsumed s).length → 0 < n →
      (wxSocketBase.unconsumed r2.sock).length < (wxSocketBase.unconsumed s).length) := by
  obtain ⟨data, rest, -, -, hle, hokr, hur, hrest, d, hd⟩ :=
    wxSocketBase.Peek_spec_rest ops hok hn h
  have hokr' : wxSocketBase.PushbackOk ({ r.sock with m_reading := true } : wxSocketBase T) := hokr
  have hur' : wxSocketBase.unconsumed ({ r.sock with m_reading := true } : wxSocketBase T)
      = data ++ rest := hur
  have hlen : (wxSocketBase.unconsumed r2.sock).length
      = (wxSocketBase.unconsumed s).length - n := by
    rw [wxSocketBase.Read_def] at h2
    cases h3 : wxSocketBase._Read ops fuel2 { r.sock with m_reading := true } n with
    | none => simp [h3] at h2
    | some r3 =>
      simp only [h3, Option.some.injEq] at h2
      subst h2
      obtain ⟨-, -, -, -, e5, -⟩ := wxSocketBase._Read_ok ops hokr' h3
      obtain ⟨-, f2, -, f4, -, -⟩ := wxSocketBase.setError_fields
        ({ r3.sock with m_lcount := r3.total } : wxSocketBase T) n
      have hu3 : wxSocketBase.unconsumed ({ wxSocketBase.setError
          ({ r3.sock with m_lcount := r3.total } : wxSocketBase T) n with m_reading := false }
          : wxSocketBase T) = wxSocketBase.unconsumed r3.sock := by
        simp only [wxSocketBase.unconsumed, f2, f4]
      show (wxSocketBase.unconsumed ({ wxSocketBase.setError
          ({ r3.sock with m_lcount := r3.total } : wxSocketBase T) n with m_reading := false }
          : wxSocketBase T)).length = _
      rw [hu3, e5, hur', hrest, List.length_drop, List.length_append, List.length_drop]
      have hdl : data.length = ((wxSocketBase.unconsumed s).take n).length + d.length := by
        rw [hd, List.length_append]
      rw [List.length_take] at hdl
      omega
  refine ⟨hlen, ?_, ?_⟩
  · intro hcase
    rw [hlen]
    omega
  · intro hpos hnpos
    rw [hlen]
    omega

/-- C11 (amended) on the loopback pair: with `02 03` unconsumed and `07 08 09` in flight,
`Peek` of 4 bytes followed by `Read` of 4 bytes leaves the pushback buffer empty. -/
theorem C11_Peek_then_Read_amended_witness :
    ∃ s r r2, (wxSocketBase.Read loopback 5
        (wxSocketBase.Unread (socketOn (loopbackWith [7, 8, 9] 5) 0) [1, 2, 3] 3) [0] 1).map
        (fun r0 => r0.sock) = some s ∧
      (wxSocketBase.unconsumed s).length = 2 ∧
      wxSocketBase.Peek loopback 5 s [0, 0, 0, 0] 4 = some r ∧
      wxSocketBase.Read loopback 5 r.sock [0, 0, 0, 0] 4 = some r2 ∧
      (wxSocketBase.unconsumed r2.sock).length = 2 - 4 := by
  have hs : ∃ s r r2, (wxSocketBase.Read loopback 5
        (wxSocketBase.Unread (socketOn (loopbackWith [7, 8, 9] 5) 0) [1, 2, 3] 3) [0] 1).map
        (fun r0 => r0.sock) = some s ∧
      (wxSocketBase.unconsumed s).length = 2 ∧
      wxSocketBase.PushbackOk s ∧ s.m_unrd_size + 4 < 2 ^ 32 ∧
      wxSocketBase.Peek loopback 5 s [0, 0, 0, 0] 4 = some r ∧
      wxSocketBase.Read loopback 5 r.sock [0, 0, 0, 0] 4 = some r2 :=
    ⟨_, _, _, rfl, rfl, Or.inr ⟨[1, 2, 3], rfl, rfl, by decide, by decide⟩, by decide, rfl, rfl⟩
  obtain ⟨s, r, r2, h0, hu, hok, hn, hp, hr⟩ := hs
  have := (C11_Peek_then_Read_amended loopback 5 5 s [0, 0, 0, 0] [0, 0, 0, 0] 4 r r2 hok hn
    hp hr).1
  rw [hu] at this
  exact ⟨s, r, r2, h0, hu, hp, hr, this⟩

end wxSocket


/-! ## The `NOWAIT` policy and `Discard` -/

open wxSocket wxSocket.wxSocketBase

namespace wxSocket
namespace wxSocketBase
variable {T : Type}

/-- With `NOWAIT` set, a handle in state `t` and more bytes asked for than the pushback
buffer holds, `_Read` is one non-blocking transport read for the missing bytes: whatever
the fuel, it returns the pushback bytes followed by what that read stored. -/
theorem _Read_nowait (ops : GSocket T) (fuel : Nat) {s : wxSocketBase T} {t : T} {n : Nat}
    (hok : PushbackOk s) (hnw : s.m_flags &&& wxSOCKET_NOWAIT ≠ 0) (ht : s.m_socket = some t)
    (hn : (unconsumed s).length < n) :
    _Read ops fuel s n = some
      ⟨(unconsumed s).length +
          ((ops.Read (ops.SetNonBlocking t true) (n - (unconsumed s).length)).1.getD []).length,
        unconsumed s ++ (ops.Read (ops.SetNonBlocking t true) (n - (unconsumed s).length)).1.getD [],
        { (s.GetPushback n false).sock with
          m_socket := some (ops.SetNonBlocking
            (ops.Read (ops.SetNonBlocking t true) (n - (unconsumed s).length)).2 false) }⟩ := by
  obtain ⟨g1, g2, -, -, g5, g6⟩ := GetPushback_spec n hok
  have g2' : (s.GetPushback n false).total = (unconsumed s).length := by rw [g2]; omega
  have g1' : (s.GetPushback n false).data = unconsumed s := by
    rw [g1]; exact List.take_of_length_le (by omega)
  rw [ht] at g5
  rw [← g6] at hnw
  have hne : ¬ (n - (unconsumed s).length = 0) := by omega
  unfold _Read
  simp only [g2', g1', g5, hne, if_false, hnw, ne_eq, not_false_eq_true, if_true]
  cases hret : (ops.Read (ops.SetNonBlocking t true) (n - (unconsumed s).length)).1 with
  | none => simp
  | some d =>
    by_cases hd : d.length > 0
    · simp [hd]
    · have : d = [] := List.length_eq_zero.mp (by omega)
      subst this
      simp

/-- With `NOWAIT` set, a handle in state `t`, a buffer and `n > 0`, `_Write` is one
non-blocking transport write of `buffer[0..n)`, whatever the fuel. -/
theorem _Write_nowait (ops : GSocket T) (fuel : Nat) {s : wxSocketBase T} {t : T}
    (buffer : List Byte) {n : Nat}
    (hnw : s.m_flags &&& wxSOCKET_NOWAIT ≠ 0) (ht : s.m_socket = some t) (hn : 0 < n) :
    _Write ops fuel s (some buffer) n = some
      ⟨(ops.Write (ops.SetNonBlocking t true) (buffer.take n)).1.getD 0, [],
        { s with m_socket := some (ops.SetNonBlocking
            (ops.Write (ops.SetNonBlocking t true) (buffer.take n)).2 false) }⟩ := by
  have hne : ¬ (n = 0) := by omega
  unfold _Write
  simp only [ht, hne, if_false, hnw, ne_eq, not_false_eq_true, if_true]
  cases hret : (ops.Write (ops.SetNonBlocking t true) (buffer.take n)).1 with
  | none => simp
  | some k =>
    by_cases hk : k > 0
    · simp [hk]
    · have : k = 0 := by omega
      subst this
      simp

/-- The outcome of `Read` in terms of the outcome `x` of the transfer primitive: the bytes
stored, `LastCount`, the error flag, and every other field as `_Read` left it. -/
theorem Read_outcome (ops : GSocket T) {fuel : Nat} {s : wxSocketBase T} (buffer : List Byte)
    {n : Nat} {x : Xfer T}
    (h : _Read ops fuel ({ s with m_reading := true } : wxSocketBase T) n = some x) :
    ∃ r, Read ops fuel s buffer n = some r ∧ r.buffer = store buffer x.data ∧
      r.sock.m_lcount = x.total ∧ r.sock.m_socket = x.sock.m_socket ∧
      r.sock.m_flags = x.sock.m_flags ∧ unconsumed r.sock = unconsumed x.sock ∧
      (PushbackOk x.sock → PushbackOk r.sock) ∧
      r.sock.m_interrupt = x.sock.m_interrupt ∧ r.sock.m_connected = x.sock.m_connected ∧
      r.sock.m_establishing = x.sock.m_establishing ∧ r.sock.m_timeout = x.sock.m_timeout ∧
      (x.sock.m_flags &&& wxSOCKET_WAITALL ≠ 0 → r.sock.m_error = decide (x.total ≠ n)) ∧
      (x.sock.m_flags &&& wxSOCKET_WAITALL = 0 → r.sock.m_error = decide (x.total = 0)) := by
  obtain ⟨f1, f2, f3, f4, f5, f6⟩ := setError_fields
    ({ x.sock with m_lcount := x.total } : wxSocketBase T) n
  obtain ⟨e1, e2, e3, e4⟩ := setError_conn ({ x.sock with m_lcount := x.total } : wxSocketBase T) n
  obtain ⟨k1, k2⟩ := setError_error ({ x.sock with m_lcount := x.total } : wxSocketBase T) n
  refine ⟨⟨store buffer x.data, { setError ({ x.sock with m_lcount := x.total } : wxSocketBase T) n
      with m_reading := false }⟩, by rw [Read_def, h], rfl, f1, f5, f6, ?_, ?_, e1, e2, e3, e4,
    k1, k2⟩
  · simp only [unconsumed, f2, f4]
  · intro hp
    have hp' : PushbackOk ({ x.sock with m_lcount := x.total } : wxSocketBase T) := hp
    simpa [PushbackOk, f2, f3, f4] using hp'

/-- The outcome of `Write`, written out. -/
theorem Write_def (ops : GSocket T) (fuel : Nat) (s : wxSocketBase T)
    (buffer : Option (List Byte)) (n : Nat) :
    Write ops fuel s buffer n =
      match _Write ops fuel ({ s with m_writing := true } : wxSocketBase T) buffer n with
      | none => none
      | some r => some
          { setError ({ r.sock with m_lcount := r.total } : wxSocketBase T) n
            with m_writing := false } := rfl

/-- The outcome of `Write` in terms of the outcome `x` of the transfer primitive. -/
theorem Write_outcome (ops : GSocket T) {fuel : Nat} {s : wxSocketBase T}
    {buffer : Option (List Byte)} {n : Nat} {x : Xfer T}
    (h : _Write ops fuel ({ s with m_writing := true } : wxSocketBase T) buffer n = some x) :
    ∃ r, Write ops fuel s buffer n = some r ∧
      r.m_lcount = x.total ∧ r.m_socket = x.sock.m_socket ∧
      r.m_flags = x.sock.m_flags ∧ unconsumed r = unconsumed x.sock ∧
      (PushbackOk x.sock → PushbackOk r) ∧
      r.m_interrupt = x.sock.m_interrupt ∧ r.m_connected = x.sock.m_connected ∧
      r.m_establishing = x.sock.m_establishing ∧ r.m_timeout = x.sock.m_timeout ∧
      (x.sock.m_flags &&& wxSOCKET_WAITALL ≠ 0 → r.m_error = decide (x.total ≠ n)) ∧
      (x.sock.m_flags &&& wxSOCKET_WAITALL = 0 → r.m_error = decide (x.total = 0)) := by
  obtain ⟨f1, f2, f3, f4, f5, f6⟩ := setError_fields
    ({ x.sock with m_lcount := x.total } : wxSocketBase T) n
  obtain ⟨e1, e2, e3, e4⟩ := setError_conn ({ x.sock with m_lcount := x.total } : wxSocketBase T) n
  obtain ⟨k1, k2⟩ := setError_error ({ x.sock with m_lcount := x.total } : wxSocketBase T) n
  refine ⟨{ setError ({ x.sock with m_lcount := x.total } : wxSocketBase T) n
      with m_writing := false }, by rw [Write_def, h], f1, f5, f6, ?_, ?_, e1, e2, e3, e4, k1, k2⟩
  · simp only [unconsumed, f2, f4]
  · intro hp
    have hp' : PushbackOk ({ x.sock with m_lcount := x.total } : wxSocketBase T) := hp
    simpa [PushbackOk, f2, f3, f4] using hp'

end wxSocketBase

/-- C14: `NOWAIT` takes precedence and tries once. The transport is run with a journal
(`logged ops`; `ops` is arbitrary). Whenever `NOWAIT` is set, whatever the other flag bits,
and the handle is present in state `t` with journal `log`:

* if the state is reachable and `n` exceeds the number of unconsumed pushback bytes `u`,
  `Read(buffer, n)` returns with any fuel (the wait engine needs fuel, none is used), the
  journal has grown by exactly `SetNonBlocking(on)`, one `Read` for the `n - len u` missing
  bytes, `SetNonBlocking(off)`, `LastCount` is `len u` plus the bytes `ret` that this read
  stored (none when its result is negative), the buffer holds `u` followed by them, and the
  interrupt flag is untouched;
* if `n > 0`, `Write(wbuffer, n)` returns with any fuel, the journal has grown by exactly
  `SetNonBlocking(on)`, one `Write` of `wbuffer[0..n)`, `SetNonBlocking(off)`, `LastCount`
  is the result of that write, or 0 when it is negative, and the interrupt flag is
  untouched. -/
theorem C14_NOWAIT_tries_once {T : Type} (ops : GSocket T) (fuel : Nat)
    (s : wxSocketBase (T × List Call)) (t : T) (log : List Call)
    (buffer wbuffer : List Byte) (n : Nat)
    (hnw : s.m_flags &&& wxSOCKET_NOWAIT ≠ 0) (ht : s.m_socket = some (t, log)) :
    (wxSocketBase.PushbackOk s → (wxSocketBase.unconsumed s).length < n →
      ∃ r, wxSocketBase.Read (logged ops) fuel s buffer n = some r ∧
        r.sock.m_socket = some
          (ops.SetNonBlocking (ops.Read (ops.SetNonBlocking t true)
              (n - (wxSocketBase.unconsumed s).length)).2 false,
            log ++ [Call.SetNonBlocking true,
              Call.Read (n - (wxSocketBase.unconsumed s).length), Call.SetNonBlocking false]) ∧
        r.sock.m_lcount = (wxSocketBase.unconsumed s).length +
          ((ops.Read (ops.SetNonBlocking t true)
            (n - (wxSocketBase.unconsumed s).length)).1.getD []).length ∧
        r.buffer = store buffer (wxSocketBase.unconsumed s ++
          (ops.Read (ops.SetNonBlocking t true)
            (n - (wxSocketBase.unconsumed s).length)).1.getD []) ∧
        r.sock.m_interrupt = s.m_interrupt) ∧
    (0 < n →
      ∃ s1, wxSocketBase.Write (logged ops) fuel s (some wbuffer) n = some s1 ∧
        s1.m_socket = some
          (ops.SetNonBlocking (ops.Write (ops.SetNonBlocking t true) (wbuffer.take n)).2 false,
            log ++ [Call.SetNonBlocking true, Call.Write (wbuffer.take n),
              Call.SetNonBlocking false]) ∧
        s1.m_lcount = (ops.Write (ops.SetNonBlocking t true) (wbuffer.take n)).1.getD 0 ∧
        s1.m_interrupt = s.m_interrupt) := by
  constructor
  · intro hok hn
    have hok1 : wxSocketBase.PushbackOk ({ s with m_reading := true }
        : wxSocketBase (T × List Call)) := hok
    have hx := wxSocketBase._Read_nowait (logged ops) fuel
      (s := ({ s with m_reading := true } : wxSocketBase (T × List Call))) (t := (t, log))
      (n := n) hok1 hnw ht hn
    obtain ⟨r, h1, h2, h3, h4, -, -, -, h8, -⟩ := wxSocketBase.Read_outcome (logged ops) buffer hx
    obtain ⟨c1, -, -, -⟩ := wxSocketBase.GetPushback_conn
      ({ s with m_reading := true } : wxSocketBase (T × List Call)) n
    refine ⟨r, h1, ?_, ?_, ?_, ?_⟩
    · rw [h4]
      show some ((logged ops).SetNonBlocking ((logged ops).Read
        ((logged ops).SetNonBlocking (t, log) true) _).2 false) = _
      simp [logged, wxSocketBase.unconsumed]
    · rw [h3]; rfl
    · rw [h2]; rfl
    · rw [h8]; exact c1
  · intro hn
    have hx := wxSocketBase._Write_nowait (logged ops) fuel
      (s := ({ s with m_writing := true } : wxSocketBase (T × List Call))) (t := (t, log))
      wbuffer (n := n) hnw ht hn
    obtain ⟨r, h1, h2, h3, -, -, -, h7, -⟩ := wxSocketBase.Write_outcome (logged ops) hx
    refine ⟨r, h1, ?_, ?_, ?_⟩
    · rw [h3]
      show some ((logged ops).SetNonBlocking ((logged ops).Write
        ((logged ops).SetNonBlocking (t, log) true) _).2 false) = _
      simp [logged]
    · rw [h2]; rfl
    · rw [h7]

/-- C14 on the journalled loopback pair, with `NOWAIT`, `WAITALL` and `BLOCK` all set, the
byte `01` pushed back and `07 08` in flight: `Read` of 5 bytes returns `01 07 08` with
`LastCount = 3` after the three calls `SetNonBlocking(on)`, `Read(4)`, `SetNonBlocking(off)`,
without any fuel. -/
theorem C14_NOWAIT_tries_once_witness :
    ∃ r, wxSocketBase.Read (logged loopback) 0
        (wxSocketBase.Unread ({ (wxSocketBase.Init false : wxSocketBase (Loopback × List Call))
          with m_socket := some (loopbackWith [7, 8] 5, []), m_flags := 7 }) [1] 1)
        [0, 0, 0, 0, 0] 5 = some r ∧
      r.sock.m_socket = some ({ loopbackWith [] 5 with nonblocking := false },
        [Call.SetNonBlocking true, Call.Read 4, Call.SetNonBlocking false]) ∧
      r.sock.m_lcount = 3 ∧ r.buffer = [1, 7, 8, 0, 0] := by
  obtain ⟨r, h1, h2, h3, h4, -⟩ := (C14_NOWAIT_tries_once loopback 0
    (wxSocketBase.Unread ({ (wxSocketBase.Init false : wxSocketBase (Loopback × List Call))
      with m_socket := some (loopbackWith [7, 8] 5, []), m_flags := 7 }) [1] 1)
    (loopbackWith [7, 8] 5) [] [0, 0, 0, 0, 0] [] 5 (by decide) rfl).1
    (Or.inr ⟨[1], rfl, rfl, by decide, by decide⟩) (by decide)
  exact ⟨r, h1, h2, h3, h4⟩

end wxSocket


/-! ## `Discard` on a transport that hands out what has arrived -/

open wxSocket wxSocket.wxSocketBase

namespace wxSocket
namespace wxSocketBase
variable {T : Type}

/-- On a draining transport, with `NOWAIT` set and a handle in state `t`, `_Read` of `n`
bytes returns the first `n` bytes of the stream made of the unconsumed pushback bytes
followed by the pending bytes, and leaves the rest of that stream. -/
theorem _Read_draining {ops : GSocket T} {pending : T → List Byte} (hd : Draining ops pending)
    (fuel : Nat) {s : wxSocketBase T} {t : T} (n : Nat)
    (hok : PushbackOk s) (hnw : s.m_flags &&& wxSOCKET_NOWAIT ≠ 0) (ht : s.m_socket = some t) :
    ∃ r t1, _Read ops fuel s n = some r ∧
      r.total = min n ((unconsumed s).length + (pending t).length) ∧
      r.data = (unconsumed s ++ pending t).take n ∧
      PushbackOk r.sock ∧ r.sock.m_flags = s.m_flags ∧ r.sock.m_socket = some t1 ∧
      unconsumed r.sock ++ pending t1 = (unconsumed s ++ pending t).drop n := by
  obtain ⟨-, -, g3, g4, g5, g6⟩ := GetPushback_spec n hok
  by_cases hcase : n ≤ (unconsumed s).length
  · refine ⟨_, t, _Read_of_pushback ops fuel hok hcase, ?_, ?_, g4, g6, by rw [g5, ht], ?_⟩
    · show n = _
      omega
    · show (unconsumed s).take n = _
      rw [List.take_append_of_le_length hcase]
    · show unconsumed (s.GetPushback n false).sock ++ pending t = _
      rw [g3, List.drop_append_of_le_length hcase]
  · have hlt : (unconsumed s).length < n := by omega
    have hr := hd.read t (n - (unconsumed s).length)
    have hp := hd.read_pending t (n - (unconsumed s).length)
    refine ⟨_, _, _Read_nowait ops fuel hok hnw ht hlt, ?_, ?_, ?_, g6, rfl, ?_⟩
    · show (unconsumed s).length + _ = _
      rw [hr, List.length_take]
      omega
    · show unconsumed s ++ _ = _
      have e : (unconsumed s).take n = unconsumed s := List.take_of_length_le (by omega)
      rw [hr, List.take_append_eq_append_take, e]
    · exact g4
    · show unconsumed (s.GetPushback n false).sock ++ _ = _
      have e : (unconsumed s).drop n = [] := List.drop_of_length_le (by omega)
      rw [g3, hd.setNonBlocking_pending, hp, List.drop_append_eq_append_drop, e]

/-- On a draining transport, with `NOWAIT` set, the loop of `Discard` removes all unconsumed
pushback bytes and all pending bytes and adds their number to `total`, given one unit of
fuel per pass of the loop. -/
theorem Discard_loop_draining {ops : GSocket T} {pending : T → List Byte}
    (hd : Draining ops pending) :
    ∀ (fuel : Nat) (s : wxSocketBase T) (t : T) (total : Nat),
      PushbackOk s → s.m_flags &&& wxSOCKET_NOWAIT ≠ 0 → s.m_socket = some t →
      ((unconsumed s).length + (pending t).length) / 10240 + 1 ≤ fuel →
      ∃ s1 t1, Discard_loop ops fuel s total
          = some ((total + ((unconsumed s).length + (pending t).length)) % 2 ^ 32, s1) ∧
        PushbackOk s1 ∧ unconsumed s1 = [] ∧ s1.m_socket = some t1 ∧ pending t1 = [] ∧
        s1.m_flags = s.m_flags := by
  intro fuel
  induction fuel with
  | zero => intro s t total _ _ _ hf; omega
  | succ f ih =>
    intro s t total hok hnw ht hf
    obtain ⟨r, t1, h1, h2, -, h4, h5, h6, h7⟩ := _Read_draining hd f MAX_DISCARD_SIZE hok hnw ht
    have hM : MAX_DISCARD_SIZE = 10240 := rfl
    rw [hM] at h1 h2 h7
    have hlen := congrArg List.length h7
    rw [List.length_append, List.length_drop, List.length_append] at hlen
    simp only [Discard_loop, hM, h1]
    by_cases hfull : r.total = 10240
    · rw [if_pos hfull]
      obtain ⟨s2, t2, e1, e2, e3, e4, e5, e6⟩ := ih r.sock t1 ((total + r.total) % 2 ^ 32) h4
        (by rw [h5]; exact hnw) h6 (by omega)
      refine ⟨s2, t2, ?_, e2, e3, e4, e5, by rw [e6, h5]⟩
      rw [e1]
      have : ((total + r.total) % 2 ^ 32 + ((unconsumed r.sock).length + (pending t1).length))
          % 2 ^ 32 = (total + ((unconsumed s).length + (pending t).length)) % 2 ^ 32 := by
        have h32 : (2 : Nat) ^ 32 = 4294967296 := by norm_num
        rw [h32]
        omega
      rw [this]
    · rw [if_neg hfull]
      have hz : (unconsumed r.sock).length + (pending t1).length = 0 := by omega
      have hu : unconsumed r.sock = [] := List.length_eq_zero.mp (by omega)
      have hp : pending t1 = [] := List.length_eq_zero.mp (by omega)
      refine ⟨r.sock, t1, ?_, h4, hu, h6, hp, h5⟩
      have : r.total = (unconsumed s).length + (pending t).length := by omega
      rw [this]

/-- On a draining transport with nothing pending, a socket in `NOWAIT` mode (no other flag)
whose pushback buffer is empty reads nothing: `Read` returns 0 bytes with `error = true`. -/
theorem Read_drained {ops : GSocket T} {pending : T → List Byte} (hd : Draining ops pending)
    {s : wxSocketBase T} {t : T} (hok : PushbackOk s) (hu : unconsumed s = [])
    (hf : s.m_flags = wxSOCKET_NOWAIT) (ht : s.m_socket = some t) (hp : pending t = [])
    (fuel : Nat) (buffer : List Byte) (n : Nat) :
    ∃ r, Read ops fuel s buffer n = some r ∧
      r.sock.m_lcount = 0 ∧ r.sock.m_error = true ∧ r.buffer = buffer := by
  have hokx : PushbackOk ({ s with m_reading := true } : wxSocketBase T) := hok
  have hnwx : ({ s with m_reading := true } : wxSocketBase T).m_flags &&& wxSOCKET_NOWAIT ≠ 0 := by
    show s.m_flags &&& wxSOCKET_NOWAIT ≠ 0
    rw [hf]; decide
  have htx : ({ s with m_reading := true } : wxSocketBase T).m_socket = some t := ht
  have hux : unconsumed ({ s with m_reading := true } : wxSocketBase T) = [] := hu
  obtain ⟨x, t2, x1, x2, x3, -, x5, -, -⟩ := _Read_draining hd fuel n hokx hnwx htx
  rw [hux, hp] at x2 x3
  have x2' : x.total = 0 := by simpa using x2
  have x3' : x.data = [] := by simpa using x3
  obtain ⟨r, r1, r2, r3, -, -, -, -, -, -, -, -, -, r13⟩ := Read_outcome ops buffer x1
  refine ⟨r, r1, by rw [r3, x2'], ?_, ?_⟩
  · rw [r13 (by rw [x5]; show s.m_flags &&& wxSOCKET_WAITALL = 0; rw [hf]; decide), x2']
    rfl
  · rw [r2, x3']
    simp [store]

end wxSocketBase

/-- The scripted peer is a draining transport: its pending bytes are `inbound`. -/
theorem peer_draining : Draining peerOps.toGSocket Peer.inbound := by
  constructor
  · intro t n
    by_cases h : t.inbound = [] <;> simp [peerOps, h]
  · intro t n
    by_cases h : t.inbound = [] <;> simp [peerOps, h]
  · intro t b
    rfl

/-- C15: `Discard` drains fully. On a transport whose non-blocking read hands out
`min(requested, available)` bytes (`Draining`), with `K` bytes pending, on a reachable
socket with `u` unconsumed pushback bytes (`len u + K` below `2 ^ 32`), and with one unit of
fuel for each pass of the loop: `Discard()` returns with `error = false` and
`LastCount = len u + K`, which is at least `K`; the pushback buffer is empty afterwards,
nothing is pending, and every immediately following `Read` returns 0 bytes with
`error = true` and leaves the caller's buffer as it was. This holds for every `K`, in
particular for `K > 10240`. -/
theorem C15_Discard_drains_fully {T : Type} (ops : GSocket T) (pending : T → List Byte)
    (hd : Draining ops pending) (fuel : Nat) (s : wxSocketBase T) (t : T) (K : Nat)
    (hok : wxSocketBase.PushbackOk s) (ht : s.m_socket = some t)
    (hK : (pending t).length = K)
    (h32 : (wxSocketBase.unconsumed s).length + K < 2 ^ 32)
    (hfuel : ((wxSocketBase.unconsumed s).length + K) / 10240 + 1 ≤ fuel) :
    ∃ s1 t1, wxSocketBase.Discard ops fuel s = some s1 ∧
      s1.m_error = false ∧ s1.m_lcount = (wxSocketBase.unconsumed s).length + K ∧
      K ≤ s1.m_lcount ∧
      wxSocketBase.unconsumed s1 = [] ∧ s1.m_unread = none ∧ s1.m_unrd_size = 0 ∧
      s1.m_socket = some t1 ∧ pending t1 = [] ∧
      ∀ (fuel2 : Nat) (buffer : List Byte) (n : Nat),
        ∃ r, wxSocketBase.Read ops fuel2 s1 buffer n = some r ∧
          r.sock.m_lcount = 0 ∧ r.sock.m_error = true ∧ r.buffer = buffer := by
  have hok0 : wxSocketBase.PushbackOk
      (({ s with m_reading := true } : wxSocketBase T).SetFlags wxSOCKET_NOWAIT) := hok
  have hu0 : wxSocketBase.unconsumed
      (({ s with m_reading := true } : wxSocketBase T).SetFlags wxSOCKET_NOWAIT)
      = wxSocketBase.unconsumed s := rfl
  have hnw0 : (({ s with m_reading := true } : wxSocketBase T).SetFlags wxSOCKET_NOWAIT).m_flags
      &&& wxSOCKET_NOWAIT ≠ 0 := by
    show wxSOCKET_NOWAIT &&& wxSOCKET_NOWAIT ≠ 0
    decide
  obtain ⟨s1, t1, e1, e2, e3, e4, e5, e6⟩ := wxSocketBase.Discard_loop_draining hd fuel
    (({ s with m_reading := true } : wxSocketBase T).SetFlags wxSOCKET_NOWAIT) t 0 hok0 hnw0 ht
    (by rw [hu0, hK]; exact hfuel)
  rw [hu0, hK, Nat.zero_add, Nat.mod_eq_of_lt h32] at e1
  have e6' : s1.m_flags = wxSOCKET_NOWAIT := e6
  obtain ⟨q1, q2, -⟩ := wxSocketBase.PushbackOk_empty e2 e3
  have hdef : wxSocketBase.Discard ops fuel s =
      match wxSocketBase.Discard_loop ops fuel
        (({ s with m_reading := true } : wxSocketBase T).SetFlags wxSOCKET_NOWAIT) 0 with
      | none => none
      | some (total, s2) =>
        some { s2 with m_lcount := total, m_error := false, m_reading := false } := rfl
  refine ⟨{ s1 with
      m_lcount := (wxSocketBase.unconsumed s).length + K, m_error := false, m_reading := false },
    t1, by rw [hdef, e1], rfl, rfl, ?_, e3, q1, q2, e4, e5, ?_⟩
  · show K ≤ (wxSocketBase.unconsumed s).length + K
    omega
  · intro fuel2 buffer n
    exact wxSocketBase.Read_drained hd (s := { s1 with
      m_lcount := (wxSocketBase.unconsumed s).length + K, m_error := false, m_reading := false })
      e2 e3 e6' e4 e5 fuel2 buffer n

/-- C15 on the scripted peer: with 10241 bytes pending and two units of fuel, `Discard()`
reports `LastCount = 10241` and `error = false`, and a following `Read` of 4 bytes returns
nothing with `error = true`. -/
theorem C15_Discard_drains_fully_witness :
    ∃ s1, wxSocketBase.Discard peerOps.toGSocket 2
        ({ (wxSocketBase.Init false : wxSocketBase Peer) with
          m_socket := some (peerWith (List.replicate 10241 7) true GSocketError.GSOCK_NOERROR) })
        = some s1 ∧
      s1.m_error = false ∧ s1.m_lcount = 10241 ∧ wxSocketBase.unconsumed s1 = [] ∧
      ∃ r, wxSocketBase.Read peerOps.toGSocket 0 s1 [0, 0, 0, 0] 4 = some r ∧
        r.sock.m_lcount = 0 ∧ r.sock.m_error = true ∧ r.buffer = [0, 0, 0, 0] := by
  obtain ⟨s1, t1, h1, h2, h3, -, h5, -, -, -, -, h10⟩ := C15_Discard_drains_fully
    peerOps.toGSocket Peer.inbound peer_draining 2
    ({ (wxSocketBase.Init false : wxSocketBase Peer) with
      m_socket := some (peerWith (List.replicate 10241 7) true GSocketError.GSOCK_NOERROR) })
    (peerWith (List.replicate 10241 7) true GSocketError.GSOCK_NOERROR) 10241
    (Or.inl ⟨rfl, rfl, rfl⟩) rfl (List.length_replicate _ _)
    (by show 0 + 10241 < 2 ^ 32; norm_num)
    (by show (0 + 10241) / 10240 + 1 ≤ 2; norm_num)
  exact ⟨s1, h1, h2, by rw [h3]; rfl, h5, h10 0 [0, 0, 0, 0] 4⟩

end wxSocket


/-! ## The SOCKS4 request -/

open wxSocket wxSocket.wxSocketBase

namespace wxSocket

/-- Storing `bytes` right behind a prefix `P` of the buffer extends the prefix. -/
theorem poke_prefix {P buf : List Byte} (bytes : List Byte) (off : Nat) (h : ∃ R, buf = P ++ R)
    (hoff : off = P.length) : ∃ R, poke buf off bytes = (P ++ bytes) ++ R := by
  obtain ⟨R, rfl⟩ := h
  subst hoff
  refine ⟨R.drop bytes.length, ?_⟩
  simp [poke, List.drop_append_eq_append_drop]

/-- On a string without a NUL byte `strlen` is the length of the list. -/
theorem strlen_eq {l : List Byte} (hl : ∀ b ∈ l, b ≠ 0) :
    strlen l = l.length ∧ l.take (strlen l) = l := by
  have : l.takeWhile (fun b => decide (b ≠ 0)) = l := by
    rw [List.takeWhile_eq_self_iff]
    intro b hb
    simpa using hl b hb
  unfold strlen
  rw [this]
  exact ⟨rfl, List.take_length l⟩

/-- The two bytes stored by `PokeUInt16_BE`: high byte first. -/
theorem PokeUInt16_BE_bytes (buf : List Byte) (p v : Nat) :
    PokeUInt16_BE buf p v = poke buf p [v % 65536 / 256, v % 256] := by
  unfold PokeUInt16_BE PokeUInt16 wxUINT16_SWAP_ON_LE
  congr 1
  have h16 : (2 : Nat) ^ 16 = 65536 := by norm_num
  rw [h16]
  have ha : v % 65536 % 256 = v % 256 := by omega
  have hb : v % 65536 / 256 % 256 = v % 65536 / 256 := by omega
  rw [ha, hb]
  have ha2 : v % 256 < 256 := by omega
  have hb2 : v % 65536 / 256 < 256 := by omega
  generalize v % 256 = a at ha2 ⊢
  generalize v % 65536 / 256 = b at hb2 ⊢
  have e1 : (a * 256 + b) % 65536 % 256 = b := by omega
  have e2 : (a * 256 + b) % 65536 / 256 = a := by omega
  rw [e1, e2]

namespace wxSocketClient

/-- The request that `ConnectSOCKS4` builds for a resolved address: whatever the buffer held
before, it begins with version, command, the port high byte first, the four bytes of the
address in memory order, the login and a NUL; `total_len` is `9 + len l`. -/
theorem ConnectSOCKS4_request_resolved (B : List Byte) (destination : wxSockAddress)
    (l : List Byte) (socks4a : Bool) (hl : ∀ b ∈ l, b ≠ 0)
    (hip : destination.CheckStringIP ≠ ULONG_MAX) (hlen : 9 + l.length < 512) :
    ∃ R, ConnectSOCKS4_request B destination l socks4a = Except.ok
      (([0x04, 0x01, destination.Service % 65536 / 256, destination.Service % 256,
          destination.CheckStringIP % 2 ^ 32 % 256,
          destination.CheckStringIP % 2 ^ 32 / 256 % 256,
          destination.CheckStringIP % 2 ^ 32 / 65536 % 256,
          destination.CheckStringIP % 2 ^ 32 / 16777216] ++ l ++ [0]) ++ R, 9 + l.length) := by
  obtain ⟨s1, s2⟩ := strlen_eq hl
  have hc : 8 + l.length + 1 < 512 := by omega
  have h0 : ∃ R, B = [] ++ R := ⟨B, rfl⟩
  have h1 := poke_prefix [0x04] 0 h0 rfl
  have h2 := poke_prefix [0x01] 1 h1 rfl
  have h3 := poke_prefix [destination.Service % 65536 / 256, destination.Service % 256] 2 h2 rfl
  have h4 := poke_prefix [destination.CheckStringIP % 2 ^ 32 % 256,
          destination.CheckStringIP % 2 ^ 32 / 256 % 256,
          destination.CheckStringIP % 2 ^ 32 / 65536 % 256,
          destination.CheckStringIP % 2 ^ 32 / 16777216] 4 h3 rfl
  have h5 := poke_prefix l 8 h4 rfl
  have h6 := poke_prefix [0] (8 + l.length) h5 (by simp; omega)
  obtain ⟨R, hR⟩ := h6
  refine ⟨R, ?_⟩
  simp only [ConnectSOCKS4_request, hip, false_and, if_false, s1, hc, not_true_eq_false,
    PokeUInt16_BE_bytes, PokeUInt32, List.take_length]
  rw [hR]
  simp
  omega

/-- The request that `ConnectSOCKS4` builds for an unresolved host with the 4a extension:
version, command, the port high byte first, `00 00 00 01`, the login and a NUL, the host
name and a NUL; `total_len` is `9 + len l + len h + 1`. -/
theorem ConnectSOCKS4_request_unresolved (B : List Byte) (destination : wxSockAddress)
    (l : List Byte) (hl : ∀ b ∈ l, b ≠ 0) (hh : ∀ b ∈ destination.OrigHostname, b ≠ 0)
    (hip : destination.CheckStringIP = ULONG_MAX)
    (hlen : 9 + l.length + destination.OrigHostname.length + 1 < 512) :
    ∃ R, ConnectSOCKS4_request B destination l true = Except.ok
      (([0x04, 0x01, destination.Service % 65536 / 256, destination.Service % 256,
          0, 0, 0, 1] ++ l ++ [0] ++ destination.OrigHostname ++ [0]) ++ R,
        9 + l.length + (destination.OrigHostname.length + 1)) := by
  obtain ⟨s1, s2⟩ := strlen_eq hl
  obtain ⟨s3, s4⟩ := strlen_eq hh
  have hc : 8 + l.length + 1 < 512 := by omega
  have hc2 : 1 + 1 + 2 + 4 + l.length + 1 + destination.OrigHostname.length + 1 < 512 := by omega
  have h0 : ∃ R, B = [] ++ R := ⟨B, rfl⟩
  have h1 := poke_prefix [0x04] 0 h0 rfl
  have h2 := poke_prefix [0x01] 1 h1 rfl
  have h3 := poke_prefix [destination.Service % 65536 / 256, destination.Service % 256] 2 h2 rfl
  have h4 := poke_prefix [16777216 % 2 ^ 32 % 256, 16777216 % 2 ^ 32 / 256 % 256,
    16777216 % 2 ^ 32 / 65536 % 256, 16777216 % 2 ^ 32 / 16777216] 4 h3 rfl
  have h5 := poke_prefix l 8 h4 rfl
  have h6 := poke_prefix [0] (8 + l.length) h5 (by simp; omega)
  have h7 := poke_prefix destination.OrigHostname (1 + 1 + 2 + 4 + l.length + 1) h6
    (by simp; omega)
  have h8 := poke_prefix [0] (1 + 1 + 2 + 4 + l.length + 1 + destination.OrigHostname.length) h7
    (by simp; omega)
  obtain ⟨R, hR⟩ := h8
  refine ⟨R, ?_⟩
  simp only [ConnectSOCKS4_request, hip, s1, s3, hc, hc2, not_true_eq_false,
    PokeUInt16_BE_bytes, PokeUInt32, List.take_length, if_true, if_false, true_and,
    Bool.true_eq_false]
  rw [hR]
  simp
  omega

/-- Every request that the builder completes is shorter than 512 bytes. -/
theorem ConnectSOCKS4_request_lt (B : List Byte) (destination : wxSockAddress)
    (l : List Byte) (socks4a : Bool) (buf : List Byte) (len : Nat)
    (h : ConnectSOCKS4_request B destination l socks4a = Except.ok (buf, len)) : len < 512 := by
  simp only [ConnectSOCKS4_request] at h
  split_ifs at h with h1 h2 h3 h4
  · simp only [Except.ok.injEq, Prod.mk.injEq] at h
    omega
  · simp only [Except.ok.injEq, Prod.mk.injEq] at h
    omega

end wxSocketClient

/-- C16: the SOCKS4/4a request layout. `B` is what the 512-byte buffer held before, `l` the
login and `h = destination.OrigHostname` the host name (C strings, no NUL inside), `port`
the destination port and `ip` the value that resolution left (`ULONG_MAX` when unresolved).

* Resolved address, login passing the length check: the builder completes with
  `total_len = 9 + len l`, and the first `total_len` bytes of the buffer, which are what
  `Write` is given, are `04 01`, the port high byte first, the four bytes of the address in
  memory order, `l` and a NUL.
* Unresolved host, 4a enabled, login and host passing the length checks: the builder
  completes with `total_len = 9 + len l + len h + 1`, and the first `total_len` bytes are
  `04 01`, the port high byte first, `00 00 00 01`, `l`, a NUL, `h`, a NUL.
* Whenever the builder completes, `total_len < 512`. -/
theorem C16_SOCKS4_request_layout (B : List Byte) (destination : wxSockAddress)
    (l : List Byte) (socks4a : Bool)
    (hl : ∀ b ∈ l, b ≠ 0) (hh : ∀ b ∈ destination.OrigHostname, b ≠ 0) :
    (destination.CheckStringIP ≠ ULONG_MAX → 8 + l.length + 1 < 512 →
      ∃ buf, wxSocketClient.ConnectSOCKS4_request B destination l socks4a
          = Except.ok (buf, 9 + l.length) ∧
        buf.take (9 + l.length) =
          [0x04, 0x01, destination.Service % 65536 / 256, destination.Service % 256,
            destination.CheckStringIP % 2 ^ 32 % 256,
            destination.CheckStringIP % 2 ^ 32 / 256 % 256,
            destination.CheckStringIP % 2 ^ 32 / 65536 % 256,
            destination.CheckStringIP % 2 ^ 32 / 16777216] ++ l ++ [0] ∧
        9 + l.length < 512) ∧
    (destination.CheckStringIP = ULONG_MAX → socks4a = true →
      9 + l.length + destination.OrigHostname.length + 1 < 512 →
      ∃ buf, wxSocketClient.ConnectSOCKS4_request B destination l socks4a
          = Except.ok (buf, 9 + l.length + (destination.OrigHostname.length + 1)) ∧
        buf.take (9 + l.length + (destination.OrigHostname.length + 1)) =
          [0x04, 0x01, destination.Service % 65536 / 256, destination.Service % 256,
            0, 0, 0, 1] ++ l ++ [0] ++ destination.OrigHostname ++ [0] ∧
        9 + l.length + (destination.OrigHostname.length + 1) < 512) ∧
    (∀ buf len, wxSocketClient.ConnectSOCKS4_request B destination l socks4a
        = Except.ok (buf, len) → len < 512) := by
  refine ⟨?_, ?_, ?_⟩
  · intro hip hlen
    obtain ⟨R, hR⟩ := wxSocketClient.ConnectSOCKS4_request_resolved B destination l socks4a hl
      hip (by omega)
    refine ⟨_, hR, ?_, by omega⟩
    apply List.take_left'
    simp
    omega
  · intro hip h4a hlen
    subst h4a
    obtain ⟨R, hR⟩ := wxSocketClient.ConnectSOCKS4_request_unresolved B destination l hl hh
      hip hlen
    refine ⟨_, hR, ?_, by omega⟩
    apply List.take_left'
    simp
    omega
  · intro buf len h
    exact wxSocketClient.ConnectSOCKS4_request_lt B destination l socks4a buf len h

/-- C16 at a concrete input: port 80, host `a.b` unresolved, 4a enabled, login `me`: the
request is `04 01 00 50 00 00 00 01 6d 65 00 61 2e 62 00`, 15 bytes. -/
theorem C16_SOCKS4_request_layout_witness :
    ∃ buf, wxSocketClient.ConnectSOCKS4_request (List.replicate 512 0)
        { m_address := none, isIPV4 := true, Service := 80, CheckStringIP := ULONG_MAX,
          OrigHostname := [97, 46, 98] } [109, 101] true = Except.ok (buf, 15) ∧
      buf.take 15 = [4, 1, 0, 80, 0, 0, 0, 1, 109, 101, 0, 97, 46, 98, 0] := by
  obtain ⟨buf, h1, h2, -⟩ := (C16_SOCKS4_request_layout (List.replicate 512 0)
    { m_address := none, isIPV4 := true, Service := 80, CheckStringIP := ULONG_MAX,
      OrigHostname := [97, 46, 98] } [109, 101] true (by decide) (by decide)).2.1 rfl rfl
    (by decide)
  exact ⟨buf, h1, h2⟩

end wxSocket


/-! ## Transfers under `BLOCK`; the connection state -/

open wxSocket wxSocket.wxSocketBase

namespace wxSocket
namespace wxSocketBase
variable {T : Type}

/-- The call `GetPushback` does not touch the handle, in any state. -/
theorem GetPushback_socket (s : wxSocketBase T) (n : Nat) :
    (s.GetPushback n false).sock.m_socket = s.m_socket := by
  simp only [GetPushback, Bool.false_eq_true, if_false]
  split_ifs <;> rfl

/-- With `BLOCK` set the loop of `_Write` does not enter the wait engine: every outcome
differs from the socket it started with in the handle state only, and the loop ends within
`nbytes` passes. -/
theorem _Write_loop_block (ops : GSocket T) :
    ∀ (fuel : Nat) (s : wxSocketBase T) (t : T) (buffer : List Byte) (nbytes total : Nat),
      s.m_flags &&& wxSOCKET_BLOCK ≠ 0 → s.m_socket = some t →
      (∀ r, _Write_loop ops fuel s buffer nbytes total = some r →
        ∃ t1, r.sock = { s with m_socket := some t1 }) ∧
      (0 < nbytes → nbytes ≤ fuel → ∃ r, _Write_loop ops fuel s buffer nbytes total = some r) := by
  intro fuel
  induction fuel with
  | zero =>
    intro s t buffer nbytes total _ _
    exact ⟨fun r h => by simp [_Write_loop] at h, fun h1 h2 => by omega⟩
  | succ f ih =>
    intro s t buffer nbytes total hb ht
    simp only [_Write_loop, hb, if_false, ht]
    cases hret : (ops.Write t (buffer.take nbytes)).1 with
    | none =>
      simp only [Option.some.injEq]
      exact ⟨fun r h => by subst h; exact ⟨_, rfl⟩, fun _ _ => ⟨_, rfl⟩⟩
    | some k =>
      simp only
      by_cases hk : k > 0
      · rw [if_pos hk]
        by_cases hmore : nbytes - k > 0 ∧
            ({ s with m_socket := some (ops.Write t (buffer.take nbytes)).2 } : wxSocketBase T).m_flags
              &&& wxSOCKET_WAITALL ≠ 0
        · rw [if_pos hmore]
          obtain ⟨i1, i2⟩ := ih ({ s with m_socket := some (ops.Write t (buffer.take nbytes)).2 })
            (ops.Write t (buffer.take nbytes)).2 (buffer.drop k) (nbytes - k) (total + k) hb rfl
          constructor
          · intro r h
            obtain ⟨t1, h1⟩ := i1 r h
            exact ⟨t1, by rw [h1]⟩
          · intro h1 h2
            exact i2 hmore.1 (by omega)
        · rw [if_neg hmore]
          simp only [Option.some.injEq]
          exact ⟨fun r h => by subst h; exact ⟨_, rfl⟩, fun _ _ => ⟨_, rfl⟩⟩
      · rw [if_neg hk]
        simp only [Option.some.injEq]
        exact ⟨fun r h => by subst h; exact ⟨_, rfl⟩, fun _ _ => ⟨_, rfl⟩⟩

/-- With `BLOCK` set the loop of `_Read` does not enter the wait engine: every outcome
differs from the socket it started with in the handle state only, and the loop ends within
`nbytes` passes. -/
theorem _Read_loop_block (ops : GSocket T) :
    ∀ (fuel : Nat) (s : wxSocketBase T) (t : T) (nbytes total : Nat) (data : List Byte),
      s.m_flags &&& wxSOCKET_BLOCK ≠ 0 → s.m_socket = some t →
      (∀ r, _Read_loop ops fuel s nbytes total data = some r →
        ∃ t1, r.sock = { s with m_socket := some t1 }) ∧
      (0 < nbytes → nbytes ≤ fuel → ∃ r, _Read_loop ops fuel s nbytes total data = some r) := by
  intro fuel
  induction fuel with
  | zero =>
    intro s t nbytes total data _ _
    exact ⟨fun r h => by simp [_Read_loop] at h, fun h1 h2 => by omega⟩
  | succ f ih =>
    intro s t nbytes total data hb ht
    simp only [_Read_loop, hb, if_false, ht]
    cases hret : (ops.Read t nbytes).1 with
    | none =>
      simp only [Option.some.injEq]
      exact ⟨fun r h => by subst h; exact ⟨_, rfl⟩, fun _ _ => ⟨_, rfl⟩⟩
    | some d =>
      simp only
      by_cases hk : d.length > 0
      · rw [if_pos hk]
        by_cases hmore : nbytes - d.length > 0 ∧
            ({ s with m_socket := some (ops.Read t nbytes).2 } : wxSocketBase T).m_flags
              &&& wxSOCKET_WAITALL ≠ 0
        · rw [if_pos hmore]
          obtain ⟨i1, i2⟩ := ih ({ s with m_socket := some (ops.Read t nbytes).2 })
            (ops.Read t nbytes).2 (nbytes - d.length) (total + d.length) (data ++ d) hb rfl
          constructor
          · intro r h
            obtain ⟨t1, h1⟩ := i1 r h
            exact ⟨t1, by rw [h1]⟩
          · intro h1 h2
            exact i2 hmore.1 (by omega)
        · rw [if_neg hmore]
          simp only [Option.some.injEq]
          exact ⟨fun r h => by subst h; exact ⟨_, rfl⟩, fun _ _ => ⟨_, rfl⟩⟩
      · rw [if_neg hk]
        simp only [Option.some.injEq]
        exact ⟨fun r h => by subst h; exact ⟨_, rfl⟩, fun _ _ => ⟨_, rfl⟩⟩

/-- A socket whose handle is in state `t` is the same socket with the handle set to `t`. -/
theorem eta_socket {s : wxSocketBase T} {t : T} (ht : s.m_socket = some t) :
    s = { s with m_socket := some t } := by
  cases s
  simp only at ht
  subst ht
  rfl

/-- With `BLOCK` set `_Write` does not enter the wait engine: every outcome differs from the
socket it started with in the handle state only, and `n` units of fuel are enough. -/
theorem _Write_block (ops : GSocket T) (fuel : Nat) {s : wxSocketBase T} {t : T}
    (buffer : Option (List Byte)) {n : Nat}
    (hb : s.m_flags &&& wxSOCKET_BLOCK ≠ 0) (ht : s.m_socket = some t) :
    (∀ r, _Write ops fuel s buffer n = some r → ∃ t1, r.sock = { s with m_socket := some t1 }) ∧
    (n ≤ fuel → ∃ r, _Write ops fuel s buffer n = some r) := by
  unfold _Write
  cases buffer with
  | none =>
    simp only [ht, Option.some.injEq]
    exact ⟨fun r h => by subst h; exact ⟨t, eta_socket ht⟩, fun _ => ⟨_, rfl⟩⟩
  | some buf =>
    simp only [ht]
    by_cases h0 : n = 0
    · simp only [h0, if_true, Option.some.injEq]
      exact ⟨fun r h => by subst h; exact ⟨t, eta_socket ht⟩, fun _ => ⟨_, rfl⟩⟩
    · simp only [h0, if_false]
      by_cases hnw : s.m_flags &&& wxSOCKET_NOWAIT ≠ 0
      · simp only [hnw, ne_eq, not_false_eq_true, if_true]
        cases hret : (ops.Write (ops.SetNonBlocking t true) (buf.take n)).1 with
        | none =>
          simp only [Option.some.injEq]
          exact ⟨fun r h => by subst h; exact ⟨_, rfl⟩, fun _ => ⟨_, rfl⟩⟩
        | some k =>
          simp only
          split_ifs
          · simp only [Option.some.injEq]
            exact ⟨fun r h => by subst h; exact ⟨_, rfl⟩, fun _ => ⟨_, rfl⟩⟩
          · simp only [Option.some.injEq]
            exact ⟨fun r h => by subst h; exact ⟨_, rfl⟩, fun _ => ⟨_, rfl⟩⟩
      · simp only [hnw, if_false]
        obtain ⟨i1, i2⟩ := _Write_loop_block ops fuel s t buf n 0 hb ht
        exact ⟨i1, fun hf => i2 (by omega) hf⟩

/-- With `BLOCK` set `_Read` does not enter the wait engine: every outcome differs from the
socket that `GetPushback` left in the handle state only, and `n` units of fuel are enough. -/
theorem _Read_block (ops : GSocket T) (fuel : Nat) {s : wxSocketBase T} {t : T} {n : Nat}
    (hb : s.m_flags &&& wxSOCKET_BLOCK ≠ 0) (ht : s.m_socket = some t) :
    (∀ r, _Read ops fuel s n = some r →
      ∃ t1, r.sock = { (s.GetPushback n false).sock with m_socket := some t1 }) ∧
    (n ≤ fuel → ∃ r, _Read ops fuel s n = some r) := by
  have hs : (s.GetPushback n false).sock.m_socket = some t := by rw [GetPushback_socket, ht]
  have hf : (s.GetPushback n false).sock.m_flags &&& wxSOCKET_BLOCK ≠ 0 := by
    rw [GetPushback_flags]; exact hb
  have hle := GetPushback_total_le s n
  unfold _Read
  simp only [hs]
  by_cases h0 : n - (s.GetPushback n false).total = 0
  · simp only [h0, if_true, Option.some.injEq]
    exact ⟨fun r h => by subst h; exact ⟨t, eta_socket hs⟩, fun _ => ⟨_, rfl⟩⟩
  · simp only [h0, if_false]
    by_cases hnw : (s.GetPushback n false).sock.m_flags &&& wxSOCKET_NOWAIT ≠ 0
    · simp only [hnw, ne_eq, not_false_eq_true, if_true]
      cases hret : (ops.Read (ops.SetNonBlocking t true) (n - (s.GetPushback n false).total)).1 with
      | none =>
        simp only [Option.some.injEq]
        exact ⟨fun r h => by subst h; exact ⟨_, rfl⟩, fun _ => ⟨_, rfl⟩⟩
      | some d =>
        simp only
        split_ifs
        · simp only [Option.some.injEq]
          exact ⟨fun r h => by subst h; exact ⟨_, rfl⟩, fun _ => ⟨_, rfl⟩⟩
        · simp only [Option.some.injEq]
          exact ⟨fun r h => by subst h; exact ⟨_, rfl⟩, fun _ => ⟨_, rfl⟩⟩
    · simp only [hnw, if_false]
      obtain ⟨i1, i2⟩ := _Read_loop_block ops fuel (s.GetPushback n false).sock t
        (n - (s.GetPushback n false).total) (s.GetPushback n false).total
        (s.GetPushback n false).data hf hs
      exact ⟨i1, fun hfuel => i2 (by omega) (by omega)⟩

/-- With `BLOCK` set `Write` returns within `n` units of fuel, and every outcome has the
connection state, the interrupt flag, the timeout and the flags it started with, and a
handle. -/
theorem Write_block (ops : GSocket T) (fuel : Nat) {s : wxSocketBase T} {t : T}
    (buffer : Option (List Byte)) {n : Nat}
    (hb : s.m_flags &&& wxSOCKET_BLOCK ≠ 0) (ht : s.m_socket = some t) :
    (∀ w, Write ops fuel s buffer n = some w →
      w.m_connected = s.m_connected ∧ w.m_establishing = s.m_establishing ∧
      w.m_interrupt = s.m_interrupt ∧ w.m_timeout = s.m_timeout ∧ w.m_flags = s.m_flags ∧
      ∃ t1, w.m_socket = some t1) ∧
    (n ≤ fuel → ∃ w, Write ops fuel s buffer n = some w) := by
  obtain ⟨i1, i2⟩ := _Write_block ops fuel (s := ({ s with m_writing := true }
    : wxSocketBase T)) (t := t) buffer (n := n) hb ht
  constructor
  · intro w hw
    rw [Write_def] at hw
    cases hx : _Write ops fuel ({ s with m_writing := true } : wxSocketBase T) buffer n with
    | none => simp [hx] at hw
    | some x =>
      obtain ⟨w1, e1, -, e3, e4, -, -, e7, e8, e9, e10, -, -⟩ := Write_outcome ops hx
      rw [Write_def] at e1
      rw [e1] at hw
      simp only [Option.some.injEq] at hw
      subst hw
      obtain ⟨t1, ht1⟩ := i1 x hx
      rw [ht1] at e3 e4 e7 e8 e9 e10
      exact ⟨e8, e9, e7, e10, e4, t1, e3⟩
  · intro hf
    obtain ⟨x, hx⟩ := i2 hf
    obtain ⟨w1, e1, -⟩ := Write_outcome ops hx
    exact ⟨w1, e1⟩

/-- With `BLOCK` set `Read` returns within `n` units of fuel, and every outcome has the
connection state, the interrupt flag, the timeout and the flags it started with, and a
handle. -/
theorem Read_block (ops : GSocket T) (fuel : Nat) {s : wxSocketBase T} {t : T}
    (buffer : List Byte) {n : Nat}
    (hb : s.m_flags &&& wxSOCKET_BLOCK ≠ 0) (ht : s.m_socket = some t) :
    (∀ r, Read ops fuel s buffer n = some r →
      r.sock.m_connected = s.m_connected ∧ r.sock.m_establishing = s.m_establishing ∧
      r.sock.m_interrupt = s.m_interrupt ∧ r.sock.m_timeout = s.m_timeout ∧
      r.sock.m_flags = s.m_flags ∧ ∃ t1, r.sock.m_socket = some t1) ∧
    (n ≤ fuel → ∃ r, Read ops fuel s buffer n = some r) := by
  obtain ⟨i1, i2⟩ := _Read_block ops fuel (s := ({ s with m_reading := true }
    : wxSocketBase T)) (t := t) (n := n) hb ht
  obtain ⟨c1, c2, c3, c4⟩ := GetPushback_conn ({ s with m_reading := true } : wxSocketBase T) n
  have c5 := GetPushback_flags ({ s with m_reading := true } : wxSocketBase T) n
  constructor
  · intro r hr
    rw [Read_def] at hr
    cases hx : _Read ops fuel ({ s with m_reading := true } : wxSocketBase T) n with
    | none => simp [hx] at hr
    | some x =>
      obtain ⟨r1, e1, -, -, e3, e4, -, -, e7, e8, e9, e10, -, -⟩ := Read_outcome ops buffer hx
      rw [Read_def] at e1
      rw [e1] at hr
      simp only [Option.some.injEq] at hr
      subst hr
      obtain ⟨t1, ht1⟩ := i1 x hx
      rw [ht1] at e3 e4 e7 e8 e9 e10
      exact ⟨e8.trans c2, e9.trans c3, e7.trans c1, e10.trans c4, e4.trans c5, t1, e3⟩
  · intro hf
    obtain ⟨x, hx⟩ := i2 hf
    obtain ⟨r1, e1, -⟩ := Read_outcome ops buffer hx
    exact ⟨r1, e1⟩

end wxSocketBase
end wxSocket


/-! ## The SOCKS4 handshake and `DoConnect` -/

open wxSocket wxSocket.wxSocketBase

namespace wxSocket
namespace wxSocketBase
variable {T : Type}

/-- Method `SetTimeout` sets the timeout of the socket and of its handle and nothing else. -/
theorem SetTimeout_fields (ops : GSocket T) (s : wxSocketBase T) (x : Int) :
    (SetTimeout ops s x).m_timeout = x ∧ (SetTimeout ops s x).m_flags = s.m_flags ∧
      (SetTimeout ops s x).m_connected = s.m_connected ∧
      (SetTimeout ops s x).m_establishing = s.m_establishing ∧
      (∀ t, s.m_socket = some t →
        (SetTimeout ops s x).m_socket = some (ops.SetTimeout t (x * 1000))) := by
  unfold SetTimeout
  cases h : s.m_socket <;> simp [h]

end wxSocketBase

namespace wxSocketClient
variable {T : Type}

/-- The socket on which the handshake runs: flags `BLOCK | WAITALL`, timeout 60 seconds,
marked connected, a handle present. -/
theorem ConnectSOCKS4_override_fields (ops : GSocketConn T) {s : wxSocketBase T} {t : T}
    (ht : s.m_socket = some t) :
    (ConnectSOCKS4_override ops s).m_flags = wxSOCKET_BLOCK ||| wxSOCKET_WAITALL ∧
      (ConnectSOCKS4_override ops s).m_timeout = 60 ∧
      (ConnectSOCKS4_override ops s).m_connected = true ∧
      (ConnectSOCKS4_override ops s).m_establishing = s.m_establishing ∧
      (ConnectSOCKS4_override ops s).m_socket = some (ops.SetTimeout t (60 * 1000)) := by
  obtain ⟨f1, f2, f3, f4, f5⟩ := wxSocketBase.SetTimeout_fields ops.toGSocket
    ({ s with m_connected := true, m_flags := wxSOCKET_BLOCK ||| wxSOCKET_WAITALL }) 60
  exact ⟨f2, f1, f3, f4, f5 t ht⟩

/-- What the handshake part of `ConnectSOCKS4` does on a socket with a handle, given fuel
for the two transfers. -/
theorem ConnectSOCKS4_handshake_spec (ops : GSocketConn T) (fuel : Nat) {s : wxSocketBase T}
    {t : T} (req : List Byte) (len : Nat) (ht : s.m_socket = some t)
    (hf1 : len ≤ fuel) (hf2 : 8 ≤ fuel) :
    ∃ err s1 w,
      wxSocketBase.Write ops.toGSocket fuel (ConnectSOCKS4_override ops s) (some req) len
        = some w ∧
      ConnectSOCKS4_handshake ops fuel s req len = some (err, s1) ∧
      (err = GSocketError.GSOCK_NOERROR ↔
        SOCKS4_accepted ops fuel (ConnectSOCKS4_override ops s) req len) ∧
      (err = GSocketError.GSOCK_NOERROR ∨ err = GSocketError.GSOCK_INVSOCK) ∧
      (err ≠ GSocketError.GSOCK_NOERROR →
        (∃ t1, s1.m_socket = some (ops.Shutdown t1)) ∧ s1.m_connected = false) ∧
      (err = GSocketError.GSOCK_NOERROR → s1.m_connected = true) ∧
      (∃ t1, s1.m_socket = some t1) ∧
      s1.m_establishing = s.m_establishing ∧ s1.m_flags = s.m_flags ∧
      (w.m_lcount = len → s1.m_timeout = s.m_timeout) ∧
      (w.m_lcount ≠ len → s1.m_timeout = 60) := by
  obtain ⟨o1, o2, o3, o4, o5⟩ := ConnectSOCKS4_override_fields ops ht
  have hb0 : (ConnectSOCKS4_override ops s).m_flags &&& wxSOCKET_BLOCK ≠ 0 := by
    rw [o1]; decide
  have hwa0 : (ConnectSOCKS4_override ops s).m_flags &&& wxSOCKET_WAITALL ≠ 0 := by
    rw [o1]; decide
  obtain ⟨wb1, wb2⟩ := wxSocketBase.Write_block ops.toGSocket fuel (some req)
    (n := len) hb0 o5
  obtain ⟨w, hw⟩ := wb2 hf1
  obtain ⟨w1, w2, -, w4, w5, tw, w6⟩ := wb1 w hw
  obtain ⟨-, -, we, -⟩ := wxSocketBase.Write_fields ops.toGSocket hw
  have hwerr := we hwa0
  have hw' : wxSocketBase.Write ops.toGSocket fuel
      (wxSocketBase.SetTimeout ops.toGSocket
        { s with m_connected := true, m_flags := wxSOCKET_BLOCK ||| wxSOCKET_WAITALL } 60)
      (some req) len = some w := hw
  simp only [ConnectSOCKS4_handshake, hw']
  by_cases hlc : w.m_lcount = len
  · -- the whole request was written
    have hcond : ¬ (w.m_error = true ∨ w.m_lcount ≠ len) := by
      rw [hwerr]; simp [hlc]
    rw [if_neg hcond]
    have hbw : w.m_flags &&& wxSOCKET_BLOCK ≠ 0 := by rw [w5]; exact hb0
    have hwaw : w.m_flags &&& wxSOCKET_WAITALL ≠ 0 := by rw [w5]; exact hwa0
    obtain ⟨rb1, rb2⟩ := wxSocketBase.Read_block ops.toGSocket fuel
      (List.replicate 8 0) (n := 8) hbw w6
    obtain ⟨r, hr⟩ := rb2 hf2
    obtain ⟨r1, r2, -, r4, r5, tr, r6⟩ := rb1 r hr
    obtain ⟨-, -, re, -⟩ := wxSocketBase.Read_fields ops.toGSocket hr
    have hrerr := re hwaw
    obtain ⟨g1, g2, g3, g4, g5⟩ := wxSocketBase.SetTimeout_fields ops.toGSocket r.sock s.m_timeout
    simp only [hr]
    by_cases hrc : r.sock.m_lcount = 8
    · have hcond2 : ¬ (r.sock.m_error = true ∨ r.sock.m_lcount ≠ 8) := by
        rw [hrerr]; simp [hrc]
      rw [if_neg hcond2]
      by_cases hrep : r.buffer.getD 0 0 ≠ 0 ∨ r.buffer.getD 1 0 ≠ 90
      · -- the proxy refused
        rw [if_pos hrep]
        simp only [g5 tr r6]
        refine ⟨_, _, w, hw, rfl, ?_, Or.inr rfl, fun _ => ⟨⟨_, rfl⟩, rfl⟩,
          (fun h => by cases h), ⟨_, rfl⟩, ?_, rfl, fun _ => g1, fun h => absurd hlc h⟩
        · constructor
          · intro h; cases h
          · rintro ⟨w0, hw0, -, r0, hr0, -, hb0', hb1'⟩
            rw [hw] at hw0
            cases hw0
            rw [hr] at hr0
            cases hr0
            rcases hrep with h | h
            · exact absurd hb0' h
            · exact absurd hb1' h
        · show (wxSocketBase.SetTimeout ops.toGSocket r.sock s.m_timeout).m_establishing = _
          rw [g4, r2, w2, o4]
      · -- granted
        rw [if_neg hrep]
        obtain ⟨k1, k2, k3, k4, k5⟩ := wxSocketBase.SetTimeout_fields ops.toGSocket
          ({ r.sock with m_flags := s.m_flags }) s.m_timeout
        have hrep' : r.buffer.getD 0 0 = 0 ∧ r.buffer.getD 1 0 = 90 := by
          constructor
          · by_contra h; exact hrep (Or.inl h)
          · by_contra h; exact hrep (Or.inr h)
        refine ⟨_, _, w, hw, rfl, ?_, Or.inl rfl, fun h => absurd rfl h, fun _ => ?_,
          ⟨_, k5 tr r6⟩, ?_, k2, fun _ => k1, fun h => absurd hlc h⟩
        · constructor
          · intro _
            exact ⟨w, hw, hlc, r, hr, hrc, hrep'.1, hrep'.2⟩
          · intro _; rfl
        · rw [k3]
          show r.sock.m_connected = true
          rw [r1, w1, o3]
        · rw [k4]
          show r.sock.m_establishing = _
          rw [r2, w2, o4]
    · -- the reply was short
      have hcond2 : r.sock.m_error = true ∨ r.sock.m_lcount ≠ 8 := Or.inr hrc
      rw [if_pos hcond2]
      simp only [g5 tr r6]
      refine ⟨_, _, w, hw, rfl, ?_, Or.inr rfl, fun _ => ⟨⟨_, rfl⟩, rfl⟩,
        (fun h => by cases h), ⟨_, rfl⟩, ?_, rfl, fun _ => g1, fun h => absurd hlc h⟩
      · constructor
        · intro h; cases h
        · rintro ⟨w0, hw0, -, r0, hr0, hc0, -, -⟩
          rw [hw] at hw0
          cases hw0
          rw [hr] at hr0
          cases hr0
          exact absurd hc0 hrc
      · show (wxSocketBase.SetTimeout ops.toGSocket r.sock s.m_timeout).m_establishing = _
        rw [g4, r2, w2, o4]
  · -- the request write was short
    have hcond : w.m_error = true ∨ w.m_lcount ≠ len := Or.inr hlc
    rw [if_pos hcond]
    simp only [w6]
    refine ⟨_, _, w, hw, rfl, ?_, Or.inr rfl, fun _ => ⟨⟨_, rfl⟩, rfl⟩,
      (fun h => by cases h), ⟨_, rfl⟩, ?_, rfl, fun h => absurd h hlc, fun _ => ?_⟩
    · constructor
      · intro h; cases h
      · rintro ⟨w0, hw0, hc0, -⟩
        rw [hw] at hw0
        cases hw0
        exact absurd hc0 hlc
    · show w.m_establishing = _
      rw [w2, o4]
    · show w.m_timeout = 60
      rw [w4, o2]

/-- When the proxy connect succeeds and the request is built, `ConnectSOCKS4` is the
handshake on the socket with the connected handle. -/
theorem ConnectSOCKS4_of_request (ops : GSocketConn T) (fuel : Nat) {c : wxSocketClient T}
    {t : T} {destination : wxSockAddress} {socks4a : Bool} {req : List Byte} {len : Nat}
    (ht : c.m_socket = some t)
    (hpeer : (ops.SetPeer (ops.SetNonBlocking t false) c.m_proxy_addr.m_address).1
      = GSocketError.GSOCK_NOERROR)
    (hconn : (ops.Connect (ops.SetPeer (ops.SetNonBlocking t false) c.m_proxy_addr.m_address).2
      GSocketStream.GSOCK_STREAMED).1 = GSocketError.GSOCK_NOERROR)
    (hv4 : destination.isIPV4 = true)
    (hreq : ConnectSOCKS4_request (List.replicate 512 0) destination c.m_proxy_login socks4a
      = Except.ok (req, len)) :
    ConnectSOCKS4 ops fuel c destination socks4a =
      (ConnectSOCKS4_handshake ops fuel
        { c.towxSocketBase with m_socket := some (ops.Connect
          (ops.SetPeer (ops.SetNonBlocking t false) c.m_proxy_addr.m_address).2
          GSocketStream.GSOCK_STREAMED).2 } req len).map
        (fun x => (x.1, { c with towxSocketBase := x.2 })) := by
  simp only [ConnectSOCKS4, ht, hpeer, hconn, hv4, ne_eq, not_true_eq_false, if_false,
    Bool.true_eq_false, hreq]
  cases ConnectSOCKS4_handshake ops fuel
      { c.towxSocketBase with m_socket := some (ops.Connect
        (ops.SetPeer (ops.SetNonBlocking t false) c.m_proxy_addr.m_address).2
        GSocketStream.GSOCK_STREAMED).2 } req len with
  | none => rfl
  | some x => rfl

/-- With a handle and fuel for the two transfers, `ConnectSOCKS4` returns; its result is
success or `GSOCK_INVSOCK`, the socket keeps a handle, and `m_establishing` and the flags
are what they were. -/
theorem ConnectSOCKS4_cases (ops : GSocketConn T) {fuel : Nat} {c : wxSocketClient T} {t : T}
    (destination : wxSockAddress) (socks4a : Bool)
    (ht : c.m_socket = some t) (hfuel : 512 ≤ fuel) :
    ∃ err c1, ConnectSOCKS4 ops fuel c destination socks4a = some (err, c1) ∧
      (err = GSocketError.GSOCK_NOERROR ∨ err = GSocketError.GSOCK_INVSOCK) ∧
      c1.m_establishing = c.m_establishing ∧ c1.m_flags = c.m_flags ∧
      (∃ t1, c1.m_socket = some t1) := by
  by_cases hpeer : (ops.SetPeer (ops.SetNonBlocking t false) c.m_proxy_addr.m_address).1
      = GSocketError.GSOCK_NOERROR
  · by_cases hconn : (ops.Connect
        (ops.SetPeer (ops.SetNonBlocking t false) c.m_proxy_addr.m_address).2
        GSocketStream.GSOCK_STREAMED).1 = GSocketError.GSOCK_NOERROR
    · by_cases hv4 : destination.isIPV4 = true
      · cases hreq : ConnectSOCKS4_request (List.replicate 512 0) destination c.m_proxy_login
            socks4a with
        | error b =>
          cases b with
          | true =>
            simp only [ConnectSOCKS4, ht, hpeer, hconn, hv4, ne_eq, not_true_eq_false, if_false,
              Bool.true_eq_false, hreq]
            exact ⟨_, _, rfl, Or.inr rfl, rfl, rfl, ⟨_, rfl⟩⟩
          | false =>
            simp only [ConnectSOCKS4, ht, hpeer, hconn, hv4, ne_eq, not_true_eq_false, if_false,
              Bool.true_eq_false, hreq]
            exact ⟨_, _, rfl, Or.inr rfl, rfl, rfl, ⟨_, rfl⟩⟩
        | ok x =>
          obtain ⟨req, len⟩ := x
          have hlen := ConnectSOCKS4_request_lt _ _ _ _ _ _ hreq
          obtain ⟨err, s1, w, -, h2, -, h4, -, -, h7, h8, h9, -, -⟩ :=
            ConnectSOCKS4_handshake_spec ops fuel
              (s := { c.towxSocketBase with m_socket := some (ops.Connect
                (ops.SetPeer (ops.SetNonBlocking t false) c.m_proxy_addr.m_address).2
                GSocketStream.GSOCK_STREAMED).2 })
              req len rfl (by omega) (by omega)
          refine ⟨err, { c with towxSocketBase := s1 }, ?_, h4, h8, h9, h7⟩
          rw [ConnectSOCKS4_of_request ops fuel ht hpeer hconn hv4 hreq, h2]
          rfl
      · simp only [ConnectSOCKS4, ht, hpeer, hconn, hv4, ne_eq, not_true_eq_false, if_false,
          if_true]
        exact ⟨_, _, rfl, Or.inr rfl, rfl, rfl, ⟨_, rfl⟩⟩
    · simp only [ConnectSOCKS4, ht, hpeer, hconn, ne_eq, not_true_eq_false, if_false,
        not_false_eq_true, if_true]
      exact ⟨_, _, rfl, Or.inr rfl, rfl, rfl, ⟨_, rfl⟩⟩
  · simp only [ConnectSOCKS4, ht, hpeer, ne_eq, not_false_eq_true, if_true]
    exact ⟨_, _, rfl, Or.inr rfl, rfl, rfl, ⟨_, rfl⟩⟩

/-- What the beginning of `DoConnect` leaves: the new handle, neither connected nor
establishing, and the settings untouched. -/
theorem DoConnect_reset_fields (ops : GSocketConn T) (c : wxSocketClient T) (fresh : Option T) :
    (DoConnect_reset ops c fresh).m_socket = fresh ∧
      (DoConnect_reset ops c fresh).m_connected = false ∧
      (DoConnect_reset ops c fresh).m_establishing = false ∧
      (DoConnect_reset ops c fresh).m_proxy_type = c.m_proxy_type ∧
      (DoConnect_reset ops c fresh).m_flags = c.m_flags ∧
      (DoConnect_reset ops c fresh).m_timeout = c.m_timeout := by
  unfold DoConnect_reset
  split_ifs <;> refine ⟨rfl, rfl, rfl, rfl, ?_, ?_⟩ <;>
    first
    | rfl
    | (simp only [wxSocketBase.Close, wxSocketBase.InterruptWait]; split <;> rfl)

/-- The preparation of the new handle changes the handle state only. -/
theorem DoConnect_prepare_eq (ops : GSocketConn T) (c : wxSocketClient T) (t : T)
    (local_addr : Option wxSockAddress) (wait : Bool) :
    ∃ t1, DoConnect_prepare ops c t local_addr wait = { c with m_socket := some t1 } :=
  ⟨_, rfl⟩

/-- The classification that ends `DoConnect`, on a socket with a handle. -/
theorem DoConnect_classify_spec (ops : GSocketConn T) {c : wxSocketClient T} {t : T}
    (err : GSocketError) (wait : Bool) (ht : c.m_socket = some t) :
    ∃ c1, DoConnect_classify ops c err wait
        = some (decide (err = GSocketError.GSOCK_NOERROR), c1) ∧
      c1.m_connected = decide (err = GSocketError.GSOCK_NOERROR) ∧
      c1.m_establishing
        = (if err = GSocketError.GSOCK_WOULDBLOCK then true else c.m_establishing) ∧
      c1.m_socket = some (if wait = false then ops.SetNonBlocking t false else t) ∧
      c1.m_flags = c.m_flags ∧ c1.m_timeout = c.m_timeout := by
  unfold DoConnect_classify
  simp only [ht]
  by_cases he : err = GSocketError.GSOCK_NOERROR
  · subst he
    simp
  · by_cases hw : err = GSocketError.GSOCK_WOULDBLOCK
    · subst hw
      simp
    · simp [he, hw]

/-- Method `DoConnect` on a new handle, written out. -/
theorem DoConnect_def (ops : GSocketConn T) (fuel : Nat) (c : wxSocketClient T) (t0 : T)
    (addr_man : wxSockAddress) (local_addr : Option wxSockAddress) (wait : Bool) :
    DoConnect ops fuel c (some t0) addr_man local_addr wait =
      match DoConnect_switch ops fuel
        (DoConnect_prepare ops (DoConnect_reset ops c (some t0)) t0 local_addr wait) addr_man with
      | none => none
      | some (err, c1) => DoConnect_classify ops c1 err wait := rfl

end wxSocketClient

/-- C20: classification of a direct connect. For every `wxSocketClient` without a proxy,
every new handle `t0`, every address, local address and `wait`, whatever the transport and
the fuel: with `t1` the handle as `DoConnect` has prepared it and `err` the result of the
transport's connect call on it (after `SetPeer`), `DoConnect` returns
`connected = (err is success)`, and afterwards `connected = (err is success)`,
`establishing = (err is would-block)`; on a hard failure both are false. -/
theorem C20_Connect_classification {T : Type} (ops : GSocketConn T) (fuel : Nat)
    (c : wxSocketClient T) (t0 : T) (addr_man : wxSockAddress)
    (local_addr : Option wxSockAddress) (wait : Bool)
    (hp : c.m_proxy_type = wxSocketProxyType.wxPROXY_NONE) :
    ∃ t1 c1,
      (wxSocketClient.DoConnect_prepare ops (wxSocketClient.DoConnect_reset ops c (some t0)) t0
        local_addr wait).m_socket = some t1 ∧
      wxSocketClient.DoConnect ops fuel c (some t0) addr_man local_addr wait
        = some (decide ((ops.Connect (ops.SetPeer t1 addr_man.m_address).2
            GSocketStream.GSOCK_STREAMED).1 = GSocketError.GSOCK_NOERROR), c1) ∧
      c1.m_connected = decide ((ops.Connect (ops.SetPeer t1 addr_man.m_address).2
        GSocketStream.GSOCK_STREAMED).1 = GSocketError.GSOCK_NOERROR) ∧
      c1.m_establishing = decide ((ops.Connect (ops.SetPeer t1 addr_man.m_address).2
        GSocketStream.GSOCK_STREAMED).1 = GSocketError.GSOCK_WOULDBLOCK) ∧
      ((ops.Connect (ops.SetPeer t1 addr_man.m_address).2
          GSocketStream.GSOCK_STREAMED).1 ≠ GSocketError.GSOCK_NOERROR →
        (ops.Connect (ops.SetPeer t1 addr_man.m_address).2
          GSocketStream.GSOCK_STREAMED).1 ≠ GSocketError.GSOCK_WOULDBLOCK →
        c1.m_connected = false ∧ c1.m_establishing = false) := by
  obtain ⟨r1, r2, r3, r4, -, -⟩ := wxSocketClient.DoConnect_reset_fields ops c (some t0)
  obtain ⟨t1, hprep⟩ := wxSocketClient.DoConnect_prepare_eq ops
    (wxSocketClient.DoConnect_reset ops c (some t0)) t0 local_addr wait
  have hsw : wxSocketClient.DoConnect_switch ops fuel
      (wxSocketClient.DoConnect_prepare ops (wxSocketClient.DoConnect_reset ops c (some t0)) t0
        local_addr wait) addr_man
      = some ((ops.Connect (ops.SetPeer t1 addr_man.m_address).2
          GSocketStream.GSOCK_STREAMED).1,
        { (wxSocketClient.DoConnect_reset ops c (some t0)) with
          m_socket := some (ops.Connect (ops.SetPeer t1 addr_man.m_address).2
            GSocketStream.GSOCK_STREAMED).2 }) := by
    rw [hprep]
    unfold wxSocketClient.DoConnect_switch
    have hpt := r4.trans hp
    simp only [hpt]
  obtain ⟨c1, k1, k2, k3, -, -, -⟩ := wxSocketClient.DoConnect_classify_spec ops
    (c := { (wxSocketClient.DoConnect_reset ops c (some t0)) with
      m_socket := some (ops.Connect (ops.SetPeer t1 addr_man.m_address).2
        GSocketStream.GSOCK_STREAMED).2 })
    ((ops.Connect (ops.SetPeer t1 addr_man.m_address).2 GSocketStream.GSOCK_STREAMED).1) wait rfl
  have k3' : c1.m_establishing = decide ((ops.Connect (ops.SetPeer t1 addr_man.m_address).2
      GSocketStream.GSOCK_STREAMED).1 = GSocketError.GSOCK_WOULDBLOCK) := by
    rw [k3]
    show (if _ then true else (wxSocketClient.DoConnect_reset ops c (some t0)).m_establishing) = _
    rw [r3]
    by_cases hw : (ops.Connect (ops.SetPeer t1 addr_man.m_address).2
      GSocketStream.GSOCK_STREAMED).1 = GSocketError.GSOCK_WOULDBLOCK <;> simp [hw]
  refine ⟨t1, c1, by rw [hprep], ?_, k2, k3', ?_⟩
  · rw [wxSocketClient.DoConnect_def, hsw]
    exact k1
  · intro h1 h2
    rw [k2, k3']
    simp [h1, h2]

/-- C20 on the scripted peer: a non-blocking direct connect that the transport answers with
would-block returns false and leaves the socket establishing and not connected. -/
theorem C20_Connect_classification_witness :
    ∃ c1, wxSocketClient.DoConnect peerOps 0
        (clientWith 0 wxSocketProxyType.wxPROXY_NONE noAddress [])
        (some (peerWith [] true GSocketError.GSOCK_WOULDBLOCK)) noAddress none false
        = some (false, c1) ∧
      c1.m_connected = false ∧ c1.m_establishing = true := by
  obtain ⟨t1, c1, h1, h2, h3, h4, -⟩ := C20_Connect_classification peerOps 0
    (clientWith 0 wxSocketProxyType.wxPROXY_NONE noAddress [])
    (peerWith [] true GSocketError.GSOCK_WOULDBLOCK) noAddress none false rfl
  have ht1 : t1 = { peerWith [] true GSocketError.GSOCK_WOULDBLOCK with
      timeout := 600000, callbacks := 15, nonblocking := true } := by
    have : some t1 = some ({ peerWith [] true GSocketError.GSOCK_WOULDBLOCK with
      timeout := 600000, callbacks := 15, nonblocking := true } : Peer) := by
      rw [← h1]; rfl
    exact Option.some.inj this
  subst ht1
  exact ⟨c1, h2, h3, h4⟩

end wxSocket


/-! ## Acceptance of the SOCKS4 reply; restoring the timeout; `connected` and `establishing` -/

open wxSocket wxSocket.wxSocketBase

namespace wxSocket

/-- C17: acceptance of the SOCKS4 reply. With fuel for the two transfers (the request is
shorter than 512 bytes), whatever the transport:

* On a client whose handle is in state `t`, when the proxy connect succeeds (`SetPeer` and
  `Connect` report success), the destination is an IPv4 address and the request `req` of
  `len` bytes is built: `ConnectSOCKS4` returns, and it reports success if and only if, on
  the socket carrying the temporary flags and timeout, the whole request is written,
  exactly 8 reply bytes are read, and the reply begins with `0`, `90`
  (`SOCKS4_accepted`). In every other case it reports `GSOCK_INVSOCK`, the last call on the
  handle is `Shutdown`, and the socket is not connected; `m_establishing` is untouched.
* On a client with proxy type SOCKS4 or SOCKS4a and a new handle `t0`: `DoConnect` returns
  whether the `ConnectSOCKS4` it runs reported success, `connected` is that value and
  `establishing` is false; the handle is the one `ConnectSOCKS4` left, switched back to
  blocking mode when `wait` is false. -/
theorem C17_SOCKS4_reply_acceptance {T : Type} (ops : GSocketConn T) (fuel : Nat)
    (hfuel : 512 ≤ fuel) :
    (∀ (c : wxSocketClient T) (t : T) (destination : wxSockAddress) (socks4a : Bool)
        (req : List Byte) (len : Nat),
      c.m_socket = some t →
      (ops.SetPeer (ops.SetNonBlocking t false) c.m_proxy_addr.m_address).1
        = GSocketError.GSOCK_NOERROR →
      (ops.Connect (ops.SetPeer (ops.SetNonBlocking t false) c.m_proxy_addr.m_address).2
        GSocketStream.GSOCK_STREAMED).1 = GSocketError.GSOCK_NOERROR →
      destination.isIPV4 = true →
      wxSocketClient.ConnectSOCKS4_request (List.replicate 512 0) destination c.m_proxy_login
        socks4a = Except.ok (req, len) →
      ∃ err c1, wxSocketClient.ConnectSOCKS4 ops fuel c destination socks4a = some (err, c1) ∧
        (err = GSocketError.GSOCK_NOERROR ↔
          wxSocketClient.SOCKS4_accepted ops fuel
            (wxSocketClient.ConnectSOCKS4_override ops
              { c.towxSocketBase with m_socket := some (ops.Connect
                (ops.SetPeer (ops.SetNonBlocking t false) c.m_proxy_addr.m_address).2
                GSocketStream.GSOCK_STREAMED).2 }) req len) ∧
        (err ≠ GSocketError.GSOCK_NOERROR →
          err = GSocketError.GSOCK_INVSOCK ∧ (∃ t1, c1.m_socket = some (ops.Shutdown t1)) ∧
          c1.m_connected = false) ∧
        c1.m_establishing = c.m_establishing) ∧
    (∀ (c : wxSocketClient T) (t0 : T) (addr_man : wxSockAddress)
        (local_addr : Option wxSockAddress) (wait : Bool),
      c.m_proxy_type = wxSocketProxyType.wxPROXY_SOCKS4 ∨
        c.m_proxy_type = wxSocketProxyType.wxPROXY_SOCKS4a →
      ∃ err c2 c1,
        wxSocketClient.ConnectSOCKS4 ops fuel
          (wxSocketClient.DoConnect_prepare ops (wxSocketClient.DoConnect_reset ops c (some t0))
            t0 local_addr wait) addr_man
          (decide (c.m_proxy_type = wxSocketProxyType.wxPROXY_SOCKS4a)) = some (err, c2) ∧
        wxSocketClient.DoConnect ops fuel c (some t0) addr_man local_addr wait
          = some (decide (err = GSocketError.GSOCK_NOERROR), c1) ∧
        c1.m_connected = decide (err = GSocketError.GSOCK_NOERROR) ∧
        c1.m_establishing = false ∧
        (∀ t2, c2.m_socket = some t2 →
          c1.m_socket = some (if wait = false then ops.SetNonBlocking t2 false else t2))) := by
  constructor
  · intro c t destination socks4a req len ht hpeer hconn hv4 hreq
    have hlen := wxSocketClient.ConnectSOCKS4_request_lt _ _ _ _ _ _ hreq
    obtain ⟨err, s1, w, -, h2, h3, h4, h5, -, -, h8, -, -, -⟩ :=
      wxSocketClient.ConnectSOCKS4_handshake_spec ops fuel
        (s := { c.towxSocketBase with m_socket := some (ops.Connect
          (ops.SetPeer (ops.SetNonBlocking t false) c.m_proxy_addr.m_address).2
          GSocketStream.GSOCK_STREAMED).2 })
        req len rfl (by omega) (by omega)
    refine ⟨err, { c with towxSocketBase := s1 }, ?_, h3, ?_, h8⟩
    · rw [wxSocketClient.ConnectSOCKS4_of_request ops fuel ht hpeer hconn hv4 hreq, h2]
      rfl
    · intro hne
      rcases h4 with h | h
      · exact absurd h hne
      · exact ⟨h, (h5 hne).1, (h5 hne).2⟩
  · intro c t0 addr_man local_addr wait hp
    obtain ⟨-, -, r3, r4, -, -⟩ := wxSocketClient.DoConnect_reset_fields ops c (some t0)
    obtain ⟨t1, hprep⟩ := wxSocketClient.DoConnect_prepare_eq ops
      (wxSocketClient.DoConnect_reset ops c (some t0)) t0 local_addr wait
    have hsock : (wxSocketClient.DoConnect_prepare ops
        (wxSocketClient.DoConnect_reset ops c (some t0)) t0 local_addr wait).m_socket
        = some t1 := by rw [hprep]
    have hest : (wxSocketClient.DoConnect_prepare ops
        (wxSocketClient.DoConnect_reset ops c (some t0)) t0 local_addr wait).m_establishing
        = false := by rw [hprep]; exact r3
    have hpt : (wxSocketClient.DoConnect_prepare ops
        (wxSocketClient.DoConnect_reset ops c (some t0)) t0 local_addr wait).m_proxy_type
        = c.m_proxy_type := by rw [hprep]; exact r4
    obtain ⟨err, c2, e1, e2, e3, -, t2, e5⟩ := wxSocketClient.ConnectSOCKS4_cases ops
      addr_man (decide (c.m_proxy_type = wxSocketProxyType.wxPROXY_SOCKS4a)) hsock hfuel
    obtain ⟨c1, k1, k2, k3, k4, -, -⟩ := wxSocketClient.DoConnect_classify_spec ops err wait e5
    have hsw : wxSocketClient.DoConnect_switch ops fuel
        (wxSocketClient.DoConnect_prepare ops (wxSocketClient.DoConnect_reset ops c (some t0)) t0
          local_addr wait) addr_man = some (err, c2) := by
      unfold wxSocketClient.DoConnect_switch
      rcases hp with hp | hp
      · rw [hp] at hpt e1
        simp only [hpt]
        exact e1
      · rw [hp] at hpt e1
        simp only [hpt]
        exact e1
    refine ⟨err, c2, c1, e1, ?_, k2, ?_, ?_⟩
    · rw [wxSocketClient.DoConnect_def, hsw]
      exact k1
    · rw [k3, e3, hest]
      rcases e2 with h | h <;> simp [h]
    · intro t3 ht3
      rw [e5] at ht3
      cases ht3
      exact k4

/-- C17 on the scripted peer: a client with a SOCKS4 proxy, login `me`, destination
`127.0.0.1:80`; the proxy accepts the request and answers `01 5b 00 00 00 00 00 00`
(reply bytes `1, 91`). `Connect` returns false, the socket is neither connected nor
establishing, the request `04 01 00 50 7f 00 00 01 6d 65 00` went out and the handle was
shut down. -/
theorem C17_SOCKS4_reply_acceptance_witness :
    ∃ c1 t, wxSocketClient.DoConnect peerOps 512
        (clientWith 0 wxSocketProxyType.wxPROXY_SOCKS4 noAddress [109, 101])
        (some (peerWith [1, 91, 0, 0, 0, 0, 0, 0] true GSocketError.GSOCK_NOERROR))
        { m_address := none, isIPV4 := true, Service := 80, CheckStringIP := 16777343,
          OrigHostname := [] } none true = some (false, c1) ∧
      c1.m_connected = false ∧ c1.m_establishing = false ∧
      c1.m_socket = some t ∧ t.down = true ∧
      t.outbound = [4, 1, 0, 80, 127, 0, 0, 1, 109, 101, 0] := by
  obtain ⟨err, c2, c1, h1, h2, h3, h4, h5⟩ := (C17_SOCKS4_reply_acceptance peerOps 512
    (le_refl _)).2 (clientWith 0 wxSocketProxyType.wxPROXY_SOCKS4 noAddress [109, 101])
    (peerWith [1, 91, 0, 0, 0, 0, 0, 0] true GSocketError.GSOCK_NOERROR)
    { m_address := none, isIPV4 := true, Service := 80, CheckStringIP := 16777343,
      OrigHostname := [] } none true (Or.inl rfl)
  have hev : ∃ c3 t, wxSocketClient.ConnectSOCKS4 peerOps 512
      (wxSocketClient.DoConnect_prepare peerOps (wxSocketClient.DoConnect_reset peerOps
        (clientWith 0 wxSocketProxyType.wxPROXY_SOCKS4 noAddress [109, 101])
        (some (peerWith [1, 91, 0, 0, 0, 0, 0, 0] true GSocketError.GSOCK_NOERROR)))
        (peerWith [1, 91, 0, 0, 0, 0, 0, 0] true GSocketError.GSOCK_NOERROR) none true)
      { m_address := none, isIPV4 := true, Service := 80, CheckStringIP := 16777343,
        OrigHostname := [] }
      (decide ((clientWith 0 wxSocketProxyType.wxPROXY_SOCKS4 noAddress [109, 101]).m_proxy_type
        = wxSocketProxyType.wxPROXY_SOCKS4a))
      = some (GSocketError.GSOCK_INVSOCK, c3) ∧ c3.m_socket = some t ∧ t.down = true ∧
      t.outbound = [4, 1, 0, 80, 127, 0, 0, 1, 109, 101, 0] := ⟨_, _, rfl, rfl, rfl, rfl⟩
  obtain ⟨c3, t, g1, g2, g3, g4⟩ := hev
  rw [g1] at h1
  simp only [Option.some.injEq, Prod.mk.injEq] at h1
  obtain ⟨he, hc⟩ := h1
  subst he
  subst hc
  exact ⟨c1, t, h2, h3, h4, by rw [h5 t g2]; rfl, g3, g4⟩

/-- C18 (the code at the failing input): a client with timeout 600 and a SOCKS4 proxy whose
connection is established but accepts no byte (the transport's write fails). `ConnectSOCKS4`
takes the exit for a short request write: it reports `GSOCK_INVSOCK`, restores the flags and
shuts the handle down, but the timeout of the socket stays at 60 seconds (and that of the
handle at 60000 ms) instead of returning to 600. `Connect` returns false and leaves the
socket with timeout 60. -/
theorem C18_SOCKS4_timeout_not_restored :
    ∃ c1 t c2, wxSocketClient.ConnectSOCKS4 peerOps 512
        { clientWith 3 wxSocketProxyType.wxPROXY_SOCKS4 noAddress [109, 101] with
          m_socket := some (peerWith [] false GSocketError.GSOCK_NOERROR) }
        { m_address := none, isIPV4 := true, Service := 80, CheckStringIP := 16777343,
          OrigHostname := [] } false = some (GSocketError.GSOCK_INVSOCK, c1) ∧
      (clientWith 3 wxSocketProxyType.wxPROXY_SOCKS4 noAddress [109, 101]).m_timeout = 600 ∧
      c1.m_timeout = 60 ∧ c1.m_flags = 3 ∧ c1.m_lcount = 0 ∧ c1.m_error = true ∧
      c1.m_socket = some t ∧ t.timeout = 60000 ∧ t.down = true ∧ t.outbound = [] ∧
      wxSocketClient.DoConnect peerOps 512
        (clientWith 3 wxSocketProxyType.wxPROXY_SOCKS4 noAddress [109, 101])
        (some (peerWith [] false GSocketError.GSOCK_NOERROR))
        { m_address := none, isIPV4 := true, Service := 80, CheckStringIP := 16777343,
          OrigHostname := [] } none true = some (false, c2) ∧
      c2.m_timeout = 60 ∧ c2.m_flags = 3 :=
  ⟨_, _, _, rfl, rfl, rfl, rfl, rfl, rfl, rfl, rfl, rfl, rfl, rfl, rfl, rfl⟩

/-- C19 (the code at the failing input): a client starts a non-blocking direct connect that
the transport answers with would-block, so it is establishing and not connected. A
listening socket with a connection waiting then accepts into that client with
`AcceptWith`: the call returns true and leaves the client with `connected` and
`establishing` both true, so the invariant that held before the call is broken. -/
theorem C19_AcceptWith_keeps_establishing :
    ∃ c1 server1 sock1, wxSocketClient.DoConnect peerOps 0
        (clientWith 0 wxSocketProxyType.wxPROXY_NONE noAddress [])
        (some (peerWith [] true GSocketError.GSOCK_WOULDBLOCK)) noAddress none false
        = some (false, c1) ∧
      c1.m_connected = false ∧ c1.m_establishing = true ∧
      wxSocketBase.Exclusive c1.towxSocketBase = true ∧
      wxSocketServer.AcceptWith peerOps
        { (wxSocketBase.Init false : wxSocketBase Peer) with
          m_type := wxSocketType.wxSOCKET_SERVER,
          m_socket := some { peerWith [] true GSocketError.GSOCK_NOERROR with incoming := true } }
        c1.towxSocketBase true = (true, server1, sock1) ∧
      sock1.m_connected = true ∧ sock1.m_establishing = true ∧
      wxSocketBase.Exclusive sock1 = false :=
  ⟨_, _, _, rfl, rfl, rfl, rfl, rfl, rfl, rfl, rfl⟩

end wxSocket


/-! ## The operations that keep `connected` and `establishing` apart -/

open wxSocket wxSocket.wxSocketBase

namespace wxSocket
namespace wxSocketBase
variable {T : Type}

/-- The invariant holds after `Init`. -/
theorem Init_exclusive (b : Bool) : Exclusive (Init b : wxSocketBase T) = true := rfl

/-- The invariant holds after `Close`, whatever the state before. -/
theorem Close_exclusive (ops : GSocketConn T) (s : wxSocketBase T) :
    Exclusive (Close ops s).2 = true := rfl

/-- The polling loop of `_Wait` leaves the connection state as it was or clears
`m_establishing`. -/
theorem _Wait_loop_conn (ops : GSocket T) (timeout time_limit : Int) (flags : Nat)
    (hel : Bool) :
    ∀ (fuel : Nat) (s : wxSocketBase T) (t : T) (b : Bool) (s1 : wxSocketBase T) (t1 : T),
      _Wait_loop ops timeout time_limit flags hel fuel s t = some (b, s1, t1) →
      (s1.m_connected = s.m_connected ∧ s1.m_establishing = s.m_establishing) ∨
        s1.m_establishing = false := by
  intro fuel
  induction fuel with
  | zero => intro s t b s1 t1 h; simp [_Wait_loop] at h
  | succ f ih =>
    intro s t b s1 t1 h
    simp only [_Wait_loop] at h
    split_ifs at h with h1 h2 h3 h4 h5
    · simp only [Option.some.injEq, Prod.mk.injEq] at h
      obtain ⟨-, rfl, -⟩ := h
      exact Or.inr rfl
    · simp only [Option.some.injEq, Prod.mk.injEq] at h
      obtain ⟨-, rfl, -⟩ := h
      exact Or.inl ⟨rfl, rfl⟩
    · simp only [Option.some.injEq, Prod.mk.injEq] at h
      obtain ⟨-, rfl, -⟩ := h
      exact Or.inr rfl
    · simp only [Option.some.injEq, Prod.mk.injEq] at h
      obtain ⟨-, rfl, -⟩ := h
      exact Or.inl ⟨rfl, rfl⟩
    · exact ih ({ s with m_interrupt := s.m_interrupt ||
        (ops.PROCESS_EVENTS (ops.Select t (flags ||| GSOCK_LOST_FLAG)).2).1 }) _ b s1 t1 h
    · exact ih s _ b s1 t1 h
    · exact ih s _ b s1 t1 h

/-- The wait engine `_Wait` preserves the invariant. -/
theorem _Wait_exclusive (ops : GSocket T) {fuel : Nat} {s : wxSocketBase T}
    {seconds milliseconds : Int} {flags : Nat} {b : Bool} {s1 : wxSocketBase T}
    (h : _Wait ops fuel s seconds milliseconds flags = some (b, s1))
    (hs : Exclusive s = true) : Exclusive s1 = true := by
  unfold _Wait at h
  simp only at h
  cases hsock : s.m_socket with
  | none =>
    simp only [hsock, Option.some.injEq, Prod.mk.injEq] at h
    obtain ⟨-, rfl⟩ := h
    exact hs
  | some t =>
    simp only [hsock] at h
    split at h
    · simp at h
    · rename_i v s2 t2 hloop
      simp only [Option.some.injEq, Prod.mk.injEq] at h
      obtain ⟨-, rfl⟩ := h
      have := _Wait_loop_conn ops _ _ _ _ _ _ _ _ _ _ hloop
      rcases this with ⟨e1, e2⟩ | e
      · show (!(s2.m_connected && s2.m_establishing)) = true
        rw [e1, e2]
        exact hs
      · show (!(s2.m_connected && s2.m_establishing)) = true
        rw [e]
        simp

end wxSocketBase

namespace wxSocketServer
variable {T : Type}

/-- Method `AcceptWith` never writes `m_establishing` of the target socket, and marks the
target connected when it returns true: the invariant holds afterwards only for a target
that was not establishing. -/
theorem AcceptWith_conn (ops : GSocketConn T) (server sock : wxSocketBase T) (wait : Bool) :
    (AcceptWith ops server sock wait).2.2.m_establishing = sock.m_establishing ∧
      ((AcceptWith ops server sock wait).1 = true →
        (AcceptWith ops server sock wait).2.2.m_connected = true) := by
  unfold AcceptWith
  cases server.m_socket with
  | none => exact ⟨rfl, fun h => by cases h⟩
  | some t =>
    simp only
    split
    · exact ⟨rfl, fun h => by cases h⟩
    · exact ⟨rfl, fun _ => rfl⟩

end wxSocketServer

namespace wxDatagramSocket
variable {T : Type}

/-- Method `wxDatagramSocket::Connect` never writes `m_establishing`. -/
theorem Connect_conn (ops : GSocketConn T) (s : wxSocketBase T) (addr : wxSockAddress) :
    (Connect ops s addr).2.m_establishing = s.m_establishing := by
  unfold Connect
  cases s.m_socket with
  | none => rfl
  | some t =>
    simp only
    split_ifs <;> rfl

end wxDatagramSocket

namespace wxSocketClient
variable {T : Type}

/-- With fuel for the SOCKS4 handshake, `DoConnect` returns for every proxy type, its return
value is `connected`, and the invariant holds afterwards, whatever the state before. -/
theorem DoConnect_exclusive (ops : GSocketConn T) {fuel : Nat} (hfuel : 512 ≤ fuel)
    (c : wxSocketClient T) (fresh : Option T) (addr_man : wxSockAddress)
    (local_addr : Option wxSockAddress) (wait : Bool) :
    ∃ ret c1, DoConnect ops fuel c fresh addr_man local_addr wait = some (ret, c1) ∧
      ret = c1.m_connected ∧ wxSocketBase.Exclusive c1.towxSocketBase = true := by
  obtain ⟨-, r2, r3, r4, -, -⟩ := DoConnect_reset_fields ops c fresh
  cases fresh with
  | none =>
    refine ⟨false, DoConnect_reset ops c none, rfl, ?_, ?_⟩
    · rw [(DoConnect_reset_fields ops c none).2.1]
    · show (!((DoConnect_reset ops c none).m_connected
        && (DoConnect_reset ops c none).m_establishing)) = true
      rw [(DoConnect_reset_fields ops c none).2.1]
      rfl
  | some t0 =>
    obtain ⟨t1, hprep⟩ := DoConnect_prepare_eq ops (DoConnect_reset ops c (some t0)) t0
      local_addr wait
    have hsock : (DoConnect_prepare ops (DoConnect_reset ops c (some t0)) t0 local_addr
        wait).m_socket = some t1 := by rw [hprep]
    have hest : (DoConnect_prepare ops (DoConnect_reset ops c (some t0)) t0 local_addr
        wait).m_establishing = false := by rw [hprep]; exact r3
    -- the switch returns a result code and a socket with a handle; it sets
    -- `m_establishing` nowhere
    have hsw : ∃ err c2 t2, DoConnect_switch ops fuel
        (DoConnect_prepare ops (DoConnect_reset ops c (some t0)) t0 local_addr wait) addr_man
        = some (err, c2) ∧ c2.m_socket = some t2 ∧ c2.m_establishing = false := by
      unfold DoConnect_switch
      split
      · simp only [hsock]
        exact ⟨_, _, _, rfl, rfl, hest⟩
      · simp only [ConnectSOCKS5, hsock]
        exact ⟨_, _, _, rfl, rfl, hest⟩
      · obtain ⟨err, c2, e1, -, e3, -, t2, e5⟩ := ConnectSOCKS4_cases ops addr_man false hsock
          hfuel
        exact ⟨err, c2, t2, e1, e5, e3.trans hest⟩
      · obtain ⟨err, c2, e1, -, e3, -, t2, e5⟩ := ConnectSOCKS4_cases ops addr_man true hsock
          hfuel
        exact ⟨err, c2, t2, e1, e5, e3.trans hest⟩
      · simp only [ConnectHTTP, hsock]
        exact ⟨_, _, _, rfl, rfl, hest⟩
      · exact ⟨_, _, t1, rfl, hsock, hest⟩
    obtain ⟨err, c2, t2, e1, e2, e3⟩ := hsw
    obtain ⟨c1, k1, k2, k3, -, -, -⟩ := DoConnect_classify_spec ops err wait e2
    refine ⟨_, c1, by rw [DoConnect_def, e1]; exact k1, k2.symm, ?_⟩
    show (!(c1.m_connected && c1.m_establishing)) = true
    rw [k2, k3, e3]
    by_cases h1 : err = GSocketError.GSOCK_NOERROR
    · subst h1; rfl
    · simp [h1]

end wxSocketClient
end wxSocket


/-! ## The saved state stack -/

open wxSocket wxSocket.wxSocketBase

namespace wxSocket

/-- C22: the saved state stack is last-in-first-out. `RestoreState` on an empty stack
changes nothing; on a stack whose most recently saved snapshot is `st` (the stack is
`l ++ [st]`) it removes exactly `st` and sets flags, notify-enabled, event mask and client
tag to the values of `st`, leaving every other field as it was; hence `SaveState` followed
by arbitrary changes to those four fields and then `RestoreState` gives back the socket as
it was before `SaveState`, the four fields and the stack included. -/
theorem C22_saved_state_stack_LIFO {T : Type} (s : wxSocketBase T) :
    (s.m_states = [] → wxSocketBase.RestoreState s = s) ∧
    (∀ (l : List wxSocketState) (st : wxSocketState), s.m_states = l ++ [st] →
      wxSocketBase.RestoreState s =
        { s with
          m_flags := st.m_flags, m_notify := st.m_notify, m_eventmask := st.m_eventmask,
          m_clientData := st.m_clientData, m_states := l }) ∧
    (∀ (flags : Nat) (notify : Bool) (eventmask clientData : Nat),
      wxSocketBase.RestoreState
        { wxSocketBase.SaveState s with
          m_flags := flags, m_notify := notify, m_eventmask := eventmask,
          m_clientData := clientData } = s ∧
      wxSocketBase.RestoreState
        (((((wxSocketBase.SaveState s).SetFlags flags).Notify notify).SetNotify
          eventmask).SetClientData clientData) = s) := by
  refine ⟨?_, ?_, ?_⟩
  · intro h
    simp [wxSocketBase.RestoreState, h]
  · intro l st h
    simp [wxSocketBase.RestoreState, h]
  · intro flags notify eventmask clientData
    constructor <;>
    simp [wxSocketBase.RestoreState, wxSocketBase.SaveState, wxSocketBase.SetFlags,
      wxSocketBase.Notify, wxSocketBase.SetNotify, wxSocketBase.SetClientData]


/-- C22 on concrete sockets: `RestoreState` leaves a fresh socket, whose stack is empty, as
it is; and a socket with flags `WAITALL | BLOCK` that is saved, reconfigured through
`SetFlags`, `Notify`, `SetNotify` and `SetClientData` and restored is the socket it was. -/
theorem C22_saved_state_stack_LIFO_witness :
    wxSocketBase.RestoreState (wxSocketBase.Init false : wxSocketBase Loopback)
        = wxSocketBase.Init false ∧
      wxSocketBase.RestoreState
        (((((wxSocketBase.SaveState (socketOn (loopbackWith [] 0) 6)).SetFlags 1).Notify
          true).SetNotify 3).SetClientData 9) = socketOn (loopbackWith [] 0) 6 :=
  ⟨(C22_saved_state_stack_LIFO (wxSocketBase.Init false : wxSocketBase Loopback)).1 rfl,
    ((C22_saved_state_stack_LIFO (socketOn (loopbackWith [] 0) 6)).2.2 1 true 3 9).2⟩

end wxSocket


/-! ## The flags after `Discard` -/

open wxSocket wxSocket.wxSocketBase

namespace wxSocket
namespace wxSocketBase

variable {T : Type}

/-- Whatever the transport does, the loop of `Discard` does not touch the flags. -/
theorem Discard_loop_flags (ops : GSocket T) :
    ∀ (fuel : Nat) (s : wxSocketBase T) (total k : Nat) (s' : wxSocketBase T),
      Discard_loop ops fuel s total = some (k, s') → s'.m_flags = s.m_flags := by
  intro fuel
  induction fuel with
  | zero => intro s total k s' h; simp [Discard_loop] at h
  | succ fuel ih =>
    intro s total k s' h
    simp only [Discard_loop] at h
    split at h
    · simp at h
    · rename_i r hr
      have f1 := _Read_flags ops hr
      split_ifs at h
      · rw [ih _ _ _ _ h, f1]
      · simp only [Option.some.injEq, Prod.mk.injEq] at h
        rw [← h.2, f1]

/-- With `NOWAIT` set `_Read` needs no fuel: it enters neither the wait engine nor the
retry loop. -/
theorem _Read_nowait_returns (ops : GSocket T) (s : wxSocketBase T) (n : Nat)
    (hnw : s.m_flags &&& wxSOCKET_NOWAIT ≠ 0) : ∃ r, _Read ops 0 s n = some r := by
  have hf : (s.GetPushback n false).sock.m_flags &&& wxSOCKET_NOWAIT ≠ 0 := by
    rw [GetPushback_flags]; exact hnw
  unfold _Read
  simp only
  cases hsock : (s.GetPushback n false).sock.m_socket with
  | none => exact ⟨_, rfl⟩
  | some t =>
    simp only []
    split_ifs with h0
    · exact ⟨_, rfl⟩
    · cases hret : (ops.Read (ops.SetNonBlocking t true) (n - (s.GetPushback n false).total)).1 with
      | none => exact ⟨_, rfl⟩
      | some d =>
        simp only []
        split_ifs <;> exact ⟨_, rfl⟩

/-- With `NOWAIT` set `_Write` needs no fuel: it enters neither the wait engine nor the
retry loop. -/
theorem _Write_nowait_returns (ops : GSocket T) (s : wxSocketBase T)
    (buffer : Option (List Byte)) (n : Nat)
    (hnw : s.m_flags &&& wxSOCKET_NOWAIT ≠ 0) : ∃ r, _Write ops 0 s buffer n = some r := by
  unfold _Write
  cases hsock : s.m_socket with
  | none => exact ⟨_, rfl⟩
  | some t =>
    cases buffer with
    | none => exact ⟨_, rfl⟩
    | some buffer =>
      simp only []
      split_ifs with h0
      · exact ⟨_, rfl⟩
      · cases hret : (ops.Write (ops.SetNonBlocking t true) (buffer.take n)).1 with
        | none => exact ⟨_, rfl⟩
        | some k =>
          simp only []
          split_ifs <;> exact ⟨_, rfl⟩

end wxSocketBase

/-- C28: `Discard` does not restore the flags. For every transport and every socket
state, whenever `Discard()` returns, the flag set of the socket is exactly `NOWAIT`,
whatever it was before the call: `WAITALL` and `BLOCK` are clear. A later `Read` or `Write`
is therefore a single non-blocking attempt: it returns without any fuel, that is without
entering the wait engine or the retry loop. -/
theorem C28_Discard_leaves_NOWAIT {T : Type} (ops : GSocket T) (fuel : Nat)
    (s s1 : wxSocketBase T) (h : wxSocketBase.Discard ops fuel s = some s1) :
    s1.m_flags = wxSOCKET_NOWAIT ∧
      s1.m_flags &&& wxSOCKET_WAITALL = 0 ∧ s1.m_flags &&& wxSOCKET_BLOCK = 0 ∧
      (∀ (buffer : List Byte) (n : Nat), ∃ r, wxSocketBase.Read ops 0 s1 buffer n = some r) ∧
      (∀ (buffer : Option (List Byte)) (n : Nat),
        ∃ w, wxSocketBase.Write ops 0 s1 buffer n = some w) := by
  have hdef : wxSocketBase.Discard ops fuel s =
      match wxSocketBase.Discard_loop ops fuel
        (({ s with m_reading := true } : wxSocketBase T).SetFlags wxSOCKET_NOWAIT) 0 with
      | none => none
      | some (total, s2) =>
        some { s2 with m_lcount := total, m_error := false, m_reading := false } := rfl
  rw [hdef] at h
  have hfl : s1.m_flags = wxSOCKET_NOWAIT := by
    split at h
    · simp at h
    · rename_i total s2 hl
      have := wxSocketBase.Discard_loop_flags ops _ _ _ _ _ hl
      simp only [Option.some.injEq] at h
      rw [← h]
      exact this
  refine ⟨hfl, by rw [hfl]; decide, by rw [hfl]; decide, ?_, ?_⟩
  · intro buffer n
    obtain ⟨x, hx⟩ := wxSocketBase._Read_nowait_returns ops
      ({ s1 with m_reading := true } : wxSocketBase T) n
      (by show s1.m_flags &&& wxSOCKET_NOWAIT ≠ 0; rw [hfl]; decide)
    obtain ⟨r, hr, -⟩ := wxSocketBase.Read_outcome ops buffer hx
    exact ⟨r, hr⟩
  · intro buffer n
    obtain ⟨x, hx⟩ := wxSocketBase._Write_nowait_returns ops
      ({ s1 with m_writing := true } : wxSocketBase T) buffer n
      (by show s1.m_flags &&& wxSOCKET_NOWAIT ≠ 0; rw [hfl]; decide)
    obtain ⟨w, hw, -⟩ := wxSocketBase.Write_outcome ops hx
    exact ⟨w, hw⟩

/-- C28 on the loopback pair: a socket with `WAITALL | BLOCK` and three bytes in flight
comes back from `Discard()` with the flag set `NOWAIT`. -/
theorem C28_Discard_leaves_NOWAIT_witness :
    ∃ s1, wxSocketBase.Discard loopback 2 (socketOn (loopbackWith [1, 2, 3] 0) 6) = some s1 ∧
      s1.m_flags = wxSOCKET_NOWAIT := by
  cases h : wxSocketBase.Discard loopback 2 (socketOn (loopbackWith [1, 2, 3] 0) 6) with
  | none => exact absurd h (by decide)
  | some s1 =>
    exact ⟨s1, rfl, (C28_Discard_leaves_NOWAIT loopback 2
      (socketOn (loopbackWith [1, 2, 3] 0) 6) s1 h).1⟩

end wxSocket


/-! ## The pushback invariant -/

open wxSocket wxSocket.wxSocketBase

namespace wxSocket
namespace wxSocketBase

variable {T : Type}

/-- The pushback invariant speaks about the three pushback fields only. -/
theorem PushbackInv_of_fields {s s' : wxSocketBase T} (h1 : s'.m_unread = s.m_unread)
    (h2 : s'.m_unrd_size = s.m_unrd_size) (h3 : s'.m_unrd_cur = s.m_unrd_cur)
    (hs : PushbackInv s) : PushbackInv s' := by
  simpa [PushbackInv, h1, h2, h3] using hs

theorem PushbackInv_congr {s s' : wxSocketBase T} (h : config s' = config s)
    (hs : PushbackInv s) : PushbackInv s' := by
  obtain ⟨-, h2, h3, h4⟩ := config_fields h
  exact PushbackInv_of_fields h2 h3 h4 hs

/-- The call `GetPushback` keeps the pushback invariant: it frees the block and resets size
and cursor as soon as the cursor reaches the size. -/
theorem GetPushback_inv (s : wxSocketBase T) (n : Nat) (hs : PushbackInv s) :
    PushbackInv (s.GetPushback n false).sock := by
  simp only [GetPushback, Bool.false_eq_true, if_false]
  rcases hs with ⟨h1, h2, h3⟩ | ⟨h1, h2⟩
  · rw [if_pos h2]
    exact Or.inl ⟨h1, h2, h3⟩
  · have hne : ¬ s.m_unrd_size = 0 := by omega
    rw [if_neg hne]
    split_ifs with ha hb hc
    · exact Or.inl ⟨rfl, rfl, rfl⟩
    · right
      refine ⟨h1, ?_⟩
      show s.m_unrd_cur + (s.m_unrd_size - s.m_unrd_cur) < s.m_unrd_size
      have hb' : ¬ s.m_unrd_size = s.m_unrd_cur + (s.m_unrd_size - s.m_unrd_cur) := hb
      omega
    · exact Or.inl ⟨rfl, rfl, rfl⟩
    · right
      refine ⟨h1, ?_⟩
      show s.m_unrd_cur + n < s.m_unrd_size
      have hc' : ¬ s.m_unrd_size = s.m_unrd_cur + n := hc
      omega

/-- The call `Pushback` keeps the pushback invariant as long as the new size fits the 32-bit
field `m_unrd_size`. -/
theorem Pushback_inv (s : wxSocketBase T) (buffer : List Byte) (size : Nat)
    (hs : PushbackInv s) (hlt : s.m_unrd_size + size < 2 ^ 32) :
    PushbackInv (s.Pushback buffer size) := by
  have hlt2 : s.m_unrd_size + size < 4294967296 := by simpa using hlt
  unfold Pushback
  split_ifs with h0
  · exact hs
  · right
    constructor
    · rfl
    · show s.m_unrd_cur < (s.m_unrd_size + size) % 2 ^ 32
      rw [Nat.mod_eq_of_lt hlt]
      rcases hs with ⟨-, -, h3⟩ | ⟨-, h2⟩ <;> omega

/-- Whatever the transport does, `_Read` keeps the pushback invariant and never makes the
block larger. -/
theorem _Read_inv (ops : GSocket T) {fuel : Nat} {s : wxSocketBase T} {n : Nat} {r : Xfer T}
    (hs : PushbackInv s) (h : _Read ops fuel s n = some r) :
    PushbackInv r.sock ∧ r.sock.m_unrd_size ≤ s.m_unrd_size := by
  obtain ⟨hc, -⟩ := _Read_spec ops h
  refine ⟨PushbackInv_congr hc (GetPushback_inv s n hs), ?_⟩
  rw [(config_fields hc).2.2.1]
  exact GetPushback_size_le s n

/-- A property of the socket that every `_Read` keeps is kept by the loop of `Discard`. -/
theorem Discard_loop_keeps (ops : GSocket T) (P : wxSocketBase T → Prop)
    (hP : ∀ (fuel : Nat) (s : wxSocketBase T) (n : Nat) (r : Xfer T),
      P s → _Read ops fuel s n = some r → P r.sock) :
    ∀ (fuel : Nat) (s : wxSocketBase T) (total k : Nat) (s' : wxSocketBase T),
      P s → Discard_loop ops fuel s total = some (k, s') → P s' := by
  intro fuel
  induction fuel with
  | zero => intro s total k s' _ h; simp [Discard_loop] at h
  | succ fuel ih =>
    intro s total k s' hs h
    simp only [Discard_loop] at h
    split at h
    · simp at h
    · rename_i r hr
      have f1 := hP _ _ _ _ hs hr
      split_ifs at h
      · exact ih _ _ _ _ f1 h
      · simp only [Option.some.injEq, Prod.mk.injEq] at h
        rw [← h.2]; exact f1

/-- A property of the socket that every `_Read` keeps is kept by the discard loop of
`ReadMsg`. -/
theorem ReadMsg_discard_keeps (ops : GSocket T) (P : wxSocketBase T → Prop)
    (hP : ∀ (fuel : Nat) (s : wxSocketBase T) (n : Nat) (r : Xfer T),
      P s → _Read ops fuel s n = some r → P r.sock) :
    ∀ (fuel : Nat) (s : wxSocketBase T) (len2 k : Nat) (s' : wxSocketBase T),
      P s → ReadMsg_discard ops fuel s len2 = some (k, s') → P s' := by
  intro fuel
  induction fuel with
  | zero => intro s len2 k s' _ h; simp [ReadMsg_discard] at h
  | succ fuel ih =>
    intro s len2 k s' hs h
    simp only [ReadMsg_discard] at h
    split at h
    · simp at h
    · rename_i r hr
      have f1 := hP _ _ _ _ hs hr
      split_ifs at h
      · exact ih _ _ _ _ f1 h
      · simp only [Option.some.injEq, Prod.mk.injEq] at h
        rw [← h.2]; exact f1

/-- A property of the socket that every `_Read` keeps is kept by the body of `ReadMsg`,
whichever exit is taken. -/
theorem ReadMsg_body_keeps (ops : GSocket T) (P : wxSocketBase T → Prop)
    (hP : ∀ (fuel : Nat) (s : wxSocketBase T) (n : Nat) (r : Xfer T),
      P s → _Read ops fuel s n = some r → P r.sock)
    {fuel : Nat} {s : wxSocketBase T} {buffer : List Byte} {n : Nat} {b : MsgOut T}
    (hs : P s) (h : ReadMsg_body ops fuel s buffer n = some b) : P b.sock := by
  unfold ReadMsg_body at h
  cases h1 : _Read ops fuel s 8 with
  | none => simp [h1] at h
  | some r1 =>
    have f1 := hP _ _ _ _ hs h1
    simp only [h1] at h
    by_cases c1 : r1.total ≠ 8
    · rw [if_pos c1] at h; simp only [Option.some.injEq] at h; subst h; exact f1
    rw [if_neg c1] at h
    by_cases c2 : decode32 r1.data 0 ≠ 0xfeeddead
    · rw [if_pos c2] at h; simp only [Option.some.injEq] at h; subst h; exact f1
    rw [if_neg c2] at h
    generalize (if decode32 r1.data 4 > n then n else decode32 r1.data 4) = len at h
    generalize (if decode32 r1.data 4 > n then decode32 r1.data 4 - n else 0) = len2 at h
    generalize hpq : (if len ≠ 0 then _Read ops fuel r1.sock len
      else some ⟨0, [], r1.sock⟩) = payload at h
    rcases payload with _ | r2
    · simp at h
    have f2 : P r2.sock := by
      split_ifs at hpq
      · exact hP _ _ _ _ f1 hpq
      · simp only [Option.some.injEq] at hpq; rw [← hpq]; exact f1
    simp only at h
    by_cases c3 : r2.total ≠ len
    · rw [if_pos c3] at h; simp only [Option.some.injEq] at h; subst h; exact f2
    rw [if_neg c3] at h
    generalize hdq : (if len2 ≠ 0 then ReadMsg_discard ops fuel r2.sock len2
      else some (0, r2.sock)) = discarded at h
    rcases discarded with _ | ⟨len2', s3⟩
    · simp at h
    have f3 : P s3 := by
      split_ifs at hdq
      · exact ReadMsg_discard_keeps ops P hP _ _ _ _ _ f2 hdq
      · simp only [Option.some.injEq, Prod.mk.injEq] at hdq; rw [← hdq.2]; exact f2
    simp only at h
    by_cases c4 : len2' ≠ 0
    · rw [if_pos c4] at h; simp only [Option.some.injEq] at h; subst h
      exact f3
    rw [if_neg c4] at h
    cases h4 : _Read ops fuel s3 8 with
    | none => simp [h4] at h
    | some r4 =>
      have f4 := hP _ _ _ _ f3 h4
      simp only [h4] at h
      split_ifs at h <;>
        (simp only [Option.some.injEq] at h; subst h; exact f4)

end wxSocketBase

/-- C26: the pushback buffer invariant. The invariant of the specification (`PushbackInv`:
the buffer is freed with size 0 and cursor 0, or it is allocated with the cursor below
the size) holds after `Init`, and every operation that touches the pushback buffer keeps
it, whatever the transport does: `Read`, `ReadMsg` and `Discard` always, `Unread` and
`Peek` of `n` bytes as long as the block size plus `n` fits the 32-bit size field. In a
state with the invariant the buffer is freed, with size and cursor 0, exactly when the
cursor has reached the size, that is when the last unconsumed byte has been drained. -/
theorem C26_pushback_invariant {T : Type} (ops : GSocket T) (fuel : Nat) (s : wxSocketBase T)
    (interrupt : Bool) :
    wxSocketBase.PushbackInv (wxSocketBase.Init interrupt : wxSocketBase T) ∧
    (wxSocketBase.PushbackInv s →
      (∀ (buffer : List Byte) (n : Nat), s.m_unrd_size + n < 2 ^ 32 →
        wxSocketBase.PushbackInv (wxSocketBase.Unread s buffer n)) ∧
      (∀ (buffer : List Byte) (n : Nat) (r : IoOut T), s.m_unrd_size + n < 2 ^ 32 →
        wxSocketBase.Peek ops fuel s buffer n = some r → wxSocketBase.PushbackInv r.sock) ∧
      (∀ (buffer : List Byte) (n : Nat) (r : IoOut T),
        wxSocketBase.Read ops fuel s buffer n = some r → wxSocketBase.PushbackInv r.sock) ∧
      (∀ (buffer : List Byte) (n : Nat) (r : IoOut T),
        wxSocketBase.ReadMsg ops fuel s buffer n = some r → wxSocketBase.PushbackInv r.sock) ∧
      (∀ (s1 : wxSocketBase T),
        wxSocketBase.Discard ops fuel s = some s1 → wxSocketBase.PushbackInv s1) ∧
      (s.m_unread = none ↔ s.m_unrd_cur = s.m_unrd_size) ∧
      (s.m_unread = none → s.m_unrd_size = 0 ∧ s.m_unrd_cur = 0)) := by
  have hP : ∀ (fuel : Nat) (s : wxSocketBase T) (n : Nat) (r : Xfer T),
      wxSocketBase.PushbackInv s → wxSocketBase._Read ops fuel s n = some r →
      wxSocketBase.PushbackInv r.sock :=
    fun _ _ _ _ hs h => (wxSocketBase._Read_inv ops hs h).1
  refine ⟨Or.inl ⟨rfl, rfl, rfl⟩, fun hs => ⟨?_, ?_, ?_, ?_, ?_, ?_, ?_⟩⟩
  · intro buffer n hn
    unfold wxSocketBase.Unread
    split_ifs with h0
    · exact wxSocketBase.PushbackInv_of_fields rfl rfl rfl
        (wxSocketBase.Pushback_inv s buffer n hs hn)
    · exact hs
  · intro buffer n r hn h
    unfold wxSocketBase.Peek at h
    cases h1 : wxSocketBase._Read ops fuel { s with m_reading := true } n with
    | none => simp [h1] at h
    | some r1 =>
      simp only [h1, Option.some.injEq] at h
      subst h
      obtain ⟨e1, e2⟩ := wxSocketBase._Read_inv ops
        (s := ({ s with m_reading := true } : wxSocketBase T)) hs h1
      have e3 := wxSocketBase._Read_total_le ops h1
      have e2' : r1.sock.m_unrd_size ≤ s.m_unrd_size := e2
      have hp := wxSocketBase.Pushback_inv ({ r1.sock with m_lcount := r1.total } : wxSocketBase T)
        (store buffer r1.data) r1.total e1
        (by show r1.sock.m_unrd_size + r1.total < 2 ^ 32; omega)
      obtain ⟨-, f2, f3, f4, -, -⟩ := wxSocketBase.setError_fields
        (wxSocketBase.Pushback ({ r1.sock with m_lcount := r1.total } : wxSocketBase T)
          (store buffer r1.data) r1.total) n
      exact wxSocketBase.PushbackInv_of_fields f2 f3 f4 hp
  · intro buffer n r h
    rw [wxSocketBase.Read_def] at h
    cases h1 : wxSocketBase._Read ops fuel { s with m_reading := true } n with
    | none => simp [h1] at h
    | some r1 =>
      simp only [h1, Option.some.injEq] at h
      subst h
      obtain ⟨e1, -⟩ := wxSocketBase._Read_inv ops
        (s := ({ s with m_reading := true } : wxSocketBase T)) hs h1
      obtain ⟨-, f2, f3, f4, -, -⟩ := wxSocketBase.setError_fields
        ({ r1.sock with m_lcount := r1.total } : wxSocketBase T) n
      exact wxSocketBase.PushbackInv_of_fields f2 f3 f4 e1
  · intro buffer n r h
    obtain ⟨b, hb, rfl⟩ := wxSocketBase.ReadMsg_inv ops h
    have := wxSocketBase.ReadMsg_body_keeps ops wxSocketBase.PushbackInv hP
      (s := (({ s with m_reading := true } : wxSocketBase T).SetFlags
          ((s.m_flags &&& wxSOCKET_BLOCK) ||| wxSOCKET_WAITALL))) hs hb
    exact this
  · intro s1 h
    have hdef : wxSocketBase.Discard ops fuel s =
        match wxSocketBase.Discard_loop ops fuel
          (({ s with m_reading := true } : wxSocketBase T).SetFlags wxSOCKET_NOWAIT) 0 with
        | none => none
        | some (total, s2) =>
          some { s2 with m_lcount := total, m_error := false, m_reading := false } := rfl
    rw [hdef] at h
    split at h
    · simp at h
    · rename_i total s2 hl
      have := wxSocketBase.Discard_loop_keeps ops wxSocketBase.PushbackInv hP _
        (({ s with m_reading := true } : wxSocketBase T).SetFlags wxSOCKET_NOWAIT) _ _ _ hs hl
      simp only [Option.some.injEq] at h
      rw [← h]
      exact this
  · rcases hs with ⟨h1, h2, h3⟩ | ⟨h1, h2⟩
    · simp [h1, h2, h3]
    · constructor
      · intro h; rw [h] at h1; simp at h1
      · intro h; omega
  · intro hn
    rcases hs with ⟨h1, h2, h3⟩ | ⟨h1, h2⟩
    · exact ⟨h2, h3⟩
    · rw [hn] at h1; simp at h1

/-- C26 on the loopback pair: after `Unread` of three bytes on a fresh socket the buffer is
allocated with cursor 0 below size 3; a `Read` of two bytes leaves it allocated with
cursor 2, and the `Read` of the last byte frees it and resets size and cursor. -/
theorem C26_pushback_invariant_witness :
    wxSocketBase.PushbackInv
        (wxSocketBase.Unread (socketOn (loopbackWith [] 0) 0) [1, 2, 3] 3) ∧
      (∃ r, wxSocketBase.Read loopback 1
          (wxSocketBase.Unread (socketOn (loopbackWith [] 0) 0) [1, 2, 3] 3) [0, 0] 2 = some r ∧
        r.sock.m_unread = some [1, 2, 3] ∧ r.sock.m_unrd_cur = 2 ∧ r.sock.m_unrd_size = 3 ∧
        ∃ r2, wxSocketBase.Read loopback 1 r.sock [0] 1 = some r2 ∧
          r2.sock.m_unread = none ∧ r2.sock.m_unrd_cur = 0 ∧ r2.sock.m_unrd_size = 0) :=
  ⟨((C26_pushback_invariant loopback 1 (socketOn (loopbackWith [] 0) 0) false).2
      (Or.inl ⟨rfl, rfl, rfl⟩)).1 [1, 2, 3] 3 (by decide),
    ⟨_, rfl, rfl, rfl, rfl, _, rfl, rfl, rfl, rfl⟩⟩

end wxSocket


/-! ## Calls on a socket without a transport handle -/

open wxSocket wxSocket.wxSocketBase

namespace wxSocket
namespace wxSocketBase

variable {T : Type}

/-- Without a handle `_Wait` clears the interrupt flag and returns false, with any fuel. -/
theorem _Wait_absent (ops : GSocket T) (fuel : Nat) (s : wxSocketBase T)
    (seconds milliseconds : Int) (flags : Nat) (hs : s.m_socket = none) :
    _Wait ops fuel s seconds milliseconds flags = some (false, { s with m_interrupt := false }) := by
  unfold _Wait
  simp only [hs]

/-- Without a handle `_Read` is `GetPushback`: it hands out pushback bytes and nothing else,
with any fuel. -/
theorem _Read_absent (ops : GSocket T) (fuel : Nat) (s : wxSocketBase T) (n : Nat)
    (hs : s.m_socket = none) :
    _Read ops fuel s n = some ⟨(s.GetPushback n false).total, (s.GetPushback n false).data,
      (s.GetPushback n false).sock⟩ := by
  have h := GetPushback_socket s n
  rw [hs] at h
  unfold _Read
  simp only [h]

/-- Without a handle `_Write` returns 0 and changes nothing, with any fuel. -/
theorem _Write_absent (ops : GSocket T) (fuel : Nat) (s : wxSocketBase T)
    (buffer : Option (List Byte)) (n : Nat) (hs : s.m_socket = none) :
    _Write ops fuel s buffer n = some ⟨0, [], s⟩ := by
  unfold _Write
  simp only [hs]

/-- The assignment that ends `Read`, `Peek` and `Write` after a transfer of 0 bytes out of
`n > 0`. -/
theorem setError_zero (s : wxSocketBase T) (n : Nat) (hn : 0 < n) (hl : s.m_lcount = 0) :
    setError s n = { s with m_error := true } := by
  unfold setError
  split_ifs with h
  · have : decide (s.m_lcount ≠ n) = true := by
      rw [hl]; exact decide_eq_true (by omega)
    rw [this]
  · have : decide (s.m_lcount = 0) = true := decide_eq_true hl
    rw [this]

end wxSocketBase

/-- C25, counterexample: a socket without a transport handle that holds pushback bytes. On
a socket that was never given a handle, `Unread` of `01 02 03` followed by `Read(buf, 2)`
reports success (`LastCount = 2`, `error = false`), stores `01 02` and consumes them from
the pushback buffer; `WaitForRead` returns true; and `WaitForWrite`, which returns false,
clears the interrupt flag that was set before. -/
theorem C25_transport_absent_counterexample :
    (wxSocketBase.Unread (wxSocketBase.Init true : wxSocketBase Loopback) [1, 2, 3] 3).m_socket
        = none ∧
      (∃ r, wxSocketBase.Read loopback 0
          (wxSocketBase.Unread (wxSocketBase.Init true : wxSocketBase Loopback) [1, 2, 3] 3)
          [0, 0] 2 = some r ∧
        r.sock.m_lcount = 2 ∧ r.sock.m_error = false ∧ r.buffer = [1, 2] ∧
        wxSocketBase.unconsumed r.sock = [3]) ∧
      wxSocketBase.unconsumed
        (wxSocketBase.Unread (wxSocketBase.Init true : wxSocketBase Loopback) [1, 2, 3] 3)
        = [1, 2, 3] ∧
      (∃ s1, wxSocketBase.WaitForRead loopback 0
          (wxSocketBase.Unread (wxSocketBase.Init true : wxSocketBase Loopback) [1, 2, 3] 3)
          (-1) 0 = some (true, s1)) ∧
      (wxSocketBase.Unread (wxSocketBase.Init true : wxSocketBase Loopback) [1, 2, 3] 3).m_interrupt
        = true ∧
      (∃ s1, wxSocketBase.WaitForWrite loopback 0
          (wxSocketBase.Unread (wxSocketBase.Init true : wxSocketBase Loopback) [1, 2, 3] 3)
          (-1) 0 = some (false, s1) ∧ s1.m_interrupt = false) :=
  ⟨rfl, ⟨_, rfl, rfl, rfl, rfl, rfl⟩, rfl, ⟨_, rfl⟩, rfl, ⟨_, rfl, rfl⟩⟩

/-- C25, amended: calls on a socket without a transport handle, for every transport, every
state and any fuel. `Write` of `n > 0` bytes reports failure (`error = true`,
`LastCount = 0`) and changes nothing else but the writing guard, which it clears. `Wait`,
`WaitForWrite` and `WaitForLost` return false and change nothing but the interrupt flag,
which they clear; `WaitForRead` does the same while no pushback block is allocated, and
returns true without any change while one is. `Read` and `Peek` of `n > 0` bytes report
failure (`error = true`, `LastCount = 0`), leave the caller's buffer alone and change
nothing else but the reading guard as long as the pushback buffer is empty; in a reachable
state with unconsumed pushback bytes `u`, `Read(buf, n)` returns the first `min(n, len u)`
of them as `LastCount` says and consumes them. -/
theorem C25_transport_absent_amended {T : Type} (ops : GSocket T) (fuel : Nat)
    (s : wxSocketBase T) (hs : s.m_socket = none) :
    (∀ (buffer : Option (List Byte)) (n : Nat), 0 < n →
      wxSocketBase.Write ops fuel s buffer n =
        some { s with m_lcount := 0, m_error := true, m_writing := false }) ∧
    (∀ (seconds milliseconds : Int),
      wxSocketBase.Wait ops fuel s seconds milliseconds
        = some (false, { s with m_interrupt := false }) ∧
      wxSocketBase.WaitForWrite ops fuel s seconds milliseconds
        = some (false, { s with m_interrupt := false }) ∧
      wxSocketBase.WaitForLost ops fuel s seconds milliseconds
        = some (false, { s with m_interrupt := false }) ∧
      (s.m_unread = none → wxSocketBase.WaitForRead ops fuel s seconds milliseconds
        = some (false, { s with m_interrupt := false })) ∧
      (s.m_unread.isSome = true → wxSocketBase.WaitForRead ops fuel s seconds milliseconds
        = some (true, s))) ∧
    (s.m_unrd_size = 0 → ∀ (buffer : List Byte) (n : Nat), 0 < n →
      wxSocketBase.Read ops fuel s buffer n =
        some ⟨buffer, { s with m_lcount := 0, m_error := true, m_reading := false }⟩ ∧
      wxSocketBase.Peek ops fuel s buffer n =
        some ⟨buffer, { s with m_lcount := 0, m_error := true, m_reading := false }⟩) ∧
    (wxSocketBase.PushbackOk s → ∀ (buffer : List Byte) (n : Nat),
      ∃ r, wxSocketBase.Read ops fuel s buffer n = some r ∧
        r.buffer = store buffer ((wxSocketBase.unconsumed s).take n) ∧
        r.sock.m_lcount = min n (wxSocketBase.unconsumed s).length ∧
        wxSocketBase.unconsumed r.sock = (wxSocketBase.unconsumed s).drop n ∧
        r.sock.m_socket = none) := by
  refine ⟨?_, ?_, ?_, ?_⟩
  · intro buffer n hn
    rw [wxSocketBase.Write_def, wxSocketBase._Write_absent ops fuel
      ({ s with m_writing := true } : wxSocketBase T) buffer n hs]
    simp only
    rw [wxSocketBase.setError_zero _ n hn rfl]
  · intro seconds milliseconds
    refine ⟨wxSocketBase._Wait_absent ops fuel s _ _ _ hs,
      wxSocketBase._Wait_absent ops fuel s _ _ _ hs,
      wxSocketBase._Wait_absent ops fuel s _ _ _ hs, ?_, ?_⟩
    · intro hu
      unfold wxSocketBase.WaitForRead
      rw [if_neg (by simp [hu])]
      exact wxSocketBase._Wait_absent ops fuel s _ _ _ hs
    · intro hu
      unfold wxSocketBase.WaitForRead
      rw [if_pos hu]
  · intro h0 buffer n hn
    have hg : wxSocketBase.GetPushback ({ s with m_reading := true } : wxSocketBase T) n false
        = ⟨0, [], { s with m_reading := true }⟩ := by
      unfold wxSocketBase.GetPushback
      rw [if_pos (show ({ s with m_reading := true } : wxSocketBase T).m_unrd_size = 0 from h0)]
    have hr : wxSocketBase._Read ops fuel ({ s with m_reading := true } : wxSocketBase T) n
        = some ⟨0, [], { s with m_reading := true }⟩ := by
      rw [wxSocketBase._Read_absent ops fuel
        ({ s with m_reading := true } : wxSocketBase T) n hs, hg]
    constructor
    · rw [wxSocketBase.Read_def, hr]
      simp only
      rw [wxSocketBase.setError_zero _ n hn rfl]
      simp [store]
    · have hdef : wxSocketBase.Peek ops fuel s buffer n =
          match wxSocketBase._Read ops fuel ({ s with m_reading := true } : wxSocketBase T) n with
          | none => none
          | some r => some ⟨store buffer r.data,
              { wxSocketBase.setError (wxSocketBase.Pushback
                  ({ r.sock with m_lcount := r.total } : wxSocketBase T)
                  (store buffer r.data) r.total) n with m_reading := false }⟩ := rfl
      rw [hdef, hr]
      simp only
      have hp : wxSocketBase.Pushback
          ({ ({ s with m_reading := true } : wxSocketBase T) with m_lcount := 0 })
          (store buffer []) 0
          = { ({ s with m_reading := true } : wxSocketBase T) with m_lcount := 0 } := by
        unfold wxSocketBase.Pushback
        rw [if_pos rfl]
      rw [hp, wxSocketBase.setError_zero _ n hn rfl]
      simp [store]
  · intro hok buffer n
    have hok1 : wxSocketBase.PushbackOk ({ s with m_reading := true } : wxSocketBase T) := hok
    obtain ⟨g1, g2, g3, -, g5, -⟩ := wxSocketBase.GetPushback_spec n hok1
    have hr := wxSocketBase._Read_absent ops fuel ({ s with m_reading := true } : wxSocketBase T)
      n hs
    obtain ⟨r, q1, q2, q3, q4, -, q6, -⟩ := wxSocketBase.Read_outcome ops buffer hr
    refine ⟨r, q1, ?_, ?_, ?_, ?_⟩
    · rw [q2]; exact congrArg _ g1
    · rw [q3]; exact g2
    · rw [q6]; exact g3
    · rw [q4]; exact g5.trans hs

/-- C25 on a fresh socket, which has no handle and no pushback block: `Write` of four bytes
fails with `LastCount = 0` and `error = true`. -/
theorem C25_transport_absent_amended_witness :
    (wxSocketBase.Init false : wxSocketBase Loopback).m_socket = none ∧
      wxSocketBase.Write loopback 0 (wxSocketBase.Init false) (some [1, 2, 3, 4]) 4 =
        some { (wxSocketBase.Init false : wxSocketBase Loopback) with
          m_lcount := 0, m_error := true, m_writing := false } :=
  ⟨rfl, (C25_transport_absent_amended loopback 0 (wxSocketBase.Init false) rfl).1
    (some [1, 2, 3, 4]) 4 (by decide)⟩

end wxSocket


/-! ## Terminal conditions of the wait engine -/

open wxSocket wxSocket.wxSocketBase

namespace wxSocket
namespace wxSocketBase

variable {T : Type}

/-- Every outcome of the polling loop of `_Wait` is the verdict on the flags of its last
poll, made on some handle state `tk`; the passes before it leave the connection state
alone. -/
theorem _Wait_loop_outcome (ops : GSocket T) (timeout time_limit : Int) (flags : Nat)
    (hel : Bool) :
    ∀ (fuel : Nat) (s : wxSocketBase T) (t : T) (b : Bool) (s1 : wxSocketBase T) (t1 : T),
      _Wait_loop ops timeout time_limit flags hel fuel s t = some (b, s1, t1) →
      ∃ tk, WaitOutcome flags (ops.Select tk (flags ||| GSOCK_LOST_FLAG)).1
        (timeout = 0 ∨
          time_limit - ops.UNow (ops.Select tk (flags ||| GSOCK_LOST_FLAG)).2 ≤ 0) s s1 b := by
  intro fuel
  induction fuel with
  | zero => intro s t b s1 t1 h; simp [_Wait_loop] at h
  | succ f ih =>
    intro s t b s1 t1 h
    simp only [_Wait_loop] at h
    split_ifs at h with h1 h2 h3 h4 h5
    · simp only [Option.some.injEq, Prod.mk.injEq] at h
      obtain ⟨rfl, rfl, -⟩ := h
      exact ⟨t, fun _ => ⟨rfl, rfl, rfl⟩, fun hc => absurd hc h1, fun hc => absurd hc h1,
        fun hc => absurd hc h1⟩
    · simp only [Option.some.injEq, Prod.mk.injEq] at h
      obtain ⟨rfl, rfl, -⟩ := h
      refine ⟨t, fun hc => absurd hc h1, fun _ _ => ⟨rfl, rfl, rfl⟩, ?_, ?_⟩
      · intro _ hi ho
        rcases h2 with h2 | h2
        · exact absurd hi h2
        · exact absurd ho h2
      · intro _ hi ho
        rcases h2 with h2 | h2
        · exact absurd hi h2
        · exact absurd ho h2
    · simp only [Option.some.injEq, Prod.mk.injEq] at h
      obtain ⟨rfl, rfl, -⟩ := h
      refine ⟨t, fun hc => absurd hc h1, fun _ hio => absurd hio h2, ?_,
        fun _ _ _ hl => absurd hl h3⟩
      intro _ _ _ _
      exact ⟨by simp, rfl, rfl⟩
    · simp only [Option.some.injEq, Prod.mk.injEq] at h
      obtain ⟨rfl, rfl, -⟩ := h
      refine ⟨t, fun hc => absurd hc h1, fun _ hio => absurd hio h2,
        fun _ _ _ hl => absurd hl h3, ?_⟩
      intro _ _ _ _
      refine ⟨rfl, rfl, rfl, ?_⟩
      rcases h4 with h4 | h4 | h4
      · exact Or.inl (Or.inl h4)
      · exact Or.inl (Or.inr h4)
      · exact Or.inr h4
    · obtain ⟨tk, hk⟩ := ih ({ s with m_interrupt := s.m_interrupt ||
        (ops.PROCESS_EVENTS (ops.Select t (flags ||| GSOCK_LOST_FLAG)).2).1 }) _ b s1 t1 h
      exact ⟨tk, hk⟩
    · obtain ⟨tk, hk⟩ := ih s _ b s1 t1 h
      exact ⟨tk, hk⟩
    · obtain ⟨tk, hk⟩ := ih s _ b s1 t1 h
      exact ⟨tk, hk⟩

end wxSocketBase

/-- C21: terminal conditions of the wait engine. Take any pass of the polling loop of
`_Wait`, on a socket `s` whose handle is in state `t`, and let `result` be the flags its
poll reports. (1) If `result` holds connection-established, the wait ends with this pass,
returns true, and the socket is connected and not establishing. (2) If `result` holds
connection-lost and neither connection-established, input-ready nor output-ready, the wait
ends, the socket is not connected and not establishing, and the value returned is true if
and only if the lost flag was among the requested flags. (3) If `result` holds none of the
four flags and the timeout is zero, the deadline has passed or an interrupt was observed,
the wait ends, returns false and leaves the socket, its connection state included, as it
was. (4) `_Wait` returns what its loop returns, with the connection state the loop left.
(5) Every outcome of `_Wait` on a socket with a handle satisfies these conditions for the
flags of its last poll (`WaitOutcome`), relative to the connection state at the call. -/
theorem C21_Wait_terminal_conditions {T : Type} (ops : GSocket T) (timeout time_limit : Int)
    (flags : Nat) (hel : Bool) (fuel : Nat) (s : wxSocketBase T) (t : T) :
    ((ops.Select t (flags ||| GSOCK_LOST_FLAG)).1 &&& GSOCK_CONNECTION_FLAG ≠ 0 →
      wxSocketBase._Wait_loop ops timeout time_limit flags hel (fuel + 1) s t =
        some (true, { s with m_connected := true, m_establishing := false },
          (ops.Select t (flags ||| GSOCK_LOST_FLAG)).2)) ∧
    ((ops.Select t (flags ||| GSOCK_LOST_FLAG)).1 &&& GSOCK_CONNECTION_FLAG = 0 →
      (ops.Select t (flags ||| GSOCK_LOST_FLAG)).1 &&& GSOCK_INPUT_FLAG = 0 →
      (ops.Select t (flags ||| GSOCK_LOST_FLAG)).1 &&& GSOCK_OUTPUT_FLAG = 0 →
      (ops.Select t (flags ||| GSOCK_LOST_FLAG)).1 &&& GSOCK_LOST_FLAG ≠ 0 →
      wxSocketBase._Wait_loop ops timeout time_limit flags hel (fuel + 1) s t =
        some (decide (flags &&& GSOCK_LOST_FLAG ≠ 0),
          { s with m_connected := false, m_establishing := false },
          (ops.Select t (flags ||| GSOCK_LOST_FLAG)).2)) ∧
    ((ops.Select t (flags ||| GSOCK_LOST_FLAG)).1 &&& GSOCK_CONNECTION_FLAG = 0 →
      (ops.Select t (flags ||| GSOCK_LOST_FLAG)).1 &&& GSOCK_INPUT_FLAG = 0 →
      (ops.Select t (flags ||| GSOCK_LOST_FLAG)).1 &&& GSOCK_OUTPUT_FLAG = 0 →
      (ops.Select t (flags ||| GSOCK_LOST_FLAG)).1 &&& GSOCK_LOST_FLAG = 0 →
      (timeout = 0 ∨
        time_limit - ops.UNow (ops.Select t (flags ||| GSOCK_LOST_FLAG)).2 ≤ 0 ∨
        s.m_interrupt = true) →
      wxSocketBase._Wait_loop ops timeout time_limit flags hel (fuel + 1) s t =
        some (false, s, (ops.Select t (flags ||| GSOCK_LOST_FLAG)).2)) ∧
    (∀ (seconds milliseconds : Int) (b : Bool) (s1 : wxSocketBase T) (t1 : T),
      s.m_socket = some t →
      wxSocketBase._Wait_loop ops
          (if seconds ≠ -1 then seconds * 1000 + milliseconds else s.m_timeout * 1000)
          (ops.UNow t +
            (if seconds ≠ -1 then seconds * 1000 + milliseconds else s.m_timeout * 1000))
          flags (ops.has_event_loop t) fuel { s with m_interrupt := false }
          (if ops.has_event_loop t = true then t
            else if (if seconds ≠ -1 then seconds * 1000 + milliseconds
                else s.m_timeout * 1000) > 50 then ops.SetTimeout t 50
            else ops.SetTimeout t
              (if seconds ≠ -1 then seconds * 1000 + milliseconds else s.m_timeout * 1000))
        = some (b, s1, t1) →
      ∃ s2, wxSocketBase._Wait ops fuel s seconds milliseconds flags = some (b, s2) ∧
        s2.m_connected = s1.m_connected ∧ s2.m_establishing = s1.m_establishing) ∧
    (∀ (seconds milliseconds : Int) (b : Bool) (s2 : wxSocketBase T),
      s.m_socket = some t →
      wxSocketBase._Wait ops fuel s seconds milliseconds flags = some (b, s2) →
      ∃ tk, wxSocketBase.WaitOutcome flags (ops.Select tk (flags ||| GSOCK_LOST_FLAG)).1
        ((if seconds ≠ -1 then seconds * 1000 + milliseconds else s.m_timeout * 1000) = 0 ∨
          ops.UNow t +
              (if seconds ≠ -1 then seconds * 1000 + milliseconds else s.m_timeout * 1000) -
            ops.UNow (ops.Select tk (flags ||| GSOCK_LOST_FLAG)).2 ≤ 0)
        s s2 b) := by
  refine ⟨?_, ?_, ?_, ?_, ?_⟩
  · intro h1
    simp only [wxSocketBase._Wait_loop]
    rw [if_pos h1]
  · intro h1 h2 h3 h4
    simp only [wxSocketBase._Wait_loop]
    rw [if_neg (by simp [h1]), if_neg (by simp [h2, h3]), if_pos h4]
  · intro h1 h2 h3 h4 h5
    simp only [wxSocketBase._Wait_loop]
    rw [if_neg (by simp [h1]), if_neg (by simp [h2, h3]), if_neg (by simp [h4]), if_pos h5]
  · intro seconds milliseconds b s1 t1 hs hloop
    unfold wxSocketBase._Wait
    simp only [hs] at hloop ⊢
    simp only [hloop]
    exact ⟨_, rfl, rfl, rfl⟩
  · intro seconds milliseconds b s2 hs h
    unfold wxSocketBase._Wait at h
    simp only [hs] at h
    split at h
    · simp at h
    · rename_i v s1 t1 hloop
      simp only [Option.some.injEq, Prod.mk.injEq] at h
      obtain ⟨rfl, rfl⟩ := h
      obtain ⟨tk, hk⟩ := wxSocketBase._Wait_loop_outcome ops _ _ _ _ _ _ _ _ _ _ hloop
      exact ⟨tk, hk⟩

/-- C21 on a handle with scripted polls, for a connected socket that waits for
output-ready: a poll that finds connection-lost ends the wait with false (lost was not
requested) and the socket not connected; a poll that finds connection-established ends it
with true and the socket connected; and the whole wait, whose first poll finds nothing
and whose second finds connection-lost, returns false with the socket not connected. -/
theorem C21_Wait_terminal_conditions_witness :
    wxSocketBase._Wait_loop pollScript 600000 600000 GSOCK_OUTPUT_FLAG false 1
        ({ (wxSocketBase.Init false : wxSocketBase (List Nat)) with
          m_socket := some [0, 8], m_connected := true }) [8]
      = some (false,
          { (wxSocketBase.Init false : wxSocketBase (List Nat)) with
            m_socket := some [0, 8], m_connected := false, m_establishing := false }, []) ∧
    wxSocketBase._Wait_loop pollScript 600000 600000
        (GSOCK_OUTPUT_FLAG ||| GSOCK_CONNECTION_FLAG) false 1
        ({ (wxSocketBase.Init false : wxSocketBase (List Nat)) with
          m_socket := some [4], m_establishing := true }) [4]
      = some (true,
          { (wxSocketBase.Init false : wxSocketBase (List Nat)) with
            m_socket := some [4], m_connected := true, m_establishing := false }, []) ∧
    wxSocketBase._Wait pollScript 2
        ({ (wxSocketBase.Init false : wxSocketBase (List Nat)) with
          m_socket := some [0, 8], m_connected := true }) (-1) 0 GSOCK_OUTPUT_FLAG
      = some (false,
          { (wxSocketBase.Init false : wxSocketBase (List Nat)) with
            m_socket := some [], m_connected := false }) :=
  ⟨(C21_Wait_terminal_conditions pollScript 600000 600000 GSOCK_OUTPUT_FLAG false 0
      ({ (wxSocketBase.Init false : wxSocketBase (List Nat)) with
        m_socket := some [0, 8], m_connected := true }) [8]).2.1
      (by decide) (by decide) (by decide) (by decide),
    (C21_Wait_terminal_conditions pollScript 600000 600000
      (GSOCK_OUTPUT_FLAG ||| GSOCK_CONNECTION_FLAG) false 0
      ({ (wxSocketBase.Init false : wxSocketBase (List Nat)) with
        m_socket := some [4], m_establishing := true }) [4]).1 (by decide),
    by decide⟩

end wxSocket


/-! ## Notification filtering -/

open wxSocket wxSocket.wxSocketBase

namespace wxSocket
namespace wxSocketBase

variable {T : Type}

/-- The scheduling part of `OnRequest`, reached when the first `switch` did not return: an
event is queued exactly when the flag of the kind is in the mask, notifications are enabled
and a handler is registered. -/
theorem OnRequest_schedule (ops : GSocket T) (s s0 : wxSocketBase T)
    (notification : wxSocketNotify) (flag : Nat)
    (hfilter : OnRequest_filter ops s notification = some (true, s0))
    (hflag : OnRequest_flag notification = some flag) :
    (∃ s1 ev, OnRequest ops s notification = some (s1, some ev)) ↔
      (s0.m_eventmask &&& flag = flag ∧ s0.m_notify = true ∧ s0.m_handler.isSome = true) := by
  unfold OnRequest
  simp only [hfilter, hflag]
  by_cases hm : s0.m_eventmask &&& flag = flag ∧ s0.m_notify = true
  · rw [if_pos hm]
    cases hh : s0.m_handler with
    | none => simp
    | some h0 => simp [hm.1, hm.2]
  · rw [if_neg hm]
    constructor
    · rintro ⟨s1, ev, h⟩
      simp at h
    · rintro ⟨h1, h2, -⟩
      exact absurd ⟨h1, h2⟩ hm

/-- Whenever `OnRequest` queues an event, it carries the id, the kind and the client tag. -/
theorem OnRequest_event (ops : GSocket T) (s s1 : wxSocketBase T)
    (notification : wxSocketNotify) (ev : wxSocketEvent)
    (h : OnRequest ops s notification = some (s1, some ev)) :
    ev = { m_id := s.m_id, m_event := notification, m_clientData := s.m_clientData } := by
  unfold OnRequest at h
  cases hf : OnRequest_filter ops s notification with
  | none => simp [hf] at h
  | some p =>
    obtain ⟨go, s0⟩ := p
    have hid : s0.m_id = s.m_id ∧ s0.m_clientData = s.m_clientData := by
      cases notification <;> simp only [OnRequest_filter] at hf
      · split_ifs at hf
        · simp only [Option.some.injEq, Prod.mk.injEq] at hf; rw [← hf.2]; exact ⟨rfl, rfl⟩
        · cases hsock : s.m_socket with
          | none => simp [hsock] at hf
          | some t =>
            simp only [hsock, Option.some.injEq, Prod.mk.injEq] at hf
            rw [← hf.2]; exact ⟨rfl, rfl⟩
      · split_ifs at hf
        · simp only [Option.some.injEq, Prod.mk.injEq] at hf; rw [← hf.2]; exact ⟨rfl, rfl⟩
        · cases hsock : s.m_socket with
          | none => simp [hsock] at hf
          | some t =>
            simp only [hsock, Option.some.injEq, Prod.mk.injEq] at hf
            rw [← hf.2]; exact ⟨rfl, rfl⟩
      · simp only [Option.some.injEq, Prod.mk.injEq] at hf; rw [← hf.2]; exact ⟨rfl, rfl⟩
      · simp only [Option.some.injEq, Prod.mk.injEq] at hf; rw [← hf.2]; exact ⟨rfl, rfl⟩
      · simp only [Option.some.injEq, Prod.mk.injEq] at hf; rw [← hf.2]; exact ⟨rfl, rfl⟩
    cases go with
    | false => simp [hf] at h
    | true =>
      simp only [hf] at h
      cases hfl : OnRequest_flag notification with
      | none => simp [hfl] at h
      | some flag =>
        simp only [hfl] at h
        split_ifs at h
        · cases hh : s0.m_handler with
          | none => simp [hh] at h
          | some h0 =>
            simp only [hh, Option.some.injEq, Prod.mk.injEq] at h
            rw [← h.2, hid.1, hid.2]
        · simp at h

end wxSocketBase

end wxSocket

/-! ## The pinned datagram endpoint -/

open wxSocket wxSocket.wxSocketBase

namespace wxSocket
namespace wxDatagramSocket

variable {T : Type}

/-- The test of `RecvFrom` and `SendTo` on a connected socket whose handle and address
argument both carry an address: it passes exactly when host and port agree. -/
theorem matches_peer_eq (ops : GSocketDgram T) (s : wxSocketBase T) (t : T)
    (peer dest : GAddress) (addr : wxSockAddress) (hc : s.m_connected = true)
    (hp : ops.GetPeer t = some peer) (ha : addr.m_address = some dest) :
    matches_peer ops s t addr
      = some (decide (peer.host = dest.host) && decide (peer.port = dest.port)) := by
  unfold matches_peer
  rw [if_pos hc, hp, ha]

end wxDatagramSocket

/-- C23: a pinned datagram endpoint rejects foreign addresses. A successful
`wxDatagramSocket::Connect` leaves the socket connected, with its handle; this is the
pinned state. On every socket in that state whose handle reports the destination `peer`,
and for every address argument `addr` holding an address `dest`: if host or port of `dest`
differ from those of `peer`, `SendTo` and `RecvFrom` return at once with the socket
unchanged, the state of the handle (so no read or write was made and its destination is
the same), the error flag and `LastCount` included, and `RecvFrom` leaves the caller's
buffer and address as they were; if host and port both agree, `SendTo` is the call
`Write(buf, n)` made after `SetPeer` on the handle, and `RecvFrom` is the call
`Read(buf, n)` followed by `GetPeer(addr)`. -/
theorem C23_pinned_datagram_rejects_foreign {T : Type} (ops : GSocketDgram T) (fuel : Nat) :
    (∀ (s0 s : wxSocketBase T) (pin : wxSockAddress),
      wxDatagramSocket.Connect ops.toGSocketConn s0 pin = (true, s) →
      s.m_connected = true ∧ ∃ t, s.m_socket = some t) ∧
    (∀ (s : wxSocketBase T) (t : T) (peer dest : GAddress) (addr : wxSockAddress),
      s.m_socket = some t → s.m_connected = true → ops.GetPeer t = some peer →
      addr.m_address = some dest →
      (peer.host ≠ dest.host ∨ peer.port ≠ dest.port →
        (∀ (buf : Option (List Byte)) (n : Nat),
          wxDatagramSocket.SendTo ops fuel s addr buf n = some s) ∧
        (∀ (buf : List Byte) (n : Nat),
          wxDatagramSocket.RecvFrom ops fuel s addr buf n = some (addr, ⟨buf, s⟩))) ∧
      (peer.host = dest.host ∧ peer.port = dest.port →
        (∀ (buf : Option (List Byte)) (n : Nat),
          wxDatagramSocket.SendTo ops fuel s addr buf n =
            wxSocketBase.Write ops.toGSocket fuel
              { s with m_socket := some (ops.SetPeer t addr.m_address).2 } buf n) ∧
        (∀ (buf : List Byte) (n : Nat),
          wxDatagramSocket.RecvFrom ops fuel s addr buf n =
            (wxSocketBase.Read ops.toGSocket fuel s buf n).map
              (fun r => ((wxSocketBase.GetPeer ops r.sock addr).2, r))))) := by
  constructor
  · intro s0 s pin h
    unfold wxDatagramSocket.Connect at h
    cases hs0 : s0.m_socket with
    | none => simp [hs0] at h
    | some t0 =>
      simp only [hs0] at h
      split_ifs at h with herr
      · simp at h
      · simp only [Prod.mk.injEq, true_and] at h
        subst h
        exact ⟨rfl, _, rfl⟩
  · intro s t peer dest addr hs hc hp ha
    have hm := wxDatagramSocket.matches_peer_eq ops s t peer dest addr hc hp ha
    constructor
    · intro hne
      have hf : (decide (peer.host = dest.host) && decide (peer.port = dest.port)) = false := by
        rcases hne with h | h <;> simp [h]
      rw [hf] at hm
      constructor
      · intro buf n
        unfold wxDatagramSocket.SendTo
        simp only [hs, hm]
      · intro buf n
        unfold wxDatagramSocket.RecvFrom
        simp only [hs, hm]
    · intro heq
      have hf : (decide (peer.host = dest.host) && decide (peer.port = dest.port)) = true := by
        simp [heq.1, heq.2]
      rw [hf] at hm
      constructor
      · intro buf n
        unfold wxDatagramSocket.SendTo
        simp only [hs, hm]
      · intro buf n
        unfold wxDatagramSocket.RecvFrom
        simp only [hs, hm]
        cases wxSocketBase.Read ops.toGSocket fuel s buf n <;> rfl

/-- C23 on the scripted peer: a datagram socket is pinned to host 10, port 53 by `Connect`.
`SendTo` and `RecvFrom` with the address host 10, port 54 leave the socket, the bytes sent
and pending, the destination, the buffer and the address as they were; `SendTo` with the
pinned address sends the two bytes offered. -/
theorem C23_pinned_datagram_rejects_foreign_witness :
    ∃ s, wxDatagramSocket.Connect dgramOps.toGSocketConn
        ({ (wxSocketBase.Init false : wxSocketBase Peer) with
          m_socket := some (peerWith [7, 8] true GSocketError.GSOCK_NOERROR) })
        { noAddress with m_address := some ⟨true, 10, 53⟩ } = (true, s) ∧
      wxDatagramSocket.SendTo dgramOps 2 s { noAddress with m_address := some ⟨true, 10, 54⟩ }
        (some [1, 2]) 2 = some s ∧
      wxDatagramSocket.RecvFrom dgramOps 2 s { noAddress with m_address := some ⟨true, 10, 54⟩ }
        [0, 0] 2 = some ({ noAddress with m_address := some ⟨true, 10, 54⟩ }, ⟨[0, 0], s⟩) ∧
      ∃ s1 t1, wxDatagramSocket.SendTo dgramOps 2 s
          { noAddress with m_address := some ⟨true, 10, 53⟩ } (some [1, 2]) 2 = some s1 ∧
        s1.m_socket = some t1 ∧ t1.outbound = [1, 2] ∧ s1.m_lcount = 2 := by
  refine ⟨_, rfl, ?_, ?_, ?_⟩
  · exact (((C23_pinned_datagram_rejects_foreign dgramOps 2).2 _
      ({ peerWith [7, 8] true GSocketError.GSOCK_NOERROR with m_peer := some ⟨true, 10, 53⟩ })
      ⟨true, 10, 53⟩ ⟨true, 10, 54⟩ { noAddress with m_address := some ⟨true, 10, 54⟩ }
      rfl rfl rfl rfl).1 (Or.inr (by decide))).1 (some [1, 2]) 2
  · exact (((C23_pinned_datagram_rejects_foreign dgramOps 2).2 _
      ({ peerWith [7, 8] true GSocketError.GSOCK_NOERROR with m_peer := some ⟨true, 10, 53⟩ })
      ⟨true, 10, 53⟩ ⟨true, 10, 54⟩ { noAddress with m_address := some ⟨true, 10, 54⟩ }
      rfl rfl rfl rfl).1 (Or.inr (by decide))).2 [0, 0] 2
  · exact ⟨_, _, rfl, rfl, rfl, rfl⟩

end wxSocket


/-! ## The retry loops under `WAITALL` -/

open wxSocket wxSocket.wxSocketBase

namespace wxSocket

theorem transfers_append (a b : List Call) :
    transfers (a ++ b) = transfers a ++ transfers b := by
  simp [transfers]

/-- A poll, a change of mode or timeout and a run of the event loop add no read or write to
the journal. -/
theorem logged_transfers {T : Type} (ops : GSocket T) :
    (∀ (t : T × List Call) (f : Nat), transfers ((logged ops).Select t f).2.2 = transfers t.2) ∧
    (∀ (t : T × List Call) (ms : Int), transfers ((logged ops).SetTimeout t ms).2 = transfers t.2) ∧
    (∀ (t : T × List Call), transfers ((logged ops).PROCESS_EVENTS t).2.2 = transfers t.2) ∧
    (∀ (t : T × List Call) (b : Bool),
      transfers ((logged ops).SetNonBlocking t b).2 = transfers t.2) ∧
    (∀ (t : T × List Call) (n : Nat),
      transfers ((logged ops).Read t n).2.2 = transfers t.2 ++ [Call.Read n]) ∧
    (∀ (t : T × List Call) (d : List Byte),
      transfers ((logged ops).Write t d).2.2 = transfers t.2 ++ [Call.Write d]) := by
  refine ⟨?_, ?_, ?_, ?_, ?_, ?_⟩ <;> intros <;> simp [logged, transfers]

namespace wxSocketBase

variable {T : Type}

/-- The readiness wait before a transfer, on a journalled transport: when it is made (the
`BLOCK` bit is clear) and succeeds, or is skipped, the socket keeps its configuration and
its handle, and the journal gains no read or write. -/
theorem waited_transfers (K f : Nat) (s : wxSocketBase (T × List Call))
    (t : T × List Call)
    (wait : Nat → wxSocketBase (T × List Call) → Int → Int →
      Option (Bool × wxSocketBase (T × List Call)))
    (hframe : ∀ (f : Nat) (s1 s2 : wxSocketBase (T × List Call)) (b : Bool),
      wait f s1 (-1) 0 = some (b, s2) →
      config s2 = config s1 ∧
        (∀ t, s1.m_socket = some t → ∃ t', s2.m_socket = some t' ∧ transfers t'.2 = transfers t.2))
    (ht : s.m_socket = some t) (hK : K ≤ f)
    (hwait : s.m_flags &&& wxSOCKET_BLOCK ≠ 0 ∨
      ∀ (f : Nat) (s1 : wxSocketBase (T × List Call)), K ≤ f → s1.m_socket ≠ none →
        ∃ s2, wait f s1 (-1) 0 = some (true, s2)) :
    ∃ s2 t2, (if s.m_flags &&& wxSOCKET_BLOCK = 0 then wait f s (-1) 0 else some (true, s))
        = some (true, s2) ∧
      config s2 = config s ∧ s2.m_socket = some t2 ∧ transfers t2.2 = transfers t.2 := by
  by_cases hb : s.m_flags &&& wxSOCKET_BLOCK = 0
  · rw [if_pos hb]
    rcases hwait with hwait | hwait
    · exact absurd hb hwait
    · obtain ⟨s2, h2⟩ := hwait f s hK (by rw [ht]; simp)
      obtain ⟨e1, e2⟩ := hframe f s s2 true h2
      obtain ⟨t2, e3, e4⟩ := e2 t ht
      exact ⟨s2, t2, h2, e1, e3, e4⟩
  · rw [if_neg hb]
    exact ⟨s, t, rfl, rfl, ht, rfl⟩

theorem WaitForRead_transfers (ops : GSocket T) (f : Nat)
    (s1 s2 : wxSocketBase (T × List Call)) (b : Bool)
    (h : WaitForRead (logged ops) f s1 (-1) 0 = some (b, s2)) :
    config s2 = config s1 ∧
      (∀ t, s1.m_socket = some t → ∃ t', s2.m_socket = some t' ∧ transfers t'.2 = transfers t.2) := by
  obtain ⟨l1, l2, l3, -⟩ := logged_transfers ops
  obtain ⟨e1, e2, -⟩ := WaitForRead_frame (logged ops) (fun t => transfers t.2) l1 l2 l3 h
  exact ⟨e1, e2⟩

theorem WaitForWrite_transfers (ops : GSocket T) (f : Nat)
    (s1 s2 : wxSocketBase (T × List Call)) (b : Bool)
    (h : WaitForWrite (logged ops) f s1 (-1) 0 = some (b, s2)) :
    config s2 = config s1 ∧
      (∀ t, s1.m_socket = some t → ∃ t', s2.m_socket = some t' ∧ transfers t'.2 = transfers t.2) := by
  obtain ⟨l1, l2, l3, -⟩ := logged_transfers ops
  obtain ⟨e1, e2, -⟩ := WaitForWrite_frame (logged ops) (fun t => transfers t.2) l1 l2 l3 h
  exact ⟨e1, e2⟩

/-- The retry loop of `_Read` under `WAITALL`, when every wait succeeds within `K` passes
(or `BLOCK` is set) and every transport read delivers at least one byte: with `nbytes + K`
units of fuel the loop returns with all `nbytes` bytes, after at most `nbytes` reads, each
asking for exactly the bytes still missing. -/
theorem _Read_loop_waitall (ops : GSocket T) (K : Nat)
    (hR : ∀ (t : T) (k : Nat), 0 < k → ∃ d, (ops.Read t k).1 = some d ∧ 0 < d.length) :
    ∀ (fuel : Nat) (s : wxSocketBase (T × List Call)) (t : T × List Call) (nbytes total : Nat)
      (data : List Byte),
      s.m_socket = some t → s.m_flags &&& wxSOCKET_WAITALL ≠ 0 → 0 < nbytes →
      nbytes + K ≤ fuel →
      (s.m_flags &&& wxSOCKET_BLOCK ≠ 0 ∨
        ∀ (f : Nat) (s1 : wxSocketBase (T × List Call)), K ≤ f → s1.m_socket ≠ none →
          ∃ s2, WaitForRead (logged ops) f s1 (-1) 0 = some (true, s2)) →
      ∃ r moved t1, _Read_loop (logged ops) fuel s nbytes total data = some r ∧
        r.total = total + nbytes ∧ r.data = data ++ moved.flatten ∧
        (∀ d ∈ moved, 0 < d.length) ∧ moved.length ≤ nbytes ∧
        r.sock.m_socket = some t1 ∧
        transfers t1.2 = transfers t.2 ++ readRequests nbytes moved ∧
        config r.sock = config s := by
  intro fuel
  induction fuel with
  | zero => intro s t nbytes total data _ _ hn hf _; omega
  | succ f ih =>
    intro s t nbytes total data ht hwa hn hf hwait
    obtain ⟨s2, t2, hw1, hw2, hw3, hw4⟩ := waited_transfers K f s t
      (WaitForRead (logged ops)) (WaitForRead_transfers ops) ht (by omega) hwait
    have hfl : s2.m_flags = s.m_flags := (config_fields hw2).1
    obtain ⟨d, hd1, hd2⟩ := hR t2.1 nbytes hn
    have hdle : d.length ≤ nbytes := ops.Read_le t2.1 nbytes d hd1
    have hread : ((logged ops).Read t2 nbytes).1 = some d := hd1
    obtain ⟨-, -, -, -, lr, -⟩ := logged_transfers ops
    have hj := lr t2 nbytes
    simp only [_Read_loop]
    rw [hw1]
    simp only [hw3, hread]
    rw [if_pos hd2]
    by_cases hmore : nbytes - d.length > 0 ∧
        ({ s2 with m_socket := some ((logged ops).Read t2 nbytes).2 }
          : wxSocketBase (T × List Call)).m_flags &&& wxSOCKET_WAITALL ≠ 0
    · rw [if_pos hmore]
      have hwait2 : ({ s2 with m_socket := some ((logged ops).Read t2 nbytes).2 }
            : wxSocketBase (T × List Call)).m_flags &&& wxSOCKET_BLOCK ≠ 0 ∨
          ∀ (f : Nat) (s1 : wxSocketBase (T × List Call)), K ≤ f → s1.m_socket ≠ none →
            ∃ s2, WaitForRead (logged ops) f s1 (-1) 0 = some (true, s2) := by
        rcases hwait with h | h
        · left
          show s2.m_flags &&& wxSOCKET_BLOCK ≠ 0
          rw [hfl]; exact h
        · exact Or.inr h
      obtain ⟨r, moved, t1, i1, i2, i3, i4, i5, i6, i7, i8⟩ := ih
        ({ s2 with m_socket := some ((logged ops).Read t2 nbytes).2 })
        ((logged ops).Read t2 nbytes).2 (nbytes - d.length) (total + d.length) (data ++ d)
        rfl hmore.2 hmore.1 (by omega) hwait2
      refine ⟨r, d :: moved, t1, i1, by rw [i2]; omega, by rw [i3]; simp, ?_, ?_, i6, ?_, ?_⟩
      · intro x hx
        rcases List.mem_cons.mp hx with rfl | hx
        · exact hd2
        · exact i4 x hx
      · simp only [List.length_cons]; omega
      · rw [i7, hj, hw4]
        simp [readRequests]
      · rw [i8]
        exact hw2
    · rw [if_neg hmore]
      have hflw : s2.m_flags &&& wxSOCKET_WAITALL ≠ 0 := by rw [hfl]; exact hwa
      have hlen : d.length = nbytes := by
        by_contra hne
        exact hmore ⟨by omega, hflw⟩
      refine ⟨_, [d], _, rfl, ?_, by simp, ?_, ?_, rfl, ?_, ?_⟩
      · show total + d.length = total + nbytes
        rw [hlen]
      · intro x hx
        rw [List.mem_singleton.mp hx]; exact hd2
      · simp only [List.length_singleton]; omega
      · show transfers ((logged ops).Read t2 nbytes).2.2 = _
        rw [hj, hw4]
        simp [readRequests]
      · exact hw2

/-- The retry loop of `_Write` under `WAITALL`, when every wait succeeds within `K` passes
(or `BLOCK` is set) and every transport write accepts at least one byte: with `nbytes + K`
units of fuel the loop returns with all `nbytes` bytes accepted, after at most `nbytes`
writes, each offering exactly the bytes still missing from the position after the bytes
already accepted. -/
theorem _Write_loop_waitall (ops : GSocket T) (K : Nat)
    (hW : ∀ (t : T) (d : List Byte), d ≠ [] → ∃ k, (ops.Write t d).1 = some k ∧ 0 < k) :
    ∀ (fuel : Nat) (s : wxSocketBase (T × List Call)) (t : T × List Call) (buffer : List Byte)
      (nbytes total : Nat),
      s.m_socket = some t → s.m_flags &&& wxSOCKET_WAITALL ≠ 0 → 0 < nbytes →
      nbytes ≤ buffer.length → nbytes + K ≤ fuel →
      (s.m_flags &&& wxSOCKET_BLOCK ≠ 0 ∨
        ∀ (f : Nat) (s1 : wxSocketBase (T × List Call)), K ≤ f → s1.m_socket ≠ none →
          ∃ s2, WaitForWrite (logged ops) f s1 (-1) 0 = some (true, s2)) →
      ∃ r moved t1, _Write_loop (logged ops) fuel s buffer nbytes total = some r ∧
        r.total = total + nbytes ∧
        (∀ k ∈ moved, 0 < k) ∧ moved.length ≤ nbytes ∧
        r.sock.m_socket = some t1 ∧
        transfers t1.2 = transfers t.2 ++ writeRequests buffer nbytes moved ∧
        config r.sock = config s := by
  intro fuel
  induction fuel with
  | zero => intro s t buffer nbytes total _ _ hn _ hf _; omega
  | succ f ih =>
    intro s t buffer nbytes total ht hwa hn hbuf hf hwait
    obtain ⟨s2, t2, hw1, hw2, hw3, hw4⟩ := waited_transfers K f s t
      (WaitForWrite (logged ops)) (WaitForWrite_transfers ops) ht (by omega) hwait
    have hfl : s2.m_flags = s.m_flags := (config_fields hw2).1
    have hne : buffer.take nbytes ≠ [] := by
      intro h0
      have := congrArg List.length h0
      simp only [List.length_take, List.length_nil] at this
      omega
    obtain ⟨k, hk1, hk2⟩ := hW t2.1 (buffer.take nbytes) hne
    have hkle : k ≤ nbytes := by
      have := ops.Write_le t2.1 (buffer.take nbytes) k hk1
      simp only [List.length_take] at this
      omega
    have hwrite : ((logged ops).Write t2 (buffer.take nbytes)).1 = some k := hk1
    obtain ⟨-, -, -, -, -, lw⟩ := logged_transfers ops
    have hj := lw t2 (buffer.take nbytes)
    simp only [_Write_loop]
    rw [hw1]
    simp only [hw3, hwrite]
    rw [if_pos hk2]
    by_cases hmore : nbytes - k > 0 ∧
        ({ s2 with m_socket := some ((logged ops).Write t2 (buffer.take nbytes)).2 }
          : wxSocketBase (T × List Call)).m_flags &&& wxSOCKET_WAITALL ≠ 0
    · rw [if_pos hmore]
      have hwait2 : ({ s2 with m_socket := some ((logged ops).Write t2 (buffer.take nbytes)).2 }
            : wxSocketBase (T × List Call)).m_flags &&& wxSOCKET_BLOCK ≠ 0 ∨
          ∀ (f : Nat) (s1 : wxSocketBase (T × List Call)), K ≤ f → s1.m_socket ≠ none →
            ∃ s2, WaitForWrite (logged ops) f s1 (-1) 0 = some (true, s2) := by
        rcases hwait with h | h
        · left
          show s2.m_flags &&& wxSOCKET_BLOCK ≠ 0
          rw [hfl]; exact h
        · exact Or.inr h
      obtain ⟨r, moved, t1, i1, i2, i4, i5, i6, i7, i8⟩ := ih
        ({ s2 with m_socket := some ((logged ops).Write t2 (buffer.take nbytes)).2 })
        ((logged ops).Write t2 (buffer.take nbytes)).2 (buffer.drop k) (nbytes - k) (total + k)
        rfl hmore.2 hmore.1 (by simp only [List.length_drop]; omega) (by omega) hwait2
      refine ⟨r, k :: moved, t1, i1, by rw [i2]; omega, ?_, ?_, i6, ?_, ?_⟩
      · intro x hx
        rcases List.mem_cons.mp hx with rfl | hx
        · exact hk2
        · exact i4 x hx
      · simp only [List.length_cons]; omega
      · rw [i7, hj, hw4]
        simp [writeRequests]
      · rw [i8]
        exact hw2
    · rw [if_neg hmore]
      have hflw : s2.m_flags &&& wxSOCKET_WAITALL ≠ 0 := by rw [hfl]; exact hwa
      have hlen : k = nbytes := by
        by_contra hne2
        exact hmore ⟨by omega, hflw⟩
      refine ⟨_, [k], _, rfl, ?_, ?_, ?_, rfl, ?_, ?_⟩
      · show total + k = total + nbytes
        rw [hlen]
      · intro x hx
        rw [List.mem_singleton.mp hx]; exact hk2
      · simp only [List.length_singleton]; omega
      · show transfers ((logged ops).Write t2 (buffer.take nbytes)).2.2 = _
        rw [hj, hw4]
        simp [writeRequests]
      · exact hw2

/-- The bytes that `GetPushback` hands out do not depend on the reading guard. -/
theorem GetPushback_reading (s : wxSocketBase T) (n : Nat) :
    (GetPushback ({ s with m_reading := true } : wxSocketBase T) n false).data
        = (s.GetPushback n false).data ∧
      (GetPushback ({ s with m_reading := true } : wxSocketBase T) n false).total
        = (s.GetPushback n false).total := by
  simp only [GetPushback, Bool.false_eq_true, if_false]
  split_ifs <;> exact ⟨rfl, rfl⟩

/-- The primitive `_Read` under `WAITALL` without `NOWAIT`, when every wait succeeds within
`K` passes (or `BLOCK` is set) and every transport read delivers at least one byte: with
`n + K` units of fuel it returns all `n` bytes, the pushback bytes first. -/
theorem _Read_waitall (ops : GSocket T) (K fuel : Nat) (s : wxSocketBase (T × List Call))
    (t : T × List Call) (n : Nat)
    (hR : ∀ (t : T) (k : Nat), 0 < k → ∃ d, (ops.Read t k).1 = some d ∧ 0 < d.length)
    (ht : s.m_socket = some t) (hwa : s.m_flags &&& wxSOCKET_WAITALL ≠ 0)
    (hnw : s.m_flags &&& wxSOCKET_NOWAIT = 0) (hf : n + K ≤ fuel)
    (hwait : s.m_flags &&& wxSOCKET_BLOCK ≠ 0 ∨
      ∀ (f : Nat) (s1 : wxSocketBase (T × List Call)), K ≤ f → s1.m_socket ≠ none →
        ∃ s2, WaitForRead (logged ops) f s1 (-1) 0 = some (true, s2)) :
    ∃ r moved t1, _Read (logged ops) fuel s n = some r ∧ r.total = n ∧
      r.data = (s.GetPushback n false).data ++ moved.flatten ∧
      (∀ d ∈ moved, 0 < d.length) ∧ moved.length ≤ n ∧
      r.sock.m_socket = some t1 ∧
      transfers t1.2
        = transfers t.2 ++ readRequests (n - (s.GetPushback n false).total) moved := by
  have hs : (s.GetPushback n false).sock.m_socket = some t := by rw [GetPushback_socket, ht]
  have hfl := GetPushback_flags s n
  have hle := GetPushback_total_le s n
  unfold _Read
  simp only [hs]
  by_cases h0 : n - (s.GetPushback n false).total = 0
  · rw [if_pos h0]
    refine ⟨_, [], t, rfl, ?_, by simp, by simp, by simp, hs, by simp [readRequests]⟩
    show (s.GetPushback n false).total = n
    omega
  · rw [if_neg h0, if_neg (by rw [hfl]; simpa using hnw)]
    obtain ⟨r, moved, t1, i1, i2, i3, i4, i5, i6, i7, -⟩ := _Read_loop_waitall ops K hR fuel
      (s.GetPushback n false).sock t (n - (s.GetPushback n false).total)
      (s.GetPushback n false).total (s.GetPushback n false).data hs
      (by rw [hfl]; exact hwa) (by omega) (by omega) (by rw [hfl]; exact hwait)
    exact ⟨r, moved, t1, i1, by rw [i2]; omega, i3, i4, by omega, i6, i7⟩

/-- The primitive `_Write` under `WAITALL` without `NOWAIT`, when every wait succeeds within
`K` passes (or `BLOCK` is set) and every transport write accepts at least one byte: with
`n + K` units of fuel it returns with all `n` bytes accepted. -/
theorem _Write_waitall (ops : GSocket T) (K fuel : Nat) (s : wxSocketBase (T × List Call))
    (t : T × List Call) (buffer : List Byte) (n : Nat)
    (hW : ∀ (t : T) (d : List Byte), d ≠ [] → ∃ k, (ops.Write t d).1 = some k ∧ 0 < k)
    (ht : s.m_socket = some t) (hwa : s.m_flags &&& wxSOCKET_WAITALL ≠ 0)
    (hnw : s.m_flags &&& wxSOCKET_NOWAIT = 0) (hbuf : n ≤ buffer.length) (hf : n + K ≤ fuel)
    (hwait : s.m_flags &&& wxSOCKET_BLOCK ≠ 0 ∨
      ∀ (f : Nat) (s1 : wxSocketBase (T × List Call)), K ≤ f → s1.m_socket ≠ none →
        ∃ s2, WaitForWrite (logged ops) f s1 (-1) 0 = some (true, s2)) :
    ∃ r moved t1, _Write (logged ops) fuel s (some buffer) n = some r ∧ r.total = n ∧
      (∀ k ∈ moved, 0 < k) ∧ moved.length ≤ n ∧
      r.sock.m_socket = some t1 ∧
      transfers t1.2 = transfers t.2 ++ writeRequests buffer n moved := by
  unfold _Write
  simp only [ht]
  by_cases h0 : n = 0
  · rw [if_pos h0]
    subst h0
    exact ⟨_, [], t, rfl, rfl, by simp, by simp, ht, by simp [writeRequests]⟩
  · rw [if_neg h0, if_neg (by simpa using hnw)]
    obtain ⟨r, moved, t1, i1, i2, i4, i5, i6, i7, -⟩ := _Write_loop_waitall ops K hW fuel
      s t buffer n 0 ht hwa (by omega) hbuf hf hwait
    exact ⟨r, moved, t1, i1, by rw [i2]; omega, i4, i5, i6, i7⟩

/-- Without `WAITALL` the loop of `_Read` makes at most one transport read. -/
theorem _Read_loop_single (ops : GSocket T) (fuel : Nat) (s : wxSocketBase (T × List Call))
    (t : T × List Call) (nbytes total : Nat) (data : List Byte) (r : Xfer (T × List Call))
    (ht : s.m_socket = some t) (hwa : s.m_flags &&& wxSOCKET_WAITALL = 0)
    (h : _Read_loop (logged ops) fuel s nbytes total data = some r) :
    ∃ t1 l, r.sock.m_socket = some t1 ∧ transfers t1.2 = transfers t.2 ++ l ∧ l.length ≤ 1 := by
  obtain ⟨-, -, -, -, lr, -⟩ := logged_transfers ops
  cases fuel with
  | zero => simp [_Read_loop] at h
  | succ f =>
    simp only [_Read_loop] at h
    generalize hwq : (if s.m_flags &&& wxSOCKET_BLOCK = 0 then
      WaitForRead (logged ops) f s (-1) 0 else some (true, s)) = waited at h
    have hfr : ∀ b s2, waited = some (b, s2) → config s2 = config s ∧
        ∃ t2, s2.m_socket = some t2 ∧ transfers t2.2 = transfers t.2 := by
      intro b s2 hw
      rw [hw] at hwq
      split_ifs at hwq
      · obtain ⟨e1, e2⟩ := WaitForRead_transfers ops f s s2 b hwq
        exact ⟨e1, e2 t ht⟩
      · simp only [Option.some.injEq, Prod.mk.injEq] at hwq
        rw [← hwq.2]
        exact ⟨rfl, t, ht, rfl⟩
    rcases waited with _ | ⟨b, s2⟩
    · simp at h
    · obtain ⟨e1, t2, e2, e3⟩ := hfr b s2 rfl
      have hfl : s2.m_flags = s.m_flags := (config_fields e1).1
      cases b with
      | false =>
        simp only [Option.some.injEq] at h
        subst h
        exact ⟨t2, [], e2, by simp [e3], by simp⟩
      | true =>
        simp only [e2] at h
        have hone : ∃ l, transfers ((logged ops).Read t2 nbytes).2.2 = transfers t.2 ++ l ∧
            l.length ≤ 1 := ⟨[Call.Read nbytes], by rw [lr, e3], by simp⟩
        cases hret : ((logged ops).Read t2 nbytes).1 with
        | none =>
          simp only [hret, Option.some.injEq] at h
          subst h
          obtain ⟨l, hl1, hl2⟩ := hone
          exact ⟨_, l, rfl, hl1, hl2⟩
        | some d =>
          simp only [hret] at h
          have hno : ¬ (nbytes - d.length > 0 ∧
              ({ s2 with m_socket := some ((logged ops).Read t2 nbytes).2 }
                : wxSocketBase (T × List Call)).m_flags &&& wxSOCKET_WAITALL ≠ 0) := by
            rintro ⟨-, h2⟩
            exact h2 (by show s2.m_flags &&& wxSOCKET_WAITALL = 0; rw [hfl]; exact hwa)
          rw [if_neg hno] at h
          obtain ⟨l, hl1, hl2⟩ := hone
          split_ifs at h <;>
            (simp only [Option.some.injEq] at h; subst h; exact ⟨_, l, rfl, hl1, hl2⟩)

/-- Without `WAITALL` the loop of `_Write` makes at most one transport write. -/
theorem _Write_loop_single (ops : GSocket T) (fuel : Nat) (s : wxSocketBase (T × List Call))
    (t : T × List Call) (buffer : List Byte) (nbytes total : Nat) (r : Xfer (T × List Call))
    (ht : s.m_socket = some t) (hwa : s.m_flags &&& wxSOCKET_WAITALL = 0)
    (h : _Write_loop (logged ops) fuel s buffer nbytes total = some r) :
    ∃ t1 l, r.sock.m_socket = some t1 ∧ transfers t1.2 = transfers t.2 ++ l ∧ l.length ≤ 1 := by
  obtain ⟨-, -, -, -, -, lw⟩ := logged_transfers ops
  cases fuel with
  | zero => simp [_Write_loop] at h
  | succ f =>
    simp only [_Write_loop] at h
    generalize hwq : (if s.m_flags &&& wxSOCKET_BLOCK = 0 then
      WaitForWrite (logged ops) f s (-1) 0 else some (true, s)) = waited at h
    have hfr : ∀ b s2, waited = some (b, s2) → config s2 = config s ∧
        ∃ t2, s2.m_socket = some t2 ∧ transfers t2.2 = transfers t.2 := by
      intro b s2 hw
      rw [hw] at hwq
      split_ifs at hwq
      · obtain ⟨e1, e2⟩ := WaitForWrite_transfers ops f s s2 b hwq
        exact ⟨e1, e2 t ht⟩
      · simp only [Option.some.injEq, Prod.mk.injEq] at hwq
        rw [← hwq.2]
        exact ⟨rfl, t, ht, rfl⟩
    rcases waited with _ | ⟨b, s2⟩
    · simp at h
    · obtain ⟨e1, t2, e2, e3⟩ := hfr b s2 rfl
      have hfl : s2.m_flags = s.m_flags := (config_fields e1).1
      cases b with
      | false =>
        simp only [Option.some.injEq] at h
        subst h
        exact ⟨t2, [], e2, by simp [e3], by simp⟩
      | true =>
        simp only [e2] at h
        have hone : ∃ l, transfers ((logged ops).Write t2 (buffer.take nbytes)).2.2
            = transfers t.2 ++ l ∧ l.length ≤ 1 :=
          ⟨[Call.Write (buffer.take nbytes)], by rw [lw, e3], by simp⟩
        cases hret : ((logged ops).Write t2 (buffer.take nbytes)).1 with
        | none =>
          simp only [hret, Option.some.injEq] at h
          subst h
          obtain ⟨l, hl1, hl2⟩ := hone
          exact ⟨_, l, rfl, hl1, hl2⟩
        | some k =>
          simp only [hret] at h
          have hno : ¬ (nbytes - k > 0 ∧
              ({ s2 with m_socket := some ((logged ops).Write t2 (buffer.take nbytes)).2 }
                : wxSocketBase (T × List Call)).m_flags &&& wxSOCKET_WAITALL ≠ 0) := by
            rintro ⟨-, h2⟩
            exact h2 (by show s2.m_flags &&& wxSOCKET_WAITALL = 0; rw [hfl]; exact hwa)
          rw [if_neg hno] at h
          obtain ⟨l, hl1, hl2⟩ := hone
          split_ifs at h <;>
            (simp only [Option.some.injEq] at h; subst h; exact ⟨_, l, rfl, hl1, hl2⟩)

/-- Without `WAITALL` the primitive `_Read` makes at most one transport read. -/
theorem _Read_single (ops : GSocket T) (fuel : Nat) (s : wxSocketBase (T × List Call))
    (t : T × List Call) (n : Nat) (r : Xfer (T × List Call))
    (ht : s.m_socket = some t) (hwa : s.m_flags &&& wxSOCKET_WAITALL = 0)
    (h : _Read (logged ops) fuel s n = some r) :
    ∃ t1 l, r.sock.m_socket = some t1 ∧ transfers t1.2 = transfers t.2 ++ l ∧ l.length ≤ 1 := by
  obtain ⟨-, -, -, lnb, lr, -⟩ := logged_transfers ops
  have hs : (s.GetPushback n false).sock.m_socket = some t := by rw [GetPushback_socket, ht]
  have hfl := GetPushback_flags s n
  unfold _Read at h
  simp only [hs] at h
  split_ifs at h with h0 hnw
  · simp only [Option.some.injEq] at h
    subst h
    exact ⟨t, [], hs, by simp, by simp⟩
  · have hone : transfers ((logged ops).SetNonBlocking ((logged ops).Read
        ((logged ops).SetNonBlocking t true) (n - (s.GetPushback n false).total)).2 false).2
        = transfers t.2 ++ [Call.Read (n - (s.GetPushback n false).total)] := by
      rw [lnb, lr, lnb]
    cases hret : ((logged ops).Read ((logged ops).SetNonBlocking t true)
        (n - (s.GetPushback n false).total)).1 with
    | none =>
      simp only [hret, Option.some.injEq] at h
      subst h
      exact ⟨_, _, rfl, hone, by simp⟩
    | some d =>
      simp only [hret] at h
      split_ifs at h <;>
        (simp only [Option.some.injEq] at h; subst h; exact ⟨_, _, rfl, hone, by simp⟩)
  · exact _Read_loop_single ops fuel _ t _ _ _ r hs (by rw [hfl]; exact hwa) h

/-- Without `WAITALL` the primitive `_Write` makes at most one transport write. -/
theorem _Write_single (ops : GSocket T) (fuel : Nat) (s : wxSocketBase (T × List Call))
    (t : T × List Call) (buffer : Option (List Byte)) (n : Nat) (r : Xfer (T × List Call))
    (ht : s.m_socket = some t) (hwa : s.m_flags &&& wxSOCKET_WAITALL = 0)
    (h : _Write (logged ops) fuel s buffer n = some r) :
    ∃ t1 l, r.sock.m_socket = some t1 ∧ transfers t1.2 = transfers t.2 ++ l ∧ l.length ≤ 1 := by
  obtain ⟨-, -, -, lnb, -, lw⟩ := logged_transfers ops
  unfold _Write at h
  cases buffer with
  | none =>
    simp only [ht, Option.some.injEq] at h
    subst h
    exact ⟨t, [], ht, by simp, by simp⟩
  | some buf =>
    simp only [ht] at h
    split_ifs at h with h0 hnw
    · simp only [Option.some.injEq] at h
      subst h
      exact ⟨t, [], ht, by simp, by simp⟩
    · have hone : transfers ((logged ops).SetNonBlocking ((logged ops).Write
          ((logged ops).SetNonBlocking t true) (buf.take n)).2 false).2
          = transfers t.2 ++ [Call.Write (buf.take n)] := by
        rw [lnb, lw, lnb]
      cases hret : ((logged ops).Write ((logged ops).SetNonBlocking t true) (buf.take n)).1 with
      | none =>
        simp only [hret, Option.some.injEq] at h
        subst h
        exact ⟨_, _, rfl, hone, by simp⟩
      | some k =>
        simp only [hret] at h
        split_ifs at h <;>
          (simp only [Option.some.injEq] at h; subst h; exact ⟨_, _, rfl, hone, by simp⟩)
    · exact _Write_loop_single ops fuel s t buf n 0 r ht hwa h

end wxSocketBase

/-- The peer that never runs dry delivers at least one byte to every read that asks for
one. -/
theorem tap_reads (t : Tap) (k : Nat) (hk : 0 < k) :
    ∃ d, (tap.Read t k).1 = some d ∧ 0 < d.length := by
  refine ⟨_, rfl, ?_⟩
  simp only [List.length_map, List.length_range]
  omega

/-- The peer that never runs dry accepts at least one byte of every non-empty write. -/
theorem tap_writes (t : Tap) (d : List Byte) (hd : d ≠ []) :
    ∃ k, (tap.Write t d).1 = some k ∧ 0 < k := by
  refine ⟨_, rfl, ?_⟩
  have : 0 < d.length := List.length_pos.mpr hd
  omega

/-- On the peer that never runs dry every wait for input succeeds with its first poll. -/
theorem tap_WaitForRead (f : Nat) (s1 : wxSocketBase (Tap × List Call)) (hf : 1 ≤ f)
    (hs : s1.m_socket ≠ none) :
    ∃ s2, wxSocketBase.WaitForRead (logged tap) f s1 (-1) 0 = some (true, s2) := by
  obtain ⟨f1, rfl⟩ : ∃ f1, f = f1 + 1 := ⟨f - 1, by omega⟩
  cases ht : s1.m_socket with
  | none => exact absurd ht hs
  | some t =>
    unfold wxSocketBase.WaitForRead
    split_ifs
    · exact ⟨_, rfl⟩
    · exact wxSocketBase._Wait_ready (logged tap) (fun _ => ()) (fun _ _ => rfl) f1 s1 t (-1) 0
        (GSOCK_INPUT_FLAG ||| GSOCK_LOST_FLAG) ht (fun t1 _ => Or.inl (by
          show ((GSOCK_INPUT_FLAG ||| GSOCK_OUTPUT_FLAG) &&&
            (GSOCK_INPUT_FLAG ||| GSOCK_LOST_FLAG ||| GSOCK_LOST_FLAG)) &&& GSOCK_INPUT_FLAG ≠ 0
          decide))

/-- On the peer that never runs dry every wait for output succeeds with its first poll. -/
theorem tap_WaitForWrite (f : Nat) (s1 : wxSocketBase (Tap × List Call)) (hf : 1 ≤ f)
    (hs : s1.m_socket ≠ none) :
    ∃ s2, wxSocketBase.WaitForWrite (logged tap) f s1 (-1) 0 = some (true, s2) := by
  obtain ⟨f1, rfl⟩ : ∃ f1, f = f1 + 1 := ⟨f - 1, by omega⟩
  cases ht : s1.m_socket with
  | none => exact absurd ht hs
  | some t =>
    unfold wxSocketBase.WaitForWrite
    exact wxSocketBase._Wait_ready (logged tap) (fun _ => ()) (fun _ _ => rfl) f1 s1 t (-1) 0
      GSOCK_OUTPUT_FLAG ht (fun t1 _ => Or.inr (by
        show ((GSOCK_INPUT_FLAG ||| GSOCK_OUTPUT_FLAG) &&&
          (GSOCK_OUTPUT_FLAG ||| GSOCK_LOST_FLAG)) &&& GSOCK_OUTPUT_FLAG ≠ 0
        decide))

/-- C27: the `WAITALL` retry loop completes. The transport is any transport `ops` with a
journal of its calls (`logged ops`); a transport call never transfers more than it was
asked for. Let the socket have `WAITALL` set and `NOWAIT` clear, let every transport read
that asks for at least one byte deliver at least one, let every transport write that
offers at least one byte accept at least one, and let every readiness wait succeed within
`K` passes of the wait engine, or let `BLOCK` be set, in which case no wait is made. Then
for every `n`, with `n + K` units of fuel: `Read(buf, n)` returns with `LastCount = n` and
`error = false` after at most `n` transport reads, which deliver the blocks `moved`, each
of at least one byte; the caller's buffer holds the pushback bytes followed by these blocks
in order, and each read asked for exactly the bytes still missing (`readRequests`).
`Write(buf, n)` from a buffer of at least `n` bytes returns with `LastCount = n` and
`error = false` after at most `n` transport writes, each offering exactly the bytes still
missing from the position after the bytes already accepted (`writeRequests`). With
`WAITALL` clear, whatever the transport does, every `Read` and every `Write` that returns
has made at most one transport read or write. -/
theorem C27_WAITALL_loop_completes {T : Type} (ops : GSocket T) (K fuel : Nat)
    (s : wxSocketBase (T × List Call)) (t : T × List Call) (n : Nat)
    (hs : s.m_socket = some t) :
    (s.m_flags &&& wxSOCKET_WAITALL ≠ 0 → s.m_flags &&& wxSOCKET_NOWAIT = 0 → n + K ≤ fuel →
      (∀ (t : T) (k : Nat), 0 < k → ∃ d, (ops.Read t k).1 = some d ∧ 0 < d.length) →
      (s.m_flags &&& wxSOCKET_BLOCK ≠ 0 ∨
        ∀ (f : Nat) (s1 : wxSocketBase (T × List Call)), K ≤ f → s1.m_socket ≠ none →
          ∃ s2, wxSocketBase.WaitForRead (logged ops) f s1 (-1) 0 = some (true, s2)) →
      ∀ (buffer : List Byte), ∃ r moved t1,
        wxSocketBase.Read (logged ops) fuel s buffer n = some r ∧
        r.sock.m_lcount = n ∧ r.sock.m_error = false ∧ r.sock.m_socket = some t1 ∧
        moved.length ≤ n ∧ (∀ d ∈ moved, 1 ≤ d.length) ∧
        r.buffer = store buffer ((s.GetPushback n false).data ++ moved.flatten) ∧
        transfers t1.2
          = transfers t.2 ++ readRequests (n - (s.GetPushback n false).total) moved) ∧
    (s.m_flags &&& wxSOCKET_WAITALL ≠ 0 → s.m_flags &&& wxSOCKET_NOWAIT = 0 → n + K ≤ fuel →
      (∀ (t : T) (d : List Byte), d ≠ [] → ∃ k, (ops.Write t d).1 = some k ∧ 0 < k) →
      (s.m_flags &&& wxSOCKET_BLOCK ≠ 0 ∨
        ∀ (f : Nat) (s1 : wxSocketBase (T × List Call)), K ≤ f → s1.m_socket ≠ none →
          ∃ s2, wxSocketBase.WaitForWrite (logged ops) f s1 (-1) 0 = some (true, s2)) →
      ∀ (buffer : List Byte), n ≤ buffer.length → ∃ w moved t1,
        wxSocketBase.Write (logged ops) fuel s (some buffer) n = some w ∧
        w.m_lcount = n ∧ w.m_error = false ∧ w.m_socket = some t1 ∧
        moved.length ≤ n ∧ (∀ k ∈ moved, 1 ≤ k) ∧
        transfers t1.2 = transfers t.2 ++ writeRequests buffer n moved) ∧
    (s.m_flags &&& wxSOCKET_WAITALL = 0 →
      (∀ (buffer : List Byte) (r : IoOut (T × List Call)),
        wxSocketBase.Read (logged ops) fuel s buffer n = some r →
        ∃ t1 l, r.sock.m_socket = some t1 ∧ transfers t1.2 = transfers t.2 ++ l ∧
          l.length ≤ 1) ∧
      (∀ (buffer : Option (List Byte)) (w : wxSocketBase (T × List Call)),
        wxSocketBase.Write (logged ops) fuel s buffer n = some w →
        ∃ t1 l, w.m_socket = some t1 ∧ transfers t1.2 = transfers t.2 ++ l ∧
          l.length ≤ 1)) := by
  refine ⟨?_, ?_, ?_⟩
  · intro hwa hnw hf hR hwait buffer
    obtain ⟨x, moved, t1, i1, i2, i3, i4, i5, i6, i7⟩ := wxSocketBase._Read_waitall ops K fuel
      ({ s with m_reading := true } : wxSocketBase (T × List Call)) t n hR hs hwa hnw hf hwait
    obtain ⟨g1, g2⟩ := wxSocketBase.GetPushback_reading s n
    rw [g1] at i3
    rw [g2] at i7
    obtain ⟨r, q1, q2, q3, q4, q5, -, -, -, -, -, -, q12, -⟩ :=
      wxSocketBase.Read_outcome (logged ops) buffer i1
    have hxf : x.sock.m_flags &&& wxSOCKET_WAITALL ≠ 0 := by
      have := wxSocketBase._Read_flags (logged ops) i1
      rw [this]; exact hwa
    refine ⟨r, moved, t1, q1, by rw [q3, i2], ?_, by rw [q4, i6], i5, i4, by rw [q2, i3], i7⟩
    rw [q12 hxf, i2]
    simp
  · intro hwa hnw hf hW hwait buffer hbuf
    obtain ⟨x, moved, t1, i1, i2, i4, i5, i6, i7⟩ := wxSocketBase._Write_waitall ops K fuel
      ({ s with m_writing := true } : wxSocketBase (T × List Call)) t buffer n hW hs hwa hnw
      hbuf hf hwait
    obtain ⟨w, q1, q3, q4, q5, -, -, -, -, -, -, q12, -⟩ :=
      wxSocketBase.Write_outcome (logged ops) i1
    have hxf : x.sock.m_flags &&& wxSOCKET_WAITALL ≠ 0 := by
      have := (wxSocketBase.config_fields (wxSocketBase._Write_frame (logged ops) i1).1).1
      rw [this]; exact hwa
    refine ⟨w, moved, t1, q1, by rw [q3, i2], ?_, by rw [q4, i6], i5, i4, i7⟩
    rw [q12 hxf, i2]
    simp
  · intro hwa
    constructor
    · intro buffer r h
      rw [wxSocketBase.Read_def] at h
      cases hx : wxSocketBase._Read (logged ops) fuel
          ({ s with m_reading := true } : wxSocketBase (T × List Call)) n with
      | none => simp [hx] at h
      | some x =>
        obtain ⟨r1, e1, -, -, e4, -⟩ := wxSocketBase.Read_outcome (logged ops) buffer hx
        rw [wxSocketBase.Read_def] at e1
        rw [e1] at h
        simp only [Option.some.injEq] at h
        subst h
        obtain ⟨t1, l, h1, h2, h3⟩ := wxSocketBase._Read_single ops fuel
          ({ s with m_reading := true } : wxSocketBase (T × List Call)) t n x hs hwa hx
        exact ⟨t1, l, by rw [e4, h1], h2, h3⟩
    · intro buffer w h
      rw [wxSocketBase.Write_def] at h
      cases hx : wxSocketBase._Write (logged ops) fuel
          ({ s with m_writing := true } : wxSocketBase (T × List Call)) buffer n with
      | none => simp [hx] at h
      | some x =>
        obtain ⟨w1, e1, -, e4, -⟩ := wxSocketBase.Write_outcome (logged ops) hx
        rw [wxSocketBase.Write_def] at e1
        rw [e1] at h
        simp only [Option.some.injEq] at h
        subst h
        obtain ⟨t1, l, h1, h2, h3⟩ := wxSocketBase._Write_single ops fuel
          ({ s with m_writing := true } : wxSocketBase (T × List Call)) t buffer n x hs hwa hx
        exact ⟨t1, l, by rw [e4, h1], h2, h3⟩

/-- C27 on the peer that never runs dry and moves one byte per call, for a socket with
`WAITALL`: with four units of fuel `Read(buf, 3)` returns `LastCount = 3`,
`error = false` and the bytes `00 01 02` after the three transport reads for 3, 2 and 1
bytes, and `Write` of `05 06 07` returns `LastCount = 3`, `error = false` after the three
transport writes of `05 06 07`, `06 07` and `07`. -/
theorem C27_WAITALL_loop_completes_witness :
    (∃ r moved t1, wxSocketBase.Read (logged tap) 4
        ({ (wxSocketBase.Init false : wxSocketBase (Tap × List Call)) with
          m_socket := some (⟨0, 0, 0⟩, []), m_flags := wxSOCKET_WAITALL }) [9, 9, 9] 3 = some r ∧
      r.sock.m_lcount = 3 ∧ r.sock.m_error = false ∧ r.sock.m_socket = some t1 ∧
      moved.length ≤ 3 ∧ transfers t1.2 = readRequests 3 moved) ∧
    (wxSocketBase.Read (logged tap) 4
        ({ (wxSocketBase.Init false : wxSocketBase (Tap × List Call)) with
          m_socket := some (⟨0, 0, 0⟩, []), m_flags := wxSOCKET_WAITALL }) [9, 9, 9] 3).map
      (fun r => (r.buffer, r.sock.m_socket.map (fun t => transfers t.2)))
      = some ([0, 1, 2], some [Call.Read 3, Call.Read 2, Call.Read 1]) ∧
    (∃ w moved t1, wxSocketBase.Write (logged tap) 4
        ({ (wxSocketBase.Init false : wxSocketBase (Tap × List Call)) with
          m_socket := some (⟨0, 0, 0⟩, []), m_flags := wxSOCKET_WAITALL }) (some [5, 6, 7]) 3
        = some w ∧
      w.m_lcount = 3 ∧ w.m_error = false ∧ w.m_socket = some t1 ∧
      moved.length ≤ 3 ∧ transfers t1.2 = writeRequests [5, 6, 7] 3 moved) ∧
    (wxSocketBase.Write (logged tap) 4
        ({ (wxSocketBase.Init false : wxSocketBase (Tap × List Call)) with
          m_socket := some (⟨0, 0, 0⟩, []), m_flags := wxSOCKET_WAITALL }) (some [5, 6, 7]) 3).map
      (fun w => w.m_socket.map (fun t => transfers t.2))
      = some (some [Call.Write [5, 6, 7], Call.Write [6, 7], Call.Write [7]]) := by
  refine ⟨?_, by decide, ?_, by decide⟩
  · obtain ⟨r, moved, t1, h1, h2, h3, h4, h5, -, -, h8⟩ :=
      (C27_WAITALL_loop_completes tap 1 4
        ({ (wxSocketBase.Init false : wxSocketBase (Tap × List Call)) with
          m_socket := some (⟨0, 0, 0⟩, []), m_flags := wxSOCKET_WAITALL })
        (⟨0, 0, 0⟩, []) 3 rfl).1 (by decide) (by decide) (by decide) tap_reads
        (Or.inr (fun f s1 hf hs1 => tap_WaitForRead f s1 hf hs1)) [9, 9, 9]
    exact ⟨r, moved, t1, h1, h2, h3, h4, h5, by simpa [transfers] using h8⟩
  · obtain ⟨w, moved, t1, h1, h2, h3, h4, h5, -, h8⟩ :=
      (C27_WAITALL_loop_completes tap 1 4
        ({ (wxSocketBase.Init false : wxSocketBase (Tap × List Call)) with
          m_socket := some (⟨0, 0, 0⟩, []), m_flags := wxSOCKET_WAITALL })
        (⟨0, 0, 0⟩, []) 3 rfl).2.1 (by decide) (by decide) (by decide) tap_writes
        (Or.inr (fun f s1 hf hs1 => tap_WaitForWrite f s1 hf hs1)) [5, 6, 7] (by decide)
    exact ⟨w, moved, t1, h1, h2, h3, h4, h5, by simpa [transfers] using h8⟩

end wxSocket


/-! ## Notification filtering: the rule of the specification and the rule of the code -/

open wxSocket wxSocket.wxSocketBase

namespace wxSocket

/-- The conditions under which `OnRequest` queues an event, read off the code: the kind has
a flag, the flag is in the mask, notifications are enabled, a handler is registered, and
for an input-ready (output-ready) notification no read (write) is in progress and the poll
of the handle for input (output) reports something. -/
theorem OnRequest_queued_iff {T : Type} (ops : GSocket T) (s : wxSocketBase T)
    (notification : wxSocketNotify) :
    (∃ s1 ev, wxSocketBase.OnRequest ops s notification = some (s1, some ev)) ↔
      ((∃ flag, wxSocketBase.OnRequest_flag notification = some flag ∧
          s.m_eventmask &&& flag = flag) ∧
        s.m_notify = true ∧ s.m_handler.isSome = true ∧
        (notification = wxSocketNotify.wxSOCKET_INPUT →
          s.m_reading = false ∧
            ∃ t, s.m_socket = some t ∧ (ops.Select t GSOCK_INPUT_FLAG).1 ≠ 0) ∧
        (notification = wxSocketNotify.wxSOCKET_OUTPUT →
          s.m_writing = false ∧
            ∃ t, s.m_socket = some t ∧ (ops.Select t GSOCK_OUTPUT_FLAG).1 ≠ 0)) := by
  cases notification with
  | wxSOCKET_INPUT =>
    by_cases hr : s.m_reading = true
    · have : wxSocketBase.OnRequest ops s wxSocketNotify.wxSOCKET_INPUT = some (s, none) := by
        simp [wxSocketBase.OnRequest, wxSocketBase.OnRequest_filter, hr]
      rw [this]
      simp [hr]
    · cases hsock : s.m_socket with
      | none =>
        have : wxSocketBase.OnRequest ops s wxSocketNotify.wxSOCKET_INPUT = none := by
          simp [wxSocketBase.OnRequest, wxSocketBase.OnRequest_filter, hr, hsock]
        rw [this]
        simp
      | some t =>
        by_cases hp : (ops.Select t GSOCK_INPUT_FLAG).1 = 0
        · have : wxSocketBase.OnRequest ops s wxSocketNotify.wxSOCKET_INPUT
              = some ({ s with m_socket := some (ops.Select t GSOCK_INPUT_FLAG).2 }, none) := by
            simp [wxSocketBase.OnRequest, wxSocketBase.OnRequest_filter, hr, hsock, hp]
          rw [this]
          simp [hp]
        · have hf : wxSocketBase.OnRequest_filter ops s wxSocketNotify.wxSOCKET_INPUT
              = some (true, { s with m_socket := some (ops.Select t GSOCK_INPUT_FLAG).2 }) := by
            simp [wxSocketBase.OnRequest_filter, hr, hsock, hp]
          rw [wxSocketBase.OnRequest_schedule ops s _ _ GSOCK_INPUT_FLAG hf rfl]
          simp [wxSocketBase.OnRequest_flag, hr, hp]
  | wxSOCKET_OUTPUT =>
    by_cases hr : s.m_writing = true
    · have : wxSocketBase.OnRequest ops s wxSocketNotify.wxSOCKET_OUTPUT = some (s, none) := by
        simp [wxSocketBase.OnRequest, wxSocketBase.OnRequest_filter, hr]
      rw [this]
      simp [hr]
    · cases hsock : s.m_socket with
      | none =>
        have : wxSocketBase.OnRequest ops s wxSocketNotify.wxSOCKET_OUTPUT = none := by
          simp [wxSocketBase.OnRequest, wxSocketBase.OnRequest_filter, hr, hsock]
        rw [this]
        simp
      | some t =>
        by_cases hp : (ops.Select t GSOCK_OUTPUT_FLAG).1 = 0
        · have : wxSocketBase.OnRequest ops s wxSocketNotify.wxSOCKET_OUTPUT
              = some ({ s with m_socket := some (ops.Select t GSOCK_OUTPUT_FLAG).2 }, none) := by
            simp [wxSocketBase.OnRequest, wxSocketBase.OnRequest_filter, hr, hsock, hp]
          rw [this]
          simp [hp]
        · have hf : wxSocketBase.OnRequest_filter ops s wxSocketNotify.wxSOCKET_OUTPUT
              = some (true, { s with m_socket := some (ops.Select t GSOCK_OUTPUT_FLAG).2 }) := by
            simp [wxSocketBase.OnRequest_filter, hr, hsock, hp]
          rw [wxSocketBase.OnRequest_schedule ops s _ _ GSOCK_OUTPUT_FLAG hf rfl]
          simp [wxSocketBase.OnRequest_flag, hr, hp]
  | wxSOCKET_CONNECTION =>
    rw [wxSocketBase.OnRequest_schedule ops s
      ({ s with m_establishing := false, m_connected := true })
      wxSocketNotify.wxSOCKET_CONNECTION GSOCK_CONNECTION_FLAG rfl rfl]
    simp [wxSocketBase.OnRequest_flag]
  | wxSOCKET_LOST =>
    rw [wxSocketBase.OnRequest_schedule ops s
      ({ s with m_connected := false, m_establishing := false })
      wxSocketNotify.wxSOCKET_LOST GSOCK_LOST_FLAG rfl rfl]
    simp [wxSocketBase.OnRequest_flag]
  | invalid =>
    have : wxSocketBase.OnRequest ops s wxSocketNotify.invalid = some (s, none) := rfl
    rw [this]
    simp [wxSocketBase.OnRequest_flag]

/-- The delivery rule of the specification, spelled out. -/
theorem Deliverable_iff {T : Type} (s : wxSocketBase T) (notification : wxSocketNotify) :
    wxSocketBase.Deliverable s notification = true ↔
      ((∃ flag, wxSocketBase.OnRequest_flag notification = some flag ∧
          s.m_eventmask &&& flag = flag) ∧
        s.m_notify = true ∧ s.m_handler.isSome = true ∧
        (notification = wxSocketNotify.wxSOCKET_INPUT → s.m_reading = false) ∧
        (notification = wxSocketNotify.wxSOCKET_OUTPUT → s.m_writing = false)) := by
  cases notification <;>
    simp [wxSocketBase.Deliverable, wxSocketBase.Suppressed, wxSocketBase.OnRequest_flag,
      and_assoc]

/-- C24, counterexample: a late input-ready notification. The socket has a handler,
notifications enabled, the input flag in its mask and no read in progress, so the rule of
the claim (`Deliverable`) says that the event is queued; but nothing has arrived on the
handle, the poll for input reports nothing, and `OnRequest` returns without queueing an
event. -/
theorem C24_notification_filtering_counterexample :
    wxSocketBase.Deliverable
        (((({ (wxSocketBase.Init false : wxSocketBase Peer) with
          m_socket := some (peerWith [] true GSocketError.GSOCK_NOERROR) }).SetEventHandler
            7 1).SetNotify GSOCK_INPUT_FLAG).Notify true)
        wxSocketNotify.wxSOCKET_INPUT = true ∧
      (((({ (wxSocketBase.Init false : wxSocketBase Peer) with
          m_socket := some (peerWith [] true GSocketError.GSOCK_NOERROR) }).SetEventHandler
            7 1).SetNotify GSOCK_INPUT_FLAG).Notify true).m_reading = false ∧
      ∃ s1, wxSocketBase.OnRequest peerOps.toGSocket
        (((({ (wxSocketBase.Init false : wxSocketBase Peer) with
          m_socket := some (peerWith [] true GSocketError.GSOCK_NOERROR) }).SetEventHandler
            7 1).SetNotify GSOCK_INPUT_FLAG).Notify true)
        wxSocketNotify.wxSOCKET_INPUT = some (s1, none) :=
  ⟨rfl, rfl, _, rfl⟩

/-- C24, amended: notification filtering. `OnRequest` queues an event for the handler if
and only if the rule of the claim holds (`Deliverable`: the flag of the notification kind
is in the subscription mask, notifications are enabled, a handler is registered, and no
operation of the direction is in progress) and, for an input-ready or output-ready
notification, the poll of the handle for that direction reports it ready. A queued event
carries the id, the kind and the client tag of the socket. An input-ready notification that
arrives while `m_reading` is set, and an output-ready one while `m_writing` is set, is
dropped without any effect. The guard `m_reading` is set while `Read` runs its transfer and
is false after `Read`, `Peek`, `ReadMsg` and `Discard` return; `m_writing` is set while
`Write` runs its transfer and is false after `Write` and `WriteMsg` return. -/
theorem C24_notification_filtering_amended {T : Type} (ops : GSocket T) (fuel : Nat)
    (s : wxSocketBase T) (notification : wxSocketNotify) :
    ((∃ s1 ev, wxSocketBase.OnRequest ops s notification = some (s1, some ev)) ↔
      (wxSocketBase.Deliverable s notification = true ∧
        (notification = wxSocketNotify.wxSOCKET_INPUT →
          ∃ t, s.m_socket = some t ∧ (ops.Select t GSOCK_INPUT_FLAG).1 ≠ 0) ∧
        (notification = wxSocketNotify.wxSOCKET_OUTPUT →
          ∃ t, s.m_socket = some t ∧ (ops.Select t GSOCK_OUTPUT_FLAG).1 ≠ 0))) ∧
    (∀ (s1 : wxSocketBase T) (ev : wxSocketEvent),
      wxSocketBase.OnRequest ops s notification = some (s1, some ev) →
      ev = { m_id := s.m_id, m_event := notification, m_clientData := s.m_clientData }) ∧
    (s.m_reading = true →
      wxSocketBase.OnRequest ops s wxSocketNotify.wxSOCKET_INPUT = some (s, none)) ∧
    (s.m_writing = true →
      wxSocketBase.OnRequest ops s wxSocketNotify.wxSOCKET_OUTPUT = some (s, none)) ∧
    (∀ (n : Nat) (x : Xfer T),
      wxSocketBase._Read ops fuel { s with m_reading := true } n = some x →
      x.sock.m_reading = true) ∧
    (∀ (buffer : Option (List Byte)) (n : Nat) (x : Xfer T),
      wxSocketBase._Write ops fuel { s with m_writing := true } buffer n = some x →
      x.sock.m_writing = true) ∧
    (∀ (buffer : List Byte) (n : Nat) (r : IoOut T),
      wxSocketBase.Read ops fuel s buffer n = some r → r.sock.m_reading = false) ∧
    (∀ (buffer : List Byte) (n : Nat) (r : IoOut T),
      wxSocketBase.Peek ops fuel s buffer n = some r → r.sock.m_reading = false) ∧
    (∀ (buffer : List Byte) (n : Nat) (r : IoOut T),
      wxSocketBase.ReadMsg ops fuel s buffer n = some r → r.sock.m_reading = false) ∧
    (∀ (s1 : wxSocketBase T),
      wxSocketBase.Discard ops fuel s = some s1 → s1.m_reading = false) ∧
    (∀ (buffer : Option (List Byte)) (n : Nat) (s1 : wxSocketBase T),
      wxSocketBase.Write ops fuel s buffer n = some s1 → s1.m_writing = false) ∧
    (∀ (buffer : Option (List Byte)) (n : Nat) (s1 : wxSocketBase T),
      wxSocketBase.WriteMsg ops fuel s buffer n = some s1 → s1.m_writing = false) := by
  refine ⟨?_, fun s1 ev h => wxSocketBase.OnRequest_event ops s s1 notification ev h, ?_, ?_, ?_, ?_, ?_, ?_, ?_, ?_,
    ?_, ?_⟩
  · rw [OnRequest_queued_iff, Deliverable_iff]
    constructor
    · rintro ⟨h1, h2, h3, h4, h5⟩
      exact ⟨⟨h1, h2, h3, fun e => (h4 e).1, fun e => (h5 e).1⟩, fun e => (h4 e).2,
        fun e => (h5 e).2⟩
    · rintro ⟨⟨h1, h2, h3, h4, h5⟩, h6, h7⟩
      exact ⟨h1, h2, h3, fun e => ⟨h4 e, h6 e⟩, fun e => ⟨h5 e, h7 e⟩⟩
  · intro hr
    simp [wxSocketBase.OnRequest, wxSocketBase.OnRequest_filter, hr]
  · intro hr
    simp [wxSocketBase.OnRequest, wxSocketBase.OnRequest_filter, hr]
  · intro n x h
    obtain ⟨hc, -⟩ := wxSocketBase._Read_spec ops h
    have h1 : (wxSocketBase.config x.sock).m_reading
        = (wxSocketBase.config (wxSocketBase.GetPushback
          ({ s with m_reading := true } : wxSocketBase T) n false).sock).m_reading := by rw [hc]
    have h2 : (wxSocketBase.GetPushback ({ s with m_reading := true } : wxSocketBase T)
        n false).sock.m_reading = true := by
      simp only [wxSocketBase.GetPushback, Bool.false_eq_true, if_false]
      split_ifs <;> rfl
    exact h1.trans h2
  · intro buffer n x h
    have hc := wxSocketBase._Write_frame ops h
    have h1 : (wxSocketBase.config x.sock).m_writing
        = (wxSocketBase.config ({ s with m_writing := true } : wxSocketBase T)).m_writing := by
      rw [hc.1]
    exact h1
  · intro buffer n r h
    rw [wxSocketBase.Read_def] at h
    split at h
    · simp at h
    · simp only [Option.some.injEq] at h
      rw [← h]
  · intro buffer n r h
    unfold wxSocketBase.Peek at h
    simp only at h
    split at h
    · simp at h
    · simp only [Option.some.injEq] at h
      rw [← h]
  · intro buffer n r h
    obtain ⟨b, -, rfl⟩ := wxSocketBase.ReadMsg_inv ops h
    rfl
  · intro s1 h
    unfold wxSocketBase.Discard at h
    simp only at h
    split at h
    · simp at h
    · simp only [Option.some.injEq] at h
      rw [← h]
  · intro buffer n s1 h
    rw [wxSocketBase.Write_def] at h
    split at h
    · simp at h
    · simp only [Option.some.injEq] at h
      rw [← h]
  · intro buffer n s1 h
    obtain ⟨b, -, rfl⟩ := wxSocketBase.WriteMsg_inv ops h
    rfl


/-- C24 on the scripted peer, for a socket with a handler, notifications enabled and the
input flag in its mask: an input-ready notification is queued when a byte has arrived,
and none is queued when nothing has arrived (the poll for input reports nothing). -/
theorem C24_notification_filtering_amended_witness :
    (∃ s1 ev, wxSocketBase.OnRequest peerOps.toGSocket
        (((({ (wxSocketBase.Init false : wxSocketBase Peer) with
          m_socket := some (peerWith [1] true GSocketError.GSOCK_NOERROR) }).SetEventHandler
            7 1).SetNotify GSOCK_INPUT_FLAG).Notify true)
        wxSocketNotify.wxSOCKET_INPUT = some (s1, some ev)) ∧
    ¬ (∃ s1 ev, wxSocketBase.OnRequest peerOps.toGSocket
        (((({ (wxSocketBase.Init false : wxSocketBase Peer) with
          m_socket := some (peerWith [] true GSocketError.GSOCK_NOERROR) }).SetEventHandler
            7 1).SetNotify GSOCK_INPUT_FLAG).Notify true)
        wxSocketNotify.wxSOCKET_INPUT = some (s1, some ev)) := by
  constructor
  · exact (C24_notification_filtering_amended peerOps.toGSocket 0 _
      wxSocketNotify.wxSOCKET_INPUT).1.mpr
      ⟨rfl, fun _ => ⟨_, rfl, by decide⟩, fun h => by cases h⟩
  · intro h
    obtain ⟨-, hin, -⟩ :=
      (C24_notification_filtering_amended peerOps.toGSocket 0 _
        wxSocketNotify.wxSOCKET_INPUT).1.mp h
    obtain ⟨t, ht, hp⟩ := hin rfl
    have ht2 : peerWith [] true GSocketError.GSOCK_NOERROR = t := by
      simpa [wxSocketBase.Notify, wxSocketBase.SetNotify, wxSocketBase.SetEventHandler] using ht
    subst ht2
    exact hp (by decide)

end wxSocket


/-! ## Count and error of `WriteMsg` against the bytes the transport accepted -/

open wxSocket wxSocket.wxSocketBase

namespace wxSocket

/-- The journal does not disturb the record of accepted bytes. -/
theorem logged_recording {T : Type} {ops : GSocket T} {sent : T → List Byte}
    (hrec : Recording ops sent) :
    Recording (logged ops) (fun t => sent t.1) where
  write_some := fun t d k h => hrec.write_some t.1 d k h
  write_none := fun t d h => hrec.write_none t.1 d h
  read_sent := fun t n => hrec.read_sent t.1 n
  select_sent := fun t f => hrec.select_sent t.1 f
  setNonBlocking_sent := fun t b => hrec.setNonBlocking_sent t.1 b
  setTimeout_sent := fun t ms => hrec.setTimeout_sent t.1 ms
  processEvents_sent := fun t => hrec.processEvents_sent t.1

/-- The scripted peer records in `outbound` the bytes its writes accepted. -/
theorem peer_recording : Recording peerOps.toGSocket Peer.outbound where
  write_some := by
    intro t d k h
    by_cases hw : t.writable = true
    · simp only [peerOps, hw, if_true, Option.some.injEq] at h
      subst h
      simp [peerOps, hw]
    · simp [peerOps, hw] at h
  write_none := by
    intro t d h
    by_cases hw : t.writable = true
    · simp [peerOps, hw] at h
    · simp [peerOps, hw]
  read_sent := by
    intro t n
    by_cases hi : t.inbound = [] <;> simp [peerOps, hi]
  select_sent := by
    intro t f
    simp only [peerOps]
    split_ifs <;> rfl
  setNonBlocking_sent := fun _ _ => rfl
  setTimeout_sent := fun _ _ => rfl
  processEvents_sent := fun _ => rfl

namespace wxSocketBase

variable {T : Type}

/-- Every transport write that the retry loop of `_Write` makes offers the bytes of the
buffer from some position `k` on, up to the end of the `nbytes` bytes to write. -/
theorem _Write_loop_calls (ops : GSocket T) :
    ∀ (fuel : Nat) (s : wxSocketBase (T × List Call)) (t : T × List Call) (buffer : List Byte)
      (nbytes total : Nat) (r : Xfer (T × List Call)),
      s.m_socket = some t → _Write_loop (logged ops) fuel s buffer nbytes total = some r →
      ∃ t1 l, r.sock.m_socket = some t1 ∧ transfers t1.2 = transfers t.2 ++ l ∧
        ∀ c ∈ l, ∃ k, c = Call.Write ((buffer.drop k).take (nbytes - k)) := by
  intro fuel
  induction fuel with
  | zero => intro s t buffer nbytes total r _ h; simp [_Write_loop] at h
  | succ f ih =>
    intro s t buffer nbytes total r ht h
    obtain ⟨-, -, -, -, -, lw⟩ := logged_transfers ops
    simp only [_Write_loop] at h
    generalize hwq : (if s.m_flags &&& wxSOCKET_BLOCK = 0 then
      WaitForWrite (logged ops) f s (-1) 0 else some (true, s)) = waited at h
    have hfr : ∀ b s2, waited = some (b, s2) →
        ∃ t2, s2.m_socket = some t2 ∧ transfers t2.2 = transfers t.2 := by
      intro b s2 hw
      rw [hw] at hwq
      split_ifs at hwq
      · obtain ⟨-, e2⟩ := WaitForWrite_transfers ops f s s2 b hwq
        exact e2 t ht
      · simp only [Option.some.injEq, Prod.mk.injEq] at hwq
        rw [← hwq.2]
        exact ⟨t, ht, rfl⟩
    rcases waited with _ | ⟨b, s2⟩
    · simp at h
    · obtain ⟨t2, e2, e3⟩ := hfr b s2 rfl
      cases b with
      | false =>
        simp only [Option.some.injEq] at h
        subst h
        exact ⟨t2, [], e2, by simp [e3], by simp⟩
      | true =>
        simp only [e2] at h
        have hfirst : ∀ c ∈ [Call.Write (buffer.take nbytes)],
            ∃ k, c = Call.Write ((buffer.drop k).take (nbytes - k)) := by
          intro c hc
          rw [List.mem_singleton.mp hc]
          exact ⟨0, by simp⟩
        have hone : transfers ((logged ops).Write t2 (buffer.take nbytes)).2.2
            = transfers t.2 ++ [Call.Write (buffer.take nbytes)] := by rw [lw, e3]
        cases hret : ((logged ops).Write t2 (buffer.take nbytes)).1 with
        | none =>
          simp only [hret, Option.some.injEq] at h
          subst h
          exact ⟨_, _, rfl, hone, hfirst⟩
        | some k =>
          simp only [hret] at h
          split_ifs at h with hk hmore
          · obtain ⟨t1, l, i1, i2, i3⟩ := ih _ _ _ _ _ _ rfl h
            refine ⟨t1, Call.Write (buffer.take nbytes) :: l, i1, ?_, ?_⟩
            · rw [i2, hone]; simp
            · intro c hc
              rcases List.mem_cons.mp hc with rfl | hc
              · exact ⟨0, by simp⟩
              · obtain ⟨k1, rfl⟩ := i3 c hc
                refine ⟨k + k1, ?_⟩
                rw [List.drop_drop, Nat.sub_sub]
          · simp only [Option.some.injEq] at h
            subst h
            exact ⟨_, _, rfl, hone, hfirst⟩
          · simp only [Option.some.injEq] at h
            subst h
            exact ⟨_, _, rfl, hone, hfirst⟩

/-- Every transport write that `_Write` makes offers the bytes of the buffer from some
position `k` on, up to the end of the `n` bytes to write. -/
theorem _Write_calls (ops : GSocket T) {fuel : Nat} {s : wxSocketBase (T × List Call)}
    {t : T × List Call} {buffer : List Byte} {n : Nat} {r : Xfer (T × List Call)}
    (ht : s.m_socket = some t) (h : _Write (logged ops) fuel s (some buffer) n = some r) :
    ∃ t1 l, r.sock.m_socket = some t1 ∧ transfers t1.2 = transfers t.2 ++ l ∧
      ∀ c ∈ l, ∃ k, c = Call.Write ((buffer.drop k).take (n - k)) := by
  obtain ⟨-, -, -, lnb, -, lw⟩ := logged_transfers ops
  unfold _Write at h
  simp only [ht] at h
  split_ifs at h with h0 hnw
  · simp only [Option.some.injEq] at h
    subst h
    exact ⟨t, [], ht, by simp, by simp⟩
  · have hone : transfers ((logged ops).SetNonBlocking ((logged ops).Write
        ((logged ops).SetNonBlocking t true) (buffer.take n)).2 false).2
        = transfers t.2 ++ [Call.Write (buffer.take n)] := by
      rw [lnb, lw, lnb]
    have hfirst : ∀ c ∈ [Call.Write (buffer.take n)],
        ∃ k, c = Call.Write ((buffer.drop k).take (n - k)) := by
      intro c hc
      rw [List.mem_singleton.mp hc]
      exact ⟨0, by simp⟩
    cases hret : ((logged ops).Write ((logged ops).SetNonBlocking t true) (buffer.take n)).1 with
    | none =>
      simp only [hret, Option.some.injEq] at h
      subst h
      exact ⟨_, _, rfl, hone, hfirst⟩
    | some k =>
      simp only [hret] at h
      split_ifs at h <;>
        (simp only [Option.some.injEq] at h; subst h; exact ⟨_, _, rfl, hone, hfirst⟩)
  · exact _Write_loop_calls ops fuel s t buffer n 0 r ht h

/-- What one call of `_Write` does to a recording transport with a journal: the transport
has accepted exactly the first `total` bytes of the buffer, where `total`, at most `n`, is
the count returned, and every write made offered bytes of the buffer. A NULL buffer makes
no write. -/
theorem _Write_record (ops : GSocket T) (sent : T → List Byte) (hrec : Recording ops sent)
    {fuel : Nat} {s : wxSocketBase (T × List Call)} {t : T × List Call}
    {buffer : Option (List Byte)} {n : Nat} {r : Xfer (T × List Call)}
    (ht : s.m_socket = some t) (h : _Write (logged ops) fuel s buffer n = some r) :
    ∃ t1 l, r.sock.m_socket = some t1 ∧
      sent t1.1 = sent t.1 ++ (buffer.getD []).take r.total ∧
      transfers t1.2 = transfers t.2 ++ l ∧ r.total ≤ n ∧
      ∀ c ∈ l, ∃ k, c = Call.Write (((buffer.getD []).drop k).take (n - k)) := by
  have hle := (_Write_frame (logged ops) h).2.2
  cases buffer with
  | none =>
    unfold _Write at h
    simp only [ht, Option.some.injEq] at h
    subst h
    exact ⟨t, [], ht, by simp, by simp, by simp, by simp⟩
  | some P =>
    obtain ⟨t1, hs1, hsent1⟩ := _Write_sent (logged ops) (fun t => sent t.1)
      (logged_recording hrec) ht h
    obtain ⟨t2, l, hs2, hj, hc⟩ := _Write_calls ops ht h
    rw [hs1] at hs2
    simp only [Option.some.injEq] at hs2
    subst hs2
    exact ⟨t1, l, hs1, hsent1, hj, hle, hc⟩

end wxSocketBase

/-- What `WriteMsg` does to a recording transport with a journal, for a socket that has a
handle: the transport accepts a prefix of the header, then a prefix of the payload, then a
prefix of the trailer; the count reported is the length of the payload prefix; the call
fails unless all three were accepted in full. -/
theorem WriteMsg_record {T : Type} (ops : GSocket T) (sent : T → List Byte)
    (hrec : Recording ops sent) (fuel : Nat) (s s1 : wxSocketBase (T × List Call))
    (t : T × List Call) (buffer : Option (List Byte)) (n : Nat)
    (hs : s.m_socket = some t)
    (h : wxSocketBase.WriteMsg (logged ops) fuel s buffer n = some s1) :
    ∃ t1 hd p tr calls, s1.m_socket = some t1 ∧
      sent t1.1 = sent t.1 ++ (msgHeader n).take hd ++ (buffer.getD []).take p
        ++ msgTrailer.take tr ∧
      transfers t1.2 = transfers t.2 ++ calls ∧
      hd ≤ 8 ∧ p ≤ n ∧ tr ≤ 8 ∧
      s1.m_lcount = p ∧
      (n ≤ (buffer.getD []).length → ((buffer.getD []).take p).length = s1.m_lcount) ∧
      (hd < 8 → s1.m_error = true ∧ p = 0 ∧ tr = 0 ∧
        ∀ c ∈ calls, ∃ k, c = Call.Write ((msgHeader n).drop k)) ∧
      (p < n → tr = 0) ∧
      (s1.m_error = false ↔ hd = 8 ∧ p = n ∧ tr = 8) := by
  obtain ⟨b, hb, rfl⟩ := wxSocketBase.WriteMsg_inv (logged ops) h
  obtain ⟨r1, h1, hcase⟩ := wxSocketBase.WriteMsg_body_inv (logged ops) hb
  have hs0 : (({ s with m_writing := true } : wxSocketBase (T × List Call)).SetFlags
      ((s.m_flags &&& wxSOCKET_BLOCK) ||| wxSOCKET_WAITALL)).m_socket = some t := hs
  obtain ⟨t1, l1, a1, a2, a3, a4, a5⟩ := wxSocketBase._Write_record ops sent hrec hs0 h1
  have a2' : sent t1.1 = sent t.1 ++ (msgHeader n).take r1.total := a2
  have hlen : ∀ p : Nat, n ≤ (buffer.getD []).length → p ≤ n →
      ((buffer.getD []).take p).length = p := by
    intro p h1 h2
    rw [List.length_take]; omega
  rcases hcase with ⟨c1, rfl⟩ | ⟨e1, r2, h2, hcase⟩
  · refine ⟨t1, r1.total, 0, 0, l1, a1, by simp [a2'], a3, a4, by omega, by omega, rfl,
      fun hn => by simp, ?_, fun _ => rfl, ?_⟩
    · intro _
      refine ⟨rfl, rfl, rfl, ?_⟩
      intro c hc
      obtain ⟨k, rfl⟩ := a5 c hc
      refine ⟨k, ?_⟩
      have : (((msgHeader n).drop k).take (8 - k)) = (msgHeader n).drop k :=
        List.take_of_length_le (by simp [msgHeader_length])
      exact congrArg Call.Write this
    · constructor
      · intro hf; simp at hf
      · rintro ⟨e, -⟩; omega
  obtain ⟨t2, l2, b1, b2, b3, b4, -⟩ := wxSocketBase._Write_record ops sent hrec a1 h2
  rcases hcase with ⟨c2, rfl⟩ | ⟨e2, r3, h3, hcase⟩
  · refine ⟨t2, 8, r2.total, 0, l1 ++ l2, b1, ?_, ?_, le_refl 8, b4, by omega, rfl,
      fun hn => hlen _ hn b4, fun hlt => by omega, fun _ => rfl, ?_⟩
    · rw [b2, a2', e1]; simp
    · rw [b3, a3, List.append_assoc]
    · constructor
      · intro hf; simp at hf
      · rintro ⟨-, e, -⟩; omega
  obtain ⟨t3, l3, d1, d2, d3, d4, -⟩ := wxSocketBase._Write_record ops sent hrec b1 h3
  have d2' : sent t3.1 = sent t2.1 ++ msgTrailer.take r3.total := d2
  have hsent : sent t3.1 = sent t.1 ++ (msgHeader n).take 8 ++ (buffer.getD []).take r2.total
      ++ msgTrailer.take r3.total := by
    rw [d2', b2, a2', e1]
  have hj : transfers t3.2 = transfers t.2 ++ (l1 ++ l2 ++ l3) := by
    rw [d3, b3, a3]; simp
  rcases hcase with ⟨c3, rfl⟩ | ⟨e3, rfl⟩
  · refine ⟨t3, 8, r2.total, r3.total, l1 ++ l2 ++ l3, d1, hsent, hj, le_refl 8, b4, d4, rfl,
      fun hn => hlen _ hn b4, fun hlt => by omega, fun hlt => by omega, ?_⟩
    constructor
    · intro hf; simp at hf
    · rintro ⟨-, -, e⟩; omega
  · refine ⟨t3, 8, r2.total, r3.total, l1 ++ l2 ++ l3, d1, hsent, hj, le_refl 8, b4, d4, rfl,
      fun hn => hlen _ hn b4, fun hlt => by omega, fun hlt => by omega, ?_⟩
    constructor
    · intro _; exact ⟨rfl, e2, e3⟩
    · intro _; rfl

/-- C8: `WriteMsg` count and error, stated of the bytes that reach the transport. The
transport `ops` keeps a record `sent` of the bytes it accepted and carries a journal of its
calls; both are read through the handle of the socket (`onHandle`, empty without a handle).
For every `WriteMsg(P, n)` that returns there are counts `hd <= 8`, `p <= n` and `tr <= 8`
such that during the call the transport accepted exactly the first `hd` bytes of the
header, then the first `p` bytes of the payload, then the first `tr` bytes of the trailer,
and `LastCount = p`: the number of payload bytes actually written. If the header write
transferred fewer than 8 bytes (`hd < 8`) then `error = true`, `p = 0` and `tr = 0` (so
`LastCount = 0`), and every transport write made during the call offered header bytes
only: no payload write was attempted. A short payload (`p < n`) is followed by no trailer
byte. And `error = false` if and only if `hd = 8`, `p = n` and `tr = 8`: header, payload
and trailer were each accepted in full. -/
theorem C8_WriteMsg_count_and_error {T : Type} (ops : GSocket T) (sent : T → List Byte)
    (hrec : Recording ops sent) (fuel : Nat) (s s1 : wxSocketBase (T × List Call))
    (buffer : Option (List Byte)) (n : Nat)
    (h : wxSocketBase.WriteMsg (logged ops) fuel s buffer n = some s1) :
    ∃ hd p tr calls,
      wxSocketBase.onHandle (fun t => sent t.1) s1
        = wxSocketBase.onHandle (fun t => sent t.1) s ++ (msgHeader n).take hd
          ++ (buffer.getD []).take p ++ msgTrailer.take tr ∧
      wxSocketBase.onHandle (fun t => transfers t.2) s1
        = wxSocketBase.onHandle (fun t => transfers t.2) s ++ calls ∧
      s1.m_socket.isSome = s.m_socket.isSome ∧
      hd ≤ 8 ∧ p ≤ n ∧ tr ≤ 8 ∧
      s1.m_lcount = p ∧
      (n ≤ (buffer.getD []).length → ((buffer.getD []).take p).length = s1.m_lcount) ∧
      (hd < 8 → s1.m_error = true ∧ p = 0 ∧ tr = 0 ∧
        ∀ c ∈ calls, ∃ k, c = Call.Write ((msgHeader n).drop k)) ∧
      (p < n → tr = 0) ∧
      (s1.m_error = false ↔ hd = 8 ∧ p = n ∧ tr = 8) := by
  cases hs : s.m_socket with
  | some t =>
    obtain ⟨t1, hd, p, tr, calls, g1, g2, g3, g4, g5, g6, g7, g8, g9, g10, g11⟩ :=
      WriteMsg_record ops sent hrec fuel s s1 t buffer n hs h
    refine ⟨hd, p, tr, calls, ?_, ?_, ?_, g4, g5, g6, g7, g8, g9, g10, g11⟩
    · simp only [wxSocketBase.onHandle, g1, hs, g2]
    · simp only [wxSocketBase.onHandle, g1, hs, g3]
    · rw [g1]; rfl
  | none =>
    obtain ⟨b, hb, rfl⟩ := wxSocketBase.WriteMsg_inv (logged ops) h
    obtain ⟨r1, h1, hcase⟩ := wxSocketBase.WriteMsg_body_inv (logged ops) hb
    have hs0 : (({ s with m_writing := true } : wxSocketBase (T × List Call)).SetFlags
        ((s.m_flags &&& wxSOCKET_BLOCK) ||| wxSOCKET_WAITALL)).m_socket = none := hs
    rw [wxSocketBase._Write_absent (logged ops) fuel _ _ _ hs0] at h1
    simp only [Option.some.injEq] at h1
    subst h1
    rcases hcase with ⟨-, rfl⟩ | ⟨e1, -⟩
    · refine ⟨0, 0, 0, [], ?_, ?_, ?_, by omega, by omega, by omega, rfl, fun _ => by simp,
        fun _ => ⟨rfl, rfl, rfl, by simp⟩, fun _ => rfl, ?_⟩
      · simp [wxSocketBase.onHandle, wxSocketBase.SetFlags, hs]
      · simp [wxSocketBase.onHandle, wxSocketBase.SetFlags, hs]
      · simp [wxSocketBase.SetFlags, hs]
      · constructor
        · intro hf; simp at hf
        · rintro ⟨e, -⟩; omega
    · simp at e1

/-- C8 on concrete transports. On the loopback pair `WriteMsg` of `01 02 03` ends with
`error = false` and `LastCount = 3`, and the bytes accepted are the 8 header bytes, the 3
payload bytes and the 8 trailer bytes. On a scripted peer that refuses every write the
header write transfers nothing: `LastCount = 0`, `error = true`, nothing is accepted and
the only transport write made offered the header. On a socket without a handle the call
fails with `LastCount = 0`. -/
theorem C8_WriteMsg_count_and_error_witness :
    (∃ s1, wxSocketBase.WriteMsg (logged loopback) 20
        ({ (wxSocketBase.Init false : wxSocketBase (Loopback × List Call)) with
          m_socket := some (loopbackWith [] 2, []) }) (some [1, 2, 3]) 3 = some s1 ∧
      s1.m_error = false ∧ s1.m_lcount = 3 ∧
      wxSocketBase.onHandle (fun t => t.1.log) s1 = msgHeader 3 ++ [1, 2, 3] ++ msgTrailer) ∧
    (∃ s1, wxSocketBase.WriteMsg (logged peerOps.toGSocket) 20
        ({ (wxSocketBase.Init false : wxSocketBase (Peer × List Call)) with
          m_socket := some (peerWith [] false GSocketError.GSOCK_NOERROR, []),
          m_flags := wxSOCKET_BLOCK }) (some [1, 2, 3]) 3 = some s1 ∧
      s1.m_error = true ∧ s1.m_lcount = 0 ∧
      wxSocketBase.onHandle (fun t => t.1.outbound) s1 = [] ∧
      wxSocketBase.onHandle (fun t => transfers t.2) s1 = [Call.Write (msgHeader 3)]) ∧
    (∃ s1, wxSocketBase.WriteMsg (logged loopback) 20
        (wxSocketBase.Init false : wxSocketBase (Loopback × List Call)) (some [1, 2, 3]) 3
          = some s1 ∧
      s1.m_error = true ∧ s1.m_lcount = 0 ∧ s1.m_socket = none) := by
  refine ⟨?_, ?_, ?_⟩
  · have hw : ∃ s1, wxSocketBase.WriteMsg (logged loopback) 20
        ({ (wxSocketBase.Init false : wxSocketBase (Loopback × List Call)) with
          m_socket := some (loopbackWith [] 2, []) }) (some [1, 2, 3]) 3 = some s1 ∧
        s1.m_error = false := ⟨_, rfl, rfl⟩
    obtain ⟨s1, h, hok⟩ := hw
    obtain ⟨hd, p, tr, calls, g1, -, -, -, -, -, g7, -, -, -, g11⟩ :=
      C8_WriteMsg_count_and_error loopback Loopback.log loopback_recording 20 _ s1
        (some [1, 2, 3]) 3 h
    obtain ⟨e1, e2, e3⟩ := g11.mp hok
    subst e1 e2 e3
    exact ⟨s1, h, hok, g7, by rw [g1]; rfl⟩
  · have hw : ∃ s1, wxSocketBase.WriteMsg (logged peerOps.toGSocket) 20
        ({ (wxSocketBase.Init false : wxSocketBase (Peer × List Call)) with
          m_socket := some (peerWith [] false GSocketError.GSOCK_NOERROR, []),
          m_flags := wxSOCKET_BLOCK }) (some [1, 2, 3]) 3 = some s1 ∧
        wxSocketBase.onHandle (fun t => t.1.outbound) s1 = [] ∧
        wxSocketBase.onHandle (fun t => transfers t.2) s1 = [Call.Write (msgHeader 3)] :=
      ⟨_, rfl, rfl, by decide⟩
    obtain ⟨s1, h, hout, hj⟩ := hw
    obtain ⟨hd, p, tr, calls, g1, -, -, g4, -, -, g7, -, g9, -, -⟩ :=
      C8_WriteMsg_count_and_error peerOps.toGSocket Peer.outbound peer_recording 20 _ s1
        (some [1, 2, 3]) 3 h
    have hlt : hd < 8 := by
      rcases Nat.lt_or_ge hd 8 with hlt | hge
      · exact hlt
      · exfalso
        have e : hd = 8 := by omega
        subst e
        rw [hout] at g1
        have := congrArg List.length g1
        simp [wxSocketBase.onHandle, msgHeader_length] at this
        omega
    obtain ⟨k1, k2, -, -⟩ := g9 hlt
    exact ⟨s1, h, k1, by rw [g7, k2], hout, hj⟩
  · have hw : ∃ s1, wxSocketBase.WriteMsg (logged loopback) 20
        (wxSocketBase.Init false : wxSocketBase (Loopback × List Call)) (some [1, 2, 3]) 3
          = some s1 ∧ s1.m_socket = none := ⟨_, rfl, rfl⟩
    obtain ⟨s1, h, hnone⟩ := hw
    obtain ⟨hd, p, tr, calls, g1, -, -, g4, -, -, g7, -, g9, -, -⟩ :=
      C8_WriteMsg_count_and_error loopback Loopback.log loopback_recording 20 _ s1
        (some [1, 2, 3]) 3 h
    have hlt : hd < 8 := by
      rcases Nat.lt_or_ge hd 8 with hlt | hge
      · exact hlt
      · exfalso
        have e : hd = 8 := by omega
        subst e
        have := congrArg List.length g1
        simp [wxSocketBase.onHandle, hnone, wxSocketBase.Init, msgHeader_length] at this
        omega
    obtain ⟨k1, k2, -, -⟩ := g9 hlt
    exact ⟨s1, h, k1, by rw [g7, k2], hnone⟩

end wxSocket


/-! ## Success of `ReadMsg` against the bytes taken from the input stream -/

open wxSocket wxSocket.wxSocketBase

namespace wxSocket

/-- The transport with a record of delivered bytes keeps that record faithfully. -/
theorem received_receiving {T : Type} (ops : GSocket T) :
    Receiving (received ops) (fun t => t.2) where
  read_some := by
    intro t n d h
    have h1 : (ops.Read t.1 n).1 = some d := h
    show t.2 ++ ((ops.Read t.1 n).1).getD [] = t.2 ++ d
    rw [h1]; rfl
  read_none := by
    intro t n h
    have h1 : (ops.Read t.1 n).1 = none := h
    show t.2 ++ ((ops.Read t.1 n).1).getD [] = t.2
    rw [h1]; simp
  write_got := fun _ _ => rfl
  select_got := fun _ _ => rfl
  setNonBlocking_got := fun _ _ => rfl
  setTimeout_got := fun _ _ => rfl
  processEvents_got := fun _ => rfl

/-- Decoding inside the first part of a list does not look at what follows it. -/
theorem decode32_append_left (A B : List Byte) (i : Nat) (h : i + 4 ≤ A.length) :
    decode32 (A ++ B) i = decode32 A i := by
  simp only [decode32]
  rw [List.getD_append _ _ _ _ (by omega), List.getD_append _ _ _ _ (by omega),
    List.getD_append _ _ _ _ (by omega), List.getD_append _ _ _ _ (by omega)]

/-- Decoding behind the first part of a list is decoding in the rest. -/
theorem decode32_append_right (A B : List Byte) (i j : Nat) (h : i = A.length + j) :
    decode32 (A ++ B) i = decode32 B j := by
  subst h
  simp only [decode32]
  rw [List.getD_append_right _ _ _ _ (by omega), List.getD_append_right _ _ _ _ (by omega),
    List.getD_append_right _ _ _ _ (by omega), List.getD_append_right _ _ _ _ (by omega)]
  have e0 : A.length + j - A.length = j := by omega
  have e1 : A.length + j + 1 - A.length = j + 1 := by omega
  have e2 : A.length + j + 2 - A.length = j + 2 := by omega
  have e3 : A.length + j + 3 - A.length = j + 3 := by omega
  rw [e0, e1, e2, e3]

/-- Taking bytes from a stream in two steps. -/
theorem consumed_trans {u0 u1 u2 d1 d2 c1 c2 : List Byte} (h1 : u0 ++ d1 = c1 ++ u1)
    (h2 : u1 ++ d2 = c2 ++ u2) : u0 ++ (d1 ++ d2) = (c1 ++ c2) ++ u2 := by
  rw [← List.append_assoc, h1, List.append_assoc, h2, List.append_assoc]

namespace wxSocketBase

variable {T : Type}

/-- On a receiving transport the bytes that the retry loop of `_Read` stores are exactly the
bytes the transport delivered during the loop. -/
theorem _Read_loop_got (ops : GSocket T) (got : T → List Byte) (hrcv : Receiving ops got) :
    ∀ (fuel : Nat) (s : wxSocketBase T) (n total : Nat) (data : List Byte) (r : Xfer T) (t : T),
      s.m_socket = some t → _Read_loop ops fuel s n total data = some r →
      ∃ d t', r.data = data ++ d ∧ r.sock.m_socket = some t' ∧ got t' = got t ++ d := by
  intro fuel
  induction fuel with
  | zero => intro s n total data r t _ h; simp [_Read_loop] at h
  | succ fuel ih =>
    intro s n total data r t hs h
    simp only [_Read_loop] at h
    generalize hwq : (if s.m_flags &&& wxSOCKET_BLOCK = 0 then WaitForRead ops fuel s (-1) 0
      else some (true, s)) = waited at h
    have hcfg : ∀ b s1, waited = some (b, s1) →
        ∃ t1, s1.m_socket = some t1 ∧ got t1 = got t := by
      intro b s1 hw
      rw [← hwq] at hw
      split_ifs at hw
      · obtain ⟨-, e2, -⟩ := WaitForRead_frame ops got hrcv.select_got hrcv.setTimeout_got
          hrcv.processEvents_got hw
        exact e2 t hs
      · simp only [Option.some.injEq, Prod.mk.injEq] at hw
        rw [← hw.2]
        exact ⟨t, hs, rfl⟩
    rcases waited with _ | ⟨b, s1⟩
    · simp at h
    · obtain ⟨t1, hs1, hgot1⟩ := hcfg _ _ rfl
      cases b
      · simp only [Option.some.injEq] at h
        subst h
        exact ⟨[], t1, by simp, hs1, by simp [hgot1]⟩
      · simp only [hs1] at h
        cases hret : (ops.Read t1 n).1 with
        | none =>
          simp only [hret, Option.some.injEq] at h
          subst h
          exact ⟨[], _, by simp, rfl, by simp [hrcv.read_none _ _ hret, hgot1]⟩
        | some d0 =>
          have hgot2 := hrcv.read_some _ _ _ hret
          rw [hgot1] at hgot2
          simp only [hret] at h
          split_ifs at h with hd hmore
          · obtain ⟨d, t', e1, e2, e3⟩ := ih _ _ _ _ _ _ rfl h
            refine ⟨d0 ++ d, t', by rw [e1, List.append_assoc], e2, ?_⟩
            rw [e3, hgot2, List.append_assoc]
          · simp only [Option.some.injEq] at h
            subst h
            exact ⟨d0, _, rfl, rfl, hgot2⟩
          · simp only [Option.some.injEq] at h
            subst h
            have hd0 : d0 = [] := List.length_eq_zero.mp (by omega)
            subst hd0
            exact ⟨[], _, by simp, rfl, by simpa using hgot2⟩

/-- On a receiving transport the bytes that `_Read` stores behind the pushback bytes are
exactly the bytes the transport delivered during the call. -/
theorem _Read_delivered (ops : GSocket T) (got : T → List Byte) (hrcv : Receiving ops got)
    {fuel : Nat} {s : wxSocketBase T} {t : T} {n : Nat} {r : Xfer T}
    (hs : s.m_socket = some t) (h : _Read ops fuel s n = some r) :
    ∃ d t', r.data = (s.GetPushback n false).data ++ d ∧ r.sock.m_socket = some t' ∧
      got t' = got t ++ d := by
  have hsock : (s.GetPushback n false).sock.m_socket = some t := by
    rw [GetPushback_socket, hs]
  unfold _Read at h
  simp only [hsock] at h
  split_ifs at h with h0 hnw
  · simp only [Option.some.injEq] at h
    subst h
    exact ⟨[], t, by simp, hsock, by simp⟩
  · cases hret : (ops.Read (ops.SetNonBlocking t true) (n - (s.GetPushback n false).total)).1 with
    | none =>
      simp only [hret, Option.some.injEq] at h
      subst h
      exact ⟨[], _, by simp, rfl, by
        simp [hrcv.setNonBlocking_got, hrcv.read_none _ _ hret]⟩
    | some d =>
      have hgot := hrcv.read_some _ _ _ hret
      rw [hrcv.setNonBlocking_got] at hgot
      simp only [hret] at h
      split_ifs at h with hd
      · simp only [Option.some.injEq] at h
        subst h
        exact ⟨d, _, rfl, rfl, by simp [hrcv.setNonBlocking_got, hgot]⟩
      · simp only [Option.some.injEq] at h
        subst h
        have hd0 : d = [] := List.length_eq_zero.mp (by omega)
        subst hd0
        exact ⟨[], _, by simp, rfl, by simpa [hrcv.setNonBlocking_got] using hgot⟩
  · exact _Read_loop_got ops got hrcv _ _ _ _ _ _ _ hsock h

/-- What one call of `_Read` takes from the input stream, in a reachable state on a
receiving transport: the bytes it stores are the bytes it took, pushback bytes first, then
the bytes `dl` the transport delivered; the stream before, followed by `dl`, is the stored
bytes followed by the pushback bytes that are left. -/
theorem _Read_got (ops : GSocket T) (got : T → List Byte) (hrcv : Receiving ops got)
    {fuel : Nat} {s : wxSocketBase T} {t : T} {n : Nat} {r : Xfer T}
    (hok : PushbackOk s) (hs : s.m_socket = some t) (h : _Read ops fuel s n = some r) :
    ∃ t' dl, r.sock.m_socket = some t' ∧ got t' = got t ++ dl ∧
      unconsumed s ++ dl = r.data ++ unconsumed r.sock ∧
      r.data.length = r.total ∧ r.total ≤ n ∧ PushbackOk r.sock := by
  obtain ⟨k1, k2, k3, -, k5, d, k6, k7⟩ := _Read_ok ops hok h
  obtain ⟨d', t', m1, m2, m3⟩ := _Read_delivered ops got hrcv hs h
  obtain ⟨g1, -⟩ := GetPushback_spec n hok
  rw [g1, k6] at m1
  have hd : d = d' := List.append_cancel_left m1
  subst hd
  refine ⟨t', d, m2, m3, ?_, k1, k2, k3⟩
  rw [k6, k5]
  by_cases hd0 : d = []
  · subst hd0
    simp
  · have hlt := k7 hd0
    rw [List.take_of_length_le (by omega), List.drop_of_length_le (by omega)]
    simp

/-- What one call of `_Read` takes from the input stream in a reachable state, with or
without a handle: without one it takes pushback bytes only. -/
theorem _Read_taken (ops : GSocket T) (got : T → List Byte) (hrcv : Receiving ops got)
    {fuel : Nat} {s : wxSocketBase T} {n : Nat} {r : Xfer T}
    (hok : PushbackOk s) (h : _Read ops fuel s n = some r) :
    ∃ dl, onHandle got r.sock = onHandle got s ++ dl ∧
      r.sock.m_socket.isSome = s.m_socket.isSome ∧
      unconsumed s ++ dl = r.data ++ unconsumed r.sock ∧
      r.data.length = r.total ∧ r.total ≤ n ∧ PushbackOk r.sock := by
  cases hs : s.m_socket with
  | some t =>
    obtain ⟨t', dl, a1, a2, a3, a4, a5, a6⟩ := _Read_got ops got hrcv hok hs h
    exact ⟨dl, by simp only [onHandle, a1, hs, a2], by rw [a1]; rfl, a3, a4, a5, a6⟩
  | none =>
    rw [_Read_absent ops fuel s n hs] at h
    simp only [Option.some.injEq] at h
    subst h
    obtain ⟨g1, g2, g3, g4, g5, -⟩ := GetPushback_spec n hok
    refine ⟨[], ?_, ?_, ?_, ?_, ?_, g4⟩
    · simp [onHandle, g5, hs]
    · simp [g5, hs]
    · simp [g1, g3]
    · simp [g1, g2]
    · simp only [g2]; omega

/-- What the discard loop of `ReadMsg` takes from the input stream: when it is left with
`k` of the `len2` overflow bytes still to come, it has taken `len2 - k` bytes. -/
theorem ReadMsg_discard_got (ops : GSocket T) (got : T → List Byte) (hrcv : Receiving ops got) :
    ∀ (fuel : Nat) (s : wxSocketBase T) (len2 k : Nat) (s' : wxSocketBase T),
      PushbackOk s → ReadMsg_discard ops fuel s len2 = some (k, s') →
      ∃ dl c, onHandle got s' = onHandle got s ++ dl ∧
        s'.m_socket.isSome = s.m_socket.isSome ∧
        unconsumed s ++ dl = c ++ unconsumed s' ∧ c.length + k = len2 ∧ PushbackOk s' := by
  intro fuel
  induction fuel with
  | zero => intro s len2 k s' _ h; simp [ReadMsg_discard] at h
  | succ fuel ih =>
    intro s len2 k s' hok h
    simp only [ReadMsg_discard] at h
    split at h
    · simp at h
    · rename_i r hr
      obtain ⟨dl1, q2, q1, q3, q4, q5, q6⟩ := _Read_taken ops got hrcv hok hr
      have hle : r.total ≤ len2 := by
        split_ifs at q5 <;> simp only [MAX_DISCARD_SIZE] at * <;> omega
      split_ifs at h with hmore
      · obtain ⟨dl, c, i2, i1, i3, i4, i5⟩ := ih _ _ _ _ q6 h
        refine ⟨dl1 ++ dl, r.data ++ c, by rw [i2, q2, List.append_assoc], i1.trans q1,
          consumed_trans q3 i3, ?_, i5⟩
        rw [List.length_append, q4]; omega
      · simp only [Option.some.injEq, Prod.mk.injEq] at h
        obtain ⟨rfl, rfl⟩ := h
        exact ⟨dl1, r.data, q2, q1, q3, by rw [q4]; omega, q6⟩

/-- What the body of `ReadMsg` takes from the input stream, on every path: `error = false`
is reached exactly when the bytes taken are one frame, and as soon as header and payload
were read completely the payload is in the caller's buffer and counted. -/
theorem ReadMsg_body_got (ops : GSocket T) (got : T → List Byte) (hrcv : Receiving ops got)
    {fuel : Nat} {s : wxSocketBase T} {buffer : List Byte} {n : Nat} {b : MsgOut T}
    (hok : PushbackOk s) (h : ReadMsg_body ops fuel s buffer n = some b) :
    ∃ dl c, onHandle got b.sock = onHandle got s ++ dl ∧
      b.sock.m_socket.isSome = s.m_socket.isSome ∧
      unconsumed s ++ dl = c ++ unconsumed b.sock ∧
      (b.error = false ↔ FrameConsumed c n) ∧
      (8 ≤ c.length → decode32 c 0 = 0xfeeddead → 8 + min (decode32 c 4) n ≤ c.length →
        b.buffer = store buffer ((c.drop 8).take (min (decode32 c 4) n)) ∧
          b.total = min (decode32 c 4) n) := by
  unfold ReadMsg_body at h
  cases h1 : _Read ops fuel s 8 with
  | none => simp [h1] at h
  | some r1 =>
    obtain ⟨dl1, q2, q1, q3, q4, q5, q6⟩ := _Read_taken ops got hrcv hok h1
    simp only [h1] at h
    by_cases c1 : r1.total ≠ 8
    · rw [if_pos c1] at h; simp only [Option.some.injEq] at h; subst h
      refine ⟨dl1, r1.data, q2, q1, q3, ?_, ?_⟩
      · constructor
        · intro hf; simp at hf
        · intro hfc
          have := hfc.1.1
          omega
      · intro h8; omega
    rw [if_neg c1] at h
    have e1 : r1.data.length = 8 := by omega
    by_cases c2 : decode32 r1.data 0 ≠ 0xfeeddead
    · rw [if_pos c2] at h; simp only [Option.some.injEq] at h; subst h
      refine ⟨dl1, r1.data, q2, q1, q3, ?_, ?_⟩
      · constructor
        · intro hf; simp at hf
        · intro hfc
          exact absurd hfc.1.2 c2
      · intro _ hm; exact absurd hm c2
    rw [if_neg c2] at h
    have hmagic : decode32 r1.data 0 = 0xfeeddead := not_not.mp c2
    have hc0 : ∀ X : List Byte, decode32 (r1.data ++ X) 0 = 0xfeeddead := by
      intro X; rw [decode32_append_left _ _ _ (by omega)]; exact hmagic
    have hc4 : ∀ X : List Byte, decode32 (r1.data ++ X) 4 = decode32 r1.data 4 := by
      intro X; exact decode32_append_left _ _ _ (by omega)
    have hdrop : ∀ X : List Byte, (r1.data ++ X).drop 8 = X := by
      intro X; rw [← e1]; exact List.drop_left _ _
    generalize hL : decode32 r1.data 4 = L at h hc4
    generalize hlenq : (if L > n then n else L) = len at h
    generalize hlen2q : (if L > n then L - n else 0) = len2 at h
    have hlen : len = min L n := by
      rw [← hlenq]; split_ifs <;> omega
    have hlen2 : len2 = L - n := by
      rw [← hlen2q]; split_ifs <;> omega
    generalize hpq : (if len ≠ 0 then _Read ops fuel r1.sock len
      else some ⟨0, [], r1.sock⟩) = payload at h
    rcases payload with _ | r2
    · simp at h
    have f2 : ∃ dl2, onHandle got r2.sock = onHandle got r1.sock ++ dl2 ∧
        r2.sock.m_socket.isSome = r1.sock.m_socket.isSome ∧
        unconsumed r1.sock ++ dl2 = r2.data ++ unconsumed r2.sock ∧
        r2.data.length = r2.total ∧ r2.total ≤ len ∧ PushbackOk r2.sock := by
      split_ifs at hpq
      · exact _Read_taken ops got hrcv q6 hpq
      · simp only [Option.some.injEq] at hpq
        rw [← hpq]
        exact ⟨[], by simp, rfl, by simp, rfl, by simp, q6⟩
    obtain ⟨dl2, p2, p1, p3, p4, p5, p6⟩ := f2
    have hgot2 : onHandle got r2.sock = onHandle got s ++ (dl1 ++ dl2) := by
      rw [p2, q2, List.append_assoc]
    have hsome2 := p1.trans q1
    have hcon2 := consumed_trans q3 p3
    simp only at h
    by_cases c3 : r2.total ≠ len
    · rw [if_pos c3] at h; simp only [Option.some.injEq] at h; subst h
      refine ⟨dl1 ++ dl2, r1.data ++ r2.data, hgot2, hsome2, hcon2, ?_, ?_⟩
      · constructor
        · intro hf; simp at hf
        · intro hfc
          have h2 := hfc.2.1
          rw [hc4, List.length_append] at h2
          omega
      · intro _ _ h3
        rw [hc4, List.length_append] at h3
        omega
    rw [if_neg c3] at h
    have e2 : r2.data.length = len := by omega
    have hpay : ∀ X : List Byte, ((r1.data ++ (r2.data ++ X)).drop 8).take (min L n) = r2.data := by
      intro X
      rw [hdrop, ← hlen, ← e2]
      exact List.take_left _ _
    have e2t : r2.total = min L n := by omega
    generalize hdq : (if len2 ≠ 0 then ReadMsg_discard ops fuel r2.sock len2
      else some (0, r2.sock)) = discarded at h
    rcases discarded with _ | ⟨k, s3⟩
    · simp at h
    have f3 : ∃ dl3 cd, onHandle got s3 = onHandle got r2.sock ++ dl3 ∧
        s3.m_socket.isSome = r2.sock.m_socket.isSome ∧
        unconsumed r2.sock ++ dl3 = cd ++ unconsumed s3 ∧ cd.length + k = len2 ∧
        PushbackOk s3 := by
      split_ifs at hdq
      · exact ReadMsg_discard_got ops got hrcv _ _ _ _ _ p6 hdq
      · simp only [Option.some.injEq, Prod.mk.injEq] at hdq
        obtain ⟨rfl, rfl⟩ := hdq
        exact ⟨[], [], by simp, rfl, by simp, by simp; omega, p6⟩
    obtain ⟨dl3, cd, d2, d1, d3, d4, d5⟩ := f3
    have hgot3 : onHandle got s3 = onHandle got s ++ (dl1 ++ dl2 ++ dl3) := by
      rw [d2, hgot2, List.append_assoc]
    have hsome3 := d1.trans hsome2
    have hcon3 := consumed_trans hcon2 d3
    simp only at h
    by_cases c4 : k ≠ 0
    · rw [if_pos c4] at h; simp only [Option.some.injEq] at h; subst h
      refine ⟨dl1 ++ dl2 ++ dl3, r1.data ++ r2.data ++ cd, hgot3, hsome3, hcon3, ?_, ?_⟩
      · constructor
        · intro hf; simp at hf
        · intro hfc
          have h3 := hfc.2.2.1
          rw [List.append_assoc, hc4] at h3
          simp only [List.length_append] at h3
          omega
      · intro _ _ _
        rw [List.append_assoc, hc4, hpay]
        exact ⟨rfl, e2t⟩
    rw [if_neg c4] at h
    have ecd : cd.length = L - n := by omega
    cases h4 : _Read ops fuel s3 8 with
    | none => simp [h4] at h
    | some r4 =>
      obtain ⟨dl4, w2, w1, w3, w4, w5, w6⟩ := _Read_taken ops got hrcv d5 h4
      have hgot4 : onHandle got r4.sock = onHandle got s ++ (dl1 ++ dl2 ++ dl3 ++ dl4) := by
        rw [w2, hgot3, List.append_assoc]
      have hsome4 := w1.trans hsome3
      have hcon4 := consumed_trans hcon3 w3
      have hA : (r1.data ++ r2.data ++ cd).length = 8 + min L n + (L - n) := by
        simp only [List.length_append]; omega
      have hclen : (r1.data ++ r2.data ++ cd ++ r4.data).length
          = 8 + min L n + (L - n) + r4.total := by
        rw [List.length_append, hA, w4]
      have hcL : decode32 (r1.data ++ r2.data ++ cd ++ r4.data) 4 = L := by
        rw [List.append_assoc, List.append_assoc, hc4]
      have hcM : decode32 (r1.data ++ r2.data ++ cd ++ r4.data) 0 = 0xfeeddead := by
        rw [List.append_assoc, List.append_assoc, hc0]
      have hcT : decode32 (r1.data ++ r2.data ++ cd ++ r4.data) (8 + min L n + (L - n))
          = decode32 r4.data 0 :=
        decode32_append_right _ _ _ 0 (by rw [hA]; omega)
      have hcP : ((r1.data ++ r2.data ++ cd ++ r4.data).drop 8).take (min L n) = r2.data := by
        rw [List.append_assoc, List.append_assoc]
        exact hpay _
      simp only [h4] at h
      have hbuf : ∀ e : Bool, (8 ≤ (r1.data ++ r2.data ++ cd ++ r4.data).length →
          decode32 (r1.data ++ r2.data ++ cd ++ r4.data) 0 = 0xfeeddead →
          8 + min (decode32 (r1.data ++ r2.data ++ cd ++ r4.data) 4) n
            ≤ (r1.data ++ r2.data ++ cd ++ r4.data).length →
          (⟨e, r2.total, store buffer r2.data, r4.sock⟩ : MsgOut T).buffer
            = store buffer (((r1.data ++ r2.data ++ cd ++ r4.data).drop 8).take
              (min (decode32 (r1.data ++ r2.data ++ cd ++ r4.data) 4) n)) ∧
          (⟨e, r2.total, store buffer r2.data, r4.sock⟩ : MsgOut T).total
            = min (decode32 (r1.data ++ r2.data ++ cd ++ r4.data) 4) n) := by
        intro e _ _ _
        rw [hcL, hcP]
        exact ⟨rfl, e2t⟩
      by_cases c5 : r4.total ≠ 8
      · rw [if_pos c5] at h; simp only [Option.some.injEq] at h; subst h
        refine ⟨_, _, hgot4, hsome4, hcon4, ?_, hbuf true⟩
        constructor
        · intro hf; simp at hf
        · intro hfc
          have h4 := hfc.2.2.2.1
          rw [hcL, hclen] at h4
          omega
      rw [if_neg c5] at h
      by_cases c6 : decode32 r4.data 0 ≠ 0xdeadfeed
      · rw [if_pos c6] at h; simp only [Option.some.injEq] at h; subst h
        refine ⟨_, _, hgot4, hsome4, hcon4, ?_, hbuf true⟩
        constructor
        · intro hf; simp at hf
        · intro hfc
          have h4 := hfc.2.2.2.2
          rw [hcL, hcT] at h4
          exact absurd h4 c6
      rw [if_neg c6] at h
      simp only [Option.some.injEq] at h; subst h
      refine ⟨_, _, hgot4, hsome4, hcon4, ?_, hbuf false⟩
      constructor
      · intro _
        refine ⟨⟨by rw [hclen]; omega, hcM⟩, ?_, ?_, ?_, ?_⟩
        · rw [hcL, hclen]; omega
        · rw [hcL, hclen]; omega
        · rw [hcL, hclen]; omega
        · rw [hcL, hcT]; exact not_not.mp c6
      · intro _; rfl

end wxSocketBase

/-- C5: `ReadMsg` success characterisation, stated of the bytes taken from the input
stream. The transport keeps a record `got` of the bytes it delivered, read through the
handle of the socket (`onHandle`, empty without a handle); the socket is in a reachable
state. For every `ReadMsg(buf, n)` that returns, let `c` be the bytes the call took from the
stream: the unconsumed pushback bytes followed by the bytes `delivered` during the call,
less the pushback bytes left behind. Then `error = false` if and only if `c` is one frame
read to its end (`FrameConsumed`): the 8-byte header was read completely with magic
`0xFEEDDEAD`, the `min(L, n)` payload bytes were read completely, the `L - n` overflow
bytes (if any) were all taken from the stream, and the 8-byte trailer was read completely
with magic `0xDEADFEED`. As soon as header and payload were read completely, the payload
bytes are in the caller's buffer and `LastCount = min(L, n)`; in particular a frame read to
its end whose trailer carries another magic gives `error = true` although the payload was
delivered. -/
theorem C5_ReadMsg_success_characterisation {T : Type} (ops : GSocket T)
    (got : T → List Byte) (hrcv : Receiving ops got) (fuel : Nat) (s : wxSocketBase T)
    (buffer : List Byte) (n : Nat) (r : IoOut T)
    (hok : wxSocketBase.PushbackOk s)
    (h : wxSocketBase.ReadMsg ops fuel s buffer n = some r) :
    ∃ delivered c,
      wxSocketBase.onHandle got r.sock = wxSocketBase.onHandle got s ++ delivered ∧
      r.sock.m_socket.isSome = s.m_socket.isSome ∧
      wxSocketBase.unconsumed s ++ delivered = c ++ wxSocketBase.unconsumed r.sock ∧
      (r.sock.m_error = false ↔ FrameConsumed c n) ∧
      (8 ≤ c.length → decode32 c 0 = 0xfeeddead → 8 + min (decode32 c 4) n ≤ c.length →
        r.buffer = store buffer ((c.drop 8).take (min (decode32 c 4) n)) ∧
          r.sock.m_lcount = min (decode32 c 4) n) ∧
      (8 ≤ c.length → decode32 c 0 = 0xfeeddead →
        c.length = 8 + min (decode32 c 4) n + (decode32 c 4 - n) + 8 →
        decode32 c (8 + min (decode32 c 4) n + (decode32 c 4 - n)) ≠ 0xdeadfeed →
        r.sock.m_error = true ∧
          r.buffer = store buffer ((c.drop 8).take (min (decode32 c 4) n)) ∧
          r.sock.m_lcount = min (decode32 c 4) n) := by
  obtain ⟨b, hb, rfl⟩ := wxSocketBase.ReadMsg_inv ops h
  have hok0 : wxSocketBase.PushbackOk
      (({ s with m_reading := true } : wxSocketBase T).SetFlags
        ((s.m_flags &&& wxSOCKET_BLOCK) ||| wxSOCKET_WAITALL)) := hok
  obtain ⟨dl, c, g1, g2, g3, g4, g5⟩ :=
    wxSocketBase.ReadMsg_body_got ops got hrcv hok0 hb
  refine ⟨dl, c, g1, g2, g3, g4, g5, ?_⟩
  intro h8 hm hlen htr
  obtain ⟨e1, e2⟩ := g5 h8 hm (by omega)
  refine ⟨?_, e1, e2⟩
  have hnot : ¬ FrameConsumed c n := fun hfc => htr hfc.2.2.2.2
  have hne : ¬ b.error = false := fun hf => hnot (g4.mp hf)
  show b.error = true
  cases hbe : b.error with
  | false => exact absurd hbe hne
  | true => rfl

/-- C5 on the loopback pair with a record of delivered bytes. A frame with the payload
`01 02 03` read by `ReadMsg(buf, 2)`: `error = false`, the buffer holds `01 02`,
`LastCount = 2`, and the bytes taken from the stream are the whole frame of 19 bytes, the
overflow byte `03` and the trailer included. The same frame with the trailer magic
`ED FE AD DF` read by `ReadMsg(buf, 4)`: `error = true` although `01 02 03` is in the
buffer, and the bytes taken are not a frame read to its end. A socket without a handle
whose pushback buffer holds the frame of `01 02 03`: `ReadMsg(buf, 3)` takes the frame from
the pushback buffer and succeeds. -/
theorem C5_ReadMsg_success_characterisation_witness :
    (∃ r c, wxSocketBase.ReadMsg (received loopback) 20
        ({ (wxSocketBase.Init false : wxSocketBase (Loopback × List Byte)) with
          m_socket := some (loopbackWith (msgFrame [1, 2, 3]) 2, []) }) [9, 9] 2 = some r ∧
      r.sock.m_error = false ∧ r.buffer = [1, 2] ∧ r.sock.m_lcount = 2 ∧
      c = msgFrame [1, 2, 3] ∧ FrameConsumed c 2) ∧
    (∃ r c, wxSocketBase.ReadMsg (received loopback) 20
        ({ (wxSocketBase.Init false : wxSocketBase (Loopback × List Byte)) with
          m_socket := some (loopbackWith
            (msgHeader 3 ++ [1, 2, 3] ++ [0xED, 0xFE, 0xAD, 0xDF, 0, 0, 0, 0]) 2, []) })
        [9, 9, 9, 9] 4 = some r ∧
      r.sock.m_error = true ∧ r.buffer = [1, 2, 3, 9] ∧
      c = msgHeader 3 ++ [1, 2, 3] ++ [0xED, 0xFE, 0xAD, 0xDF, 0, 0, 0, 0] ∧
      ¬ FrameConsumed c 4) ∧
    (∃ r c, wxSocketBase.ReadMsg (received loopback) 20
        ((wxSocketBase.Init false : wxSocketBase (Loopback × List Byte)).Pushback
          (msgFrame [1, 2, 3]) 19) [9, 9, 9] 3 = some r ∧
      r.sock.m_error = false ∧ r.buffer = [1, 2, 3] ∧ r.sock.m_socket = none ∧
      c = msgFrame [1, 2, 3] ∧ FrameConsumed c 3) := by
  refine ⟨?_, ?_, ?_⟩
  · have hw : ∃ r, wxSocketBase.ReadMsg (received loopback) 20
        ({ (wxSocketBase.Init false : wxSocketBase (Loopback × List Byte)) with
          m_socket := some (loopbackWith (msgFrame [1, 2, 3]) 2, []) }) [9, 9] 2 = some r ∧
        r.sock.m_error = false ∧ r.buffer = [1, 2] ∧ r.sock.m_lcount = 2 ∧
        wxSocketBase.onHandle (fun t => t.2) r.sock = msgFrame [1, 2, 3] ∧
        wxSocketBase.unconsumed r.sock = [] := ⟨_, rfl, rfl, rfl, rfl, rfl, rfl⟩
    obtain ⟨r, h, hok, hbuf, hcount, hgot, hun⟩ := hw
    obtain ⟨dl, c, g1, -, g3, g4, -, -⟩ :=
      C5_ReadMsg_success_characterisation (received loopback) (fun t => t.2)
        (received_receiving loopback) 20 _ [9, 9] 2 r (Or.inl ⟨rfl, rfl, rfl⟩) h
    rw [hun] at g3
    have hc : c = msgFrame [1, 2, 3] := by
      have g1' : wxSocketBase.onHandle (fun t => t.2) r.sock = dl := by
        simpa [wxSocketBase.onHandle] using g1
      have g3' : dl = c := by simpa [wxSocketBase.unconsumed, wxSocketBase.Init] using g3
      rw [← g3', ← g1', hgot]
    exact ⟨r, c, h, hok, hbuf, hcount, hc, g4.mp hok⟩
  · have hw : ∃ r, wxSocketBase.ReadMsg (received loopback) 20
        ({ (wxSocketBase.Init false : wxSocketBase (Loopback × List Byte)) with
          m_socket := some (loopbackWith
            (msgHeader 3 ++ [1, 2, 3] ++ [0xED, 0xFE, 0xAD, 0xDF, 0, 0, 0, 0]) 2, []) })
        [9, 9, 9, 9] 4 = some r ∧
        r.sock.m_error = true ∧ r.buffer = [1, 2, 3, 9] ∧
        wxSocketBase.onHandle (fun t => t.2) r.sock
          = msgHeader 3 ++ [1, 2, 3] ++ [0xED, 0xFE, 0xAD, 0xDF, 0, 0, 0, 0] ∧
        wxSocketBase.unconsumed r.sock = [] := ⟨_, rfl, rfl, rfl, rfl, rfl⟩
    obtain ⟨r, h, herr, hbuf, hgot, hun⟩ := hw
    obtain ⟨dl, c, g1, -, g3, g4, -, -⟩ :=
      C5_ReadMsg_success_characterisation (received loopback) (fun t => t.2)
        (received_receiving loopback) 20 _ [9, 9, 9, 9] 4 r (Or.inl ⟨rfl, rfl, rfl⟩) h
    rw [hun] at g3
    have hc : c = msgHeader 3 ++ [1, 2, 3] ++ [0xED, 0xFE, 0xAD, 0xDF, 0, 0, 0, 0] := by
      have g1' : wxSocketBase.onHandle (fun t => t.2) r.sock = dl := by
        simpa [wxSocketBase.onHandle] using g1
      have g3' : dl = c := by simpa [wxSocketBase.unconsumed, wxSocketBase.Init] using g3
      rw [← g3', ← g1', hgot]
    refine ⟨r, c, h, herr, hbuf, hc, fun hfc => ?_⟩
    have := g4.mpr hfc
    rw [herr] at this
    exact Bool.noConfusion this
  · have hw : ∃ r, wxSocketBase.ReadMsg (received loopback) 20
        ((wxSocketBase.Init false : wxSocketBase (Loopback × List Byte)).Pushback
          (msgFrame [1, 2, 3]) 19) [9, 9, 9] 3 = some r ∧
        r.sock.m_error = false ∧ r.buffer = [1, 2, 3] ∧ r.sock.m_socket = none ∧
        wxSocketBase.unconsumed r.sock = [] := ⟨_, rfl, rfl, rfl, rfl, rfl⟩
    obtain ⟨r, h, hok, hbuf, hnone, hun⟩ := hw
    obtain ⟨dl, c, g1, -, g3, g4, -, -⟩ :=
      C5_ReadMsg_success_characterisation (received loopback) (fun t => t.2)
        (received_receiving loopback) 20 _ [9, 9, 9] 3 r
        (wxSocketBase.Pushback_spec (msgFrame [1, 2, 3]) 19 (Or.inl ⟨rfl, rfl, rfl⟩)
          (by decide) (by decide)).1 h
    rw [hun] at g3
    have hdl : dl = [] := by
      simpa [wxSocketBase.onHandle, hnone, wxSocketBase.Pushback, wxSocketBase.Init] using g1
    have hc : c = msgFrame [1, 2, 3] := by
      rw [hdl] at g3
      have hu : wxSocketBase.unconsumed
          ((wxSocketBase.Init false : wxSocketBase (Loopback × List Byte)).Pushback
            (msgFrame [1, 2, 3]) 19) = msgFrame [1, 2, 3] := rfl
      rw [hu] at g3
      simpa using g3.symm
    exact ⟨r, c, h, hok, hbuf, hnone, hc, g4.mp hok⟩

end wxSocket
